import Mathlib

/-!
# ImageMagick 6: quantum export, the VIFF coder, the security policy and the
substring search

A shallow embedding of `magick/quantum-export.c` (the bit packers, the layout
routines BGR, Black, CMYK, CMYKA, CMYKO, Gray, GrayAlpha, Index, IndexAlpha,
RGB and RGBA, and the dispatcher `ExportQuantumPixels`), of `coders/viff.c`
(`ReadVIFFImage`, `WriteVIFFImage`), of `magick/policy.c` (the policy list,
`GetPolicyInfo`, `IsRightsAuthorized`, `SetMagickSecurityPolicy`) and of
`magick/string-private.h` (`StringLocateSubstring`), followed by theorems
about them.

Conventions.
* C unsigned integers are natural numbers; a store into an `unsigned char`
  reduces modulo 256, `unsigned int` modulo 2^32, `size_t` modulo 2^64.
* `qd` is `MAGICKCORE_QUANTUM_DEPTH`; a `Quantum` is a natural number that a
  well-formed image keeps at or below `QuantumRange qd` (non-HDRI build).
* A destination buffer is a function from addresses to bytes together with a
  write cursor; a pixel row is a list of `PixelPacket`, its length being the
  extent of the pixel queue.
-/

namespace Magick

/-! ## Shared data model -/

/-- One canonical pixel (`PixelPacket`): four `Quantum` samples. -/
structure PixelPacket where
  red : Nat
  green : Nat
  blue : Nat
  opacity : Nat
deriving DecidableEq, Repr

/-- The storage class of an image (`ClassType`). -/
inductive ClassType where
  | UndefinedClass
  | DirectClass
  | PseudoClass
deriving DecidableEq, Repr

/-- The colorspaces the embedded code distinguishes (`ColorspaceType`). -/
inductive ColorspaceType where
  | UndefinedColorspace
  | RGBColorspace
  | GRAYColorspace
  | TransparentColorspace
  | sRGBColorspace
  | CMYKColorspace
  | OtherColorspace
deriving DecidableEq, Repr

/-- Byte order (`EndianType`). -/
inductive EndianType where
  | UndefinedEndian
  | LSBEndian
  | MSBEndian
deriving DecidableEq, Repr

/-- Exception severities used by the embedded code (`ExceptionType`). -/
inductive ExceptionType where
  | ResourceLimitError
  | CoderError
  | ImageError
  | CorruptImageError
  | ConfigureError
deriving DecidableEq, Repr

/-- A raised exception: its severity and its tag. -/
structure ExceptionInfo where
  severity : ExceptionType
  tag : String
deriving DecidableEq, Repr

/-- The canonical image, reduced to the members the embedded code reads or
writes.  `pixels` is the pixel cache in row-major order, `indexes` the index
channel of a PseudoClass image. -/
structure Image where
  columns : Nat
  rows : Nat
  depth : Nat
  matte : Bool
  storage_class : ClassType
  colorspace : ColorspaceType
  colors : Nat
  colormap : List PixelPacket
  endian : EndianType
  scene : Nat
  comment : Option (List Nat)
  pixels : List PixelPacket
  indexes : List Nat
deriving DecidableEq, Repr

/-- Modelled from the spec: `QuantumRange` (magick/magick-type.h is not under
src/), the largest value of a canonical sample, `2^canonical_depth - 1`. -/
def QuantumRange (qd : Nat) : Nat := 2 ^ qd - 1

/-- Modelled from the spec: `OpaqueOpacity` (magick/image.h is not under
src/); alpha is `MAX - opacity`, so a fully opaque pixel has opacity 0. -/
def OpaqueOpacity : Nat := 0

/-- Modelled from the spec: `GetPixelAlpha` (magick/pixel-accessor.h is not
under src/), the implicit alpha `alpha = MAX - opacity`. -/
def GetPixelAlpha (qd : Nat) (p : PixelPacket) : Nat := QuantumRange qd - p.opacity

/-- Division of naturals rounded to nearest, halves upward: the integer value
of `floor(a/b + 0.5)`. -/
def roundDiv (a b : Nat) : Nat := (2 * a + b) / (2 * b)

/-- Modelled from the spec: `ScaleQuantumToAny` (magick/quantum.h is not under
src/), the fixed linear scale
`output = round(input * range / (2^canonical_depth - 1))`. -/
def ScaleQuantumToAny (qd : Nat) (quantum range : Nat) : Nat :=
  roundDiv (range * quantum) (QuantumRange qd)

/-- Modelled from the spec: `GetQuantumRange` (magick/quantum.h is not under
src/), the largest value of a `depth`-bit sample, `2^depth - 1`. -/
def GetQuantumRange (depth : Nat) : Nat := 2 ^ depth - 1

/-- Modelled from the spec: `ScaleQuantumToChar` (magick/quantum.h is not
under src/), the linear scale to 8 bits. -/
def ScaleQuantumToChar (qd : Nat) (quantum : Nat) : Nat :=
  ScaleQuantumToAny qd quantum 255 % 256

/-- Modelled from the spec: `ScaleQuantumToShort` (magick/quantum.h is not
under src/), the linear scale to 16 bits. -/
def ScaleQuantumToShort (qd : Nat) (quantum : Nat) : Nat :=
  ScaleQuantumToAny qd quantum 65535 % 65536

/-- Modelled from the spec: `ScaleQuantumToLong` (magick/quantum.h is not
under src/), the linear scale to 32 bits. -/
def ScaleQuantumToLong (qd : Nat) (quantum : Nat) : Nat :=
  ScaleQuantumToAny qd quantum 4294967295 % 4294967296

/-- Modelled from the spec: `ScaleCharToQuantum` (magick/quantum.h is not
under src/), the linear scale from 8 bits to the canonical depth. -/
def ScaleCharToQuantum (qd : Nat) (value : Nat) : Nat :=
  roundDiv (QuantumRange qd * value) 255

/-- Modelled from the spec: `ClampToQuantum (QuantumScale*alpha*sample)`
(magick/quantum.h is not under src/): the sample premultiplied by `alpha/MAX`,
rounded and clamped to the canonical range. -/
def ClampToQuantumScaled (qd : Nat) (alpha sample : Nat) : Nat :=
  min (QuantumRange qd) (roundDiv (alpha * sample) (QuantumRange qd))

/-! ## magick/quantum-export.c -/

/-- The numeric format of the external samples (`QuantumFormatType`). -/
inductive QuantumFormatType where
  | UndefinedQuantumFormat
  | FloatingPointQuantumFormat
  | SignedQuantumFormat
  | UnsignedQuantumFormat
deriving DecidableEq, Repr

/-- How alpha relates to the colour samples (`QuantumAlphaType`). -/
inductive QuantumAlphaType where
  | UndefinedQuantumAlpha
  | AssociatedQuantumAlpha
  | DisassociatedQuantumAlpha
deriving DecidableEq, Repr

/-- The layout selector (`QuantumType`): the tags `ExportQuantumPixels`
switches on, and `UndefinedQuantum` for its default branch. -/
inductive QuantumType where
  | UndefinedQuantum
  | AlphaQuantum
  | BGRQuantum
  | BGRAQuantum
  | BGROQuantum
  | BlackQuantum
  | BlueQuantum
  | YellowQuantum
  | CbYCrYQuantum
  | CMYKQuantum
  | CMYKAQuantum
  | CMYKOQuantum
  | GrayQuantum
  | GrayAlphaQuantum
  | GreenQuantum
  | MagentaQuantum
  | IndexQuantum
  | IndexAlphaQuantum
  | OpacityQuantum
  | RedQuantum
  | CyanQuantum
  | RGBQuantum
  | CbYCrQuantum
  | RGBAQuantum
  | CbYCrAQuantum
  | RGBOQuantum
deriving DecidableEq, Repr

/-- The mutable cursor of one export call (`QuantumState`): the accumulator
`pixel` and the count `bits` of unfilled bits in the current unit. -/
structure QuantumState where
  pixel : Nat
  bits : Nat
deriving DecidableEq, Repr

/-- The export configuration (`QuantumInfo`), reduced to the members the
embedded routines read. -/
structure QuantumInfo where
  depth : Nat
  quantum : Nat
  format : QuantumFormatType
  pad : Nat
  min_is_white : Bool
  pack : Bool
  alpha_type : QuantumAlphaType
  endian : EndianType
  state : QuantumState
deriving DecidableEq, Repr

/-- The state a layout routine works on: the configuration with its mutable
`QuantumState`, the destination buffer `pixels`, the write cursor `q` (an
address in that buffer) and the exceptions raised so far. -/
structure Export where
  quantum_info : QuantumInfo
  pixels : Nat → Nat
  q : Nat
  exception : List ExceptionInfo

/-- A cache view, reduced to its pixel queue and index queue. -/
structure CacheView where
  pixels : List PixelPacket
  indexes : List Nat
deriving DecidableEq, Repr

/-- Store one byte at the cursor and advance it (`*q++ = byte`). -/
def Export.put (s : Export) (byte : Nat) : Export :=
  { s with pixels := Function.update s.pixels s.q (byte % 256), q := s.q + 1 }

/-- Skip the per-pixel pad (`q+=quantum_info->pad`): the cursor moves, the
buffer is not written. -/
def Export.skipPad (s : Export) : Export :=
  { s with q := s.q + s.quantum_info.pad }

/-- Modelled from the spec: `PopCharPixel` (magick/quantum-private.h is not
under src/), the byte-aligned store of one 8-bit sample. -/
def PopCharPixel (pixel : Nat) (s : Export) : Export := s.put pixel

/-- Modelled from the spec: `PopShortPixel` (magick/quantum-private.h is not
under src/), the ordinary little- or big-endian store of a 16-bit sample. -/
def PopShortPixel (endian : EndianType) (pixel : Nat) (s : Export) : Export :=
  if endian = EndianType.LSBEndian then (s.put pixel).put (pixel / 256)
  else (s.put (pixel / 256)).put pixel

/-- Modelled from the spec: `PopLongPixel` (magick/quantum-private.h is not
under src/), the ordinary little- or big-endian store of a 32-bit sample. -/
def PopLongPixel (endian : EndianType) (pixel : Nat) (s : Export) : Export :=
  if endian = EndianType.LSBEndian then
    (((s.put pixel).put (pixel / 2 ^ 8)).put (pixel / 2 ^ 16)).put (pixel / 2 ^ 24)
  else
    (((s.put (pixel / 2 ^ 24)).put (pixel / 2 ^ 16)).put (pixel / 2 ^ 8)).put pixel

/-- Store a list of bytes at the cursor, first element first. -/
def Export.putAll (s : Export) (bytes : List Nat) : Export :=
  bytes.foldl Export.put s

/-- What the floating-point stores need from outside the integer model: the
half-precision bit pattern of `QuantumScale*sample`, and the bytes
`quantum[0..]` that hold `sample*inverse_scale+minimum` as a `float` or a
`double` in host memory. -/
structure FloatCodec where
  SinglePrecisionToHalf : Nat → Nat
  floatBytes : QuantumInfo → Nat → List Nat
  doubleBytes : QuantumInfo → Nat → List Nat

/-- The function `PopQuantumFloatPixel`: the four bytes of the `float`, in
memory order for LSB endian and reversed otherwise. -/
def PopQuantumFloatPixel (fc : FloatCodec) (pixel : Nat) (s : Export) : Export :=
  let quantum := fc.floatBytes s.quantum_info pixel
  if s.quantum_info.endian = EndianType.LSBEndian then
    s.putAll [quantum.getD 0 0, quantum.getD 1 0, quantum.getD 2 0, quantum.getD 3 0]
  else
    s.putAll [quantum.getD 3 0, quantum.getD 2 0, quantum.getD 1 0, quantum.getD 0 0]

/-- The function `PopQuantumDoublePixel`: the eight bytes of the `double`, in
memory order for LSB endian and reversed otherwise. -/
def PopQuantumDoublePixel (fc : FloatCodec) (pixel : Nat) (s : Export) : Export :=
  let quantum := fc.doubleBytes s.quantum_info pixel
  if s.quantum_info.endian = EndianType.LSBEndian then
    s.putAll [quantum.getD 0 0, quantum.getD 1 0, quantum.getD 2 0, quantum.getD 3 0,
      quantum.getD 4 0, quantum.getD 5 0, quantum.getD 6 0, quantum.getD 7 0]
  else
    s.putAll [quantum.getD 7 0, quantum.getD 6 0, quantum.getD 5 0, quantum.getD 4 0,
      quantum.getD 3 0, quantum.getD 2 0, quantum.getD 1 0, quantum.getD 0 0]

/-- Replace the `QuantumState` of an export state. -/
def Export.setState (s : Export) (st : QuantumState) : Export :=
  { s with quantum_info := { s.quantum_info with state := st } }

/-- The loop of `PopQuantumPixel`: `i` bits of `pixel` remain to be stored;
`fuel` bounds the iterations (each stores at least one bit). -/
def PopQuantumPixel.loop (pixel : Nat) : Nat → Nat → Export → Export
  | 0, _, s => s
  | fuel + 1, i, s =>
    if i = 0 then s
    else
      let bits := s.quantum_info.state.bits
      let quantum_bits := if i > bits then bits else i
      let i1 := i - quantum_bits
      let buf := if bits = 8 then Function.update s.pixels s.q 0 else s.pixels
      let bits1 := bits - quantum_bits
      let byte := (buf s.q ||| (((pixel >>> i1) &&& (2 ^ quantum_bits - 1)) <<< bits1)) % 256
      let buf1 := Function.update buf s.q byte
      let s1 : Export := { s with pixels := buf1 }
      let s2 : Export :=
        if bits1 = 0 then
          ({ s1 with q := s1.q + 1 } : Export).setState { s.quantum_info.state with bits := 8 }
        else s1.setState { s.quantum_info.state with bits := bits1 }
      PopQuantumPixel.loop pixel fuel i1 s2

/-- The function `PopQuantumPixel`: the generic bit packer, one `depth`-bit
field into the byte stream, most significant bits first. -/
def PopQuantumPixel (pixel : Nat) (s : Export) : Export :=
  let s0 :=
    if s.quantum_info.state.bits = 0 then s.setState { s.quantum_info.state with bits := 8 }
    else s
  PopQuantumPixel.loop pixel s0.quantum_info.depth s0.quantum_info.depth s0

/-- The loop of `PopQuantumLongPixel`: `i` bits of `pixel` remain to be put
into the 32-bit holding register `state.pixel`. -/
def PopQuantumLongPixel.loop (pixel : Nat) : Nat → Nat → Export → Export
  | 0, _, s => s
  | fuel + 1, i, s =>
    if i = 0 then s
    else
      let bits := s.quantum_info.state.bits
      let quantum_bits := if i > bits then bits else i
      let acc := (s.quantum_info.state.pixel |||
        (((pixel >>> (s.quantum_info.depth - i)) &&& (2 ^ quantum_bits - 1)) <<<
          (32 - bits))) % 2 ^ 32
      let i1 := i - quantum_bits
      let bits1 := bits - quantum_bits
      let s2 : Export :=
        if bits1 = 0 then
          (PopLongPixel s.quantum_info.endian acc s).setState { pixel := 0, bits := 32 }
        else s.setState { pixel := acc, bits := bits1 }
      PopQuantumLongPixel.loop pixel fuel i1 s2

/-- The function `PopQuantumLongPixel`: the bit packer with a 32-bit holding
register (`state.mask[k]` is the mask of the `k` low bits). -/
def PopQuantumLongPixel (pixel : Nat) (s : Export) : Export :=
  let s0 :=
    if s.quantum_info.state.bits = 0 then s.setState { s.quantum_info.state with bits := 32 }
    else s
  PopQuantumLongPixel.loop pixel s0.quantum_info.depth s0.quantum_info.depth s0

/-- The four samples `ExportRGBAQuantum` emits for a pixel, in emission order:
red, green, blue and alpha. -/
def rgbaSamples (qd : Nat) (p : PixelPacket) : List Nat :=
  [p.red, p.green, p.blue, GetPixelAlpha qd p]

/-- One sample of the depth-10 long-word loop of `ExportRGBAQuantum`: the
sample goes to shift 22, 12 or 2 of the 32-bit word by `n % 3`, and the word
is emitted after the third.  The carried triple is `(n, pixel, state)`. -/
def ExportRGBAQuantum.word10 (qd range : Nat) (acc : Nat × Nat × Export) (quantum : Nat) :
    Nat × Nat × Export :=
  let n := acc.1
  let pixel := acc.2.1
  let s := acc.2.2
  if n % 3 = 0 then
    (n + 1, (pixel ||| (ScaleQuantumToAny qd quantum range <<< 22)) % 2 ^ 32, s)
  else if n % 3 = 1 then
    (n + 1, (pixel ||| (ScaleQuantumToAny qd quantum range <<< 12)) % 2 ^ 32, s)
  else
    let word := (pixel ||| (ScaleQuantumToAny qd quantum range <<< 2)) % 2 ^ 32
    (n + 1, 0, PopLongPixel s.quantum_info.endian word s)

/-- The function `ExportRGBAQuantum`: for each of the first `number_pixels`
pixels of `p`, red, green, blue and alpha in the external depth and format,
followed by the pad. -/
def ExportRGBAQuantum (qd : Nat) (fc : FloatCodec) (number_pixels : Nat)
    (p : List PixelPacket) (s : Export) : Export :=
  let row := p.take number_pixels
  let depth := s.quantum_info.depth
  let each (f : Nat → Export → Export) : Export :=
    row.foldl (fun st px => ((rgbaSamples qd px).foldl (fun st1 v => f v st1) st).skipPad) s
  let generic : Export :=
    each (fun v st => PopQuantumPixel (ScaleQuantumToAny qd v (GetQuantumRange depth)) st)
  if depth = 8 then
    each (fun v st => PopCharPixel (ScaleQuantumToChar qd v) st)
  else if depth = 10 then
    let range := GetQuantumRange depth
    if s.quantum_info.pack = false then
      (row.foldl (fun acc px =>
        let acc1 := (rgbaSamples qd px).foldl (ExportRGBAQuantum.word10 qd range) acc
        (acc1.1, acc1.2.1, acc1.2.2.skipPad)) (0, 0, s)).2.2
    else if s.quantum_info.quantum = 32 then
      each (fun v st => PopQuantumLongPixel (ScaleQuantumToAny qd v range % 2 ^ 32) st)
    else
      each (fun v st => PopQuantumPixel (ScaleQuantumToAny qd v range % 2 ^ 32) st)
  else if depth = 16 then
    if s.quantum_info.format = QuantumFormatType.FloatingPointQuantumFormat then
      each (fun v st => PopShortPixel st.quantum_info.endian (fc.SinglePrecisionToHalf v) st)
    else
      each (fun v st => PopShortPixel st.quantum_info.endian (ScaleQuantumToShort qd v) st)
  else if depth = 32 then
    if s.quantum_info.format = QuantumFormatType.FloatingPointQuantumFormat then
      each (fun v st => PopQuantumFloatPixel fc v st)
    else
      each (fun v st => PopLongPixel st.quantum_info.endian (ScaleQuantumToLong qd v) st)
  else if depth = 64 then
    if s.quantum_info.format = QuantumFormatType.FloatingPointQuantumFormat then
      each (fun v st => PopQuantumDoublePixel fc v st)
    else generic
  else generic

/-- A layout routine with the signature `(quantum_info, number_pixels, p, q)`. -/
abbrev PlainRoutine := Nat → List PixelPacket → Export → Export

/-- A layout routine that also receives the image. -/
abbrev ImageRoutine := Image → Nat → List PixelPacket → Export → Export

/-- A layout routine that receives the image, the index queue and the
exception. -/
abbrev IndexedRoutine := Image → Nat → List PixelPacket → List Nat → Export → Export

/-- What `ExportQuantumPixels` calls and this development does not unfold:
`GetQuantumExtent` of magick/quantum.c (not under src/), and the layout
routines of quantum-export.c other than `ExportRGBAQuantum`, each an arbitrary
transformer of the export state. -/
structure Routines where
  GetQuantumExtent : Image → QuantumInfo → QuantumType → Nat
  ExportAlphaQuantum : PlainRoutine
  ExportBGRQuantum : PlainRoutine
  ExportBGRAQuantum : PlainRoutine
  ExportBGROQuantum : PlainRoutine
  ExportBlackQuantum : IndexedRoutine
  ExportBlueQuantum : PlainRoutine
  ExportCbYCrYQuantum : PlainRoutine
  ExportCMYKQuantum : IndexedRoutine
  ExportCMYKAQuantum : IndexedRoutine
  ExportCMYKOQuantum : IndexedRoutine
  ExportGrayQuantum : ImageRoutine
  ExportGrayAlphaQuantum : ImageRoutine
  ExportGreenQuantum : PlainRoutine
  ExportIndexQuantum : IndexedRoutine
  ExportIndexAlphaQuantum : IndexedRoutine
  ExportOpacityQuantum : PlainRoutine
  ExportRedQuantum : PlainRoutine
  ExportRGBQuantum : PlainRoutine
  ExportRGBOQuantum : PlainRoutine

/-- Modelled from the spec: `ResetQuantumState` (magick/quantum.c is not under
src/): at the start of every export call the state is `Fresh`, bits unset and
the accumulator empty. -/
def ResetQuantumState (quantum_info : QuantumInfo) : QuantumInfo :=
  { quantum_info with state := { pixel := 0, bits := 0 } }

/-- The associate-alpha pass of `ExportQuantumPixels`: the first
`image->columns` pixels of the queue have red, green and blue premultiplied by
`QuantumScale*alpha`. -/
def associateAlpha (qd : Nat) (columns : Nat) (row : List PixelPacket) : List PixelPacket :=
  (row.take columns).map (fun q =>
    { q with
      red := ClampToQuantumScaled qd (GetPixelAlpha qd q) q.red,
      green := ClampToQuantumScaled qd (GetPixelAlpha qd q) q.green,
      blue := ClampToQuantumScaled qd (GetPixelAlpha qd q) q.blue }) ++ row.drop columns

/-- The channel swap `ExportQuantumPixels` runs before and after the layout
routine for the CbYCr and CbYCrA layouts: red and green exchanged in each of
the first `number_pixels` pixels. -/
def swapRedGreen (number_pixels : Nat) (row : List PixelPacket) : List PixelPacket :=
  (row.take number_pixels).map (fun q => { q with red := q.green, green := q.red }) ++
    row.drop number_pixels

/-- What one call of `ExportQuantumPixels` leaves behind: the returned
`extent`, the final export state (buffer, cursor, quantum state, exceptions)
and the pixel queue, which the call may have mutated. -/
structure ExportResult where
  extent : Nat
  final : Export
  queue : List PixelPacket

/-- The pixel queue `ExportQuantumPixels` reads: that of the image when
`image_view` is NULL, that of the view otherwise. -/
def exportQueue (nexus : CacheView) (image_view : Option CacheView) : CacheView :=
  match image_view with
  | none => nexus
  | some v => v

/-- The function `ExportQuantumPixels`.  `nexus` is the pixel queue of the
image itself, used when `image_view` is NULL; `pixels` is the destination
buffer, its start being address 0. -/
def ExportQuantumPixels (qd : Nat) (fc : FloatCodec) (r : Routines) (image : Image)
    (nexus : CacheView) (image_view : Option CacheView) (quantum_info : QuantumInfo)
    (quantum_type : QuantumType) (pixels : Nat → Nat) : ExportResult :=
  let view := exportQueue nexus image_view
  let number_pixels := view.pixels.length
  let indexes := view.indexes
  let p0 := view.pixels
  let p1 :=
    if quantum_info.alpha_type = QuantumAlphaType.AssociatedQuantumAlpha then
      associateAlpha qd image.columns p0
    else p0
  let chroma : Bool := quantum_type = QuantumType.CbYCrQuantum ∨
    quantum_type = QuantumType.CbYCrAQuantum
  let p := if chroma then swapRedGreen number_pixels p1 else p1
  let qi := ResetQuantumState quantum_info
  let s : Export := { quantum_info := qi, pixels := pixels, q := 0, exception := [] }
  let extent := r.GetQuantumExtent image qi quantum_type
  let out : Export :=
    match quantum_type with
    | QuantumType.AlphaQuantum => r.ExportAlphaQuantum number_pixels p s
    | QuantumType.BGRQuantum => r.ExportBGRQuantum number_pixels p s
    | QuantumType.BGRAQuantum => r.ExportBGRAQuantum number_pixels p s
    | QuantumType.BGROQuantum => r.ExportBGROQuantum number_pixels p s
    | QuantumType.BlackQuantum => r.ExportBlackQuantum image number_pixels p indexes s
    | QuantumType.BlueQuantum => r.ExportBlueQuantum number_pixels p s
    | QuantumType.YellowQuantum => r.ExportBlueQuantum number_pixels p s
    | QuantumType.CbYCrYQuantum => r.ExportCbYCrYQuantum number_pixels p s
    | QuantumType.CMYKQuantum => r.ExportCMYKQuantum image number_pixels p indexes s
    | QuantumType.CMYKAQuantum => r.ExportCMYKAQuantum image number_pixels p indexes s
    | QuantumType.CMYKOQuantum => r.ExportCMYKOQuantum image number_pixels p indexes s
    | QuantumType.GrayQuantum => r.ExportGrayQuantum image number_pixels p s
    | QuantumType.GrayAlphaQuantum => r.ExportGrayAlphaQuantum image number_pixels p s
    | QuantumType.GreenQuantum => r.ExportGreenQuantum number_pixels p s
    | QuantumType.MagentaQuantum => r.ExportGreenQuantum number_pixels p s
    | QuantumType.IndexQuantum => r.ExportIndexQuantum image number_pixels p indexes s
    | QuantumType.IndexAlphaQuantum => r.ExportIndexAlphaQuantum image number_pixels p indexes s
    | QuantumType.OpacityQuantum => r.ExportOpacityQuantum number_pixels p s
    | QuantumType.RedQuantum => r.ExportRedQuantum number_pixels p s
    | QuantumType.CyanQuantum => r.ExportRedQuantum number_pixels p s
    | QuantumType.RGBQuantum => r.ExportRGBQuantum number_pixels p s
    | QuantumType.CbYCrQuantum => r.ExportRGBQuantum number_pixels p s
    | QuantumType.RGBAQuantum => ExportRGBAQuantum qd fc number_pixels p s
    | QuantumType.CbYCrAQuantum => ExportRGBAQuantum qd fc number_pixels p s
    | QuantumType.RGBOQuantum => r.ExportRGBOQuantum number_pixels p s
    | QuantumType.UndefinedQuantum => s
  let p2 := if chroma then swapRedGreen number_pixels p else p
  { extent := extent, final := out, queue := p2 }

/-- The bytes of a buffer at addresses `0 .. n-1`. -/
def bufferPrefix (pixels : Nat → Nat) (n : Nat) : List Nat := (List.range n).map pixels

/-- A pixel whose four samples fit the canonical depth. -/
def PixelPacket.wf (qd : Nat) (p : PixelPacket) : Prop :=
  p.red ≤ QuantumRange qd ∧ p.green ≤ QuantumRange qd ∧ p.blue ≤ QuantumRange qd ∧
    p.opacity ≤ QuantumRange qd

instance (qd : Nat) (p : PixelPacket) : Decidable (p.wf qd) := by
  unfold PixelPacket.wf; infer_instance

/-- The four bytes of a pixel in the RGBA layout at depth 8 and 8-bit
canonical depth: red, green, blue, alpha. -/
def rgbaBytes (p : PixelPacket) : List Nat := [p.red, p.green, p.blue, 255 - p.opacity]

/-- The bytes the depth-8 branch of `ExportRGBAQuantum` emits for a row. -/
def rgba8 (qd : Nat) (row : List PixelPacket) : List Nat :=
  row.flatMap (fun px => (rgbaSamples qd px).map (ScaleQuantumToChar qd))

/-- A float codec for concrete runs of the integer paths. -/
def zeroCodec : FloatCodec :=
  { SinglePrecisionToHalf := fun _ => 0, floatBytes := fun _ _ => [], doubleBytes := fun _ _ => [] }

/-- Routines for concrete runs of the RGBA layout: every other layout routine
writes nothing, and `GetQuantumExtent` is the given function. -/
def idleRoutines (extent : Image → QuantumInfo → QuantumType → Nat) : Routines :=
  { GetQuantumExtent := extent
    ExportAlphaQuantum := fun _ _ s => s
    ExportBGRQuantum := fun _ _ s => s
    ExportBGRAQuantum := fun _ _ s => s
    ExportBGROQuantum := fun _ _ s => s
    ExportBlackQuantum := fun _ _ _ _ s => s
    ExportBlueQuantum := fun _ _ s => s
    ExportCbYCrYQuantum := fun _ _ s => s
    ExportCMYKQuantum := fun _ _ _ _ s => s
    ExportCMYKAQuantum := fun _ _ _ _ s => s
    ExportCMYKOQuantum := fun _ _ _ _ s => s
    ExportGrayQuantum := fun _ _ _ s => s
    ExportGrayAlphaQuantum := fun _ _ _ s => s
    ExportGreenQuantum := fun _ _ s => s
    ExportIndexQuantum := fun _ _ _ _ s => s
    ExportIndexAlphaQuantum := fun _ _ _ _ s => s
    ExportOpacityQuantum := fun _ _ s => s
    ExportRedQuantum := fun _ _ s => s
    ExportRGBQuantum := fun _ _ s => s
    ExportRGBOQuantum := fun _ _ s => s }

/-- An 8-bit export configuration with no pad: depth 8, unsigned, packed. -/
def quantumInfo8 (alpha_type : QuantumAlphaType) (endian : EndianType) : QuantumInfo :=
  { depth := 8, quantum := 8, format := QuantumFormatType.UnsignedQuantumFormat, pad := 0,
    min_is_white := false, pack := true, alpha_type := alpha_type, endian := endian,
    state := { pixel := 0, bits := 0 } }

/-- A DirectClass sRGB image of the given size and pixels, 8 bits deep. -/
def directImage (columns rows : Nat) (matte : Bool) (pixels : List PixelPacket) : Image :=
  { columns := columns, rows := rows, depth := 8, matte := matte,
    storage_class := ClassType.DirectClass, colorspace := ColorspaceType.sRGBColorspace,
    colors := 0, colormap := [], endian := EndianType.UndefinedEndian, scene := 0,
    comment := none, pixels := pixels, indexes := [] }

/-- A cache view over the given pixels, with no index queue. -/
def viewOf (pixels : List PixelPacket) : CacheView := { pixels := pixels, indexes := [] }

/-- The row of the example: opaque red and opaque green. -/
def redGreenRow : List PixelPacket := [⟨255, 0, 0, 0⟩, ⟨0, 255, 0, 0⟩]

/-- A row of one fully transparent red pixel. -/
def clearRedRow : List PixelPacket := [⟨255, 0, 0, 255⟩]

/-! ## coders/viff.c: the blob and the environment -/

/-- Modelled from the spec: the blob (magick/blob.c is not under src/), a byte
stream with a read cursor.  `size` is what `GetBlobSize` reports, the length
of the whole stream (line 786 of viff.c reports `TellBlob` against it as the
span of the progress); `rest` holds the bytes not yet read; `eof` is the flag
`EOFBlob` tests, raised when a read asks for more bytes than are left. -/
structure Blob where
  size : Nat
  rest : List Nat
  eof : Bool
deriving DecidableEq, Repr

/-- Modelled from the spec: `OpenBlob` on a stream holding `data`, the cursor
at its first byte. -/
def OpenBlob (data : List Nat) : Blob := { size := data.length, rest := data, eof := false }

/-- Modelled from the spec: `GetBlobSize`, the length of the whole stream. -/
def GetBlobSize (b : Blob) : Nat := b.size

/-- Modelled from the spec: `TellBlob`, the number of bytes read so far. -/
def TellBlob (b : Blob) : Nat := b.size - b.rest.length

/-- Modelled from the spec: `EOFBlob`, whether a read ran past the end. -/
def EOFBlob (b : Blob) : Bool := b.eof

/-- Modelled from the spec: `ReadBlob (image, length, data)`: the next
`length` bytes, fewer when the stream ends first (the returned count is the
length of the list). -/
def ReadBlob (b : Blob) (length : Nat) : List Nat × Blob :=
  ((b.rest.take length).map (fun x => x % 256),
   { b with rest := b.rest.drop length, eof := b.eof || decide (b.rest.length < length) })

/-- Modelled from the spec: `ReadBlobByte`, a one-byte read. -/
def ReadBlobByte (b : Blob) : List Nat × Blob := ReadBlob b 1

/-- Modelled from the spec: `ReadBlobLong`, a four-byte unsigned integer read
in the byte order declared for the stream (`image->endian`); 0 when fewer
than four bytes are left, in which case the end-of-file flag is raised. -/
def ReadBlobLong (endian : EndianType) (b : Blob) : Nat × Blob :=
  let r := ReadBlob b 4
  let value :=
    if r.1.length = 4 then
      if endian = EndianType.LSBEndian then
        r.1.getD 0 0 + 2 ^ 8 * r.1.getD 1 0 + 2 ^ 16 * r.1.getD 2 0 + 2 ^ 24 * r.1.getD 3 0
      else
        2 ^ 24 * r.1.getD 0 0 + 2 ^ 16 * r.1.getD 1 0 + 2 ^ 8 * r.1.getD 2 0 + r.1.getD 3 0
    else 0
  (value, r.2)

/-- The value of a 32-bit pattern read as a signed `int`
(`ReadBlobSignedLong`). -/
def signedLong (value : Nat) : Int :=
  if value < 2 ^ 31 then (value : Int) else (value : Int) - 2 ^ 32

/-- Read `n` consecutive four-byte fields. -/
def readLongs (endian : EndianType) : Nat → Blob → List Nat × Blob
  | 0, b => ([], b)
  | n + 1, b =>
    let r := ReadBlobLong endian b
    let rs := readLongs endian n r.2
    (r.1 :: rs.1, rs.2)

/-- The members of `ImageInfo` the coder reads. -/
structure ImageInfo where
  ping : Bool
  scene : Nat
  number_scenes : Nat
  adjoin : Bool
  background_color : PixelPacket
deriving DecidableEq, Repr

/-- What the coder takes from its collaborators: the build's quantum depth,
the host byte order (the `lsb_first` probe), the resource policy behind
`SetImageExtent` (`none` for MagickTrue, otherwise the exception it leaves in
the image), whether the allocations succeed, how four or eight bytes in host
order read as a `float` or `double`, and, for the encoder, the colorspace
helpers, `SetImageGray` and `GetPixelLuma`.  The pixel cache is taken to be
available and no progress monitor to be installed (`QueueAuthenticPixels`,
`SyncAuthenticPixels`, `SetImageProgress` and `AcquireNextImage` succeed). -/
structure Env where
  qd : Nat
  hostLSB : Bool
  SetImageExtent : Nat → Nat → Option ExceptionInfo
  AcquireImageColormap : Nat → Bool
  AcquireQuantumMemory : Nat → Nat → Bool
  AcquireVirtualMemory : Nat → Nat → Bool
  floatValue : List Nat → ℚ
  doubleValue : List Nat → ℚ
  IssRGBCompatibleColorspace : ColorspaceType → Bool
  TransformImageColorspace : Image → Image
  SetImageGray : Image → Bool
  GetPixelLuma : Image → PixelPacket → ℚ

/-- The working buffers of the decoder. -/
inductive Buffer where
  | colormap
  | viff_colormap
  | pixels
deriving DecidableEq, Repr

/-- An allocation or release of a working buffer. -/
inductive Event where
  | acquire (buffer : Buffer) (count quantum : Nat)
  | relinquish (buffer : Buffer)
deriving DecidableEq, Repr

/-- The state the decoder threads through a call: the blob and the log of
buffer allocations, oldest first. -/
structure Reader where
  blob : Blob
  log : List Event
deriving DecidableEq, Repr

/-- The header of a VIFF sub-image (`ViffInfo` of `ReadVIFFImage`);
`x_bits_per_pixel` and `y_bits_per_pixel` hold the integer the `float` is
converted from. -/
structure ViffInfo where
  identifier : Nat
  file_type : Nat
  release : Nat
  version : Nat
  machine_dependency : Nat
  reserve : List Nat
  comment : List Nat
  rows : Nat
  columns : Nat
  subrows : Nat
  x_offset : Int
  y_offset : Int
  x_bits_per_pixel : Nat
  y_bits_per_pixel : Nat
  location_type : Nat
  location_dimension : Nat
  number_of_images : Nat
  number_data_bands : Nat
  data_storage_type : Nat
  data_encode_scheme : Nat
  map_scheme : Nat
  map_storage_type : Nat
  map_rows : Nat
  map_columns : Nat
  map_subrows : Nat
  map_enable : Nat
  maps_per_cycle : Nat
  color_space_model : Nat
deriving DecidableEq, Repr

/-- The constant `VFF_CM_genericRGB`. -/
def VFF_CM_genericRGB : Nat := 15
/-- The constant `VFF_CM_ntscRGB`. -/
def VFF_CM_ntscRGB : Nat := 1
/-- The constant `VFF_CM_NONE`. -/
def VFF_CM_NONE : Nat := 0
/-- The constant `VFF_DEP_IEEEORDER`. -/
def VFF_DEP_IEEEORDER : Nat := 2
/-- The constant `VFF_DEP_DECORDER`. -/
def VFF_DEP_DECORDER : Nat := 4
/-- The constant `VFF_DEP_NSORDER`. -/
def VFF_DEP_NSORDER : Nat := 8
/-- The constant `VFF_DES_RAW`. -/
def VFF_DES_RAW : Nat := 0
/-- The constant `VFF_LOC_IMPLICIT`. -/
def VFF_LOC_IMPLICIT : Nat := 1
/-- The constant `VFF_MAPTYP_NONE`. -/
def VFF_MAPTYP_NONE : Nat := 0
/-- The constant `VFF_MAPTYP_1_BYTE`. -/
def VFF_MAPTYP_1_BYTE : Nat := 1
/-- The constant `VFF_MAPTYP_2_BYTE`. -/
def VFF_MAPTYP_2_BYTE : Nat := 2
/-- The constant `VFF_MAPTYP_4_BYTE`. -/
def VFF_MAPTYP_4_BYTE : Nat := 4
/-- The constant `VFF_MAPTYP_FLOAT`. -/
def VFF_MAPTYP_FLOAT : Nat := 5
/-- The constant `VFF_MAPTYP_DOUBLE`. -/
def VFF_MAPTYP_DOUBLE : Nat := 7
/-- The constant `VFF_MS_NONE`. -/
def VFF_MS_NONE : Nat := 0
/-- The constant `VFF_MS_ONEPERBAND`. -/
def VFF_MS_ONEPERBAND : Nat := 1
/-- The constant `VFF_MS_SHARED`. -/
def VFF_MS_SHARED : Nat := 3
/-- The constant `VFF_TYP_BIT`. -/
def VFF_TYP_BIT : Nat := 0
/-- The constant `VFF_TYP_1_BYTE`. -/
def VFF_TYP_1_BYTE : Nat := 1
/-- The constant `VFF_TYP_2_BYTE`. -/
def VFF_TYP_2_BYTE : Nat := 2
/-- The constant `VFF_TYP_4_BYTE`. -/
def VFF_TYP_4_BYTE : Nat := 4
/-- The constant `VFF_TYP_FLOAT`. -/
def VFF_TYP_FLOAT : Nat := 5
/-- The constant `VFF_TYP_DOUBLE`. -/
def VFF_TYP_DOUBLE : Nat := 9

/-- The bound of `size_t` and `MagickSizeType` arithmetic (64-bit build). -/
def SIZE_MOD : Nat := 2 ^ 64

/-- Lines 291-297 of `ReadVIFFImage`: the seven byte fields after the magic
byte and the 512-byte comment.  The result is the header so far and the count
the comment read returned.  A field whose read came up short is shown as 0;
the comment read is then short too and the header is rejected before any
field is used. -/
def readViffPreamble (identifier : Nat) (b : Blob) : ViffInfo × Nat × Blob :=
  let file_type := ReadBlob b 1
  let release := ReadBlob file_type.2 1
  let version := ReadBlob release.2 1
  let machine_dependency := ReadBlob version.2 1
  let reserve := ReadBlob machine_dependency.2 3
  let comment := ReadBlob reserve.2 512
  ({ identifier := identifier
     file_type := file_type.1.getD 0 0
     release := release.1.getD 0 0
     version := version.1.getD 0 0
     machine_dependency := machine_dependency.1.getD 0 0
     reserve := reserve.1
     comment := comment.1
     rows := 0, columns := 0, subrows := 0, x_offset := 0, y_offset := 0
     x_bits_per_pixel := 0, y_bits_per_pixel := 0, location_type := 0
     location_dimension := 0, number_of_images := 0, number_data_bands := 0
     data_storage_type := 0, data_encode_scheme := 0, map_scheme := 0
     map_storage_type := 0, map_rows := 0, map_columns := 0, map_subrows := 0
     map_enable := 0, maps_per_cycle := 0, color_space_model := 0 },
   comment.1.length, comment.2)

/-- Lines 303-307: the byte order the header declares for the stream. -/
def viffEndian (machine_dependency : Nat) : EndianType :=
  if machine_dependency = VFF_DEP_DECORDER ∨ machine_dependency = VFF_DEP_NSORDER then
    EndianType.LSBEndian
  else EndianType.MSBEndian

/-- One `ReadBlobByte` whose value is dropped. -/
def skipByte (b : Blob) : Blob := (ReadBlobByte b).2

/-- Lines 308-330: the 21 four-byte fields, read in the declared byte order,
and the 420 bytes of padding, read one at a time. -/
def readViffFields (v : ViffInfo) (b : Blob) : ViffInfo × Blob :=
  let r := readLongs (viffEndian v.machine_dependency) 21 b
  let f := fun i => r.1.getD i 0
  ({ v with
     rows := f 0, columns := f 1, subrows := f 2
     x_offset := signedLong (f 3), y_offset := signedLong (f 4)
     x_bits_per_pixel := f 5, y_bits_per_pixel := f 6
     location_type := f 7, location_dimension := f 8, number_of_images := f 9
     number_data_bands := f 10, data_storage_type := f 11, data_encode_scheme := f 12
     map_scheme := f 13, map_storage_type := f 14, map_rows := f 15, map_columns := f 16
     map_subrows := f 17, map_enable := f 18, maps_per_cycle := f 19
     color_space_model := f 20 },
   skipByte^[420] r.2)

/-- Lines 300-302: the comment property, set when the NUL-terminated comment
is longer than four characters. -/
def viffComment (comment : List Nat) : Option (List Nat) :=
  let text := (comment.take 511).takeWhile (fun c => c ≠ 0)
  if text.length > 4 then some text else none

/-- Lines 355-380: the checks on the enumerated header fields, in source
order; `none` when the header passes them all. -/
def validateFields (v : ViffInfo) : Option ExceptionInfo :=
  if v.number_data_bands < 1 ∨ v.number_data_bands > 4 then
    some ⟨ExceptionType.CorruptImageError, "ImproperImageHeader"⟩
  else if v.data_storage_type ≠ VFF_TYP_BIT ∧ v.data_storage_type ≠ VFF_TYP_1_BYTE ∧
      v.data_storage_type ≠ VFF_TYP_2_BYTE ∧ v.data_storage_type ≠ VFF_TYP_4_BYTE ∧
      v.data_storage_type ≠ VFF_TYP_FLOAT ∧ v.data_storage_type ≠ VFF_TYP_DOUBLE then
    some ⟨ExceptionType.CoderError, "DataStorageTypeIsNotSupported"⟩
  else if v.data_encode_scheme ≠ VFF_DES_RAW then
    some ⟨ExceptionType.CoderError, "DataEncodingSchemeIsNotSupported"⟩
  else if v.map_storage_type ≠ VFF_MAPTYP_NONE ∧ v.map_storage_type ≠ VFF_MAPTYP_1_BYTE ∧
      v.map_storage_type ≠ VFF_MAPTYP_2_BYTE ∧ v.map_storage_type ≠ VFF_MAPTYP_4_BYTE ∧
      v.map_storage_type ≠ VFF_MAPTYP_FLOAT ∧ v.map_storage_type ≠ VFF_MAPTYP_DOUBLE then
    some ⟨ExceptionType.CoderError, "MapStorageTypeIsNotSupported"⟩
  else if v.color_space_model ≠ VFF_CM_NONE ∧ v.color_space_model ≠ VFF_CM_ntscRGB ∧
      v.color_space_model ≠ VFF_CM_genericRGB then
    some ⟨ExceptionType.CoderError, "ColorspaceModelIsNotSupported"⟩
  else if v.location_type ≠ VFF_LOC_IMPLICIT then
    some ⟨ExceptionType.CoderError, "LocationTypeIsNotSupported"⟩
  else if v.number_of_images ≠ 1 then
    some ⟨ExceptionType.CoderError, "NumberOfImagesIsNotSupported"⟩
  else none

/-! ## coders/viff.c: ReadVIFFImage -/

/-- The result of a stage of the decoder: a value and the reader state, or the
exception a `ThrowReaderException` raises and the reader state at the throw. -/
inductive Res (α : Type) where
  | ok (a : α) (s : Reader)
  | thrown (e : ExceptionInfo) (s : Reader)
deriving DecidableEq, Repr

/-- How one pass through the body of the decoder's loop ends: by
`ThrowReaderException`; by `return(DestroyImageList(image))` after
`SetImageExtent` failed; by a `break` on the scene limit, the image kept; or
at the read of the next magic byte (line 773), the sub-image complete. -/
inductive Step where
  | thrown (e : ExceptionInfo) (s : Reader)
  | destroyed (e : ExceptionInfo) (s : Reader)
  | stop (image : Image) (s : Reader)
  | next (image : Image) (s : Reader)
deriving DecidableEq, Repr

/-- Modelled from the spec: `AcquireImage` and `AcquireNextImage`
(magick/image.c is not under src/): a fresh DirectClass sRGB image without
pixels or palette, carrying its scene number. -/
def AcquireImage (env : Env) (scene : Nat) : Image :=
  { columns := 0, rows := 0, depth := env.qd, matte := false,
    storage_class := ClassType.DirectClass, colorspace := ColorspaceType.sRGBColorspace,
    colors := 0, colormap := [], endian := EndianType.UndefinedEndian, scene := scene,
    comment := none, pixels := [], indexes := [] }

/-- Modelled from the spec: `AcquireImageColormap` (magick/colormap.c is not
under src/): on success the image becomes palette-backed with a synthetic
linear ramp of `colors` gray entries; `none` when the allocation fails. -/
def AcquireImageColormap (env : Env) (image : Image) (colors : Nat) : Option Image :=
  if env.AcquireImageColormap colors then
    some { image with
      colors := colors
      storage_class := ClassType.PseudoClass
      colormap := (List.range colors).map (fun i =>
        let pixel := i * (QuantumRange env.qd / max (colors - 1) 1)
        ({ red := pixel, green := pixel, blue := pixel, opacity := OpaqueOpacity } : PixelPacket)) }
  else none

/-- Modelled from the spec: `HeapOverflowSanityCheck` (magick/memory-private.h
is not under src/), the overflow check on a buffer size: true when the count
is zero or `count*quantum` does not fit `size_t`. -/
def HeapOverflowSanityCheck (count quantum : Nat) : Bool :=
  decide (count = 0 ∨ SIZE_MOD ≤ count * quantum)

/-- Modelled from the spec: `ConstrainColormapIndex` (magick/colormap-private.h
is not under src/): an index outside the palette is replaced by 0. -/
def ConstrainColormapIndex (image : Image) (index : Nat) : Nat :=
  if index < image.colors then index else 0

/-- Modelled from the spec: `SyncImage` (magick/colormap.c is not under src/):
every pixel of a palette-backed image takes the colour its index selects, and
the palette entry's opacity when the image has alpha. -/
def SyncImage (image : Image) : Image :=
  { image with
    pixels := List.zipWith (fun (p : PixelPacket) (i : Nat) =>
      let c := image.colormap.getD (ConstrainColormapIndex image i) ⟨0, 0, 0, 0⟩
      ({ red := c.red, green := c.green, blue := c.blue
         opacity := if image.matte then c.opacity else p.opacity } : PixelPacket))
      image.pixels image.indexes }

/-- Modelled from the spec: `MSBOrderShort` (magick/blob.c is not under src/),
the byte-order correction of 16-bit samples: each pair of bytes swapped. -/
def MSBOrderShort : List Nat → List Nat
  | a :: b :: rest => b :: a :: MSBOrderShort rest
  | l => l

/-- Modelled from the spec: `MSBOrderLong` (magick/blob.c is not under src/),
the byte-order correction of 32-bit samples: each group of four bytes
reversed. -/
def MSBOrderLong : List Nat → List Nat
  | a :: b :: c :: d :: rest => d :: c :: b :: a :: MSBOrderLong rest
  | l => l

/-- The C type a sample buffer is read through. -/
inductive SampleType where
  | uchar
  | short
  | int
  | float
  | double
deriving DecidableEq, Repr

/-- The `switch` on `data_storage_type` that picks the sample type. -/
def dataSampleType (data_storage_type : Nat) : SampleType :=
  if data_storage_type = VFF_TYP_2_BYTE then SampleType.short
  else if data_storage_type = VFF_TYP_4_BYTE then SampleType.int
  else if data_storage_type = VFF_TYP_FLOAT then SampleType.float
  else if data_storage_type = VFF_TYP_DOUBLE then SampleType.double
  else SampleType.uchar

/-- The `switch` on `map_storage_type` that picks the sample type. -/
def mapSampleType (map_storage_type : Nat) : SampleType :=
  if map_storage_type = VFF_MAPTYP_2_BYTE then SampleType.short
  else if map_storage_type = VFF_MAPTYP_4_BYTE then SampleType.int
  else if map_storage_type = VFF_MAPTYP_FLOAT then SampleType.float
  else if map_storage_type = VFF_MAPTYP_DOUBLE then SampleType.double
  else SampleType.uchar

/-- The `bytes_per_pixel` of a sample type. -/
def SampleType.bytes : SampleType → Nat
  | SampleType.uchar => 1
  | SampleType.short => 2
  | SampleType.int => 4
  | SampleType.float => 4
  | SampleType.double => 8

/-- The byte-order correction applied to a buffer just read (lines 445-465 and
548-566): on a little-endian host, when the header does not declare a
little-endian stream, 16-bit samples are swapped by `MSBOrderShort` and 32-bit
integer and float samples by `MSBOrderLong`; doubles are left as read. -/
def orderCorrect (env : Env) (machine_dependency : Nat) (t : SampleType) (length : Nat)
    (bytes : List Nat) : List Nat :=
  if env.hostLSB ∧ machine_dependency ≠ VFF_DEP_DECORDER ∧
      machine_dependency ≠ VFF_DEP_NSORDER then
    match t with
    | SampleType.short => MSBOrderShort (bytes.take length) ++ bytes.drop length
    | SampleType.int => MSBOrderLong (bytes.take length) ++ bytes.drop length
    | SampleType.float => MSBOrderLong (bytes.take length) ++ bytes.drop length
    | _ => bytes
  else bytes

/-- The unsigned value of `n` bytes at offset `o` of a buffer in host order. -/
def hostWord (hostLSB : Bool) (bytes : List Nat) (o n : Nat) : Nat :=
  let group := (List.range n).map (fun k => bytes.getD (o + k) 0)
  let lsbFirst := if hostLSB then group else group.reverse
  lsbFirst.foldr (fun b acc => b + 256 * acc) 0

/-- The value of sample `i` of a buffer read through a pointer of type `t`
(`((short *) pixels)[i]` and the like), as the `double` the code converts it
to; short and int are signed. -/
def typedSample (env : Env) (t : SampleType) (bytes : List Nat) (i : Nat) : ℚ :=
  match t with
  | SampleType.uchar => (bytes.getD i 0 : ℚ)
  | SampleType.short =>
    let u := hostWord env.hostLSB bytes (2 * i) 2
    if u < 2 ^ 15 then (u : ℚ) else (u : ℚ) - 2 ^ 16
  | SampleType.int =>
    let u := hostWord env.hostLSB bytes (4 * i) 4
    if u < 2 ^ 31 then (u : ℚ) else (u : ℚ) - 2 ^ 32
  | SampleType.float => env.floatValue ((List.range 4).map (fun k => bytes.getD (4 * i + k) 0))
  | SampleType.double => env.doubleValue ((List.range 8).map (fun k => bytes.getD (8 * i + k) 0))

/-- The cast `(unsigned char) value` of a `double`: the integer part reduced
to eight bits. -/
def castUChar (value : ℚ) : Nat := (⌊value⌋ % 256).toNat

/-- The cast `(unsigned char) ((Quantum) value)` of a `double`: the integer
part reduced to the quantum depth, then to eight bits. -/
def castQuantumUChar (qd : Nat) (value : ℚ) : Nat := ((⌊value⌋ % (2 ^ qd : Int)).toNat) % 256

/-- A value of the C type `double` (IEEE 754 binary64): a finite number, an
infinity with its sign, or a NaN.  A zero is kept without its sign. -/
inductive Double where
  | finite (value : ℚ)
  | infinite (negative : Bool)
  | nan
deriving DecidableEq, Repr

instance (n : Nat) : OfNat Double n := ⟨Double.finite n⟩

/-- The loop of `floorLog2`: halve until below 2, counting the steps. -/
def floorLog2.go : Nat → Nat → Nat
  | 0, _ => 0
  | fuel + 1, n => if n < 2 then 0 else floorLog2.go fuel (n / 2) + 1

/-- The position of the leading one bit of `n`: the `k` with
`2^k ≤ n < 2^(k+1)`, and 0 for `n = 0`. -/
def floorLog2 (n : Nat) : Nat := floorLog2.go n n

/-- The power `2^k` of an integer exponent, as a rational. -/
def twoPow (k : Int) : ℚ :=
  if 0 ≤ k then ((2 ^ k.toNat : Nat) : ℚ) else 1 / ((2 ^ (-k).toNat : Nat) : ℚ)

/-- The binary exponent of a positive rational `x`: the `e` with
`2^e ≤ x < 2^(e+1)`. -/
def binaryExponent (x : ℚ) : Int :=
  let e0 : Int := (floorLog2 x.num.natAbs : Int) - (floorLog2 x.den : Int)
  if twoPow e0 ≤ x then e0 else e0 - 1

/-- The integer nearest to a rational, a tie going to the even one. -/
def roundHalfEven (m : ℚ) : Int :=
  if m - ⌊m⌋ < 1 / 2 then ⌊m⌋
  else if 1 / 2 < m - ⌊m⌋ then ⌊m⌋ + 1
  else if ⌊m⌋ % 2 = 0 then ⌊m⌋
  else ⌊m⌋ + 1

/-- A positive rational rounded to the binary64 grid around it, to nearest
with ties to even: 53 significant bits, the exponent unbounded above and
bounded below by that of the subnormals (`-1022`), where the spacing stays
`2^-1074`. -/
def roundMagnitude (x : ℚ) : ℚ :=
  (roundHalfEven (x / twoPow (max (binaryExponent x) (-1022) - 52)) : ℚ) *
    twoPow (max (binaryExponent x) (-1022) - 52)

/-- The binary64 value of a real result in the default rounding mode (to
nearest, ties to even): a magnitude that rounds to `2^1024` or more gives an
infinity. -/
def Double.round (x : ℚ) : Double :=
  if x = 0 then Double.finite 0
  else if x < 0 then
    if twoPow 1024 ≤ roundMagnitude (-x) then Double.infinite true
    else Double.finite (-roundMagnitude (-x))
  else
    if twoPow 1024 ≤ roundMagnitude x then Double.infinite false
    else Double.finite (roundMagnitude x)

/-- The binary64 subtraction `a - b`. -/
def Double.sub : Double → Double → Double
  | Double.finite a, Double.finite b => Double.round (a - b)
  | Double.finite _, Double.infinite s => Double.infinite (!s)
  | Double.infinite s, Double.finite _ => Double.infinite s
  | Double.infinite s, Double.infinite t => if s = t then Double.nan else Double.infinite s
  | _, _ => Double.nan

/-- The binary64 multiplication `a * b`. -/
def Double.mul : Double → Double → Double
  | Double.finite a, Double.finite b => Double.round (a * b)
  | Double.finite a, Double.infinite s =>
    if a = 0 then Double.nan else Double.infinite (xor s (decide (a < 0)))
  | Double.infinite s, Double.finite b =>
    if b = 0 then Double.nan else Double.infinite (xor s (decide (b < 0)))
  | Double.infinite s, Double.infinite t => Double.infinite (xor s t)
  | _, _ => Double.nan

/-- The binary64 division `a / b`; a zero divisor counts as `+0`. -/
def Double.div : Double → Double → Double
  | Double.finite a, Double.finite b =>
    if b = 0 then (if a = 0 then Double.nan else Double.infinite (decide (a < 0)))
    else Double.round (a / b)
  | Double.finite _, Double.infinite _ => Double.finite 0
  | Double.infinite s, Double.finite b => Double.infinite (xor s (decide (b < 0)))
  | _, _ => Double.nan

/-- The comparison `a > q` of a `double` with a finite number; it is false
for a NaN. -/
def Double.gt (a : Double) (q : ℚ) : Bool :=
  match a with
  | Double.finite x => decide (x > q)
  | Double.infinite s => !s
  | Double.nan => false

/-- The comparison `a < q` of a `double` with a finite number; it is false
for a NaN. -/
def Double.lt (a : Double) (q : ℚ) : Bool :=
  match a with
  | Double.finite x => decide (x < q)
  | Double.infinite s => s
  | Double.nan => false

/-- The cast `(unsigned char) ((Quantum) value)` of a `double` variable.  C
leaves the conversion of a NaN or an infinity undefined; it is shown as 0, the
low bits of what the x86-64 conversion yields. -/
def castQuantumByte (qd : Nat) (value : Double) : Nat :=
  match value with
  | Double.finite x => castQuantumUChar qd x
  | _ => 0

/-- Lines 631-635: `value=(value-min_value)*scale_factor` in binary64, then
clamped to the quantum range; a NaN passes both comparisons unchanged. -/
def rescaleSample (qd : Nat) (value min_value : ℚ) (scale_factor : Double) : Double :=
  let scaled := Double.mul (Double.sub (Double.finite value) (Double.finite min_value))
    scale_factor
  if Double.gt scaled (QuantumRange qd : ℚ) then Double.finite (QuantumRange qd : ℚ)
  else if Double.lt scaled 0 then Double.finite 0
  else scaled

/-- Lines 466-491: the palette filled from the stored map, sample `i` going to
red, green and blue of entry `i` in the first plane, to green of entry
`i % colors` in the second and to blue in the third. -/
def fillColormap (env : Env) (t : SampleType) (map : List Nat) (map_rows : Nat)
    (image : Image) : List PixelPacket :=
  (List.range ((map_rows * image.colors) % SIZE_MOD)).foldl (fun colormap i =>
    let value := ScaleCharToQuantum env.qd (castUChar (typedSample env t map i))
    if i < image.colors then
      colormap.modify (fun c => { c with red := value, green := value, blue := value }) i
    else if i < 2 * image.colors then
      colormap.modify (fun c => { c with green := value }) (i % image.colors)
    else if i < 3 * image.colors then
      colormap.modify (fun c => { c with blue := value }) (i % image.colors)
    else colormap) image.colormap

/-- Lines 381-382: with no map rows the map scheme is forced to none. -/
def forcedScheme (v0 : ViffInfo) : ViffInfo :=
  if v0.map_rows = 0 then { v0 with map_scheme := VFF_MS_NONE } else v0

/-- Lines 392-398: the size of the linear ramp, by storage type and depth. -/
def rampColors (v : ViffInfo) (image : Image) : Nat :=
  if v.data_storage_type = VFF_TYP_BIT then 2
  else if v.data_storage_type = VFF_MAPTYP_1_BYTE then 256
  else if image.depth ≤ 8 then 256 else 65536

/-- Lines 387-401: the linear colour ramp of an image with fewer than three
bands and no stored map. -/
def rampColormap (env : Env) (v : ViffInfo) (image : Image) (s : Reader) :
    Res (ViffInfo × Image) :=
  match AcquireImageColormap env image (rampColors v image) with
  | none => Res.thrown ⟨ExceptionType.ResourceLimitError, "MemoryAllocationFailed"⟩ s
  | some image1 =>
    Res.ok (v, image1)
      { s with log := s.log ++ [Event.acquire Buffer.colormap (rampColors v image) 1] }

/-- Line 423: the byte count of the stored map, in `size_t` arithmetic. -/
def mapCount (v : ViffInfo) : Nat :=
  ((mapSampleType v.map_storage_type).bytes * v.map_columns * v.map_rows) % SIZE_MOD

/-- Lines 429 and 434: `map_rows*bytes_per_pixel`, in `size_t` arithmetic. -/
def mapQuantum (v : ViffInfo) : Nat :=
  (v.map_rows * (mapSampleType v.map_storage_type).bytes) % SIZE_MOD

/-- Lines 437-493: the stored map read into its buffer, corrected for byte
order and turned into the palette; a short read releases the buffer and
rejects the sub-image. -/
def fillStoredMap (env : Env) (v : ViffInfo) (image1 : Image) (s2 : Reader) :
    Res (ViffInfo × Image) :=
  if (ReadBlob s2.blob (mapCount v)).1.length ≠ mapCount v then
    Res.thrown ⟨ExceptionType.CorruptImageError, "InsufficientImageDataInFile"⟩
      { blob := (ReadBlob s2.blob (mapCount v)).2
        log := s2.log ++ [Event.relinquish Buffer.viff_colormap] }
  else
    Res.ok (v, { image1 with
        colormap := fillColormap env (mapSampleType v.map_storage_type)
          (orderCorrect env v.machine_dependency (mapSampleType v.map_storage_type) (mapCount v)
            (ReadBlob s2.blob (mapCount v)).1) v.map_rows image1 })
      { blob := (ReadBlob s2.blob (mapCount v)).2
        log := s2.log ++ [Event.relinquish Buffer.viff_colormap] }

/-- Lines 428-436: the checks that follow the palette allocation and the
allocation of the map buffer. -/
def allocateStoredMap (env : Env) (v : ViffInfo) (image1 : Image) (s1 : Reader) :
    Res (ViffInfo × Image) :=
  if v.map_rows > mapQuantum v then
    Res.thrown ⟨ExceptionType.CorruptImageError, "ImproperImageHeader"⟩ s1
  else if v.map_rows > GetBlobSize s1.blob then
    Res.thrown ⟨ExceptionType.CorruptImageError, "InsufficientImageDataInFile"⟩ s1
  else if env.AcquireQuantumMemory v.map_columns (mapQuantum v) = false then
    Res.thrown ⟨ExceptionType.ResourceLimitError, "MemoryAllocationFailed"⟩ s1
  else
    fillStoredMap env v image1
      { s1 with log := s1.log ++
        [Event.acquire Buffer.viff_colormap v.map_columns (mapQuantum v)] }

/-- Lines 406-427: a stored map (schemes one-per-band and shared): its byte
count checked against the blob size, then the palette allocated. -/
def storedColormap (env : Env) (v : ViffInfo) (image : Image) (s : Reader) :
    Res (ViffInfo × Image) :=
  if mapCount v > GetBlobSize s.blob then
    Res.thrown ⟨ExceptionType.CorruptImageError, "InsufficientImageDataInFile"⟩ s
  else
    match AcquireImageColormap env image v.map_columns with
    | none => Res.thrown ⟨ExceptionType.ResourceLimitError, "MemoryAllocationFailed"⟩ s
    | some image1 =>
      allocateStoredMap env v image1
        { s with log := s.log ++ [Event.acquire Buffer.colormap v.map_columns 1] }

/-- Lines 381-497: the palette of the sub-image.  With no map rows the scheme
is forced to none; scheme none with fewer than three bands gets a linear ramp;
schemes one-per-band and shared read the stored map; any other scheme is
rejected.  The result is the header with the scheme as forced and the image
with its palette. -/
def readColormap (env : Env) (v0 : ViffInfo) (image : Image) (s : Reader) :
    Res (ViffInfo × Image) :=
  if (forcedScheme v0).map_scheme = VFF_MS_NONE then
    if (forcedScheme v0).number_data_bands < 3 then rampColormap env (forcedScheme v0) image s
    else Res.ok (forcedScheme v0, image) s
  else if (forcedScheme v0).map_scheme = VFF_MS_ONEPERBAND ∨
      (forcedScheme v0).map_scheme = VFF_MS_SHARED then
    storedColormap env (forcedScheme v0) image s
  else Res.thrown ⟨ExceptionType.CoderError, "ColormapTypeNotSupported"⟩ s

/-- Lines 340-351: the image once its geometry is set from the header (the
header's `rows` is the image width), with its depth and alpha flag, the pixel
cache holding the background colour. -/
def extentImage (env : Env) (image_info : ImageInfo) (v : ViffInfo) (image : Image) : Image :=
  { image with
    columns := v.rows
    rows := v.columns
    depth := if v.x_bits_per_pixel ≤ 8 then 8 else env.qd
    matte := decide (v.number_data_bands = 4)
    pixels := List.replicate (v.rows * v.columns) image_info.background_color
    indexes := List.replicate (v.rows * v.columns) 0 }

/-- How the size checks end: with the image sized, by a
`ThrowReaderException`, or by the `return(DestroyImageList(image))` of a
failed `SetImageExtent`. -/
inductive Sized where
  | ok (image : Image)
  | thrown (e : ExceptionInfo)
  | destroyed (e : ExceptionInfo)
deriving DecidableEq, Repr

/-- Lines 333-351: the checks on the declared size, then the geometry of the
image and `SetImageExtent`. -/
def sizeChecks (env : Env) (image_info : ImageInfo) (v : ViffInfo) (image : Image) (b : Blob) :
    Sized :=
  let number_pixels := (v.columns * v.rows) % SIZE_MOD
  if number_pixels ≠ number_pixels % SIZE_MOD then
    Sized.thrown ⟨ExceptionType.ResourceLimitError, "MemoryAllocationFailed"⟩
  else if number_pixels > (8 * GetBlobSize b) % SIZE_MOD then
    Sized.thrown ⟨ExceptionType.CorruptImageError, "InsufficientImageDataInFile"⟩
  else if number_pixels = 0 then
    Sized.thrown ⟨ExceptionType.CoderError, "ImageColumnOrRowSizeIsNotSupported"⟩
  else
    match env.SetImageExtent v.rows v.columns with
    | some e => Sized.destroyed e
    | none => Sized.ok (extentImage env image_info v image)

/-- Lines 514-533: the number of samples of the pixel plane, `none` when the
overflow check refuses it. -/
def maxPackets (v : ViffInfo) (image : Image) : Option Nat :=
  let number_pixels := (v.columns * v.rows) % SIZE_MOD
  if v.data_storage_type = VFF_TYP_BIT then
    if HeapOverflowSanityCheck ((image.columns + 7) / 8) image.rows then none
    else some ((((image.columns + 7) / 8) * image.rows) % SIZE_MOD)
  else
    if HeapOverflowSanityCheck number_pixels v.number_data_bands then none
    else some ((number_pixels * v.number_data_bands) % SIZE_MOD)

/-- Lines 567-614: the minimum and the scale factor of the affine rescale.
For 1-byte samples or a stored map they are 0 and 1; otherwise the plane is
scanned for its minimum and maximum, and the scale factor is the binary64
quotient of `QuantumRange` by the minimum (all samples equal, the minimum then
reset to 0) or by the binary64 difference of maximum and minimum.
`QuantumRange` is taken as the exact `double` it is at the integer quantum
depths. -/
def scaleFactor (env : Env) (v : ViffInfo) (pixels : List Nat) (max_packets : Nat) :
    ℚ × Double :=
  if v.data_storage_type ≠ VFF_TYP_1_BYTE ∧ v.map_scheme = VFF_MS_NONE then
    let t := dataSampleType v.data_storage_type
    let first := typedSample env t pixels 0
    let range := (List.range max_packets).foldl (fun (acc : ℚ × ℚ) i =>
      let value := typedSample env t pixels i
      if value > acc.2 then (acc.1, value)
      else if value < acc.1 then (value, acc.2)
      else acc) (first, first)
    let min_value := range.1
    let max_value := range.2
    if min_value = 0 ∧ max_value = 0 then (min_value, Double.finite 0)
    else if min_value = max_value then
      (0, Double.div (Double.finite (QuantumRange env.qd : ℚ)) (Double.finite min_value))
    else
      (min_value, Double.div (Double.finite (QuantumRange env.qd : ℚ))
        (Double.sub (Double.finite max_value) (Double.finite min_value)))
  else (0, Double.finite 1)

/-- Lines 618-640: every sample converted to one byte: rescaled in binary64
and clamped to the quantum range when no map is stored, then cast to `Quantum`
and to `unsigned char`. -/
def convertSamples (env : Env) (v : ViffInfo) (pixels : List Nat) (max_packets : Nat) :
    List Nat :=
  let t := dataSampleType v.data_storage_type
  let ms := scaleFactor env v pixels max_packets
  (List.range max_packets).map (fun i =>
    let value := typedSample env t pixels i
    let value1 :=
      if v.map_scheme = VFF_MS_NONE then rescaleSample env.qd value ms.1 ms.2
      else Double.finite value
    castQuantumByte env.qd value1)

/-- Lines 652-693: the index of pixel `x` of row `y` in the bitmap path: the
row starts at byte `y*ceil(columns/8)`, pixel `x` is bit `x mod 8` of byte
`x/8` of the row as selected by the mask `0x01 << bit`, and the index is 0
when the bit is set and 1 when it is clear. -/
def bitmapIndex (p : List Nat) (columns : Nat) (y x : Nat) : Nat :=
  if (p.getD (y * ((columns + 7) / 8) + x / 8) 0) &&& (1 <<< (x % 8)) ≠ 0 then 0 else 1

/-- Lines 715-761: pixel `i` of the DirectColor path, from the planar sample
buffer `p` with `number_pixels` samples per band. -/
def directPixel (env : Env) (image : Image) (p : List Nat) (number_pixels : Nat) (i : Nat) :
    PixelPacket :=
  let red := ScaleCharToQuantum env.qd (p.getD i 0)
  let green := ScaleCharToQuantum env.qd (p.getD (i + number_pixels) 0)
  let blue := ScaleCharToQuantum env.qd (p.getD (i + 2 * number_pixels) 0)
  let opacity :=
    if image.matte then QuantumRange env.qd - ScaleCharToQuantum env.qd
      (p.getD (i + number_pixels * 3) 0)
    else OpaqueOpacity
  if image.colors ≠ 0 then
    let red1 := (image.colormap.getD (ConstrainColormapIndex image red) ⟨0, 0, 0, 0⟩).red
    let green1 := (image.colormap.getD (ConstrainColormapIndex image green) ⟨0, 0, 0, 0⟩).green
    let blue1 := (image.colormap.getD (ConstrainColormapIndex image red1) ⟨0, 0, 0, 0⟩).blue
    { red := red1, green := green1, blue := blue1, opacity := opacity }
  else { red := red, green := green, blue := blue, opacity := opacity }

/-- Lines 641-764: the converted samples turned into the pixels of the image,
by the bitmap path, the palette path or the DirectColor path; `none` when the
bitmap path finds the image not palette-backed. -/
def toPixelPackets (env : Env) (v : ViffInfo) (image : Image) (p : List Nat) : Option Image :=
  if v.data_storage_type = VFF_TYP_BIT then
    if image.storage_class ≠ ClassType.PseudoClass then none
    else
      some (SyncImage { image with
        indexes := (List.range image.rows).flatMap (fun y =>
          (List.range image.columns).map (fun x => bitmapIndex p image.columns y x)) })
  else if image.storage_class = ClassType.PseudoClass then
    some (SyncImage { image with
      indexes := (List.range (image.rows * image.columns)).map (fun i => p.getD i 0) })
  else
    let number_pixels := image.columns * image.rows
    some { image with
      pixels := (List.range (image.rows * image.columns)).map
        (directPixel env image p number_pixels) }

/-- The test of lines 498-500 and 770-772: the scene limit is reached. -/
def sceneLimit (image_info : ImageInfo) (image : Image) : Bool :=
  decide (image_info.number_scenes ≠ 0 ∧
    image.scene ≥ image_info.scene + image_info.number_scenes - 1)

/-- Lines 765-772: the end of a sub-image: the end-of-file check, then the
scene limit. -/
def finishSubImage (image_info : ImageInfo) (image2 : Image) (s4 : Reader) : Step :=
  if EOFBlob s4.blob then
    Step.thrown ⟨ExceptionType.CorruptImageError, "UnexpectedEndOfFile"⟩ s4
  else if sceneLimit image_info image2 then Step.stop image2 s4
  else Step.next image2 s4

/-- Lines 534 and 543: the byte count of the pixel plane, in `size_t`
arithmetic. -/
def pixelCount (v : ViffInfo) (max_packets : Nat) : Nat :=
  ((dataSampleType v.data_storage_type).bytes * max_packets) % SIZE_MOD

/-- Lines 548-764: the plane just read corrected for byte order, its samples
converted and turned into pixels, and the buffer released (the bitmap path
rejects an image that is not palette-backed without releasing it). -/
def convertPixels (env : Env) (image_info : ImageInfo) (v : ViffInfo) (image : Image)
    (max_packets : Nat) (raw : List Nat) (s3 : Reader) : Step :=
  match toPixelPackets env v image
      (convertSamples env v
        (orderCorrect env v.machine_dependency (dataSampleType v.data_storage_type)
          (pixelCount v max_packets) raw) max_packets) with
  | none => Step.thrown ⟨ExceptionType.CorruptImageError, "ImproperImageHeader"⟩ s3
  | some image2 =>
    finishSubImage image_info image2
      { s3 with log := s3.log ++ [Event.relinquish Buffer.pixels] }

/-- Lines 543-547: the pixel plane read into its buffer; a short read
releases the buffer and rejects the sub-image. -/
def loadPixels (env : Env) (image_info : ImageInfo) (v : ViffInfo) (image : Image)
    (max_packets : Nat) (s2 : Reader) : Step :=
  if (ReadBlob s2.blob (pixelCount v max_packets)).1.length ≠ pixelCount v max_packets then
    Step.thrown ⟨ExceptionType.CorruptImageError, "ImproperImageHeader"⟩
      { blob := (ReadBlob s2.blob (pixelCount v max_packets)).2
        log := s2.log ++ [Event.relinquish Buffer.pixels] }
  else
    convertPixels env image_info v image max_packets
      (ReadBlob s2.blob (pixelCount v max_packets)).1
      { blob := (ReadBlob s2.blob (pixelCount v max_packets)).2, log := s2.log }

/-- Lines 514-542: the sample count of the plane, the check of its byte count
against the blob size, and the allocation of the pixel buffer. -/
def allocatePixels (env : Env) (image_info : ImageInfo) (v : ViffInfo) (image : Image)
    (s1 : Reader) : Step :=
  match maxPackets v image with
  | none => Step.thrown ⟨ExceptionType.ResourceLimitError, "MemoryAllocationFailed"⟩ s1
  | some max_packets =>
    if pixelCount v max_packets > GetBlobSize s1.blob then
      Step.thrown ⟨ExceptionType.CorruptImageError, "ImproperImageHeader"⟩ s1
    else if env.AcquireQuantumMemory (max ((v.columns * v.rows) % SIZE_MOD) max_packets)
        (dataSampleType v.data_storage_type).bytes = false then
      Step.thrown ⟨ExceptionType.ResourceLimitError, "MemoryAllocationFailed"⟩ s1
    else
      loadPixels env image_info v image max_packets
        { s1 with log := s1.log ++
          [Event.acquire Buffer.pixels (max ((v.columns * v.rows) % SIZE_MOD) max_packets)
            (dataSampleType v.data_storage_type).bytes] }

/-- Lines 501-510: the bilevel palette of a bitmap: two colours and the gray
colorspace; `none` when the allocation fails.  Other storage types pass
through. -/
def bilevelColormap (env : Env) (v : ViffInfo) (image0 : Image) (s : Reader) :
    Option (Image × Reader) :=
  if v.data_storage_type = VFF_TYP_BIT then
    match AcquireImageColormap env image0 2 with
    | none => none
    | some image1 =>
      some ({ image1 with colorspace := ColorspaceType.GRAYColorspace },
        { s with log := s.log ++ [Event.acquire Buffer.colormap 2 1] })
  else some (image0, s)

/-- Lines 498-766: what follows the palette: the ping exit, the bilevel
palette of a bitmap, the allocation and read of the pixel plane, the
conversion of its samples and the final end-of-file check. -/
def readPixels (env : Env) (image_info : ImageInfo) (v : ViffInfo) (image0 : Image)
    (s : Reader) : Step :=
  if image_info.ping ∧ sceneLimit image_info image0 then Step.stop image0 s
  else
    match bilevelColormap env v image0 s with
    | none => Step.thrown ⟨ExceptionType.ResourceLimitError, "MemoryAllocationFailed"⟩ s
    | some (image, s1) => allocatePixels env image_info v image s1

/-- Lines 300-307: the image as it stands when the header was read: fresh,
with the comment property and the declared byte order. -/
def headerImage (env : Env) (scene : Nat) (v : ViffInfo) : Image :=
  { AcquireImage env scene with
    comment := viffComment v.comment
    endian := viffEndian v.machine_dependency }

/-- Lines 381-766: a sub-image after its header passed the field validation:
the palette, then the pixel plane. -/
def paletteAndPixels (env : Env) (image_info : ImageInfo) (v : ViffInfo) (image1 : Image)
    (s1 : Reader) : Step :=
  match readColormap env v image1 s1 with
  | Res.thrown e s2 => Step.thrown e s2
  | Res.ok (v1, image2) s2 => readPixels env image_info v1 image2 s2

/-- Lines 333-766: a sub-image after its header `v` was read completely: size
checks, field validation, palette and pixel plane. -/
def decodeAfterHeader (env : Env) (image_info : ImageInfo) (scene : Nat) (v : ViffInfo)
    (s1 : Reader) : Step :=
  match sizeChecks env image_info v (headerImage env scene v) s1.blob with
  | Sized.thrown e => Step.thrown e s1
  | Sized.destroyed e => Step.destroyed e s1
  | Sized.ok image1 =>
    match validateFields v with
    | some e => Step.thrown e s1
    | none => paletteAndPixels env image_info v image1 s1

/-- Lines 288-766: one pass through the body of the decoder's loop after the
magic byte was accepted: header, size checks, field validation, palette and
pixel plane of one sub-image with scene number `scene`. -/
def readSubImage (env : Env) (image_info : ImageInfo) (scene : Nat) (s : Reader) : Step :=
  let pre := readViffPreamble 0xab s.blob
  if pre.2.1 ≠ 512 then
    Step.thrown ⟨ExceptionType.CorruptImageError, "ImproperImageHeader"⟩ { s with blob := pre.2.2 }
  else
    let hdr := readViffFields pre.1 pre.2.2
    let s1 : Reader := { s with blob := hdr.2 }
    if EOFBlob s1.blob then
      Step.thrown ⟨ExceptionType.CorruptImageError, "UnexpectedEndOfFile"⟩ s1
    else decodeAfterHeader env image_info scene hdr.1 s1

/-- What `ReadVIFFImage` hands back: the image list it returns (empty for
NULL), the exception it raised, if any, and the final reader state. -/
structure ReadResult where
  images : List Image
  exception : Option ExceptionInfo
  final : Reader
deriving DecidableEq, Repr

/-- Modelled from the spec: `ThrowReaderException` (magick/exception-private.h
is not under src/): the typed error is raised and decoding of the current
sub-image is given up, no image being returned for it; the sub-images
completed before it remain valid and are returned, except that a resource
exhaustion aborts the whole decode. -/
def ThrowReaderException (e : ExceptionInfo) (done : List Image) (s : Reader) : ReadResult :=
  { images := if e.severity = ExceptionType.ResourceLimitError then [] else done
    exception := some e
    final := s }

/-- The `do ... while` loop of `ReadVIFFImage`.  `count` and `identifier` are
what the last read of a magic byte returned, `done` the sub-images completed
so far, oldest first; `fuel` bounds the number of passes. -/
def ReadVIFFImage.loop (env : Env) (image_info : ImageInfo) :
    Nat → Nat → Nat → Nat → List Image → Reader → ReadResult
  | 0, _, _, _, done, s => { images := done, exception := none, final := s }
  | fuel + 1, count, identifier, scene, done, s =>
    if count ≠ 1 ∨ identifier ≠ 0xab then
      ThrowReaderException ⟨ExceptionType.CorruptImageError, "NotAVIFFImage"⟩ done s
    else
      match readSubImage env image_info scene s with
      | Step.thrown e s1 => ThrowReaderException e done s1
      | Step.destroyed e s1 => { images := [], exception := some e, final := s1 }
      | Step.stop image s1 => { images := done ++ [image], exception := none, final := s1 }
      | Step.next image s1 =>
        let r := ReadBlob s1.blob 1
        let s2 : Reader := { s1 with blob := r.2 }
        if r.1.length = 1 ∧ r.1.getD 0 0 = 0xab then
          ReadVIFFImage.loop env image_info fuel 1 0xab (scene + 1) (done ++ [image]) s2
        else { images := done ++ [image], exception := none, final := s2 }

/-- The function `ReadVIFFImage` on a stream holding `data`.  Every pass of
the loop consumes the magic byte read before it, so `data.length + 1` passes
are never used up. -/
def ReadVIFFImage (env : Env) (image_info : ImageInfo) (data : List Nat) : ReadResult :=
  let r := ReadBlob (OpenBlob data) 1
  ReadVIFFImage.loop env image_info (data.length + 1) r.1.length (r.1.getD 0 0)
    image_info.scene [] { blob := r.2, log := [] }

/-! ## coders/viff.c: WriteVIFFImage -/

/-- Modelled from the spec: `WriteBlobMSBLong` (magick/blob.c is not under
src/): the low 32 bits of the value, most significant byte first. -/
def WriteBlobMSBLong (value : Nat) : List Nat :=
  [value / 2 ^ 24 % 256, value / 2 ^ 16 % 256, value / 2 ^ 8 % 256, value % 256]

/-- The cast `(unsigned int)` of a signed `int`. -/
def unsignedLong (value : Int) : Nat := (value % (2 ^ 32 : Int)).toNat

/-- Modelled from the spec: `ClampToQuantum` (magick/quantum.h is not under
src/): a real value rounded to the nearest quantum and clamped to the
canonical range. -/
def ClampToQuantum (qd : Nat) (value : ℚ) : Nat :=
  if value ≤ 0 then 0
  else if value ≥ (QuantumRange qd : ℚ) then QuantumRange qd
  else ⌊value + 1 / 2⌋.toNat

/-- Lines 1012-1016: the comment array of the encoder after the comment
property, if any, is copied into it: the first byte is cleared, then at most
511 characters of the property and a NUL overwrite the start of the array;
the bytes after them keep what the array held. -/
def writerComment (previous : List Nat) (property : Option (List Nat)) : List Nat :=
  let cleared := previous.set 0 0
  match property with
  | none => cleared
  | some value =>
    let text := (value.takeWhile (fun c => c ≠ 0)).take 511
    (text.map (fun c => c % 256) ++ [0]) ++ cleared.drop (text.length + 1)

/-- Lines 1007-1071: the header `WriteVIFFImage` builds for a frame, given the
comment array; `x_bits_per_pixel` and `y_bits_per_pixel` are shown with the
value assigned just before they are written. -/
def writerHeader (env : Env) (image : Image) (comment : List Nat) : ViffInfo :=
  let base : ViffInfo :=
    { identifier := 0xab, file_type := 1, release := 1, version := 3
      machine_dependency := VFF_DEP_IEEEORDER, reserve := [0, 0, 0], comment := comment
      rows := image.columns, columns := image.rows, subrows := 0
      x_offset := -1, y_offset := -1
      x_bits_per_pixel := 63 * 2 ^ 24 + 128 * 2 ^ 16
      y_bits_per_pixel := 63 * 2 ^ 24 + 128 * 2 ^ 16
      location_type := VFF_LOC_IMPLICIT, location_dimension := 0, number_of_images := 1
      number_data_bands := 0, data_storage_type := 0, data_encode_scheme := VFF_DES_RAW
      map_scheme := VFF_MS_NONE, map_storage_type := VFF_MAPTYP_NONE, map_rows := 0
      map_columns := 0, map_subrows := 0, map_enable := 1, maps_per_cycle := 0
      color_space_model := 0 }
  if image.storage_class = ClassType.DirectClass then
    { base with
      number_data_bands := if image.matte then 4 else 3
      color_space_model := VFF_CM_genericRGB
      data_storage_type := VFF_TYP_1_BYTE }
  else if env.SetImageGray image = false then
    { base with
      number_data_bands := 1
      color_space_model := VFF_CM_NONE
      data_storage_type := VFF_TYP_1_BYTE
      map_scheme := VFF_MS_ONEPERBAND
      map_storage_type := VFF_MAPTYP_1_BYTE
      map_rows := 3
      map_columns := image.colors % 2 ^ 32 }
  else if image.colors ≤ 2 then
    { base with
      number_data_bands := 1
      color_space_model := VFF_CM_NONE
      data_storage_type := VFF_TYP_BIT }
  else
    { base with
      number_data_bands := 1
      color_space_model := VFF_CM_NONE
      data_storage_type := VFF_TYP_1_BYTE }

/-- Lines 1035-1071: the number of bytes of the pixel plane (`packets`). -/
def writerPackets (env : Env) (image : Image) : Nat :=
  let number_pixels := (image.columns * image.rows) % SIZE_MOD
  if image.storage_class = ClassType.DirectClass then
    ((if image.matte then 4 else 3) * number_pixels) % SIZE_MOD
  else if env.SetImageGray image = false then number_pixels
  else if image.colors ≤ 2 then (((image.columns + 7) / 8) * image.rows) % SIZE_MOD
  else number_pixels

/-- Lines 1075-1112: the 1024 bytes of a header as written: eight byte
fields, the 512-byte comment, 21 four-byte fields most significant byte
first, 420 zero bytes. -/
def writeViffHeader (v : ViffInfo) : List Nat :=
  [v.identifier % 256, v.file_type % 256, v.release % 256, v.version % 256,
    v.machine_dependency % 256] ++
  (List.range 3).map (fun i => v.reserve.getD i 0 % 256) ++
  (List.range 512).map (fun i => v.comment.getD i 0 % 256) ++
  WriteBlobMSBLong (v.rows % 2 ^ 32) ++
  WriteBlobMSBLong (v.columns % 2 ^ 32) ++
  WriteBlobMSBLong (v.subrows % 2 ^ 32) ++
  WriteBlobMSBLong (unsignedLong v.x_offset) ++
  WriteBlobMSBLong (unsignedLong v.y_offset) ++
  WriteBlobMSBLong v.x_bits_per_pixel ++
  WriteBlobMSBLong v.y_bits_per_pixel ++
  WriteBlobMSBLong v.location_type ++
  WriteBlobMSBLong v.location_dimension ++
  WriteBlobMSBLong v.number_of_images ++
  WriteBlobMSBLong v.number_data_bands ++
  WriteBlobMSBLong v.data_storage_type ++
  WriteBlobMSBLong v.data_encode_scheme ++
  WriteBlobMSBLong v.map_scheme ++
  WriteBlobMSBLong v.map_storage_type ++
  WriteBlobMSBLong v.map_rows ++
  WriteBlobMSBLong v.map_columns ++
  WriteBlobMSBLong v.map_subrows ++
  WriteBlobMSBLong v.map_enable ++
  WriteBlobMSBLong v.maps_per_cycle ++
  WriteBlobMSBLong v.color_space_model ++
  List.replicate 420 0

/-- Pixel `i` of the pixel cache in row-major order (`GetVirtualPixels` row by
row). -/
def Image.pixelAt (image : Image) (i : Nat) : PixelPacket := image.pixels.getD i ⟨0, 0, 0, 0⟩

/-- Lines 1121-1151: the planar pixel buffer of a DirectClass frame: every
red sample, then every green, then every blue, then, with alpha, every alpha,
each scaled to a byte. -/
def directPlanes (env : Env) (image : Image) : List Nat :=
  let n := image.columns * image.rows
  let plane (f : PixelPacket → Nat) : List Nat :=
    (List.range n).map (fun i => ScaleQuantumToChar env.qd (f (image.pixelAt i)))
  plane (fun p => p.red) ++ plane (fun p => p.green) ++ plane (fun p => p.blue) ++
    (if image.matte then plane (fun p => GetPixelAlpha env.qd p) else [])

/-- Lines 1161-1173: the palette as dumped to the file: the red bytes of all
entries, then the green, then the blue. -/
def colormapPlanes (env : Env) (image : Image) : List Nat :=
  let plane (f : PixelPacket → Nat) : List Nat :=
    (List.range image.colors).map (fun i =>
      ScaleQuantumToChar env.qd (f (image.colormap.getD i ⟨0, 0, 0, 0⟩)))
  plane (fun p => p.red) ++ plane (fun p => p.green) ++ plane (fun p => p.blue)

/-- Lines 1215-1231: one row of the monochrome path.  The byte is shifted
right and bit 7 set for a dark pixel, so the first pixel of a group of eight
ends in bit 0; a final group of `bit` pixels is shifted down by `8-bit`.  The
pixel pointer `p` is not advanced in this loop (it has no `p++`), so each of
the `columns` passes tests the luma of the first pixel of the row. -/
def monoRow (env : Env) (image : Image) (row : List PixelPacket) : List Nat :=
  let p := row.getD 0 ⟨0, 0, 0, 0⟩
  let acc := row.foldl (fun (acc : List Nat × Nat × Nat) _ =>
    let byte0 := acc.2.2 / 2
    let byte1 :=
      if env.GetPixelLuma image p < (QuantumRange env.qd : ℚ) / 2 then byte0 ||| 0x80
      else byte0
    let bit := acc.2.1 + 1
    if bit = 8 then (acc.1 ++ [byte1], 0, 0) else (acc.1, bit, byte1)) ([], 0, 0)
  if acc.2.1 ≠ 0 then acc.1 ++ [acc.2.2 >>> (8 - acc.2.1)] else acc.1

/-- Lines 1121-1264: the pixel buffer of a frame, by storage class and
palette. -/
def writerPixels (env : Env) (image : Image) : List Nat :=
  if image.storage_class = ClassType.DirectClass then directPlanes env image
  else if env.SetImageGray image = false then
    (List.range (image.rows * image.columns)).map (fun i => image.indexes.getD i 0 % 256)
  else if image.colors ≤ 2 then
    (List.range image.rows).flatMap (fun y =>
      monoRow env image ((List.range image.columns).map
        (fun x => image.pixelAt (y * image.columns + x))))
  else
    (List.range (image.rows * image.columns)).map (fun i =>
      ClampToQuantum env.qd (env.GetPixelLuma image (image.pixelAt i)) % 256)

/-- What `WriteVIFFImage` leaves behind: its return value, the bytes written
to the blob and the exception raised, if any. -/
structure WriteResult where
  status : Bool
  data : List Nat
  exception : Option ExceptionInfo
deriving DecidableEq, Repr

/-- The `do ... while` loop of `WriteVIFFImage` over the image list: for each
frame the header, the palette of a colormapped frame and the pixel buffer;
the loop goes on to the next image only when `adjoin` is set.  `comment` is
the comment array, which the encoder clears once before the loop; `written`
holds the bytes written so far. -/
def WriteVIFFImage.loop (env : Env) (image_info : ImageInfo) :
    List Image → List Nat → List Nat → WriteResult
  | [], _, written => { status := true, data := written, exception := none }
  | image0 :: next, comment0, written =>
    let image :=
      if env.IssRGBCompatibleColorspace image0.colorspace = false then
        env.TransformImageColorspace image0
      else image0
    let comment := writerComment comment0 image.comment
    let header := writeViffHeader (writerHeader env image comment)
    let packets := writerPackets env image
    if env.AcquireVirtualMemory packets 1 = false then
      { status := false, data := written ++ header
        exception := some ⟨ExceptionType.ResourceLimitError, "MemoryAllocationFailed"⟩ }
    else if image.storage_class ≠ ClassType.DirectClass ∧ env.SetImageGray image = false ∧
        env.AcquireQuantumMemory image.colors 3 = false then
      { status := false, data := written ++ header
        exception := some ⟨ExceptionType.ResourceLimitError, "MemoryAllocationFailed"⟩ }
    else
      let map :=
        if image.storage_class ≠ ClassType.DirectClass ∧ env.SetImageGray image = false then
          colormapPlanes env image
        else []
      let pixels := ((writerPixels env image).take packets)
      let pixels1 := pixels ++ List.replicate (packets - pixels.length) 0
      let written1 := written ++ header ++ map ++ pixels1
      if image_info.adjoin then WriteVIFFImage.loop env image_info next comment written1
      else { status := true, data := written1, exception := none }

/-- The function `WriteVIFFImage` on an image list (the list is not empty:
the image pointer is asserted non-NULL). -/
def WriteVIFFImage (env : Env) (image_info : ImageInfo) (images : List Image) : WriteResult :=
  WriteVIFFImage.loop env image_info images (List.replicate 512 0) []

/-! ## Auxiliary definitions for the statements -/

/-- The blob after a read that asks for `n` bytes. -/
def Blob.advance (b : Blob) (n : Nat) : Blob :=
  { b with rest := b.rest.drop n, eof := b.eof || decide (b.rest.length < n) }

/-- The header `ReadVIFFImage` reads from a blob whose magic byte was just
consumed (lines 291-330). -/
def parsedHeader (b : Blob) : ViffInfo :=
  (readViffFields (readViffPreamble 0xab b).1 (readViffPreamble 0xab b).2.2).1

/-- The blob of `ReadVIFFImage` after the magic byte of the first sub-image
was read. -/
def afterMagic (data : List Nat) : Blob := (ReadBlob (OpenBlob data) 1).2

/-- The stream starts with the magic byte 0xAB. -/
def hasMagic (data : List Nat) : Prop := data.head?.map (fun x => x % 256) = some 0xab

instance (data : List Nat) : Decidable (hasMagic data) := by
  unfold hasMagic; infer_instance

/-- An environment for concrete runs: 8-bit quantum, little-endian host, no
resource limit, every allocation succeeding, every colorspace compatible. -/
def plainEnv : Env :=
  { qd := 8, hostLSB := true, SetImageExtent := fun _ _ => none
    AcquireImageColormap := fun _ => true, AcquireQuantumMemory := fun _ _ => true
    AcquireVirtualMemory := fun _ _ => true
    floatValue := fun _ => 0, doubleValue := fun _ => 0
    IssRGBCompatibleColorspace := fun _ => true, TransformImageColorspace := fun i => i
    SetImageGray := fun _ => false, GetPixelLuma := fun _ p => p.red }

/-- An `ImageInfo` for concrete runs: no ping, no scene limit, adjoin set. -/
def plainInfo : ImageInfo :=
  { ping := false, scene := 0, number_scenes := 0, adjoin := true
    background_color := ⟨0, 0, 0, 0⟩ }

/-- A header for concrete runs: the constant fields as the encoder writes
them, with the given `rows`, `columns`, band count, storage type and encode
scheme. -/
def sampleHeader (rows columns bands storage encode : Nat) : ViffInfo :=
  { identifier := 0xab, file_type := 1, release := 1, version := 3
    machine_dependency := VFF_DEP_IEEEORDER, reserve := [0, 0, 0]
    comment := List.replicate 512 0
    rows := rows, columns := columns, subrows := 0, x_offset := -1, y_offset := -1
    x_bits_per_pixel := 63 * 2 ^ 24 + 128 * 2 ^ 16
    y_bits_per_pixel := 63 * 2 ^ 24 + 128 * 2 ^ 16
    location_type := VFF_LOC_IMPLICIT, location_dimension := 0, number_of_images := 1
    number_data_bands := bands, data_storage_type := storage, data_encode_scheme := encode
    map_scheme := VFF_MS_NONE, map_storage_type := VFF_MAPTYP_NONE, map_rows := 0
    map_columns := 0, map_subrows := 0, map_enable := 1, maps_per_cycle := 0
    color_space_model := VFF_CM_genericRGB }

/-- The reader state of `ReadVIFFImage` when the header of the first
sub-image of `data` was read completely. -/
def headerRead (data : List Nat) : Reader :=
  { blob := (afterMagic data).advance 1023, log := [] }

/-- The image `ReadVIFFImage` holds for the first sub-image of `data` once the
size checks passed. -/
def sizedImage (env : Env) (image_info : ImageInfo) (data : List Nat) : Image :=
  extentImage env image_info (parsedHeader (afterMagic data))
    (headerImage env image_info.scene (parsedHeader (afterMagic data)))

/-- A complete sub-image record for concrete runs: the header of a 2x1
three-band 1-byte frame and its red, green and blue planes, holding an opaque
red and an opaque green pixel. -/
def redGreenStream : List Nat :=
  writeViffHeader (sampleHeader 2 1 3 1 0) ++ [255, 0, 0, 255, 0, 0]

/-- The blob `b` seen inside a longer stream: the unread bytes are followed by
`t` and the stream has size `size`. -/
def Blob.extend (b : Blob) (size : Nat) (t : List Nat) : Blob :=
  { size := size, rest := b.rest ++ t, eof := b.eof }

/-- The image of a pass that reached the read of the next magic byte. -/
def Step.image? : Step → Option Image
  | Step.next image _ => some image
  | _ => none

/-- The unread bytes left by a pass that reached the read of the next magic
byte. -/
def Step.rest? : Step → Option (List Nat)
  | Step.next _ s => some s.blob.rest
  | _ => none

/-- A valid sub-image record: `record` starts with the magic byte and
`ReadVIFFImage`, given `record` alone as the sub-image of scene number
`scene`, decodes it completely to `image`, consuming every byte of it. -/
def decodesTo (env : Env) (image_info : ImageInfo) (scene : Nat) (record : List Nat)
    (image : Image) : Prop :=
  hasMagic record ∧
  (readSubImage env image_info scene ⟨afterMagic record, []⟩).image? = some image ∧
  (readSubImage env image_info scene ⟨afterMagic record, []⟩).rest? = some []

instance (env : Env) (image_info : ImageInfo) (scene : Nat) (record : List Nat)
    (image : Image) : Decidable (decodesTo env image_info scene record image) := by
  unfold decodesTo; infer_instance

/-- The image `redGreenStream` decodes to as scene `scene`. -/
def decodedRedGreen (scene : Nat) : Image :=
  { directImage 2 1 false redGreenRow with
    endian := EndianType.MSBEndian, scene := scene, indexes := [0, 0] }

/-- The reader state a pass ends in. -/
def Step.reader : Step → Reader
  | Step.thrown _ s => s
  | Step.destroyed _ s => s
  | Step.stop _ s => s
  | Step.next _ s => s

/-- A stream for concrete runs: the complete record `redGreenStream` followed
by a second record cut off one byte before the end of its pixel plane. -/
def truncatedPair : List Nat := redGreenStream ++ redGreenStream.take 1029

/-- A stream for concrete runs: only the header of a 2000x1 three-band 1-byte
frame, which declares a pixel plane of 6000 bytes. -/
def oversizedStream : List Nat := writeViffHeader (sampleHeader 2000 1 3 1 0)

/-- A stream for concrete runs: the record `redGreenStream` cut off one
byte before the end of its pixel plane (five of its six bytes). -/
def shortStream : List Nat :=
  writeViffHeader (sampleHeader 2 1 3 1 0) ++ [255, 0, 0, 255, 0]

/-- The header as it reads back from the 1024 bytes `writeViffHeader` emits:
byte fields reduced to eight bits, four-byte fields to 32 bits, the signed
offsets reinterpreted. -/
def wireHeader (w : ViffInfo) : ViffInfo :=
  { identifier := 0xab
    file_type := w.file_type % 256
    release := w.release % 256
    version := w.version % 256
    machine_dependency := w.machine_dependency % 256
    reserve := (List.range 3).map (fun i => w.reserve.getD i 0 % 256)
    comment := (List.range 512).map (fun i => w.comment.getD i 0 % 256)
    rows := w.rows % 2 ^ 32
    columns := w.columns % 2 ^ 32
    subrows := w.subrows % 2 ^ 32
    x_offset := signedLong (unsignedLong w.x_offset % 2 ^ 32)
    y_offset := signedLong (unsignedLong w.y_offset % 2 ^ 32)
    x_bits_per_pixel := w.x_bits_per_pixel % 2 ^ 32
    y_bits_per_pixel := w.y_bits_per_pixel % 2 ^ 32
    location_type := w.location_type % 2 ^ 32
    location_dimension := w.location_dimension % 2 ^ 32
    number_of_images := w.number_of_images % 2 ^ 32
    number_data_bands := w.number_data_bands % 2 ^ 32
    data_storage_type := w.data_storage_type % 2 ^ 32
    data_encode_scheme := w.data_encode_scheme % 2 ^ 32
    map_scheme := w.map_scheme % 2 ^ 32
    map_storage_type := w.map_storage_type % 2 ^ 32
    map_rows := w.map_rows % 2 ^ 32
    map_columns := w.map_columns % 2 ^ 32
    map_subrows := w.map_subrows % 2 ^ 32
    map_enable := w.map_enable % 2 ^ 32
    maps_per_cycle := w.maps_per_cycle % 2 ^ 32
    color_space_model := w.color_space_model % 2 ^ 32 }

/-- A 1x1 DirectClass image without alpha whose pixel nevertheless stores a
non-opaque opacity. -/
def hiddenAlphaImage : Image := directImage 1 1 false [⟨10, 20, 30, 255⟩]

/-! ## magick/quantum-export.c: further layout routines -/

/-- Modelled from the spec: `ThrowMagickException` (magick/exception.c is not
under src/) as the layout routines use it: the typed error is added to the
exceptions of the call and nothing else changes. -/
def ThrowMagickException (severity : ExceptionType) (tag : String) (s : Export) : Export :=
  { s with exception := s.exception ++ [⟨severity, tag⟩] }

/-- Modelled from the spec: `TransparentOpacity` (magick/image.h is not under
src/): alpha is `MAX - opacity`, so a fully transparent pixel has opacity
`QuantumRange`. -/
def TransparentOpacity (qd : Nat) : Nat := QuantumRange qd

/-- The cast `(ssize_t)` of a 64-bit unsigned value. -/
def toSsize (n : Nat) : Int :=
  if n % 2 ^ 64 < 2 ^ 63 then ((n % 2 ^ 64 : Nat) : Int)
  else ((n % 2 ^ 64 : Nat) : Int) - 2 ^ 64

/-- The value of `n - k` in `MagickSizeType` arithmetic (64 bits, wrapping). -/
def sizeSub (n k : Nat) : Nat := (n % 2 ^ 64 + 2 ^ 64 - k % 2 ^ 64) % 2 ^ 64

/-- A C `for` loop over a signed counter: while `cond x` holds, `body x` runs
and `x` becomes `next x`; the final counter is returned with the state.
`fuel` bounds the number of passes. -/
def forLoop {σ : Type} (cond : Int → Bool) (next : Int → Int) (body : Int → σ → σ) :
    Nat → Int → σ → Int × σ
  | 0, x, st => (x, st)
  | fuel + 1, x, st =>
    if cond x then forLoop cond next body fuel (next x) (body x st) else (x, st)

/-- The loop `for (x=0; x < (ssize_t) number_pixels; x++)` of the byte-aligned
branches: for pixel `x` the stores `stores x` run in order, then the pad is
skipped (`number_pixels` is taken below 2^63). -/
def eachPixel (number_pixels : Nat) (stores : Nat → List (Export → Export)) (s : Export) :
    Export :=
  (List.range number_pixels).foldl
    (fun st x => ((stores x).foldl (fun st1 f => f st1) st).skipPad) s

/-- A byte built by `*q|=(bit k) << (shift k)` for `k = 0 .. count-1` on a
cleared byte. -/
def orBits (count : Nat) (bit shift : Nat → Nat) : Nat :=
  (List.range count).foldl (fun byte k => (byte ||| (bit k <<< shift k)) % 256) 0

/-- The depth switch shared by the routines that scale every sample the same
way (Black, CMYK, CMYKA, CMYKO): depth 8, 16, 32 and 64 with their
floating-point variants, and the generic bit packer for every other depth.
`samples x` are the canonical samples of pixel `x` in emission order. -/
def exportScaled (qd : Nat) (fc : FloatCodec) (number_pixels : Nat)
    (samples : Nat → List Nat) (s : Export) : Export :=
  let depth := s.quantum_info.depth
  let each (pop : Nat → Export → Export) : Export :=
    eachPixel number_pixels (fun x => (samples x).map pop) s
  let generic : Export :=
    each (fun v st => PopQuantumPixel (ScaleQuantumToAny qd v (GetQuantumRange depth)) st)
  if depth = 8 then
    each (fun v st => PopCharPixel (ScaleQuantumToChar qd v) st)
  else if depth = 16 then
    if s.quantum_info.format = QuantumFormatType.FloatingPointQuantumFormat then
      each (fun v st => PopShortPixel st.quantum_info.endian (fc.SinglePrecisionToHalf v) st)
    else
      each (fun v st => PopShortPixel st.quantum_info.endian (ScaleQuantumToShort qd v) st)
  else if depth = 32 then
    if s.quantum_info.format = QuantumFormatType.FloatingPointQuantumFormat then
      each (fun v st => PopQuantumFloatPixel fc v st)
    else
      each (fun v st => PopLongPixel st.quantum_info.endian (ScaleQuantumToLong qd v) st)
  else if depth = 64 then
    if s.quantum_info.format = QuantumFormatType.FloatingPointQuantumFormat then
      each (fun v st => PopQuantumDoublePixel fc v st)
    else generic
  else generic

/-- Pixel `x` of a pixel queue (`p[x]`). -/
def pixelOf (p : List PixelPacket) (x : Nat) : PixelPacket := p.getD x ⟨0, 0, 0, 0⟩

/-- The function `ExportBlackQuantum`: the black channel (the index queue) of
a CMYK image; any other colorspace raises ColorSeparatedImageRequired and
returns. -/
def ExportBlackQuantum (qd : Nat) (fc : FloatCodec) (image : Image) (number_pixels : Nat)
    (_p : List PixelPacket) (indexes : List Nat) (s : Export) : Export :=
  if image.colorspace ≠ ColorspaceType.CMYKColorspace then
    ThrowMagickException ExceptionType.ImageError "ColorSeparatedImageRequired" s
  else exportScaled qd fc number_pixels (fun x => [indexes.getD x 0]) s

/-- The function `ExportCMYKQuantum`: red, green, blue and index (cyan,
magenta, yellow, black) of each pixel of a CMYK image. -/
def ExportCMYKQuantum (qd : Nat) (fc : FloatCodec) (image : Image) (number_pixels : Nat)
    (p : List PixelPacket) (indexes : List Nat) (s : Export) : Export :=
  if image.colorspace ≠ ColorspaceType.CMYKColorspace then
    ThrowMagickException ExceptionType.ImageError "ColorSeparatedImageRequired" s
  else
    exportScaled qd fc number_pixels (fun x =>
      [(pixelOf p x).red, (pixelOf p x).green, (pixelOf p x).blue, indexes.getD x 0]) s

/-- The function `ExportCMYKAQuantum`: as `ExportCMYKQuantum`, followed by
alpha. -/
def ExportCMYKAQuantum (qd : Nat) (fc : FloatCodec) (image : Image) (number_pixels : Nat)
    (p : List PixelPacket) (indexes : List Nat) (s : Export) : Export :=
  if image.colorspace ≠ ColorspaceType.CMYKColorspace then
    ThrowMagickException ExceptionType.ImageError "ColorSeparatedImageRequired" s
  else
    exportScaled qd fc number_pixels (fun x =>
      [(pixelOf p x).red, (pixelOf p x).green, (pixelOf p x).blue, indexes.getD x 0,
        GetPixelAlpha qd (pixelOf p x)]) s

/-- The function `ExportCMYKOQuantum`: as `ExportCMYKQuantum`, followed by
opacity. -/
def ExportCMYKOQuantum (qd : Nat) (fc : FloatCodec) (image : Image) (number_pixels : Nat)
    (p : List PixelPacket) (indexes : List Nat) (s : Export) : Export :=
  if image.colorspace ≠ ColorspaceType.CMYKColorspace then
    ThrowMagickException ExceptionType.ImageError "ColorSeparatedImageRequired" s
  else
    exportScaled qd fc number_pixels (fun x =>
      [(pixelOf p x).red, (pixelOf p x).green, (pixelOf p x).blue, indexes.getD x 0,
        (pixelOf p x).opacity]) s

/-- The low bit of an index as the depth-1 loops take it:
`(unsigned char) ((ssize_t) *indexes) & 0x01`. -/
def indexBit (index : Nat) : Nat := (index % 256) &&& 1

/-- The low nibble of an index as the depth-4 loops take it:
`(unsigned char) ((ssize_t) *indexes) & 0xf`. -/
def indexNibble (index : Nat) : Nat := (index % 256) &&& 0xf

/-- The depth-1 branch of `ExportIndexQuantum`: eight indexes per byte, the
first in bit 7, by the loop `for (x=number_pixels-7; x > 0; x-=8)`, then the
last `number_pixels % 8` indexes from bit 7 down into a cleared byte. -/
def ExportIndexQuantum.depth1 (number_pixels : Nat) (indexes : List Nat) (s : Export) :
    Export :=
  let full := forLoop (fun x => decide (x > 0)) (fun x => x - 8)
    (fun _ (st : List Nat × Export) =>
      (st.1.drop 8, st.2.put (orBits 8 (fun k => indexBit (st.1.getD k 0)) (fun k => 7 - k))))
    number_pixels (toSsize number_pixels - 7) (indexes, s)
  if number_pixels % 8 ≠ 0 then
    full.2.2.put (orBits (number_pixels % 8) (fun k => indexBit (full.2.1.getD k 0))
      (fun k => 7 - k))
  else full.2.2

/-- The depth-4 branch of `ExportIndexQuantum`: two indexes per byte, the
first in the high nibble, by the loop
`for (x=0; x < (ssize_t) (number_pixels-1); x+=2)`, then a last odd index in
the high nibble of a byte of its own. -/
def ExportIndexQuantum.depth4 (number_pixels : Nat) (indexes : List Nat) (s : Export) :
    Export :=
  let full := forLoop (fun x => decide (x < toSsize (sizeSub number_pixels 1)))
    (fun x => x + 2)
    (fun _ (st : List Nat × Export) =>
      (st.1.drop 2, st.2.put ((indexNibble (st.1.getD 0 0) <<< 4) |||
        (indexNibble (st.1.getD 1 0) <<< 0))))
    number_pixels 0 (indexes, s)
  if number_pixels % 2 ≠ 0 then full.2.2.put (indexNibble (full.2.1.getD 0 0) <<< 4)
  else full.2.2

/-- The function `ExportIndexQuantum`: the colormap indexes of a PseudoClass
image, unscaled; any other storage class raises ColormappedImageRequired and
returns. -/
def ExportIndexQuantum (fc : FloatCodec) (image : Image) (number_pixels : Nat)
    (_p : List PixelPacket) (indexes : List Nat) (s : Export) : Export :=
  let depth := s.quantum_info.depth
  let each (pop : Nat → Export → Export) : Export :=
    eachPixel number_pixels (fun x => [pop (indexes.getD x 0)]) s
  let generic : Export := each (fun v st => PopQuantumPixel v st)
  if image.storage_class ≠ ClassType.PseudoClass then
    ThrowMagickException ExceptionType.ImageError "ColormappedImageRequired" s
  else if depth = 1 then ExportIndexQuantum.depth1 number_pixels indexes s
  else if depth = 4 then ExportIndexQuantum.depth4 number_pixels indexes s
  else if depth = 8 then each (fun v st => PopCharPixel v st)
  else if depth = 16 then
    if s.quantum_info.format = QuantumFormatType.FloatingPointQuantumFormat then
      each (fun v st => PopShortPixel st.quantum_info.endian (fc.SinglePrecisionToHalf v) st)
    else each (fun v st => PopShortPixel st.quantum_info.endian (v % 2 ^ 16) st)
  else if depth = 32 then
    if s.quantum_info.format = QuantumFormatType.FloatingPointQuantumFormat then
      each (fun v st => PopQuantumFloatPixel fc v st)
    else each (fun v st => PopLongPixel st.quantum_info.endian (v % 2 ^ 32) st)
  else if depth = 64 then
    if s.quantum_info.format = QuantumFormatType.FloatingPointQuantumFormat then
      each (fun v st => PopQuantumDoublePixel fc v st)
    else generic
  else generic

/-- The transparency bit of the depth-1 branch of `ExportIndexAlphaQuantum`:
1 for a fully transparent pixel, 0 otherwise. -/
def transparentBit (qd : Nat) (p : PixelPacket) : Nat :=
  if p.opacity = TransparentOpacity qd then 1 else 0

/-- The depth-1 branch of `ExportIndexAlphaQuantum`: four pixels per byte by
the loop `for (x=number_pixels-3; x > 0; x-=4)`, each pixel giving its index
bit and then its transparency bit from bit 7 down; then, when
`number_pixels % 4` is not zero, a cleared byte filled by the loop
`for (bit=3; bit >= 4-(number_pixels % 4); bit-=2)`, which puts the index bit
at `bit+4` and the transparency bit at `bit+3`.  The state of the first loop
is the pixel queue, the index queue and the export state; that of the second
the two queues and the byte. -/
def ExportIndexAlphaQuantum.depth1 (qd : Nat) (number_pixels : Nat) (p : List PixelPacket)
    (indexes : List Nat) (s : Export) : Export :=
  let full := forLoop (fun x => decide (x > 0)) (fun x => x - 4)
    (fun _ (st : List PixelPacket × List Nat × Export) =>
      (st.1.drop 4, st.2.1.drop 4,
        st.2.2.put (orBits 8
          (fun k => if k % 2 = 0 then indexBit (st.2.1.getD (k / 2) 0)
            else transparentBit qd (pixelOf st.1 (k / 2)) &&& 1)
          (fun k => 7 - k))))
    number_pixels (toSsize number_pixels - 3) (p, indexes, s)
  if number_pixels % 4 ≠ 0 then
    let last := forLoop (fun bit => decide (bit ≥ toSsize (4 - number_pixels % 4)))
      (fun bit => bit - 2)
      (fun bit (st : List PixelPacket × List Nat × Nat) =>
        let byte1 := (st.2.2 ||| (indexBit (st.2.1.getD 0 0) <<< ((bit + 4).toNat % 256))) % 256
        let byte2 := (byte1 ||| ((transparentBit qd (pixelOf st.1 0) &&& 1) <<<
          ((bit + 4 - 1).toNat % 256))) % 256
        (st.1.drop 1, st.2.1.drop 1, byte2))
      2 3 (full.2.1, full.2.2.1, 0)
    full.2.2.2.put last.2.2.2
  else full.2.2.2

/-- The alpha nibble of the depth-4 branch of `ExportIndexAlphaQuantum`:
`(unsigned char) ((ssize_t) (16*QuantumScale*(QuantumRange-opacity)+0.5))`
masked with `0xf`. -/
def alphaNibble (qd : Nat) (p : PixelPacket) : Nat :=
  (roundDiv (16 * (QuantumRange qd - p.opacity)) (QuantumRange qd) % 256) &&& 0xf

/-- The depth-4 branch of `ExportIndexAlphaQuantum`: one byte per pixel, the
index in the high nibble and the alpha nibble in the low one; no pad. -/
def ExportIndexAlphaQuantum.depth4 (qd : Nat) (number_pixels : Nat) (p : List PixelPacket)
    (indexes : List Nat) (s : Export) : Export :=
  (List.range number_pixels).foldl (fun st x =>
    st.put ((indexNibble (indexes.getD x 0) <<< 4) ||| (alphaNibble qd (pixelOf p x) <<< 0))) s

/-- The function `ExportIndexAlphaQuantum`: for each pixel of a PseudoClass
image the colormap index, unscaled, and alpha, scaled; any other storage
class raises ColormappedImageRequired and returns. -/
def ExportIndexAlphaQuantum (qd : Nat) (fc : FloatCodec) (image : Image) (number_pixels : Nat)
    (p : List PixelPacket) (indexes : List Nat) (s : Export) : Export :=
  let depth := s.quantum_info.depth
  let each (index alpha : Nat → Export → Export) : Export :=
    eachPixel number_pixels (fun x =>
      [index (indexes.getD x 0), alpha (GetPixelAlpha qd (pixelOf p x))]) s
  let generic : Export :=
    each (fun v st => PopQuantumPixel v st)
      (fun v st => PopQuantumPixel (ScaleQuantumToAny qd v (GetQuantumRange depth)) st)
  if image.storage_class ≠ ClassType.PseudoClass then
    ThrowMagickException ExceptionType.ImageError "ColormappedImageRequired" s
  else if depth = 1 then ExportIndexAlphaQuantum.depth1 qd number_pixels p indexes s
  else if depth = 4 then ExportIndexAlphaQuantum.depth4 qd number_pixels p indexes s
  else if depth = 8 then
    each (fun v st => PopCharPixel v st) (fun v st => PopCharPixel (ScaleQuantumToChar qd v) st)
  else if depth = 16 then
    if s.quantum_info.format = QuantumFormatType.FloatingPointQuantumFormat then
      each (fun v st => PopShortPixel st.quantum_info.endian (v % 2 ^ 16) st)
        (fun v st => PopShortPixel st.quantum_info.endian (fc.SinglePrecisionToHalf v) st)
    else
      each (fun v st => PopShortPixel st.quantum_info.endian (v % 2 ^ 16) st)
        (fun v st => PopShortPixel st.quantum_info.endian (ScaleQuantumToShort qd v) st)
  else if depth = 32 then
    if s.quantum_info.format = QuantumFormatType.FloatingPointQuantumFormat then
      each (fun v st => PopQuantumFloatPixel fc v st) (fun v st => PopQuantumFloatPixel fc v st)
    else
      each (fun v st => PopLongPixel st.quantum_info.endian (v % 2 ^ 32) st)
        (fun v st => PopLongPixel st.quantum_info.endian (ScaleQuantumToLong qd v) st)
  else if depth = 64 then
    if s.quantum_info.format = QuantumFormatType.FloatingPointQuantumFormat then
      each (fun v st => PopQuantumDoublePixel fc v st)
        (fun v st => PopQuantumDoublePixel fc v st)
    else generic
  else generic

/-- What `ExportGrayQuantum` takes from outside the integer model:
`GetPixelLuma` (magick/pixel-accessor.h is not under src/), a real number, and
the bit patterns of a real as a half, a `float` and a `double`
(`SinglePrecisionToHalf (QuantumScale*luma)` and the bytes `quantum[0..]` of
`PopQuantumFloatPixel` and `PopQuantumDoublePixel`). -/
structure LumaCodec where
  GetPixelLuma : Image → PixelPacket → ℚ
  SinglePrecisionToHalf : ℚ → Nat
  floatBytes : QuantumInfo → ℚ → List Nat
  doubleBytes : QuantumInfo → ℚ → List Nat

/-- The function `PopQuantumFloatPixel` on a real-valued pixel. -/
def PopQuantumFloatPixel.real (lc : LumaCodec) (pixel : ℚ) (s : Export) : Export :=
  let quantum := lc.floatBytes s.quantum_info pixel
  if s.quantum_info.endian = EndianType.LSBEndian then
    s.putAll [quantum.getD 0 0, quantum.getD 1 0, quantum.getD 2 0, quantum.getD 3 0]
  else
    s.putAll [quantum.getD 3 0, quantum.getD 2 0, quantum.getD 1 0, quantum.getD 0 0]

/-- The function `PopQuantumDoublePixel` on a real-valued pixel. -/
def PopQuantumDoublePixel.real (lc : LumaCodec) (pixel : ℚ) (s : Export) : Export :=
  let quantum := lc.doubleBytes s.quantum_info pixel
  if s.quantum_info.endian = EndianType.LSBEndian then
    s.putAll [quantum.getD 0 0, quantum.getD 1 0, quantum.getD 2 0, quantum.getD 3 0,
      quantum.getD 4 0, quantum.getD 5 0, quantum.getD 6 0, quantum.getD 7 0]
  else
    s.putAll [quantum.getD 7 0, quantum.getD 6 0, quantum.getD 5 0, quantum.getD 4 0,
      quantum.getD 3 0, quantum.getD 2 0, quantum.getD 1 0, quantum.getD 0 0]

/-- The bit the depth-1 branches write for a pixel of luma `luma`:
`luma < QuantumRange/2.0 ? black : white`, where black is 0 and white 1
unless `min_is_white` exchanges them. -/
def grayBit (qd : Nat) (min_is_white : Bool) (luma : ℚ) : Nat :=
  let black := if min_is_white then 1 else 0
  let white := if min_is_white then 0 else 1
  if luma < (QuantumRange qd : ℚ) / 2 then black else white

/-- The depth-1 branch of `ExportGrayQuantum`: eight pixels per byte, the
first in bit 7, by the loop `for (x=number_pixels-7; x > 0; x-=8)`, then the
last `number_pixels % 8` pixels from bit 7 down into a cleared byte. -/
def ExportGrayQuantum.depth1 (qd : Nat) (lc : LumaCodec) (image : Image) (number_pixels : Nat)
    (p : List PixelPacket) (s : Export) : Export :=
  let bit (queue : List PixelPacket) (k : Nat) : Nat :=
    grayBit qd s.quantum_info.min_is_white (lc.GetPixelLuma image (pixelOf queue k))
  let full := forLoop (fun x => decide (x > 0)) (fun x => x - 8)
    (fun _ (st : List PixelPacket × Export) =>
      (st.1.drop 8, st.2.put (orBits 8 (bit st.1) (fun k => 7 - k))))
    number_pixels (toSsize number_pixels - 7) (p, s)
  if number_pixels % 8 ≠ 0 then
    full.2.2.put (orBits (number_pixels % 8) (bit full.2.1) (fun k => 7 - k))
  else full.2.2

/-- The 8-bit luma of a pixel, `ScaleQuantumToChar(ClampToQuantum(luma))`. -/
def lumaChar (qd : Nat) (lc : LumaCodec) (image : Image) (p : PixelPacket) : Nat :=
  ScaleQuantumToChar qd (ClampToQuantum qd (lc.GetPixelLuma image p))

/-- The depth-4 branch of `ExportGrayQuantum`: two pixels per byte, the high
nibble of the 8-bit luma of the first in the high nibble, by the loop
`for (x=0; x < (ssize_t) (number_pixels-1); x+=2)`, then a last odd pixel in
the high nibble of a byte of its own. -/
def ExportGrayQuantum.depth4 (qd : Nat) (lc : LumaCodec) (image : Image) (number_pixels : Nat)
    (p : List PixelPacket) (s : Export) : Export :=
  let high (px : PixelPacket) : Nat := (((lumaChar qd lc image px) >>> 4) &&& 0xf) <<< 4
  let full := forLoop (fun x => decide (x < toSsize (sizeSub number_pixels 1)))
    (fun x => x + 2)
    (fun _ (st : List PixelPacket × Export) =>
      (st.1.drop 2, st.2.put (high (pixelOf st.1 0) ||| (lumaChar qd lc image (pixelOf st.1 1) >>> 4))))
    number_pixels 0 (p, s)
  if number_pixels % 2 ≠ 0 then full.2.2.put (high (pixelOf full.2.1 0))
  else full.2.2

/-- The long-word mode of the depth-10 branch of `ExportGrayQuantum` (pack
flag off): three pixels per 32-bit word by the loop
`for (x=0; x < (ssize_t) (number_pixels-2); x+=3)`, the third pixel at shift
22, the second at 12 and the first at 2, each word followed by the pad; then,
when `x < number_pixels`, one more word, without pad, that takes `p[1]` at
shift 12 if `x < number_pixels-1` and `p[0]` at shift 2 if, after that
increment, `x < number_pixels`. -/
def ExportGrayQuantum.word10 (qd : Nat) (lc : LumaCodec) (image : Image) (number_pixels : Nat)
    (p : List PixelPacket) (s : Export) : Export :=
  let range := GetQuantumRange s.quantum_info.depth
  let luma (px : PixelPacket) : Nat :=
    ScaleQuantumToAny qd (ClampToQuantum qd (lc.GetPixelLuma image px)) range
  let full := forLoop (fun x => decide (x < toSsize (sizeSub number_pixels 2)))
    (fun x => x + 3)
    (fun _ (st : List PixelPacket × Export) =>
      (st.1.drop 3,
        (PopLongPixel st.2.quantum_info.endian
          (((luma (pixelOf st.1 2) <<< 22) ||| (luma (pixelOf st.1 1) <<< 12) |||
            (luma (pixelOf st.1 0) <<< 2)) % 2 ^ 32) st.2).skipPad))
    number_pixels 0 (p, s)
  let x := full.1
  if x < toSsize number_pixels then
    let pixel1 :=
      if x < toSsize (sizeSub number_pixels 1) then
        (0 ||| (luma (pixelOf full.2.1 1) <<< 12)) % 2 ^ 32
      else 0
    let pixel2 :=
      if x + 1 < toSsize number_pixels then
        (pixel1 ||| (luma (pixelOf full.2.1 0) <<< 2)) % 2 ^ 32
      else pixel1
    PopLongPixel full.2.2.quantum_info.endian pixel2 full.2.2
  else full.2.2

/-- The function `ExportGrayQuantum`: the luma of each pixel in the external
depth and format. -/
def ExportGrayQuantum (qd : Nat) (lc : LumaCodec) (image : Image) (number_pixels : Nat)
    (p : List PixelPacket) (s : Export) : Export :=
  let depth := s.quantum_info.depth
  let range := GetQuantumRange depth
  let each (pop : ℚ → Export → Export) : Export :=
    eachPixel number_pixels (fun x => [pop (lc.GetPixelLuma image (pixelOf p x))]) s
  let generic : Export :=
    each (fun v st => PopQuantumPixel (ScaleQuantumToAny qd (ClampToQuantum qd v) range) st)
  if depth = 1 then ExportGrayQuantum.depth1 qd lc image number_pixels p s
  else if depth = 4 then ExportGrayQuantum.depth4 qd lc image number_pixels p s
  else if depth = 8 then
    each (fun v st => PopCharPixel (ScaleQuantumToChar qd (ClampToQuantum qd v)) st)
  else if depth = 10 then
    if s.quantum_info.pack = false then ExportGrayQuantum.word10 qd lc image number_pixels p s
    else generic
  else if depth = 12 then
    if s.quantum_info.pack = false then
      each (fun v st => PopShortPixel st.quantum_info.endian
        ((ScaleQuantumToShort qd (ClampToQuantum qd v) >>> 4) % 2 ^ 16) st)
    else generic
  else if depth = 16 then
    if s.quantum_info.format = QuantumFormatType.FloatingPointQuantumFormat then
      each (fun v st => PopShortPixel st.quantum_info.endian (lc.SinglePrecisionToHalf v) st)
    else
      each (fun v st => PopShortPixel st.quantum_info.endian
        (ScaleQuantumToShort qd (ClampToQuantum qd v)) st)
  else if depth = 32 then
    if s.quantum_info.format = QuantumFormatType.FloatingPointQuantumFormat then
      each (fun v st => PopQuantumFloatPixel.real lc v st)
    else
      each (fun v st => PopLongPixel st.quantum_info.endian
        (ScaleQuantumToLong qd (ClampToQuantum qd v)) st)
  else if depth = 64 then
    if s.quantum_info.format = QuantumFormatType.FloatingPointQuantumFormat then
      each (fun v st => PopQuantumDoublePixel.real lc v st)
    else generic
  else generic

/-- The three samples `ExportRGBQuantum` emits for a pixel, in emission
order. -/
def rgbSamples (p : PixelPacket) : List Nat := [p.red, p.green, p.blue]

/-- The 32-bit word the long-word mode of the depth-10 branch of
`ExportRGBQuantum` forms for a pixel:
`(unsigned int) (red << 22 | green << 12 | blue << 2)`, each sample scaled to
`range`. -/
def ExportRGBQuantum.word10 (qd range : Nat) (p : PixelPacket) : Nat :=
  ((ScaleQuantumToAny qd p.red range <<< 22) ||| (ScaleQuantumToAny qd p.green range <<< 12) |||
    (ScaleQuantumToAny qd p.blue range <<< 2)) % 2 ^ 32

/-- The sample the depth-12 short-word loop of `ExportRGBQuantum` selects by
`x % 3` (red, green or blue of the current pixel, as `unsigned int`), and the
pixel queue after it: the queue advances past a pixel once its blue was
taken. -/
def ExportRGBQuantum.select12 (qd range : Nat) (x : Int) (p : List PixelPacket) :
    Nat × List PixelPacket :=
  if x % 3 = 1 then (ScaleQuantumToAny qd (pixelOf p 0).green range % 2 ^ 32, p)
  else if x % 3 = 2 then (ScaleQuantumToAny qd (pixelOf p 0).blue range % 2 ^ 32, p.drop 1)
  else (ScaleQuantumToAny qd (pixelOf p 0).red range % 2 ^ 32, p)

/-- The short-word mode of the depth-12 branch of `ExportRGBQuantum` (pack
flag off): the loop `for (x=0; x < (ssize_t) (3*number_pixels-1); x+=2)`
stores two samples per pass, each as the 16-bit value `pixel << 4`, and skips
the pad; the loop `for (bit=0; bit < (ssize_t) (3*number_pixels % 2); bit++)`
stores the odd sample left over. -/
def ExportRGBQuantum.short12 (qd : Nat) (number_pixels : Nat) (p : List PixelPacket)
    (s : Export) : Export :=
  let range := GetQuantumRange s.quantum_info.depth
  let store (x : Int) (st : List PixelPacket × Export) : List PixelPacket × Export :=
    let sel := ExportRGBQuantum.select12 qd range x st.1
    (sel.2, PopShortPixel st.2.quantum_info.endian ((sel.1 <<< 4) % 2 ^ 16) st.2)
  let full := forLoop
    (fun x => decide (x < toSsize (sizeSub ((3 * number_pixels) % 2 ^ 64) 1)))
    (fun x => x + 2)
    (fun x st =>
      let st2 := store (x + 1) (store x st)
      (st2.1, st2.2.skipPad))
    (3 * number_pixels) 0 (p, s)
  let last := forLoop
    (fun bit => decide (bit < toSsize (((3 * number_pixels) % 2 ^ 64) % 2)))
    (fun bit => bit + 1)
    (fun bit st =>
      let st1 := store (full.1 + bit) st
      (st1.1, st1.2.skipPad))
    1 0 full.2
  last.2.2

/-- The function `ExportRGBQuantum`: for each of the first `number_pixels`
pixels of `p`, red, green and blue in the external depth and format, followed
by the pad. -/
def ExportRGBQuantum (qd : Nat) (fc : FloatCodec) (number_pixels : Nat)
    (p : List PixelPacket) (s : Export) : Export :=
  let row := p.take number_pixels
  let depth := s.quantum_info.depth
  let range := GetQuantumRange depth
  let each (f : Nat → Export → Export) : Export :=
    row.foldl (fun st px => ((rgbSamples px).foldl (fun st1 v => f v st1) st).skipPad) s
  let generic : Export :=
    each (fun v st => PopQuantumPixel (ScaleQuantumToAny qd v range) st)
  let long : Export :=
    each (fun v st => PopQuantumLongPixel (ScaleQuantumToAny qd v range % 2 ^ 32) st)
  let packed : Export :=
    each (fun v st => PopQuantumPixel (ScaleQuantumToAny qd v range % 2 ^ 32) st)
  if depth = 8 then
    each (fun v st => PopCharPixel (ScaleQuantumToChar qd v) st)
  else if depth = 10 then
    if s.quantum_info.pack = false then
      row.foldl (fun st px =>
        (PopLongPixel st.quantum_info.endian (ExportRGBQuantum.word10 qd range px) st).skipPad) s
    else if s.quantum_info.quantum = 32 then long
    else packed
  else if depth = 12 then
    if s.quantum_info.pack = false then ExportRGBQuantum.short12 qd number_pixels p s
    else if s.quantum_info.quantum = 32 then long
    else packed
  else if depth = 16 then
    if s.quantum_info.format = QuantumFormatType.FloatingPointQuantumFormat then
      each (fun v st => PopShortPixel st.quantum_info.endian (fc.SinglePrecisionToHalf v) st)
    else
      each (fun v st => PopShortPixel st.quantum_info.endian (ScaleQuantumToShort qd v) st)
  else if depth = 32 then
    if s.quantum_info.format = QuantumFormatType.FloatingPointQuantumFormat then
      each (fun v st => PopQuantumFloatPixel fc v st)
    else
      each (fun v st => PopLongPixel st.quantum_info.endian (ScaleQuantumToLong qd v) st)
  else if depth = 64 then
    if s.quantum_info.format = QuantumFormatType.FloatingPointQuantumFormat then
      each (fun v st => PopQuantumDoublePixel fc v st)
    else generic
  else generic

/-- A 10-bit export configuration in long-word mode: depth 10, unsigned, pack
flag off, no pad. -/
def quantumInfo10 (endian : EndianType) : QuantumInfo :=
  { depth := 10, quantum := 32, format := QuantumFormatType.UnsignedQuantumFormat, pad := 0,
    min_is_white := false, pack := false, alpha_type := QuantumAlphaType.UndefinedQuantumAlpha,
    endian := endian, state := { pixel := 0, bits := 0 } }

/-- An export state at the start of an empty buffer. -/
def freshExport (quantum_info : QuantumInfo) : Export :=
  { quantum_info := quantum_info, pixels := fun _ => 0, q := 0, exception := [] }

/-- The routines of `r` with those embedded in this development put in place
of its parameters: Black, CMYK, CMYKA, CMYKO, Gray, Index, IndexAlpha and
RGB. -/
def codedRoutines (qd : Nat) (fc : FloatCodec) (lc : LumaCodec) (r : Routines) : Routines :=
  { r with
    ExportBlackQuantum := ExportBlackQuantum qd fc
    ExportCMYKQuantum := ExportCMYKQuantum qd fc
    ExportCMYKAQuantum := ExportCMYKAQuantum qd fc
    ExportCMYKOQuantum := ExportCMYKOQuantum qd fc
    ExportGrayQuantum := ExportGrayQuantum qd lc
    ExportIndexQuantum := ExportIndexQuantum fc
    ExportIndexAlphaQuantum := ExportIndexAlphaQuantum qd fc
    ExportRGBQuantum := ExportRGBQuantum qd fc }

/-- A luma codec for concrete runs: the luma of a pixel is its red sample and
the floating-point patterns are empty. -/
def redLuma : LumaCodec :=
  { GetPixelLuma := fun _ p => p.red, SinglePrecisionToHalf := fun _ => 0
    floatBytes := fun _ _ => [], doubleBytes := fun _ _ => [] }

/-- A PseudoClass image of the given size, palette and indexes, 8 bits deep,
with the given colorspace. -/
def paletteImage (columns rows : Nat) (colorspace : ColorspaceType)
    (colormap : List PixelPacket) (indexes : List Nat) : Image :=
  { columns := columns, rows := rows, depth := 8, matte := false,
    storage_class := ClassType.PseudoClass, colorspace := colorspace,
    colors := colormap.length, colormap := colormap, endian := EndianType.UndefinedEndian,
    scene := 0, comment := none,
    pixels := indexes.map (fun i => colormap.getD i ⟨0, 0, 0, 0⟩), indexes := indexes }

/-- Lines 1005-1006: the frame `WriteVIFFImage` encodes: the image itself, or
what `TransformImageColorspace` makes of it when its colorspace is not
sRGB-compatible. -/
def writerImage (env : Env) (image0 : Image) : Image :=
  if env.IssRGBCompatibleColorspace image0.colorspace = false then
    env.TransformImageColorspace image0
  else image0

/-- An environment for concrete runs in which `SetImageGray` finds every
image gray. -/
def grayEnv : Env := { plainEnv with SetImageGray := fun _ => true }

/-- A red and a blue palette entry. -/
def redBlueMap : List PixelPacket := [⟨255, 0, 0, 0⟩, ⟨0, 0, 255, 0⟩]

/-- Three gray palette entries: black, mid-gray and white. -/
def grayMap : List PixelPacket := [⟨0, 0, 0, 0⟩, ⟨128, 128, 128, 0⟩, ⟨255, 255, 255, 0⟩]

/-! ## magick/policy.c -/

/-- The option tables `ParseCommandOption` is called with in policy.c. -/
inductive CommandOption where
  | MagickPolicyDomainOptions
  | MagickPolicyRightsOptions
deriving DecidableEq, Repr

/-- Lines 70-95: `struct _PolicyInfo`, without the semaphore and the
signature.  A `char *` member is `none` when it is NULL; `domain` and `rights`
hold the value of the enumeration. -/
structure PolicyInfo where
  path : Option String
  domain : Nat
  rights : Nat
  name : Option String
  pattern : Option String
  value : Option String
  exempt : Bool
  stealth : Bool
  debug : Bool
deriving DecidableEq, Repr

/-- Lines 97-108: `struct _PolicyMapInfo`, an entry of the built-in table. -/
structure PolicyMapInfo where
  domain : Nat
  rights : Nat
  name : Option String
  pattern : Option String
  value : Option String
deriving DecidableEq, Repr

/-- What policy.c takes from files that are not under src/: the enumerators and
limits of the headers, the compile-time choice of a zero-configuration policy,
and the helpers of the string, token, option, configure, list and resource
components.  `GetNextToken q` gives the advanced position and the token;
`ParseCommandOption` gives its result as converted to the enumeration;
`AppendValueToLinkedList` and `InsertValueInLinkedList` tell whether the
list, at its current length, takes one more element;
`ResourceComponentGenesis` gives its status and the policy list it leaves
behind. -/
structure PolicyEnv where
  UndefinedPolicyDomain : Nat
  UndefinedPolicyRights : Nat
  ReadPolicyRights : Nat
  WritePolicyRights : Nat
  ExecutePolicyRights : Nat
  MagickPathExtent : Nat
  MagickMaxRecursionDepth : Nat
  DirectorySeparator : String
  ZeroConfigurationPolicy : Option (Option (List Char))
  GetConfigureOptions : String → List (Option (List Char) × String)
  AcquireMagickMemory : Bool
  GetNextToken : List Char → List Char × String
  CopyMagickString : String → Nat → String
  ConcatenateMagickString : String → String → Nat → String
  LocaleCompare : Option String → Option String → Int
  LocaleNCompare : List Char → String → Nat → Int
  isspace : Char → Bool
  ParseCommandOption : CommandOption → Bool → String → Nat
  IsMagickTrue : String → Bool
  GetPathComponent : String → String
  FileToXML : String → Option (List Char)
  GlobExpression : Option String → Option String → Bool → Bool
  AppendValueToLinkedList : Nat → Bool
  InsertValueInLinkedList : Nat → Bool
  ResourceComponentGenesis : List PolicyInfo → Bool × List PolicyInfo

/-- The static `policy_cache` (`none` while it is NULL) together with the
`ExceptionInfo` of the caller. -/
structure PolicyState where
  policy_cache : Option (List PolicyInfo)
  exception : List ExceptionInfo
deriving DecidableEq, Repr

/-- Line 65: `PolicyFilename`. -/
def PolicyFilename : String := "policy.xml"

/-- Lines 116-121: the built-in table `PolicyMap[]`. -/
def PolicyMap (env : PolicyEnv) : List PolicyMapInfo :=
  [⟨env.UndefinedPolicyDomain, env.UndefinedPolicyRights, none, none, none⟩]

/-- What `memset(policy_info,0,sizeof(*policy_info))` leaves in a policy. -/
def PolicyInfo.zero : PolicyInfo :=
  ⟨none, 0, 0, none, none, none, false, false, false⟩

/-- The character `*(s+i)` of a C string: past the end of the string it is the
terminating NUL. -/
def charAt (s : String) (i : Nat) : Char := s.data.getD i (Char.ofNat 0)

/-- Lines 437-455: `AcquirePolicyString`: a copy of the string, the empty
string for NULL. -/
def AcquirePolicyString (source : Option String) : String := source.getD ""

/-- The list primitive `AppendValueToLinkedList`: the value goes to the end of
the list when the list takes it. -/
def AppendValueToLinkedList (env : PolicyEnv) (cache : List PolicyInfo) (value : PolicyInfo) :
    Bool × List PolicyInfo :=
  if env.AppendValueToLinkedList cache.length then (true, cache ++ [value]) else (false, cache)

/-- The local variables of `LoadPolicyCache` that live across its loop, with
the list and the exceptions it works on. -/
structure PolicyLoad where
  q : List Char
  token : String
  keyword : String
  status : Bool
  policy_info : Option PolicyInfo
  cache : List PolicyInfo
  exception : List ExceptionInfo
deriving DecidableEq, Repr

/-- Lines 825-842: the inner loops that skip a DOCTYPE or a comment element:
tokens are read until the text at `q` starts with `stop` or ends.  `none` when
the fuel runs out. -/
def LoadPolicyCache.skip (env : PolicyEnv) (stop : String) : Nat → List Char → Option (List Char)
  | 0, _ => none
  | fuel + 1, q =>
    if env.LocaleNCompare q stop 2 ≠ 0 ∧ q ≠ [] then
      LoadPolicyCache.skip env stop fuel (env.GetNextToken q).1
    else some q

/-- Lines 863-871: the path of an included file. -/
def LoadPolicyCache.path (env : PolicyEnv) (filename token : String) : String :=
  let path := env.GetPathComponent filename
  let path := if charAt path 0 ≠ Char.ofNat 0 then
    env.ConcatenateMagickString path env.DirectorySeparator env.MagickPathExtent else path
  if charAt token 0 = charAt env.DirectorySeparator 0 then
    env.CopyMagickString token env.MagickPathExtent
  else env.ConcatenateMagickString path token env.MagickPathExtent

/-- Lines 922-988: the switch over the first character of the keyword, which
stores the value of one element member. -/
def LoadPolicyCache.assign (env : PolicyEnv) (keyword token : String) (policy_info : PolicyInfo) :
    PolicyInfo :=
  let c := charAt keyword 0
  if c = 'D' ∨ c = 'd' then
    if env.LocaleCompare (some keyword) (some "domain") = 0 then
      { policy_info with
        domain := env.ParseCommandOption CommandOption.MagickPolicyDomainOptions true token }
    else policy_info
  else if c = 'N' ∨ c = 'n' then
    if env.LocaleCompare (some keyword) (some "name") = 0 then
      { policy_info with name := some (AcquirePolicyString (some token)) }
    else policy_info
  else if c = 'P' ∨ c = 'p' then
    if env.LocaleCompare (some keyword) (some "pattern") = 0 then
      { policy_info with pattern := some (AcquirePolicyString (some token)) }
    else policy_info
  else if c = 'R' ∨ c = 'r' then
    if env.LocaleCompare (some keyword) (some "rights") = 0 then
      { policy_info with
        rights := env.ParseCommandOption CommandOption.MagickPolicyRightsOptions true token }
    else policy_info
  else if c = 'S' ∨ c = 's' then
    if env.LocaleCompare (some keyword) (some "stealth") = 0 then
      { policy_info with stealth := env.IsMagickTrue token }
    else policy_info
  else if c = 'V' ∨ c = 'v' then
    if env.LocaleCompare (some keyword) (some "value") = 0 then
      { policy_info with value := some (AcquirePolicyString (some token)) }
    else policy_info
  else policy_info

mutual

/-- Lines 790-993: `LoadPolicyCache(cache,xml,filename,depth,exception)`: the
status, the list and the exceptions it leaves; `none` when the fuel runs out
before the text is consumed. -/
def LoadPolicyCache (env : PolicyEnv) :
    Nat → List PolicyInfo → Option (List Char) → String → Nat → List ExceptionInfo →
    Option (Bool × List PolicyInfo × List ExceptionInfo)
  | 0, _, _, _, _, _ => none
  | fuel + 1, cache, xml, filename, depth, exception =>
    match xml with
    | none => some (false, cache, exception)
    | some text =>
      match LoadPolicyCache.loop env fuel filename depth
          ⟨text, "", "", true, none, cache, exception⟩ with
      | none => none
      | some s => some (s.status, s.cache, s.exception)

/-- Lines 818-990: the loop over the tokens of the text. -/
def LoadPolicyCache.loop (env : PolicyEnv) :
    Nat → String → Nat → PolicyLoad → Option PolicyLoad
  | 0, _, _, _ => none
  | fuel + 1, filename, depth, s0 =>
    if s0.q = [] then some s0 else
    let t := env.GetNextToken s0.q
    let s1 := { s0 with q := t.1, token := t.2 }
    if charAt s1.token 0 = Char.ofNat 0 then some s1 else
    let s := { s1 with keyword := env.CopyMagickString s1.token env.MagickPathExtent }
    if env.LocaleNCompare s.keyword.data "<!DOCTYPE" 9 = 0 then
      match LoadPolicyCache.skip env "]>" fuel s.q with
      | none => none
      | some q => LoadPolicyCache.loop env fuel filename depth { s with q := q }
    else if env.LocaleNCompare s.keyword.data "<!--" 4 = 0 then
      match LoadPolicyCache.skip env "->" fuel s.q with
      | none => none
      | some q => LoadPolicyCache.loop env fuel filename depth { s with q := q }
    else if env.LocaleCompare (some s.keyword) (some "<include") = 0 then
      match LoadPolicyCache.include env fuel filename depth s with
      | none => none
      | some s2 => LoadPolicyCache.loop env fuel filename depth s2
    else if env.LocaleCompare (some s.keyword) (some "<policy") = 0 then
      LoadPolicyCache.loop env fuel filename depth
        { s with policy_info := some { PolicyInfo.zero with
            path := some (AcquirePolicyString (some filename)), exempt := false } }
    else
      match s.policy_info with
      | none => LoadPolicyCache.loop env fuel filename depth s
      | some policy_info =>
        if env.LocaleCompare (some s.keyword) (some "/>") = 0 ∨
            env.LocaleCompare (some s.keyword) (some "</policy>") = 0 then
          let r := AppendValueToLinkedList env s.cache policy_info
          LoadPolicyCache.loop env fuel filename depth
            { s with
              status := r.1
              cache := r.2
              exception :=
                if r.1 = false then
                  s.exception ++ [⟨ExceptionType.ResourceLimitError, "MemoryAllocationFailed"⟩]
                else s.exception
              policy_info := none }
        else
          let peek := (env.GetNextToken s.q).2
          if charAt peek 0 ≠ '=' then
            LoadPolicyCache.loop env fuel filename depth { s with token := peek }
          else
            let t1 := env.GetNextToken s.q
            let t2 := env.GetNextToken t1.1
            LoadPolicyCache.loop env fuel filename depth
              { s with
                q := t2.1
                token := t2.2
                policy_info := some (LoadPolicyCache.assign env s.keyword t2.2 policy_info) }

/-- Lines 844-885: the loop over the members of an include element. -/
def LoadPolicyCache.include (env : PolicyEnv) :
    Nat → String → Nat → PolicyLoad → Option PolicyLoad
  | 0, _, _, _ => none
  | fuel + 1, filename, depth, s0 =>
    if (charAt s0.token 0 ≠ '/' ∧ charAt s0.token 1 ≠ '>') ∧ s0.q ≠ [] then
      let t := env.GetNextToken s0.q
      let s := { s0 with
        keyword := env.CopyMagickString s0.token env.MagickPathExtent, q := t.1, token := t.2 }
      if charAt s.token 0 ≠ '=' then LoadPolicyCache.include env fuel filename depth s
      else
        let t1 := env.GetNextToken s.q
        let s1 := { s with q := t1.1, token := t1.2 }
        if env.LocaleCompare (some s1.keyword) (some "file") = 0 then
          if depth > env.MagickMaxRecursionDepth then
            LoadPolicyCache.include env fuel filename depth
              { s1 with exception := s1.exception ++
                  [⟨ExceptionType.ConfigureError, "IncludeElementNestedTooDeeply"⟩] }
          else
            match env.FileToXML (LoadPolicyCache.path env filename s1.token) with
            | none => LoadPolicyCache.include env fuel filename depth s1
            | some xml =>
              match LoadPolicyCache env fuel s1.cache (some xml)
                  (LoadPolicyCache.path env filename s1.token) ((depth + 1) % 2 ^ 64)
                  s1.exception with
              | none => none
              | some r =>
                LoadPolicyCache.include env fuel filename depth
                  { s1 with status := s1.status && r.1, cache := r.2.1, exception := r.2.2 }
        else LoadPolicyCache.include env fuel filename depth s1
    else some s0

end

/-- Lines 187-202: the loading of the external policy maps: the
zero-configuration policy when the library is built with one, and otherwise
every `policy.xml` the configure component finds, in turn. -/
def AcquirePolicyCache.external (env : PolicyEnv) (fuel : Nat) (filename : String)
    (exception : List ExceptionInfo) : Option (Bool × List PolicyInfo × List ExceptionInfo) :=
  match env.ZeroConfigurationPolicy with
  | some xml => LoadPolicyCache env fuel [] xml "[zero-configuration]" 0 exception
  | none =>
    (env.GetConfigureOptions filename).foldl
      (fun acc option =>
        match acc with
        | none => none
        | some a =>
          match LoadPolicyCache env fuel a.2.1 option.1 option.2 0 a.2.2 with
          | none => none
          | some r => some (a.1 && r.1, r.2.1, r.2.2))
      (some (true, [], exception))

/-- Lines 204-236: the loading of the built-in table: every entry is appended
to the list as an exempt policy of path `[built-in]`. -/
def AcquirePolicyCache.builtIn (env : PolicyEnv) (a : Bool × List PolicyInfo × List ExceptionInfo)
    (p : PolicyMapInfo) : Bool × List PolicyInfo × List ExceptionInfo :=
  if env.AcquireMagickMemory = false then
    (a.1, a.2.1, a.2.2 ++ [⟨ExceptionType.ResourceLimitError, "MemoryAllocationFailed"⟩])
  else
    let policy_info : PolicyInfo :=
      { PolicyInfo.zero with
        path := some "[built-in]", domain := p.domain, rights := p.rights, name := p.name,
        pattern := p.pattern, value := p.value, exempt := true }
    let r := AppendValueToLinkedList env a.2.1 policy_info
    let status := a.1 && r.1
    (status, r.2,
      if status = false then
        a.2.2 ++ [⟨ExceptionType.ResourceLimitError, "MemoryAllocationFailed"⟩]
      else a.2.2)

/-- Lines 165-238: `AcquirePolicyCache(filename,exception)`: the new list and
the exceptions. -/
def AcquirePolicyCache (env : PolicyEnv) (fuel : Nat) (filename : String)
    (exception : List ExceptionInfo) : Option (List PolicyInfo × List ExceptionInfo) :=
  match AcquirePolicyCache.external env fuel filename exception with
  | none => none
  | some a =>
    let r := (PolicyMap env).foldl (AcquirePolicyCache.builtIn env) a
    some (r.2.1, r.2.2)

/-- Lines 574-587: `IsPolicyCacheInstantiated(exception)`: the list is acquired
when it is still NULL. -/
def IsPolicyCacheInstantiated (env : PolicyEnv) (fuel : Nat) (st : PolicyState) :
    Option (Bool × PolicyState) :=
  match st.policy_cache with
  | some _ => some (true, st)
  | none =>
    match AcquirePolicyCache env fuel PolicyFilename st.exception with
    | none => none
    | some r => some (true, ⟨some r.1, r.2⟩)
/-- Lines 281-293: the policy name is split at its first colon: the text before
it names the domain, the text after it is the name searched for. -/
def GetPolicyInfo.domain (env : PolicyEnv) (policyname : List Char) : Nat × String :=
  if ':' ∈ policyname then
    (env.ParseCommandOption CommandOption.MagickPolicyDomainOptions true
        (String.mk (policyname.takeWhile (fun c => decide (c ≠ ':')))),
      env.CopyMagickString (String.mk ((policyname.dropWhile (fun c => decide (c ≠ ':'))).drop 1))
        env.MagickPathExtent)
  else (env.UndefinedPolicyDomain, String.mk policyname)

/-- Lines 267-279: the copy of the name with its white space removed. -/
def GetPolicyInfo.policyname (env : PolicyEnv) (name : Option String) : List Char :=
  match name with
  | none => []
  | some n => (env.CopyMagickString n env.MagickPathExtent).data.filter
      (fun c => !env.isspace c)

/-- Lines 305-311: the test a policy of the list has to pass to be the one
looked up. -/
def GetPolicyInfo.found (env : PolicyEnv) (name : Option String) (p : PolicyInfo) : Bool :=
  decide (((GetPolicyInfo.domain env (GetPolicyInfo.policyname env name)).1 =
        env.UndefinedPolicyDomain ∨
      p.domain = (GetPolicyInfo.domain env (GetPolicyInfo.policyname env name)).1) ∧
    env.LocaleCompare (some (GetPolicyInfo.domain env (GetPolicyInfo.policyname env name)).2)
      p.name = 0)

/-- Lines 312-314: the found policy is removed from the list and inserted at
its front (it is lost when the list does not take it back). -/
def GetPolicyInfo.promote (env : PolicyEnv) (cache : List PolicyInfo) (i : Nat)
    (p : PolicyInfo) : List PolicyInfo :=
  if env.InsertValueInLinkedList (cache.eraseIdx i).length then p :: cache.eraseIdx i
  else cache.eraseIdx i

/-- Lines 250-317: `GetPolicyInfo(name,exception)`: the policy found, if any,
and the state it leaves.  For NULL and for `*` it is the first policy of the
list. -/
def GetPolicyInfo (env : PolicyEnv) (fuel : Nat) (name : Option String) (st : PolicyState) :
    Option (Option PolicyInfo × PolicyState) :=
  match IsPolicyCacheInstantiated env fuel st with
  | none => none
  | some r =>
    if r.1 = false then some (none, r.2)
    else
      match r.2.policy_cache with
      | none => some (none, r.2)
      | some cache =>
        if name = none ∨ env.LocaleCompare name (some "*") = 0 then some (cache.head?, r.2)
        else
          match cache.findIdx? (GetPolicyInfo.found env name) with
          | none => some (none, r.2)
          | some i =>
            match cache.get? i with
            | none => some (none, r.2)
            | some p =>
              some (some p, { r.2 with policy_cache := some (GetPolicyInfo.promote env cache i p) })

/-- Lines 526-549: `GetPolicyValue(name)`: the value of the named policy, NULL
when there is no such policy or its value is empty.  The exception it works
with is its own. -/
def GetPolicyValue (env : PolicyEnv) (fuel : Nat) (name : String) (st : PolicyState) :
    Option (Option String × PolicyState) :=
  match GetPolicyInfo env fuel (some name) { st with exception := [] } with
  | none => none
  | some r =>
    let st1 : PolicyState := { r.2 with exception := st.exception }
    match r.1 with
    | none => some (none, st1)
    | some policy_info =>
      match policy_info.value with
      | none => some (none, st1)
      | some value => if charAt value 0 = Char.ofNat 0 then some (none, st1) else some (some value, st1)

/-- Lines 647-661: what one policy of the list does to `authorized`. -/
def IsRightsAuthorized.step (env : PolicyEnv) (domain rights : Nat) (pattern : Option String)
    (authorized : Bool) (p : PolicyInfo) : Bool :=
  if p.domain = domain ∧ env.GlobExpression pattern p.pattern false ≠ false then
    let a1 := if rights &&& env.ReadPolicyRights ≠ 0 then
      decide (p.rights &&& env.ReadPolicyRights ≠ 0) else authorized
    let a2 := if rights &&& env.WritePolicyRights ≠ 0 then
      decide (p.rights &&& env.WritePolicyRights ≠ 0) else a1
    if rights &&& env.ExecutePolicyRights ≠ 0 then
      decide (p.rights &&& env.ExecutePolicyRights ≠ 0) else a2
  else authorized

/-- Lines 617-665: `IsRightsAuthorized(domain,rights,pattern)`: the answer and
the state it leaves.  The exception it works with is its own. -/
def IsRightsAuthorized (env : PolicyEnv) (fuel : Nat) (domain rights : Nat)
    (pattern : Option String) (st : PolicyState) : Option (Bool × PolicyState) :=
  match GetPolicyInfo env fuel (some "*") { st with exception := [] } with
  | none => none
  | some r =>
    let st1 : PolicyState := { r.2 with exception := st.exception }
    match r.1 with
    | none => some (true, st1)
    | some _ =>
      some ((st1.policy_cache.getD []).foldl (IsRightsAuthorized.step env domain rights pattern)
        true, st1)

/-- Lines 1119-1122: the policy is loaded into the list, and the resource
component is started again when it parsed. -/
def SetMagickSecurityPolicy.load (env : PolicyEnv) (fuel : Nat) (policy : Option (List Char))
    (cache : List PolicyInfo) (exception : List ExceptionInfo) : Option (Bool × PolicyState) :=
  match LoadPolicyCache env fuel cache policy "[user-policy]" 0 exception with
  | none => none
  | some r =>
    if r.1 = false then some (false, ⟨some r.2.1, r.2.2⟩)
    else
      some ((env.ResourceComponentGenesis r.2.1).1,
        ⟨some (env.ResourceComponentGenesis r.2.1).2, r.2.2⟩)

/-- Lines 1096-1123: `SetMagickSecurityPolicy(policy,exception)`: the status
and the state it leaves. -/
def SetMagickSecurityPolicy (env : PolicyEnv) (fuel : Nat) (policy : Option (List Char))
    (st : PolicyState) : Option (Bool × PolicyState) :=
  match policy with
  | none => some (false, st)
  | some _ =>
    match IsPolicyCacheInstantiated env fuel st with
    | none => none
    | some r =>
      if r.1 = false then some (false, r.2)
      else
        match r.2.policy_cache with
        | none => some (false, r.2)
        | some cache =>
          match cache.head? with
          | some p =>
            if p.domain ≠ env.UndefinedPolicyDomain then some (false, r.2)
            else SetMagickSecurityPolicy.load env fuel policy cache r.2.exception
          | none => SetMagickSecurityPolicy.load env fuel policy cache r.2.exception
/-! ### An environment for concrete runs of policy.c -/

/-- The C-locale `isspace`, for the concrete runs. -/
def plainIsspace (c : Char) : Bool :=
  c = ' ' || c = Char.ofNat 9 || c = Char.ofNat 10 || c = Char.ofNat 11 || c = Char.ofNat 12 ||
    c = Char.ofNat 13

/-- The C-locale `tolower`, for the concrete runs. -/
def plainLower (c : Char) : Char :=
  if 65 ≤ c.toNat ∧ c.toNat ≤ 90 then Char.ofNat (c.toNat + 32) else c

/-- A case-insensitive comparison for the concrete runs: 0 when the strings
agree up to case; NULL agrees with NULL only. -/
def plainLocaleCompare : Option String → Option String → Int
  | none, none => 0
  | none, some _ => -1
  | some _, none => 1
  | some p, some q => if p.data.map plainLower = q.data.map plainLower then 0 else 1

/-- A case-insensitive comparison of the first `n` characters, for the
concrete runs. -/
def plainLocaleNCompare (p : List Char) (q : String) (n : Nat) : Int :=
  if (p.take n).map plainLower = (q.data.take n).map plainLower then 0 else 1

/-- The text with its leading white space removed. -/
def plainToken.space : List Char → List Char
  | [] => []
  | c :: cs => if plainIsspace c then plainToken.space cs else c :: cs

/-- The characters up to the closing quote, and the text after it. -/
def plainToken.quoted (escape : Char) : List Char → List Char × List Char
  | [] => ([], [])
  | c :: cs =>
    if c = escape then ([], cs)
    else (c :: (plainToken.quoted escape cs).1, (plainToken.quoted escape cs).2)

/-- A run of characters that ends before white space, before `=`, before a
later `<`, or with `>`; and the text after it. -/
def plainToken.word (first : Bool) : List Char → List Char × List Char
  | [] => ([], [])
  | c :: cs =>
    if plainIsspace c ∨ c = '=' then ([], c :: cs)
    else if first = false ∧ c = '<' then ([], c :: cs)
    else if c = '>' then ([c], cs)
    else (c :: (plainToken.word false cs).1, (plainToken.word false cs).2)

/-- A tokeniser for the concrete runs: it skips white space, then gives a
quoted string without its quotes, `/>`, a single punctuation character, or a
word, and skips the white space after it. -/
def plainGetNextToken (q : List Char) : List Char × String :=
  match plainToken.space q with
  | [] => ([], "")
  | c :: cs =>
    if c = Char.ofNat 34 then
      (plainToken.space (plainToken.quoted c cs).2, String.mk (plainToken.quoted c cs).1)
    else if c = '/' then
      match cs with
      | [] => ([], String.mk [c])
      | d :: ds =>
        if d = '>' ∨ d = '/' then (plainToken.space ds, String.mk [c, d])
        else (plainToken.space cs, String.mk [c])
    else if c.isAlpha = false ∧ c ≠ '<' ∧ c ≠ '#' then (plainToken.space cs, String.mk [c])
    else
      (plainToken.space (plainToken.word true (c :: cs)).2,
        String.mk (plainToken.word true (c :: cs)).1)

/-- The option parser of the concrete runs: the policy domains in the order of
their enumeration, the rights as bits; an unknown option gives the all-ones
value that the conversion of -1 leaves. -/
def plainParseCommandOption (table : CommandOption) (_list : Bool) (token : String) : Nat :=
  match table with
  | CommandOption.MagickPolicyDomainOptions =>
    if plainLocaleCompare (some token) (some "coder") = 0 then 1
    else if plainLocaleCompare (some token) (some "delegate") = 0 then 2
    else if plainLocaleCompare (some token) (some "filter") = 0 then 3
    else if plainLocaleCompare (some token) (some "path") = 0 then 4
    else if plainLocaleCompare (some token) (some "resource") = 0 then 5
    else if plainLocaleCompare (some token) (some "system") = 0 then 6
    else 2 ^ 32 - 1
  | CommandOption.MagickPolicyRightsOptions =>
    if plainLocaleCompare (some token) (some "none") = 0 then 0
    else if plainLocaleCompare (some token) (some "read") = 0 then 1
    else if plainLocaleCompare (some token) (some "write") = 0 then 2
    else if plainLocaleCompare (some token) (some "read|write") = 0 then 3
    else if plainLocaleCompare (some token) (some "execute") = 0 then 4
    else 2 ^ 32 - 1

/-- The pattern matcher of the concrete runs: the pattern `*` matches
everything, any other pattern matches itself up to case. -/
def plainGlobExpression (expression pattern : Option String) (_case_insensitive : Bool) : Bool :=
  match pattern with
  | none => false
  | some p => p = "*" || decide (plainLocaleCompare expression (some p) = 0)

/-- The environment of the concrete runs, before the resource component is
attached: no zero-configuration policy, no `policy.xml` found, no include
file, memory for everything. -/
def bareEnv : PolicyEnv where
  UndefinedPolicyDomain := 0
  UndefinedPolicyRights := 0
  ReadPolicyRights := 1
  WritePolicyRights := 2
  ExecutePolicyRights := 4
  MagickPathExtent := 4096
  MagickMaxRecursionDepth := 600
  DirectorySeparator := "/"
  ZeroConfigurationPolicy := none
  GetConfigureOptions := fun _ => []
  AcquireMagickMemory := true
  GetNextToken := plainGetNextToken
  CopyMagickString := fun source length => String.mk (source.data.take (length - 1))
  ConcatenateMagickString := fun destination source length =>
    String.mk ((destination.data ++ source.data).take (length - 1))
  LocaleCompare := plainLocaleCompare
  LocaleNCompare := plainLocaleNCompare
  isspace := plainIsspace
  ParseCommandOption := plainParseCommandOption
  IsMagickTrue := fun token => decide (plainLocaleCompare (some token) (some "true") = 0)
  GetPathComponent := fun _ => ""
  FileToXML := fun _ => none
  GlobExpression := plainGlobExpression
  AppendValueToLinkedList := fun _ => true
  InsertValueInLinkedList := fun _ => true
  ResourceComponentGenesis := fun cache => (true, cache)

/-- The names the resource component of the concrete runs looks up. -/
def resourceNames : List String :=
  ["resource:width", "resource:height", "resource:area", "resource:memory", "resource:map",
    "resource:disk", "resource:file", "resource:thread", "resource:throttle", "resource:time"]

/-- The environment of the concrete runs: `ResourceComponentGenesis` looks
every resource limit up by name through `GetPolicyValue` and succeeds. -/
def policyEnv : PolicyEnv :=
  { bareEnv with
    ResourceComponentGenesis := fun cache =>
      (true,
        (resourceNames.foldl
          (fun st name =>
            match GetPolicyValue bareEnv 0 name st with
            | none => st
            | some r => r.2)
          (⟨some cache, []⟩ : PolicyState)).policy_cache.getD cache) }

/-- A security policy of one element, which forbids the PS coder. -/
def coderPolicy : List Char :=
  "<policymap> <policy domain=\"coder\" rights=\"none\" pattern=\"PS\" /> </policymap>".data

/-- The built-in policy as `AcquirePolicyCache` stores it in the concrete
runs. -/
def builtInPolicy : PolicyInfo :=
  { PolicyInfo.zero with path := some "[built-in]", exempt := true }

/-- The policy that `coderPolicy` holds, as `LoadPolicyCache` stores it. -/
def psPolicy : PolicyInfo :=
  { PolicyInfo.zero with path := some "[user-policy]", domain := 1, pattern := some "PS" }

/-- A policy of the coder domain that grants the PNG coder the write right
only. -/
def writeOnlyPolicy : PolicyInfo :=
  { PolicyInfo.zero with
    path := some "policy.xml", domain := 1, rights := 2, pattern := some "PNG" }
/-- The policy file of the concrete run of `IsRightsAuthorized`: one policy,
which grants the PNG coder the write right only. -/
def writeOnlyXml : List Char :=
  "<policymap> <policy domain=\"coder\" rights=\"write\" pattern=\"PNG\" /> </policymap>".data

/-- The environment of the concrete runs with `writeOnlyXml` found as
`policy.xml`. -/
def writeOnlyEnv : PolicyEnv :=
  { policyEnv with GetConfigureOptions := fun filename => [(some writeOnlyXml, filename)] }

/-- The last policy of the list that matches the domain and the pattern, if
there is one. -/
def IsRightsAuthorized.deciding (env : PolicyEnv) (domain : Nat) (pattern : Option String)
    (cache : List PolicyInfo) : Option PolicyInfo :=
  (cache.filter (fun p =>
    decide (p.domain = domain ∧ env.GlobExpression pattern p.pattern false ≠ false))).getLast?

/-! ## magick/quantum-export.c: the GrayAlpha layout -/

/-- The gray bit of the depth-1 branch of `ExportGrayAlphaQuantum`:
`luma > QuantumRange/2.0 ? black : white`, where black is 0 and white 1
unless `min_is_white` exchanges them. -/
def grayAlphaBit (qd : Nat) (min_is_white : Bool) (luma : ℚ) : Nat :=
  let black := if min_is_white then 1 else 0
  let white := if min_is_white then 0 else 1
  if luma > (QuantumRange qd : ℚ) / 2 then black else white

/-- The alpha bit of the depth-1 branch of `ExportGrayAlphaQuantum`:
`pixel=(opacity == OpaqueOpacity ? 0x00 : 0x01)` and then
`(pixel != 0 ? 0x00 : 0x01)`: 1 for an opaque pixel, 0 otherwise. -/
def opaqueBit (p : PixelPacket) : Nat :=
  let pixel := if p.opacity = OpaqueOpacity then 0 else 1
  if pixel ≠ 0 then 0 else 1

/-- The depth-1 branch of `ExportGrayAlphaQuantum`: four pixels per byte by
the loop `for (x=number_pixels-3; x > 0; x-=4)`, each pixel giving its gray
bit and then its alpha bit from bit 7 down; then, when `number_pixels % 4` is
not zero, a cleared byte filled by the loop
`for (bit=0; bit <= (ssize_t) (number_pixels % 4); bit+=2)`, which puts the
gray bit at `7-bit` and the alpha bit at `7-bit-1`.  The state of the first
loop is the pixel queue and the export state; that of the second the queue
and the byte. -/
def ExportGrayAlphaQuantum.depth1 (qd : Nat) (lc : LumaCodec) (image : Image)
    (number_pixels : Nat) (p : List PixelPacket) (s : Export) : Export :=
  let gray (px : PixelPacket) : Nat :=
    grayAlphaBit qd s.quantum_info.min_is_white (lc.GetPixelLuma image px)
  let full := forLoop (fun x => decide (x > 0)) (fun x => x - 4)
    (fun _ (st : List PixelPacket × Export) =>
      (st.1.drop 4,
        st.2.put (orBits 8
          (fun k => if k % 2 = 0 then gray (pixelOf st.1 (k / 2))
            else opaqueBit (pixelOf st.1 (k / 2)))
          (fun k => 7 - k))))
    number_pixels (toSsize number_pixels - 3) (p, s)
  if number_pixels % 4 ≠ 0 then
    let last := forLoop (fun bit => decide (bit ≤ toSsize (number_pixels % 4)))
      (fun bit => bit + 2)
      (fun bit (st : List PixelPacket × Nat) =>
        let byte1 := (st.2 ||| (gray (pixelOf st.1 0) <<< (7 - bit).toNat)) % 256
        let byte2 := (byte1 ||| (opaqueBit (pixelOf st.1 0) <<< ((7 - bit - 1).toNat % 256))) % 256
        (st.1.drop 1, byte2))
      3 0 (full.2.1, 0)
    full.2.2.put last.2.2
  else full.2.2

/-- The depth-4 branch of `ExportGrayAlphaQuantum`: one byte per pixel, the
high nibble of the 8-bit luma in the high nibble and the alpha nibble in the
low one; no pad. -/
def ExportGrayAlphaQuantum.depth4 (qd : Nat) (lc : LumaCodec) (image : Image)
    (number_pixels : Nat) (p : List PixelPacket) (s : Export) : Export :=
  (List.range number_pixels).foldl (fun st x =>
    st.put (((((lumaChar qd lc image (pixelOf p x)) >>> 4) &&& 0xf) <<< 4) |||
      alphaNibble qd (pixelOf p x))) s

/-- The function `ExportGrayAlphaQuantum`: for each pixel its luma and its
alpha in the external depth and format. -/
def ExportGrayAlphaQuantum (qd : Nat) (fc : FloatCodec) (lc : LumaCodec) (image : Image)
    (number_pixels : Nat) (p : List PixelPacket) (s : Export) : Export :=
  let depth := s.quantum_info.depth
  let range := GetQuantumRange depth
  let each (gray : ℚ → Export → Export) (alpha : Nat → Export → Export) : Export :=
    eachPixel number_pixels (fun x =>
      [gray (lc.GetPixelLuma image (pixelOf p x)), alpha (GetPixelAlpha qd (pixelOf p x))]) s
  let generic : Export :=
    each (fun v st => PopQuantumPixel (ScaleQuantumToAny qd (ClampToQuantum qd v) range) st)
      (fun v st => PopQuantumPixel (ScaleQuantumToAny qd v range) st)
  if depth = 1 then ExportGrayAlphaQuantum.depth1 qd lc image number_pixels p s
  else if depth = 4 then ExportGrayAlphaQuantum.depth4 qd lc image number_pixels p s
  else if depth = 8 then
    each (fun v st => PopCharPixel (ScaleQuantumToChar qd (ClampToQuantum qd v)) st)
      (fun v st => PopCharPixel (ScaleQuantumToChar qd v) st)
  else if depth = 16 then
    if s.quantum_info.format = QuantumFormatType.FloatingPointQuantumFormat then
      each (fun v st => PopShortPixel st.quantum_info.endian (lc.SinglePrecisionToHalf v) st)
        (fun v st => PopShortPixel st.quantum_info.endian (fc.SinglePrecisionToHalf v) st)
    else
      each (fun v st => PopShortPixel st.quantum_info.endian
          (ScaleQuantumToShort qd (ClampToQuantum qd v)) st)
        (fun v st => PopShortPixel st.quantum_info.endian (ScaleQuantumToShort qd v) st)
  else if depth = 32 then
    if s.quantum_info.format = QuantumFormatType.FloatingPointQuantumFormat then
      each (fun v st => PopQuantumFloatPixel.real lc v st)
        (fun v st => PopQuantumFloatPixel fc v st)
    else
      each (fun v st => PopLongPixel st.quantum_info.endian
          (ScaleQuantumToLong qd (ClampToQuantum qd v)) st)
        (fun v st => PopLongPixel st.quantum_info.endian (ScaleQuantumToLong qd v) st)
  else if depth = 64 then
    if s.quantum_info.format = QuantumFormatType.FloatingPointQuantumFormat then
      each (fun v st => PopQuantumDoublePixel.real lc v st)
        (fun v st => PopQuantumDoublePixel fc v st)
    else generic
  else generic

/-- The routines of `r` with every layout routine embedded in this development
put in place of its parameter: those of `codedRoutines` and GrayAlpha. -/
def layoutRoutines (qd : Nat) (fc : FloatCodec) (lc : LumaCodec) (r : Routines) : Routines :=
  { codedRoutines qd fc lc r with ExportGrayAlphaQuantum := ExportGrayAlphaQuantum qd fc lc }

/-- An export configuration for concrete runs: the given depth, unsigned
samples, no pad, MSB endian, with the given pack flag and a 32-bit quantum. -/
def quantumInfoOf (depth : Nat) (pack : Bool) : QuantumInfo :=
  { depth := depth, quantum := 32, format := QuantumFormatType.UnsignedQuantumFormat, pad := 0,
    min_is_white := false, pack := pack, alpha_type := QuantumAlphaType.UndefinedQuantumAlpha,
    endian := EndianType.MSBEndian, state := { pixel := 0, bits := 0 } }

/-- Three opaque white pixels at 8-bit canonical depth. -/
def whiteRow : List PixelPacket := [⟨255, 255, 255, 0⟩, ⟨255, 255, 255, 0⟩, ⟨255, 255, 255, 0⟩]
/-- The 32-bit word `PopQuantumLongPixel` emits first at depth 10 from a fresh
state, as a number: the first sample in bits 9..0, the second in bits 19..10,
the third in bits 29..20 and the low two bits of the fourth in bits 31..30. -/
def longWord10 (v1 v2 v3 v4 : Nat) : Nat :=
  v1 % 2 ^ 10 + 2 ^ 10 * (v2 % 2 ^ 10) + 2 ^ 20 * (v3 % 2 ^ 10) + 2 ^ 30 * (v4 % 2 ^ 2)

/-- One opaque white pixel at 8-bit canonical depth. -/
def whitePixel : List PixelPacket := [⟨255, 255, 255, 0⟩]

/-- A black and a white palette entry. -/
def blackWhiteMap : List PixelPacket := [⟨0, 0, 0, 0⟩, ⟨255, 255, 255, 0⟩]

/-- The routines of the concrete runs: every embedded layout routine, with
the luma of a pixel taken to be its red sample. -/
def plainRoutines : Routines :=
  layoutRoutines 8 zeroCodec redLuma (idleRoutines (fun _ _ _ => 0))

/-! ## Auxiliary definitions for the bit stream of `PopQuantumPixel` -/

/-- Bit `j` of the byte stream that starts at address `q0`: the bits of each
byte are counted from its most significant one. -/
def streamBit (pixels : Nat → Nat) (q0 j : Nat) : Bool :=
  (pixels (q0 + j / 8)).testBit (7 - j % 8)

/-- One pass of the loop of `PopQuantumPixel` with `i` bits of `pixel` left to
store: the state after the pass. -/
def PopQuantumPixel.pass (pixel i : Nat) (s : Export) : Export :=
  let bits := s.quantum_info.state.bits
  let quantum_bits := if i > bits then bits else i
  let i1 := i - quantum_bits
  let buf := if bits = 8 then Function.update s.pixels s.q 0 else s.pixels
  let bits1 := bits - quantum_bits
  let byte := (buf s.q ||| (((pixel >>> i1) &&& (2 ^ quantum_bits - 1)) <<< bits1)) % 256
  let buf1 := Function.update buf s.q byte
  let s1 : Export := { s with pixels := buf1 }
  if bits1 = 0 then
    ({ s1 with q := s1.q + 1 } : Export).setState { s.quantum_info.state with bits := 8 }
  else s1.setState { s.quantum_info.state with bits := bits1 }

/-- The state of the bit packer after `L` bits were stored from address `q0`
on: the cursor is at the byte of bit `L`, `bits` counts the free bits of that
byte, and the bits of the stream from `L` to the end of the byte are zero. -/
def packedTo (q0 L : Nat) (s : Export) : Prop :=
  s.q = q0 + L / 8 ∧ s.quantum_info.state.bits = 8 - L % 8 ∧
    ∀ j, L ≤ j → j < 8 * ((L + 7) / 8) → streamBit s.pixels q0 j = false

/-! ## The inverse of the depth-8 RGBA export -/

/-- Modelled from the spec: the RGBA import at depth 8 (`ImportQuantumPixels`,
magick/quantum-import.c, is not under src/), the inverse of the RGBA export
at depth 8 with no pad: the bytes at `4x .. 4x+3` are red, green, blue and
alpha of pixel `x`, each scaled to the canonical depth by the fixed linear
scale, and opacity is `MAX - alpha`. -/
def ImportRGBAQuantum.depth8 (qd number_pixels : Nat) (pixels : Nat → Nat) : List PixelPacket :=
  (List.range number_pixels).map (fun x =>
    ⟨ScaleCharToQuantum qd (pixels (4 * x)), ScaleCharToQuantum qd (pixels (4 * x + 1)),
      ScaleCharToQuantum qd (pixels (4 * x + 2)),
      QuantumRange qd - ScaleCharToQuantum qd (pixels (4 * x + 3))⟩)

/-- Two samples that differ by at most 1/255 of full scale. -/
def sampleNear (qd a b : Nat) : Prop :=
  255 * (a - b) ≤ QuantumRange qd ∧ 255 * (b - a) ≤ QuantumRange qd

instance (qd a b : Nat) : Decidable (sampleNear qd a b) := by
  unfold sampleNear; infer_instance

/-- Two pixels whose four samples each differ by at most 1/255 of full
scale. -/
def pixelNear (qd : Nat) (p q : PixelPacket) : Prop :=
  sampleNear qd p.red q.red ∧ sampleNear qd p.green q.green ∧ sampleNear qd p.blue q.blue ∧
    sampleNear qd p.opacity q.opacity

instance (qd : Nat) (p q : PixelPacket) : Decidable (pixelNear qd p q) := by
  unfold pixelNear; infer_instance
/-- A row of one fully transparent blue pixel. -/
def clearBlueRow : List PixelPacket := [⟨0, 0, 255, 255⟩]

/-- A row of one opaque red pixel. -/
def opaqueRedRow : List PixelPacket := [⟨255, 0, 0, 0⟩]

/-! ## magick/string-private.h -/

/-- The character `s[k]` of a C string given by its characters before the
terminating NUL: at `k = length` it is the NUL; a read further out is shown as
NUL too. -/
def cChar (s : List Char) (k : Nat) : Char := s.getD k (Char.ofNat 0)

/-- Lines 65-71 of `StringLocateSubstring`: the loop
`for (j=0; j < length_needle; j++)`, with `count` passes left; false when it
leaves through `goto next`, true when it runs to its end. -/
def StringLocateSubstring.compare (toupper : Char → Char) (haystack needle : List Char)
    (i : Nat) : Nat → Nat → Bool
  | 0, _ => true
  | count + 1, j =>
    if toupper (cChar haystack (i + j)) ≠ toupper (cChar needle j) then false
    else StringLocateSubstring.compare toupper haystack needle i count (j + 1)

/-- Lines 60-75: the loop `for (i=0; i < length_haystack; i++)`, with `count`
passes left: the offset `i` of the first pass whose comparison runs to its
end, `none` when no pass does. -/
def StringLocateSubstring.search (toupper : Char → Char) (haystack needle : List Char)
    (length_needle : Nat) : Nat → Nat → Option Nat
  | 0, _ => none
  | count + 1, i =>
    if StringLocateSubstring.compare toupper haystack needle i length_needle 0 then some i
    else StringLocateSubstring.search toupper haystack needle length_needle count (i + 1)

/-- Lines 47-77: the fallback body of `StringLocateSubstring(haystack,needle)`
(the one compiled without `strcasestr`).  A string is given by its characters
before the terminating NUL, `none` being NULL; `toupper` is that of the C
library.  The result is the offset of the returned pointer from `haystack`,
`none` for NULL.  `length_haystack` is computed in `size_t` arithmetic. -/
def StringLocateSubstring (toupper : Char → Char) (haystack needle : Option (List Char)) :
    Option Nat :=
  match haystack, needle with
  | some h, some n =>
    let length_needle := n.length % SIZE_MOD
    let length_haystack := (h.length % SIZE_MOD + SIZE_MOD - length_needle + 1) % SIZE_MOD
    StringLocateSubstring.search toupper h n length_needle length_haystack 0
  | _, _ => none

/-- The needle occurs in the haystack at offset `i` when letter case is
disregarded: the `needle.length` characters of the haystack from `i` on are
those of the needle, each pair being equal after `toupper`. -/
def occursAt (toupper : Char → Char) (haystack needle : List Char) (i : Nat) : Prop :=
  i + needle.length ≤ haystack.length ∧
  ((haystack.drop i).take needle.length).map toupper = needle.map toupper

instance (toupper : Char → Char) (haystack needle : List Char) (i : Nat) :
    Decidable (occursAt toupper haystack needle i) := by
  unfold occursAt; infer_instance

/-- Lines 651-659: what a policy that matches does to `authorized`, given the
rights it holds: each of the read, write and execute bits of the requested
mask overwrites `authorized` with whether the policy holds that bit. -/
def IsRightsAuthorized.grant (env : PolicyEnv) (rights granted : Nat) (authorized : Bool) :
    Bool :=
  let a1 := if rights &&& env.ReadPolicyRights ≠ 0 then
    decide (granted &&& env.ReadPolicyRights ≠ 0) else authorized
  let a2 := if rights &&& env.WritePolicyRights ≠ 0 then
    decide (granted &&& env.WritePolicyRights ≠ 0) else a1
  if rights &&& env.ExecutePolicyRights ≠ 0 then
    decide (granted &&& env.ExecutePolicyRights ≠ 0) else a2

/-- A policy of the coder domain that grants the PNG coder the read and the
write right. -/
def allowPngPolicy : PolicyInfo :=
  { PolicyInfo.zero with
    path := some "policy.xml", domain := 1, rights := 3, pattern := some "PNG" }

/-- A policy of the coder domain, named `lockdown`, that grants no right to
any coder. -/
def lockdownPolicy : PolicyInfo :=
  { PolicyInfo.zero with
    path := some "policy.xml", domain := 1, rights := 0, name := some "lockdown",
    pattern := some "*" }

/-! ## magick/quantum-export.c: the BGR layout -/

/-- The three samples the depth-8 and depth-16 branches and the unsigned
depth-32 branch of `ExportBGRQuantum` emit for a pixel, in emission order:
blue, green, red. -/
def bgrSamples (p : PixelPacket) : List Nat := [p.blue, p.green, p.red]

/-- The 32-bit word the long-word mode of the depth-10 branch of
`ExportBGRQuantum` forms for a pixel (lines 391-394):
`(unsigned int) (red << 22 | green << 12 | blue << 2)`, each sample scaled to
`range`. -/
def ExportBGRQuantum.word10 (qd range : Nat) (p : PixelPacket) : Nat :=
  ((ScaleQuantumToAny qd p.red range <<< 22) ||| (ScaleQuantumToAny qd p.green range <<< 12) |||
    (ScaleQuantumToAny qd p.blue range <<< 2)) % 2 ^ 32

/-- The sample the depth-12 short-word loop of `ExportBGRQuantum` selects by
`x % 3` (lines 439-458: red for 0, green for 1, blue for 2), and the pixel
queue after it: the queue advances past a pixel once its blue was taken. -/
def ExportBGRQuantum.select12 (qd range : Nat) (x : Int) (p : List PixelPacket) :
    Nat × List PixelPacket :=
  if x % 3 = 1 then (ScaleQuantumToAny qd (pixelOf p 0).green range % 2 ^ 32, p)
  else if x % 3 = 2 then (ScaleQuantumToAny qd (pixelOf p 0).blue range % 2 ^ 32, p.drop 1)
  else (ScaleQuantumToAny qd (pixelOf p 0).red range % 2 ^ 32, p)

/-- The short-word mode of the depth-12 branch of `ExportBGRQuantum` (pack
flag off, lines 435-511): the loop
`for (x=0; x < (ssize_t) (3*number_pixels-1); x+=2)` stores two samples per
pass, each as the 16-bit value `pixel << 4`, and skips the pad; the loop
`for (bit=0; bit < (ssize_t) (3*number_pixels % 2); bit++)` stores the odd
sample left over. -/
def ExportBGRQuantum.short12 (qd : Nat) (number_pixels : Nat) (p : List PixelPacket)
    (s : Export) : Export :=
  let range := GetQuantumRange s.quantum_info.depth
  let store (x : Int) (st : List PixelPacket × Export) : List PixelPacket × Export :=
    let sel := ExportBGRQuantum.select12 qd range x st.1
    (sel.2, PopShortPixel st.2.quantum_info.endian ((sel.1 <<< 4) % 2 ^ 16) st.2)
  let full := forLoop
    (fun x => decide (x < toSsize (sizeSub ((3 * number_pixels) % 2 ^ 64) 1)))
    (fun x => x + 2)
    (fun x st =>
      let st2 := store (x + 1) (store x st)
      (st2.1, st2.2.skipPad))
    (3 * number_pixels) 0 (p, s)
  let last := forLoop
    (fun bit => decide (bit < toSsize (((3 * number_pixels) % 2 ^ 64) % 2)))
    (fun bit => bit + 1)
    (fun bit st =>
      let st1 := store (full.1 + bit) st
      (st1.1, st1.2.skipPad))
    1 0 full.2
  last.2.2

/-- The function `ExportBGRQuantum` (lines 354-636): for each of the first
`number_pixels` pixels of `p` three samples in the external depth and format,
followed by the pad.  The depth-8 and depth-16 branches and the unsigned
depth-32 branch take blue, green, red; the depth-10 and depth-12 branches, the
floating-point depth-32 and depth-64 branches and the default branch take
red, green, blue. -/
def ExportBGRQuantum (qd : Nat) (fc : FloatCodec) (number_pixels : Nat)
    (p : List PixelPacket) (s : Export) : Export :=
  let row := p.take number_pixels
  let depth := s.quantum_info.depth
  let range := GetQuantumRange depth
  let each (samples : PixelPacket → List Nat) (f : Nat → Export → Export) : Export :=
    row.foldl (fun st px => ((samples px).foldl (fun st1 v => f v st1) st).skipPad) s
  let generic : Export :=
    each rgbSamples (fun v st => PopQuantumPixel (ScaleQuantumToAny qd v range) st)
  let long : Export :=
    each rgbSamples (fun v st => PopQuantumLongPixel (ScaleQuantumToAny qd v range % 2 ^ 32) st)
  let packed : Export :=
    each rgbSamples (fun v st => PopQuantumPixel (ScaleQuantumToAny qd v range % 2 ^ 32) st)
  if depth = 8 then
    each bgrSamples (fun v st => PopCharPixel (ScaleQuantumToChar qd v) st)
  else if depth = 10 then
    if s.quantum_info.pack = false then
      row.foldl (fun st px =>
        (PopLongPixel st.quantum_info.endian (ExportBGRQuantum.word10 qd range px) st).skipPad) s
    else if s.quantum_info.quantum = 32 then long
    else packed
  else if depth = 12 then
    if s.quantum_info.pack = false then ExportBGRQuantum.short12 qd number_pixels p s
    else if s.quantum_info.quantum = 32 then long
    else packed
  else if depth = 16 then
    if s.quantum_info.format = QuantumFormatType.FloatingPointQuantumFormat then
      each bgrSamples
        (fun v st => PopShortPixel st.quantum_info.endian (fc.SinglePrecisionToHalf v) st)
    else
      each bgrSamples
        (fun v st => PopShortPixel st.quantum_info.endian (ScaleQuantumToShort qd v) st)
  else if depth = 32 then
    if s.quantum_info.format = QuantumFormatType.FloatingPointQuantumFormat then
      each rgbSamples (fun v st => PopQuantumFloatPixel fc v st)
    else
      each bgrSamples
        (fun v st => PopLongPixel st.quantum_info.endian (ScaleQuantumToLong qd v) st)
  else if depth = 64 then
    if s.quantum_info.format = QuantumFormatType.FloatingPointQuantumFormat then
      each rgbSamples (fun v st => PopQuantumDoublePixel fc v st)
    else generic
  else generic

/-- A pixel with its red and blue exchanged. -/
def exchangeRedBlue (p : PixelPacket) : PixelPacket := { p with red := p.blue, blue := p.red }

/-- A row of one opaque red pixel. -/
def redPixel : List PixelPacket := [⟨255, 0, 0, 0⟩]

/-- An environment for concrete runs at 16-bit canonical depth: `plainEnv`
with the quantum depth 16. -/
def deepEnv : Env := { plainEnv with qd := 16 }

/-- A pixel plane for concrete runs: the four 2-byte samples 0, 1, 2 and 257
in the byte order of a little-endian host. -/
def shortPlane : List Nat := [0, 0, 1, 0, 2, 0, 1, 1]

/-- A bitmap record for concrete runs: the header of a one-band bit-storage
frame `width` pixels wide and `height` rows high (the header field `rows`
holds the width), followed by the pixel plane. -/
def bitmapStream (width height : Nat) (plane : List Nat) : List Nat :=
  writeViffHeader (sampleHeader width height 1 VFF_TYP_BIT 0) ++ plane

/-- A black-and-white palette image for concrete runs: 2 pixels wide, 1 row,
the first pixel white and the second black. -/
def whiteBlackImage : Image :=
  paletteImage 2 1 ColorspaceType.sRGBColorspace blackWhiteMap [1, 0]

/-- A black-and-white palette image for concrete runs: 9 pixels wide, 1 row,
every pixel black. -/
def blackRowImage : Image :=
  paletteImage 9 1 ColorspaceType.sRGBColorspace blackWhiteMap (List.replicate 9 0)

/-- The reader state of the concrete run of the DirectColor path: the header
of `redGreenStream` was read and its six plane bytes are left. -/
def redGreenReader : Reader :=
  ⟨{ size := 1030, rest := [255, 0, 0, 255, 0, 0], eof := false }, []⟩

/-! ## Theorems -/

theorem roundDiv_mul_self (v b : Nat) (hb : 0 < b) : roundDiv (b * v) b = v := by
  unfold roundDiv
  have : 2 * (b * v) + b = b + (2 * b) * v := by ring
  rw [this, Nat.add_mul_div_left _ _ (by omega)]
  have : b / (2 * b) = 0 := Nat.div_eq_of_lt (by omega)
  omega

theorem ScaleQuantumToChar_eight (v : Nat) (hv : v ≤ 255) : ScaleQuantumToChar 8 v = v := by
  unfold ScaleQuantumToChar ScaleQuantumToAny
  have h : QuantumRange 8 = 255 := by decide
  rw [h, roundDiv_mul_self v 255 (by decide)]
  omega

@[simp] theorem Export.put_q (s : Export) (b : Nat) : (s.put b).q = s.q + 1 := rfl

@[simp] theorem Export.put_quantum_info (s : Export) (b : Nat) :
    (s.put b).quantum_info = s.quantum_info := rfl

@[simp] theorem Export.put_exception (s : Export) (b : Nat) :
    (s.put b).exception = s.exception := rfl

theorem Export.putAll_nil (s : Export) : s.putAll [] = s := rfl

theorem Export.putAll_cons (s : Export) (b : Nat) (bs : List Nat) :
    s.putAll (b :: bs) = (s.put b).putAll bs := rfl

theorem Export.putAll_append (s : Export) (as bs : List Nat) :
    s.putAll (as ++ bs) = (s.putAll as).putAll bs := by
  unfold Export.putAll
  rw [List.foldl_append]

theorem Export.putAll_q (bs : List Nat) (s : Export) : (s.putAll bs).q = s.q + bs.length := by
  induction bs generalizing s with
  | nil => rfl
  | cons b bs ih => rw [Export.putAll_cons, ih]; simp; omega

theorem Export.putAll_quantum_info (bs : List Nat) (s : Export) :
    (s.putAll bs).quantum_info = s.quantum_info := by
  induction bs generalizing s with
  | nil => rfl
  | cons b bs ih => rw [Export.putAll_cons, ih]; rfl

theorem Export.putAll_exception (bs : List Nat) (s : Export) :
    (s.putAll bs).exception = s.exception := by
  induction bs generalizing s with
  | nil => rfl
  | cons b bs ih => rw [Export.putAll_cons, ih]; rfl

theorem Export.putAll_pixels_lt (bs : List Nat) (s : Export) (a : Nat) (h : a < s.q) :
    (s.putAll bs).pixels a = s.pixels a := by
  induction bs generalizing s with
  | nil => rfl
  | cons b bs ih =>
    rw [Export.putAll_cons, ih (s.put b) (by simp; omega)]
    simp [Export.put, Function.update, Nat.ne_of_lt h]

theorem Export.putAll_pixels_ge (bs : List Nat) (s : Export) (a : Nat)
    (h : s.q + bs.length ≤ a) : (s.putAll bs).pixels a = s.pixels a := by
  induction bs generalizing s with
  | nil => rfl
  | cons b bs ih =>
    simp only [List.length_cons] at h
    rw [Export.putAll_cons, ih (s.put b) (by simp; omega)]
    have : a ≠ s.q := by omega
    simp [Export.put, Function.update, this]

theorem Export.putAll_pixels_get (bs : List Nat) (s : Export) (i : Nat) (h : i < bs.length) :
    (s.putAll bs).pixels (s.q + i) = bs.getD i 0 % 256 := by
  induction bs generalizing s i with
  | nil => simp at h
  | cons b bs ih =>
    rw [Export.putAll_cons]
    cases i with
    | zero =>
      rw [Export.putAll_pixels_lt bs (s.put b) (s.q + 0) (by simp)]
      simp [Export.put]
    | succ j =>
      simp only [List.length_cons] at h
      have := ih (s.put b) j (by omega)
      simp only [Export.put_q] at this
      have e : s.q + (j + 1) = s.q + 1 + j := by omega
      rw [e, this]
      simp


theorem Export.skipPad_zero (s : Export) (h : s.quantum_info.pad = 0) : s.skipPad = s := by
  cases s
  simp only [Export.skipPad] at *
  simp [h]

theorem bufferPrefix_putAll (bs : List Nat) (s : Export) (h : s.q = 0) :
    bufferPrefix (s.putAll bs).pixels bs.length = bs.map (fun b => b % 256) := by
  apply List.ext_getElem
  · simp [bufferPrefix]
  · intro i h1 h2
    simp only [bufferPrefix, List.length_map, List.length_range] at h1
    have := Export.putAll_pixels_get bs s i h1
    rw [h, Nat.zero_add] at this
    simp [bufferPrefix, this, List.getD_eq_getElem?_getD, List.getElem?_eq_getElem h1]

theorem ExportRGBAQuantum_depth8 (qd : Nat) (fc : FloatCodec) (n : Nat) (p : List PixelPacket)
    (s : Export) (hd : s.quantum_info.depth = 8) (hp : s.quantum_info.pad = 0) :
    ExportRGBAQuantum qd fc n p s = s.putAll (rgba8 qd (p.take n)) := by
  unfold ExportRGBAQuantum
  simp only [hd, if_true]
  generalize p.take n = row
  induction row generalizing s with
  | nil => rfl
  | cons px row ih =>
    simp only [List.foldl_cons, rgba8, List.flatMap_cons]
    rw [Export.putAll_append]
    have e : (List.foldl (fun st1 v => PopCharPixel (ScaleQuantumToChar qd v) st1) s
        (rgbaSamples qd px)) = s.putAll ((rgbaSamples qd px).map (ScaleQuantumToChar qd)) := by
      simp [rgbaSamples, Export.putAll, PopCharPixel]
    rw [e, Export.skipPad_zero _ (by rw [Export.putAll_quantum_info]; exact hp)]
    exact ih _ (by rw [Export.putAll_quantum_info]; exact hd)
      (by rw [Export.putAll_quantum_info]; exact hp)

theorem rgba8_length (qd : Nat) (row : List PixelPacket) : (rgba8 qd row).length = 4 * row.length := by
  induction row with
  | nil => rfl
  | cons px row ih =>
    simp only [rgba8, List.flatMap_cons, List.length_append, List.length_cons] at *
    simp [rgbaSamples] at *
    omega

theorem rgba8_eight (row : List PixelPacket) (h : ∀ p ∈ row, p.wf 8) :
    rgba8 8 row = row.flatMap rgbaBytes := by
  induction row with
  | nil => rfl
  | cons px row ih =>
    have hpx := h px (List.mem_cons_self _ _)
    have hq : QuantumRange 8 = 255 := by decide
    obtain ⟨h1, h2, h3, _⟩ := hpx
    rw [hq] at h1 h2 h3
    simp only [rgba8, List.flatMap_cons] at *
    rw [ih (fun p hp => h p (List.mem_cons_of_mem _ hp))]
    congr 1
    simp only [rgbaSamples, rgbaBytes, GetPixelAlpha, List.map, hq]
    rw [ScaleQuantumToChar_eight _ h1, ScaleQuantumToChar_eight _ h2,
      ScaleQuantumToChar_eight _ h3, ScaleQuantumToChar_eight _ (Nat.sub_le _ _)]

theorem rgbaBytes_flatMap_length (row : List PixelPacket) :
    (row.flatMap rgbaBytes).length = 4 * row.length := by
  induction row with
  | nil => rfl
  | cons px row ih => simp [List.flatMap_cons, rgbaBytes, ih]; omega

theorem rgbaBytes_flatMap_lt (row : List PixelPacket) (h : ∀ p ∈ row, p.wf 8) :
    ∀ b ∈ row.flatMap rgbaBytes, b < 256 := by
  intro b hb
  simp only [List.mem_flatMap] at hb
  obtain ⟨p, hp, hb⟩ := hb
  have hq : QuantumRange 8 = 255 := by decide
  obtain ⟨h1, h2, h3, _⟩ := h p hp
  rw [hq] at h1 h2 h3
  simp only [rgbaBytes, List.mem_cons, List.mem_singleton, List.not_mem_nil, or_false] at hb
  omega

/-- C1 (amended): at 8-bit canonical depth, with depth 8, pad 0 and alpha not
associated, `ExportQuantumPixels` with the RGBA layout moves the cursor by
exactly `4n` bytes for a queue of `n` pixels, the bytes at addresses
`0 .. 4n-1` are red, green, blue and `255 - opacity` of each pixel in order,
every other address of the buffer is left as it was and no exception is
raised; nothing here depends on the configured endianness, format or pack
flag. -/
theorem ExportQuantumPixels_rgba8 (fc : FloatCodec) (r : Routines) (image : Image)
    (nexus : CacheView) (image_view : Option CacheView) (quantum_info : QuantumInfo)
    (pixels : Nat → Nat)
    (hdepth : quantum_info.depth = 8) (hpad : quantum_info.pad = 0)
    (halpha : quantum_info.alpha_type ≠ QuantumAlphaType.AssociatedQuantumAlpha)
    (hwf : ∀ p ∈ (exportQueue nexus image_view).pixels, p.wf 8) :
    (ExportQuantumPixels 8 fc r image nexus image_view quantum_info
        QuantumType.RGBAQuantum pixels).final.q
      = 4 * (exportQueue nexus image_view).pixels.length ∧
    bufferPrefix (ExportQuantumPixels 8 fc r image nexus image_view quantum_info
        QuantumType.RGBAQuantum pixels).final.pixels
        (4 * (exportQueue nexus image_view).pixels.length)
      = (exportQueue nexus image_view).pixels.flatMap rgbaBytes ∧
    (∀ a, 4 * (exportQueue nexus image_view).pixels.length ≤ a →
      (ExportQuantumPixels 8 fc r image nexus image_view quantum_info
        QuantumType.RGBAQuantum pixels).final.pixels a = pixels a) ∧
    (ExportQuantumPixels 8 fc r image nexus image_view quantum_info
        QuantumType.RGBAQuantum pixels).final.exception = [] ∧
    (ExportQuantumPixels 8 fc r image nexus image_view quantum_info
        QuantumType.RGBAQuantum pixels).queue = (exportQueue nexus image_view).pixels := by
  have hfinal : (ExportQuantumPixels 8 fc r image nexus image_view quantum_info
        QuantumType.RGBAQuantum pixels).final =
      ({ quantum_info := ResetQuantumState quantum_info, pixels := pixels, q := 0,
         exception := [] } : Export).putAll
        ((exportQueue nexus image_view).pixels.flatMap rgbaBytes) := by
    simp only [ExportQuantumPixels, halpha, if_false]
    rw [ExportRGBAQuantum_depth8 _ _ _ _ _ (by simpa [ResetQuantumState] using hdepth)
      (by simpa [ResetQuantumState] using hpad)]
    simp [List.take_length, rgba8_eight _ hwf]
  have hlen := rgbaBytes_flatMap_length (exportQueue nexus image_view).pixels
  refine ⟨?_, ?_, ?_, ?_, ?_⟩
  · rw [hfinal, Export.putAll_q, hlen]; simp
  · rw [hfinal, ← hlen, bufferPrefix_putAll _ _ rfl]
    have e : List.map (fun b => b % 256) ((exportQueue nexus image_view).pixels.flatMap rgbaBytes)
        = List.map id ((exportQueue nexus image_view).pixels.flatMap rgbaBytes) :=
      List.map_congr_left (fun b hb => Nat.mod_eq_of_lt (rgbaBytes_flatMap_lt _ hwf b hb))
    rw [e, List.map_id]
  · intro a ha
    rw [hfinal, Export.putAll_pixels_ge _ _ _ (by simp [hlen]; exact ha)]
  · rw [hfinal, Export.putAll_exception]
  · simp [ExportQuantumPixels, halpha]



theorem ExportQuantumPixels_rgba8_witness :
    bufferPrefix (ExportQuantumPixels 8 zeroCodec (idleRoutines (fun _ _ _ => 0))
        (directImage 2 1 false redGreenRow) (viewOf redGreenRow) none
        (quantumInfo8 QuantumAlphaType.UndefinedQuantumAlpha EndianType.LSBEndian)
        QuantumType.RGBAQuantum (fun _ => 0)).final.pixels 8
      = [0xFF, 0x00, 0x00, 0xFF, 0x00, 0xFF, 0x00, 0xFF] ∧
    bufferPrefix (ExportQuantumPixels 8 zeroCodec (idleRoutines (fun _ _ _ => 0))
        (directImage 2 1 false redGreenRow) (viewOf redGreenRow) none
        (quantumInfo8 QuantumAlphaType.UndefinedQuantumAlpha EndianType.MSBEndian)
        QuantumType.RGBAQuantum (fun _ => 0)).final.pixels 8
      = [0xFF, 0x00, 0x00, 0xFF, 0x00, 0xFF, 0x00, 0xFF] :=
  ⟨(ExportQuantumPixels_rgba8 zeroCodec (idleRoutines (fun _ _ _ => 0))
      (directImage 2 1 false redGreenRow) (viewOf redGreenRow) none
      (quantumInfo8 QuantumAlphaType.UndefinedQuantumAlpha EndianType.LSBEndian)
      (fun _ => 0) rfl rfl (by decide) (by decide)).2.1,
   (ExportQuantumPixels_rgba8 zeroCodec (idleRoutines (fun _ _ _ => 0))
      (directImage 2 1 false redGreenRow) (viewOf redGreenRow) none
      (quantumInfo8 QuantumAlphaType.UndefinedQuantumAlpha EndianType.MSBEndian)
      (fun _ => 0) rfl rfl (by decide) (by decide)).2.1⟩

theorem ExportQuantumPixels_rgba8_associated_counterexample :
    bufferPrefix (ExportQuantumPixels 8 zeroCodec (idleRoutines (fun _ _ _ => 0))
        (directImage 1 1 true clearRedRow) (viewOf clearRedRow) none
        (quantumInfo8 QuantumAlphaType.AssociatedQuantumAlpha EndianType.MSBEndian)
        QuantumType.RGBAQuantum (fun _ => 0)).final.pixels 4
      = [0, 0, 0, 0] ∧
    bufferPrefix (ExportQuantumPixels 8 zeroCodec (idleRoutines (fun _ _ _ => 0))
        (directImage 1 1 true clearRedRow) (viewOf clearRedRow) none
        (quantumInfo8 QuantumAlphaType.AssociatedQuantumAlpha EndianType.MSBEndian)
        QuantumType.RGBAQuantum (fun _ => 0)).final.pixels 4
      ≠ clearRedRow.flatMap rgbaBytes := by
  decide

/-- C10 (amended): the value `ExportQuantumPixels` returns is
`GetQuantumExtent (image, quantum_info, quantum_type)`, taken after the state
reset and before the layout routine runs; for every layout, depth, format,
pack flag and pad it is the same whatever the pixel queue, the cache view and
the destination buffer are, so it is not read off the write cursor. -/
theorem ExportQuantumPixels_extent (qd : Nat) (fc : FloatCodec) (r : Routines) (image : Image)
    (nexus : CacheView) (image_view : Option CacheView) (quantum_info : QuantumInfo)
    (quantum_type : QuantumType) (pixels : Nat → Nat) :
    (ExportQuantumPixels qd fc r image nexus image_view quantum_info quantum_type pixels).extent
      = r.GetQuantumExtent image (ResetQuantumState quantum_info) quantum_type ∧
    ∀ (nexus1 : CacheView) (image_view1 : Option CacheView) (pixels1 : Nat → Nat),
      (ExportQuantumPixels qd fc r image nexus1 image_view1 quantum_info quantum_type
          pixels1).extent
        = (ExportQuantumPixels qd fc r image nexus image_view quantum_info quantum_type
          pixels).extent :=
  ⟨rfl, fun _ _ _ => rfl⟩

theorem ExportQuantumPixels_extent_counterexample :
    ¬ ∃ extent : Image → QuantumInfo → QuantumType → Nat, ∀ view : CacheView,
      (ExportQuantumPixels 8 zeroCodec (idleRoutines extent) (directImage 2 1 false redGreenRow)
          (viewOf redGreenRow) (some view)
          (quantumInfo8 QuantumAlphaType.UndefinedQuantumAlpha EndianType.MSBEndian)
          QuantumType.RGBAQuantum (fun _ => 0)).extent
        = (ExportQuantumPixels 8 zeroCodec (idleRoutines extent)
          (directImage 2 1 false redGreenRow) (viewOf redGreenRow) (some view)
          (quantumInfo8 QuantumAlphaType.UndefinedQuantumAlpha EndianType.MSBEndian)
          QuantumType.RGBAQuantum (fun _ => 0)).final.q := by
  rintro ⟨extent, h⟩
  have h1 := h (viewOf clearRedRow)
  have h2 := h (viewOf redGreenRow)
  have e1 : (ExportQuantumPixels 8 zeroCodec (idleRoutines extent)
      (directImage 2 1 false redGreenRow) (viewOf redGreenRow) (some (viewOf clearRedRow))
      (quantumInfo8 QuantumAlphaType.UndefinedQuantumAlpha EndianType.MSBEndian)
      QuantumType.RGBAQuantum (fun _ => 0)).final.q = 4 := rfl
  have e2 : (ExportQuantumPixels 8 zeroCodec (idleRoutines extent)
      (directImage 2 1 false redGreenRow) (viewOf redGreenRow) (some (viewOf redGreenRow))
      (quantumInfo8 QuantumAlphaType.UndefinedQuantumAlpha EndianType.MSBEndian)
      QuantumType.RGBAQuantum (fun _ => 0)).final.q = 8 := rfl
  rw [e1] at h1
  rw [e2] at h2
  have e3 : (ExportQuantumPixels 8 zeroCodec (idleRoutines extent)
      (directImage 2 1 false redGreenRow) (viewOf redGreenRow) (some (viewOf clearRedRow))
      (quantumInfo8 QuantumAlphaType.UndefinedQuantumAlpha EndianType.MSBEndian)
      QuantumType.RGBAQuantum (fun _ => 0)).extent =
    (ExportQuantumPixels 8 zeroCodec (idleRoutines extent)
      (directImage 2 1 false redGreenRow) (viewOf redGreenRow) (some (viewOf redGreenRow))
      (quantumInfo8 QuantumAlphaType.UndefinedQuantumAlpha EndianType.MSBEndian)
      QuantumType.RGBAQuantum (fun _ => 0)).extent := rfl
  omega

/-! ### The blob -/

theorem ReadBlob_snd (b : Blob) (n : Nat) : (ReadBlob b n).2 = b.advance n := rfl

theorem ReadBlob_fst (b : Blob) (n : Nat) :
    (ReadBlob b n).1 = (b.rest.take n).map (fun x => x % 256) := rfl

theorem ReadBlob_length (b : Blob) (n : Nat) : (ReadBlob b n).1.length = min n b.rest.length := by
  simp [ReadBlob]

@[simp] theorem Blob.advance_size (b : Blob) (n : Nat) : (b.advance n).size = b.size := rfl

@[simp] theorem Blob.advance_rest (b : Blob) (n : Nat) : (b.advance n).rest = b.rest.drop n := rfl

@[simp] theorem Blob.advance_eof (b : Blob) (n : Nat) :
    (b.advance n).eof = (b.eof || decide (b.rest.length < n)) := rfl

theorem Blob.advance_advance (b : Blob) (n m : Nat) :
    (b.advance n).advance m = b.advance (n + m) := by
  cases b with
  | mk size rest eof =>
    simp only [Blob.advance, List.drop_drop, List.length_drop, Blob.mk.injEq, true_and]
    by_cases h1 : rest.length < n
    · have : rest.length < n + m := by omega
      simp [h1, this]
    · by_cases h2 : rest.length - n < m
      · have : rest.length < n + m := by omega
        simp [h1, h2, this]
      · have : ¬ rest.length < n + m := by omega
        simp [h1, h2, this]

theorem readLongs_snd (endian : EndianType) (n : Nat) (b : Blob) :
    (readLongs endian n b).2 = b.advance (4 * n) := by
  induction n generalizing b with
  | zero =>
    cases b
    simp [readLongs, Blob.advance]
  | succ n ih =>
    simp only [readLongs, ih, ReadBlobLong, ReadBlob_snd, Blob.advance_advance]
    congr 1
    omega

theorem skipByte_iterate (k : Nat) (b : Blob) : skipByte^[k] b = b.advance k := by
  induction k generalizing b with
  | zero =>
    cases b
    simp [Blob.advance]
  | succ k ih =>
    rw [Function.iterate_succ_apply, ih]
    simp only [skipByte, ReadBlobByte, ReadBlob_snd, Blob.advance_advance]
    congr 1
    omega

theorem readViffPreamble_blob (identifier : Nat) (b : Blob) :
    (readViffPreamble identifier b).2.2 = b.advance 519 := by
  simp only [readViffPreamble, ReadBlob_snd, Blob.advance_advance]

theorem readViffPreamble_count (identifier : Nat) (b : Blob) :
    (readViffPreamble identifier b).2.1 = min 512 (b.rest.length - 7) := by
  simp only [readViffPreamble, ReadBlob_snd, Blob.advance_advance, ReadBlob_length,
    Blob.advance_rest, List.length_drop]

theorem readViffFields_blob (v : ViffInfo) (b : Blob) :
    (readViffFields v b).2 = b.advance 504 := by
  simp only [readViffFields, readLongs_snd, skipByte_iterate, Blob.advance_advance]

theorem afterMagic_eq (data : List Nat) :
    afterMagic data = { size := data.length, rest := data.drop 1, eof := decide (data.length < 1) } := by
  simp [afterMagic, ReadBlob, OpenBlob]

/-! ### Header and magic byte -/

theorem readSubImage_complete (env : Env) (image_info : ImageInfo) (scene : Nat) (s : Reader)
    (heof : s.blob.eof = false) (hlen : 1023 ≤ s.blob.rest.length) :
    readSubImage env image_info scene s =
      decodeAfterHeader env image_info scene (parsedHeader s.blob)
        { s with blob := s.blob.advance 1023 } := by
  have hc : (readViffPreamble 0xab s.blob).2.1 = 512 := by
    rw [readViffPreamble_count]; omega
  have hb : (readViffFields (readViffPreamble 0xab s.blob).1
      (readViffPreamble 0xab s.blob).2.2).2 = s.blob.advance 1023 := by
    rw [readViffFields_blob, readViffPreamble_blob, Blob.advance_advance]
  have he : (s.blob.advance 1023).eof = false := by
    simp [heof]; omega
  simp only [readSubImage, hc, ne_eq, not_true_eq_false, if_false, hb, EOFBlob, he,
    Bool.false_eq_true, parsedHeader]

theorem readSubImage_short (env : Env) (image_info : ImageInfo) (scene : Nat) (s : Reader)
    (heof : s.blob.eof = false) (hlen : s.blob.rest.length < 1023) :
    ∃ e s1, readSubImage env image_info scene s = Step.thrown e s1 ∧
      e.severity = ExceptionType.CorruptImageError ∧ s1.log = s.log := by
  by_cases hc : (readViffPreamble 0xab s.blob).2.1 = 512
  · have hb : (readViffFields (readViffPreamble 0xab s.blob).1
        (readViffPreamble 0xab s.blob).2.2).2 = s.blob.advance 1023 := by
      rw [readViffFields_blob, readViffPreamble_blob, Blob.advance_advance]
    have he : (s.blob.advance 1023).eof = true := by
      simp [heof]; omega
    refine ⟨⟨ExceptionType.CorruptImageError, "UnexpectedEndOfFile"⟩,
      { s with blob := s.blob.advance 1023 }, ?_, rfl, rfl⟩
    simp only [readSubImage, hc, ne_eq, not_true_eq_false, if_false, hb, EOFBlob, he, if_true]
  · refine ⟨⟨ExceptionType.CorruptImageError, "ImproperImageHeader"⟩,
      { s with blob := (readViffPreamble 0xab s.blob).2.2 }, ?_, rfl, rfl⟩
    unfold readSubImage
    exact if_pos hc

theorem hasMagic_iff (data : List Nat) :
    hasMagic data ↔ (ReadBlob (OpenBlob data) 1).1.length = 1 ∧
      (ReadBlob (OpenBlob data) 1).1.getD 0 0 = 0xab := by
  cases data with
  | nil => simp [hasMagic, ReadBlob, OpenBlob]
  | cons b t => simp [hasMagic, ReadBlob, OpenBlob]

theorem ReadVIFFImage_magic (env : Env) (image_info : ImageInfo) (data : List Nat)
    (h : hasMagic data) :
    ReadVIFFImage env image_info data =
      match readSubImage env image_info image_info.scene ⟨afterMagic data, []⟩ with
      | Step.thrown e s1 => ThrowReaderException e [] s1
      | Step.destroyed e s1 => { images := [], exception := some e, final := s1 }
      | Step.stop image s1 => { images := [image], exception := none, final := s1 }
      | Step.next image s1 =>
        if (ReadBlob s1.blob 1).1.length = 1 ∧ (ReadBlob s1.blob 1).1.getD 0 0 = 0xab then
          ReadVIFFImage.loop env image_info data.length 1 0xab (image_info.scene + 1) [image]
            { s1 with blob := (ReadBlob s1.blob 1).2 }
        else { images := [image], exception := none,
               final := { s1 with blob := (ReadBlob s1.blob 1).2 } } := by
  obtain ⟨h1, h2⟩ := (hasMagic_iff data).1 h
  simp only [ReadVIFFImage, ReadVIFFImage.loop, h1, h2, ne_eq, not_true_eq_false, or_self,
    if_false, afterMagic, List.nil_append]

/-- C7: when the stream is empty or its first byte is not 0xAB,
`ReadVIFFImage` returns no image and raises CorruptImageError with the tag
NotAVIFFImage; it has read nothing but the magic byte (the blob stands at
offset at most 1, with every byte after the first unread) and has allocated
no buffer. -/
theorem ReadVIFFImage_not_viff (env : Env) (image_info : ImageInfo) (data : List Nat)
    (h : ¬ hasMagic data) :
    (ReadVIFFImage env image_info data).images = [] ∧
    (ReadVIFFImage env image_info data).exception
      = some ⟨ExceptionType.CorruptImageError, "NotAVIFFImage"⟩ ∧
    (ReadVIFFImage env image_info data).final.blob.rest = data.drop 1 ∧
    TellBlob (ReadVIFFImage env image_info data).final.blob ≤ 1 ∧
    (ReadVIFFImage env image_info data).final.log = [] := by
  have h1 : ¬ ((ReadBlob (OpenBlob data) 1).1.length = 1 ∧
      (ReadBlob (OpenBlob data) 1).1.getD 0 0 = 0xab) := fun hh => h ((hasMagic_iff data).2 hh)
  have h2 : ((ReadBlob (OpenBlob data) 1).1.length ≠ 1 ∨
      (ReadBlob (OpenBlob data) 1).1.getD 0 0 ≠ 0xab) := by
    by_cases hl : (ReadBlob (OpenBlob data) 1).1.length = 1
    · exact Or.inr (fun hh => h1 ⟨hl, hh⟩)
    · exact Or.inl hl
  have e : ReadVIFFImage env image_info data =
      ThrowReaderException ⟨ExceptionType.CorruptImageError, "NotAVIFFImage"⟩ []
        { blob := (ReadBlob (OpenBlob data) 1).2, log := [] } := by
    simp only [ReadVIFFImage, ReadVIFFImage.loop, h2, if_true]
  rw [e]
  refine ⟨by simp [ThrowReaderException], rfl, ?_, ?_, rfl⟩
  · simp [ThrowReaderException, ReadBlob, OpenBlob]
  · simp only [ThrowReaderException, TellBlob, ReadBlob, OpenBlob, List.length_drop]
    omega

theorem ReadVIFFImage_not_viff_witness :
    ¬ hasMagic [] ∧ ¬ hasMagic [0x42, 0xab] ∧
    (ReadVIFFImage plainEnv plainInfo []).exception
      = some ⟨ExceptionType.CorruptImageError, "NotAVIFFImage"⟩ ∧
    (ReadVIFFImage plainEnv plainInfo [0x42, 0xab]).final.blob.rest = [0xab] :=
  ⟨by decide, by decide,
   (ReadVIFFImage_not_viff plainEnv plainInfo [] (by decide)).2.1,
   (ReadVIFFImage_not_viff plainEnv plainInfo [0x42, 0xab] (by decide)).2.2.1⟩

/-! ### Field validation -/

theorem validateFields_none_iff (v : ViffInfo) :
    validateFields v = none ↔
      (1 ≤ v.number_data_bands ∧ v.number_data_bands ≤ 4) ∧
      (v.data_storage_type = 0 ∨ v.data_storage_type = 1 ∨ v.data_storage_type = 2 ∨
        v.data_storage_type = 4 ∨ v.data_storage_type = 5 ∨ v.data_storage_type = 9) ∧
      v.data_encode_scheme = 0 ∧
      (v.map_storage_type = 0 ∨ v.map_storage_type = 1 ∨ v.map_storage_type = 2 ∨
        v.map_storage_type = 4 ∨ v.map_storage_type = 5 ∨ v.map_storage_type = 7) ∧
      (v.color_space_model = 0 ∨ v.color_space_model = 1 ∨ v.color_space_model = 15) ∧
      v.location_type = 1 ∧ v.number_of_images = 1 := by
  unfold validateFields
  simp only [VFF_TYP_BIT, VFF_TYP_1_BYTE, VFF_TYP_2_BYTE, VFF_TYP_4_BYTE, VFF_TYP_FLOAT,
    VFF_TYP_DOUBLE, VFF_DES_RAW, VFF_MAPTYP_NONE, VFF_MAPTYP_1_BYTE, VFF_MAPTYP_2_BYTE,
    VFF_MAPTYP_4_BYTE, VFF_MAPTYP_FLOAT, VFF_MAPTYP_DOUBLE, VFF_CM_NONE, VFF_CM_ntscRGB,
    VFF_CM_genericRGB, VFF_LOC_IMPLICIT]
  constructor
  · intro h
    split_ifs at h with h1 h2 h3 h4 h5 h6 h7
    refine ⟨by omega, by omega, by omega, by omega, by omega, by omega, by omega⟩
  · rintro ⟨h1, h2, h3, h4, h5, h6, h7⟩
    rw [if_neg (by omega), if_neg (by omega), if_neg (by omega), if_neg (by omega),
      if_neg (by omega), if_neg (by omega), if_neg (by omega)]

theorem ReadVIFFImage_header (env : Env) (image_info : ImageInfo) (data : List Nat)
    (hlen : 1024 ≤ data.length) :
    readSubImage env image_info image_info.scene ⟨afterMagic data, []⟩ =
      decodeAfterHeader env image_info image_info.scene (parsedHeader (afterMagic data))
        (headerRead data) := by
  have h := readSubImage_complete env image_info image_info.scene ⟨afterMagic data, []⟩
    (by rw [afterMagic_eq]; simp only [decide_eq_false_iff_not]; omega)
    (by rw [afterMagic_eq]; simp only [List.length_drop]; omega)
  rw [h]
  rfl

theorem ReadVIFFImage_thrown (env : Env) (image_info : ImageInfo) (data : List Nat)
    (hmagic : hasMagic data) (e : ExceptionInfo) (s1 : Reader)
    (h : readSubImage env image_info image_info.scene ⟨afterMagic data, []⟩ = Step.thrown e s1) :
    ReadVIFFImage env image_info data = ThrowReaderException e [] s1 := by
  rw [ReadVIFFImage_magic env image_info data hmagic, h]

theorem ThrowReaderException_nil (e : ExceptionInfo) (s : Reader) :
    (ThrowReaderException e [] s).images = [] ∧
    (ThrowReaderException e [] s).exception = some e ∧
    (ThrowReaderException e [] s).final = s := by
  simp [ThrowReaderException]

theorem decodeAfterHeader_invalid (env : Env) (image_info : ImageInfo) (scene : Nat)
    (v : ViffInfo) (s1 : Reader) (image1 : Image) (e : ExceptionInfo)
    (hsize : sizeChecks env image_info v (headerImage env scene v) s1.blob = Sized.ok image1)
    (hv : validateFields v = some e) :
    decodeAfterHeader env image_info scene v s1 = Step.thrown e s1 := by
  simp only [decodeAfterHeader, hsize, hv]

theorem decodeAfterHeader_valid (env : Env) (image_info : ImageInfo) (scene : Nat)
    (v : ViffInfo) (s1 : Reader) (image1 : Image)
    (hsize : sizeChecks env image_info v (headerImage env scene v) s1.blob = Sized.ok image1)
    (hv : validateFields v = none) :
    decodeAfterHeader env image_info scene v s1 = paletteAndPixels env image_info v image1 s1 := by
  simp only [decodeAfterHeader, hsize, hv]

/-- C3: for a stream that starts with the magic byte and holds the complete
1024-byte header, and whose header passes the size checks of lines 333-351,
the field validation of lines 355-380 lets the header through if and only if
number_data_bands is in 1..4, data_storage_type in {0,1,2,4,5,9},
data_encode_scheme 0, map_storage_type in {0,1,2,4,5,7}, color_space_model in
{0,1,15}, location_type 1 and number_of_images 1.  A header that passes goes
on to the palette stage; a header that violates any of these makes
`ReadVIFFImage` return no image and raise the exception of the first failed
check, no buffer having been allocated. -/
theorem ReadVIFFImage_field_validation (env : Env) (image_info : ImageInfo) (data : List Nat)
    (image1 : Image) (hmagic : hasMagic data) (hlen : 1024 ≤ data.length)
    (hsize : sizeChecks env image_info (parsedHeader (afterMagic data))
      (headerImage env image_info.scene (parsedHeader (afterMagic data)))
      (headerRead data).blob = Sized.ok image1) :
    (validateFields (parsedHeader (afterMagic data)) = none ↔
      (1 ≤ (parsedHeader (afterMagic data)).number_data_bands ∧
        (parsedHeader (afterMagic data)).number_data_bands ≤ 4) ∧
      ((parsedHeader (afterMagic data)).data_storage_type = 0 ∨
        (parsedHeader (afterMagic data)).data_storage_type = 1 ∨
        (parsedHeader (afterMagic data)).data_storage_type = 2 ∨
        (parsedHeader (afterMagic data)).data_storage_type = 4 ∨
        (parsedHeader (afterMagic data)).data_storage_type = 5 ∨
        (parsedHeader (afterMagic data)).data_storage_type = 9) ∧
      (parsedHeader (afterMagic data)).data_encode_scheme = 0 ∧
      ((parsedHeader (afterMagic data)).map_storage_type = 0 ∨
        (parsedHeader (afterMagic data)).map_storage_type = 1 ∨
        (parsedHeader (afterMagic data)).map_storage_type = 2 ∨
        (parsedHeader (afterMagic data)).map_storage_type = 4 ∨
        (parsedHeader (afterMagic data)).map_storage_type = 5 ∨
        (parsedHeader (afterMagic data)).map_storage_type = 7) ∧
      ((parsedHeader (afterMagic data)).color_space_model = 0 ∨
        (parsedHeader (afterMagic data)).color_space_model = 1 ∨
        (parsedHeader (afterMagic data)).color_space_model = 15) ∧
      (parsedHeader (afterMagic data)).location_type = 1 ∧
      (parsedHeader (afterMagic data)).number_of_images = 1) ∧
    (validateFields (parsedHeader (afterMagic data)) = none →
      readSubImage env image_info image_info.scene ⟨afterMagic data, []⟩ =
        paletteAndPixels env image_info (parsedHeader (afterMagic data)) image1
          (headerRead data)) ∧
    (∀ e, validateFields (parsedHeader (afterMagic data)) = some e →
      (ReadVIFFImage env image_info data).images = [] ∧
      (ReadVIFFImage env image_info data).exception = some e ∧
      (ReadVIFFImage env image_info data).final.log = []) := by
  refine ⟨validateFields_none_iff _, ?_, ?_⟩
  · intro hv
    rw [ReadVIFFImage_header env image_info data hlen]
    exact decodeAfterHeader_valid env image_info _ _ _ image1 hsize hv
  · intro e hv
    have h := decodeAfterHeader_invalid env image_info image_info.scene _ _ image1 e hsize hv
    have h2 := ReadVIFFImage_header env image_info data hlen
    rw [h] at h2
    rw [ReadVIFFImage_thrown env image_info data hmagic e _ h2]
    exact ⟨(ThrowReaderException_nil e _).1, (ThrowReaderException_nil e _).2.1, rfl⟩

set_option maxRecDepth 100000 in
theorem ReadVIFFImage_field_validation_witness :
    validateFields (parsedHeader (afterMagic redGreenStream)) = none ∧
    (ReadVIFFImage plainEnv plainInfo redGreenStream).exception = none ∧
    (ReadVIFFImage plainEnv plainInfo (writeViffHeader (sampleHeader 2 1 3 3 0))).exception
      = some ⟨ExceptionType.CoderError, "DataStorageTypeIsNotSupported"⟩ :=
  ⟨((ReadVIFFImage_field_validation plainEnv plainInfo redGreenStream
      (sizedImage plainEnv plainInfo redGreenStream)
      (by decide) (by decide) (by decide!)).1).2 (by decide!),
   by decide!,
   ((ReadVIFFImage_field_validation plainEnv plainInfo
      (writeViffHeader (sampleHeader 2 1 3 3 0))
      (sizedImage plainEnv plainInfo (writeViffHeader (sampleHeader 2 1 3 3 0)))
      (by decide) (by decide) (by decide!)).2.2 _ (by decide!)).2.1⟩

/-! ### Band count and encode scheme -/

/-- C4 (amended): for a stream that starts with the magic byte and holds the
complete 1024-byte header, whose header passes the size checks of lines
333-351 and declares 0 or 5 data bands, `ReadVIFFImage` returns no image and
raises CorruptImageError (tag ImproperImageHeader). -/
theorem ReadVIFFImage_bad_bands (env : Env) (image_info : ImageInfo) (data : List Nat)
    (image1 : Image) (hmagic : hasMagic data) (hlen : 1024 ≤ data.length)
    (hsize : sizeChecks env image_info (parsedHeader (afterMagic data))
      (headerImage env image_info.scene (parsedHeader (afterMagic data)))
      (headerRead data).blob = Sized.ok image1)
    (hbands : (parsedHeader (afterMagic data)).number_data_bands = 0 ∨
      (parsedHeader (afterMagic data)).number_data_bands = 5) :
    (ReadVIFFImage env image_info data).images = [] ∧
    (ReadVIFFImage env image_info data).exception
      = some ⟨ExceptionType.CorruptImageError, "ImproperImageHeader"⟩ := by
  have hv : validateFields (parsedHeader (afterMagic data))
      = some ⟨ExceptionType.CorruptImageError, "ImproperImageHeader"⟩ := by
    unfold validateFields
    rw [if_pos (by omega)]
  have h := decodeAfterHeader_invalid env image_info image_info.scene _ _ image1 _ hsize hv
  have h2 := ReadVIFFImage_header env image_info data hlen
  rw [h] at h2
  rw [ReadVIFFImage_thrown env image_info data hmagic _ _ h2]
  exact ⟨(ThrowReaderException_nil _ _).1, (ThrowReaderException_nil _ _).2.1⟩

set_option maxRecDepth 100000 in
theorem ReadVIFFImage_bad_bands_witness :
    (parsedHeader (afterMagic (writeViffHeader (sampleHeader 2 1 5 1 0)))).number_data_bands = 5 ∧
    (ReadVIFFImage plainEnv plainInfo (writeViffHeader (sampleHeader 2 1 5 1 0))).exception
      = some ⟨ExceptionType.CorruptImageError, "ImproperImageHeader"⟩ :=
  ⟨by decide!,
   (ReadVIFFImage_bad_bands plainEnv plainInfo (writeViffHeader (sampleHeader 2 1 5 1 0))
      (sizedImage plainEnv plainInfo (writeViffHeader (sampleHeader 2 1 5 1 0)))
      (by decide) (by decide) (by decide!) (by decide!)).2⟩

set_option maxRecDepth 100000 in
theorem ReadVIFFImage_bad_bands_counterexample :
    hasMagic (writeViffHeader (sampleHeader 0 0 0 1 0)) ∧
    (writeViffHeader (sampleHeader 0 0 0 1 0)).length = 1024 ∧
    (parsedHeader (afterMagic (writeViffHeader (sampleHeader 0 0 0 1 0)))).number_data_bands = 0 ∧
    (ReadVIFFImage plainEnv plainInfo (writeViffHeader (sampleHeader 0 0 0 1 0))).images = [] ∧
    (ReadVIFFImage plainEnv plainInfo (writeViffHeader (sampleHeader 0 0 0 1 0))).exception
      = some ⟨ExceptionType.CoderError, "ImageColumnOrRowSizeIsNotSupported"⟩ := by
  decide!

/-- C5 (amended): for a stream that starts with the magic byte and holds the
complete 1024-byte header, whose header passes the size checks of lines
333-351 and declares between 1 and 4 data bands, a data_encode_scheme other
than 0 (raw) makes `ReadVIFFImage` return no image and raise a CoderError,
tagged DataStorageTypeIsNotSupported when the storage type is outside its
set as well and DataEncodingSchemeIsNotSupported otherwise; the error is not
a CorruptImageError. -/
theorem ReadVIFFImage_not_raw (env : Env) (image_info : ImageInfo) (data : List Nat)
    (image1 : Image) (hmagic : hasMagic data) (hlen : 1024 ≤ data.length)
    (hsize : sizeChecks env image_info (parsedHeader (afterMagic data))
      (headerImage env image_info.scene (parsedHeader (afterMagic data)))
      (headerRead data).blob = Sized.ok image1)
    (hbands : 1 ≤ (parsedHeader (afterMagic data)).number_data_bands ∧
      (parsedHeader (afterMagic data)).number_data_bands ≤ 4)
    (hraw : (parsedHeader (afterMagic data)).data_encode_scheme ≠ 0) :
    (ReadVIFFImage env image_info data).images = [] ∧
    ((ReadVIFFImage env image_info data).exception
        = some ⟨ExceptionType.CoderError, "DataStorageTypeIsNotSupported"⟩ ∨
      (ReadVIFFImage env image_info data).exception
        = some ⟨ExceptionType.CoderError, "DataEncodingSchemeIsNotSupported"⟩) ∧
    (∀ e, (ReadVIFFImage env image_info data).exception = some e →
      e.severity = ExceptionType.CoderError ∧
      e.severity ≠ ExceptionType.CorruptImageError) := by
  have hv : validateFields (parsedHeader (afterMagic data))
        = some ⟨ExceptionType.CoderError, "DataStorageTypeIsNotSupported"⟩ ∨
      validateFields (parsedHeader (afterMagic data))
        = some ⟨ExceptionType.CoderError, "DataEncodingSchemeIsNotSupported"⟩ := by
    unfold validateFields
    rw [if_neg (by omega)]
    by_cases h2 : (parsedHeader (afterMagic data)).data_storage_type ≠ VFF_TYP_BIT ∧
        (parsedHeader (afterMagic data)).data_storage_type ≠ VFF_TYP_1_BYTE ∧
        (parsedHeader (afterMagic data)).data_storage_type ≠ VFF_TYP_2_BYTE ∧
        (parsedHeader (afterMagic data)).data_storage_type ≠ VFF_TYP_4_BYTE ∧
        (parsedHeader (afterMagic data)).data_storage_type ≠ VFF_TYP_FLOAT ∧
        (parsedHeader (afterMagic data)).data_storage_type ≠ VFF_TYP_DOUBLE
    · rw [if_pos h2]
      exact Or.inl rfl
    · rw [if_neg h2, if_pos (by simpa [VFF_DES_RAW] using hraw)]
      exact Or.inr rfl
  have key : ∀ e, validateFields (parsedHeader (afterMagic data)) = some e →
      (ReadVIFFImage env image_info data).images = [] ∧
      (ReadVIFFImage env image_info data).exception = some e := by
    intro e he
    have h := decodeAfterHeader_invalid env image_info image_info.scene _ _ image1 _ hsize he
    have h2 := ReadVIFFImage_header env image_info data hlen
    rw [h] at h2
    rw [ReadVIFFImage_thrown env image_info data hmagic _ _ h2]
    exact ⟨(ThrowReaderException_nil _ _).1, (ThrowReaderException_nil _ _).2.1⟩
  rcases hv with hv | hv
  · obtain ⟨k1, k2⟩ := key _ hv
    refine ⟨k1, Or.inl k2, ?_⟩
    intro e he
    rw [k2] at he
    cases he
    exact ⟨rfl, by decide⟩
  · obtain ⟨k1, k2⟩ := key _ hv
    refine ⟨k1, Or.inr k2, ?_⟩
    intro e he
    rw [k2] at he
    cases he
    exact ⟨rfl, by decide⟩

set_option maxRecDepth 100000 in
theorem ReadVIFFImage_not_raw_witness :
    (parsedHeader (afterMagic (writeViffHeader (sampleHeader 2 1 3 1 1)))).data_encode_scheme = 1 ∧
    (ReadVIFFImage plainEnv plainInfo (writeViffHeader (sampleHeader 2 1 3 1 1))).images = [] :=
  ⟨by decide!,
   (ReadVIFFImage_not_raw plainEnv plainInfo (writeViffHeader (sampleHeader 2 1 3 1 1))
      (sizedImage plainEnv plainInfo (writeViffHeader (sampleHeader 2 1 3 1 1)))
      (by decide) (by decide) (by decide!) (by decide!) (by decide!)).1⟩

set_option maxRecDepth 100000 in
theorem ReadVIFFImage_not_raw_counterexample :
    hasMagic (writeViffHeader (sampleHeader 2 1 0 1 1)) ∧
    (writeViffHeader (sampleHeader 2 1 0 1 1)).length = 1024 ∧
    (parsedHeader (afterMagic (writeViffHeader (sampleHeader 2 1 0 1 1)))).data_encode_scheme = 1 ∧
    (ReadVIFFImage plainEnv plainInfo (writeViffHeader (sampleHeader 2 1 0 1 1))).images = [] ∧
    (ReadVIFFImage plainEnv plainInfo (writeViffHeader (sampleHeader 2 1 0 1 1))).exception
      = some ⟨ExceptionType.CorruptImageError, "ImproperImageHeader"⟩ := by
  decide!

/-! ### Reads depend on the bytes they consume only -/

theorem ReadBlob_fst_agree (b c : Blob) (N n : Nat) (h : b.rest.take N = c.rest.take N)
    (hn : n ≤ N) : (ReadBlob b n).1 = (ReadBlob c n).1 := by
  have e : b.rest.take n = c.rest.take n := by
    have := congrArg (List.take n) h
    rwa [List.take_take, List.take_take, Nat.min_eq_left hn] at this
  simp only [ReadBlob, e]

theorem advance_agree (b c : Blob) (N n : Nat) (h : b.rest.take N = c.rest.take N) :
    (b.advance n).rest.take (N - n) = (c.advance n).rest.take (N - n) := by
  simp only [Blob.advance_rest]
  rw [← List.drop_take, ← List.drop_take, h]

theorem readLongs_fst_agree (endian : EndianType) (n : Nat) (b c : Blob) (N : Nat)
    (h : b.rest.take N = c.rest.take N) (hn : 4 * n ≤ N) :
    (readLongs endian n b).1 = (readLongs endian n c).1 := by
  induction n generalizing b c N with
  | zero => rfl
  | succ n ih =>
    simp only [readLongs, ReadBlobLong, ReadBlob_snd]
    rw [ReadBlob_fst_agree b c N 4 h (by omega),
      ih (b.advance 4) (c.advance 4) (N - 4) (advance_agree b c N 4 h) (by omega)]

theorem readViffPreamble_fst_agree (identifier : Nat) (b c : Blob) (N : Nat)
    (h : b.rest.take N = c.rest.take N) (hn : 519 ≤ N) :
    (readViffPreamble identifier b).1 = (readViffPreamble identifier c).1 := by
  have a1 := advance_agree b c N 1 h
  have a2 := advance_agree _ _ _ 1 a1
  have a3 := advance_agree _ _ _ 1 a2
  have a4 := advance_agree _ _ _ 1 a3
  have a5 := advance_agree _ _ _ 3 a4
  simp only [readViffPreamble, ReadBlob_snd]
  rw [ReadBlob_fst_agree b c N 1 h (by omega),
    ReadBlob_fst_agree _ _ _ 1 a1 (by omega),
    ReadBlob_fst_agree _ _ _ 1 a2 (by omega),
    ReadBlob_fst_agree _ _ _ 1 a3 (by omega),
    ReadBlob_fst_agree _ _ _ 3 a4 (by omega),
    ReadBlob_fst_agree _ _ _ 512 a5 (by omega)]

theorem readViffFields_fst_agree (v : ViffInfo) (b c : Blob) (N : Nat)
    (h : b.rest.take N = c.rest.take N) (hn : 84 ≤ N) :
    (readViffFields v b).1 = (readViffFields v c).1 := by
  simp only [readViffFields]
  rw [readLongs_fst_agree _ 21 b c N h (by omega)]

theorem parsedHeader_agree (b c : Blob) (h : b.rest.take 1023 = c.rest.take 1023) :
    parsedHeader b = parsedHeader c := by
  unfold parsedHeader
  rw [readViffPreamble_fst_agree 0xab b c 1023 h (by omega), readViffPreamble_blob,
    readViffPreamble_blob]
  exact readViffFields_fst_agree _ _ _ (1023 - 519) (advance_agree b c 1023 519 h) (by omega)

theorem parsedHeader_extend (b : Blob) (size : Nat) (t : List Nat)
    (h : 1023 ≤ b.rest.length) : parsedHeader (b.extend size t) = parsedHeader b := by
  apply parsedHeader_agree
  simp only [Blob.extend]
  rw [List.take_append_of_le_length h]

theorem advance_extend (b : Blob) (size : Nat) (t : List Nat) (n : Nat)
    (h : n ≤ b.rest.length) :
    (b.extend size t).advance n = (b.advance n).extend size t := by
  cases b with
  | mk sz rest eof =>
    simp only [Blob.extend, Blob.advance, List.length_append, Blob.mk.injEq, true_and] at h ⊢
    refine ⟨List.drop_append_of_le_length h, ?_⟩
    have h1 : ¬ rest.length + t.length < n := by omega
    have h2 : ¬ rest.length < n := by omega
    simp [h1, h2]

theorem ReadBlob_extend (b : Blob) (size : Nat) (t : List Nat) (n : Nat)
    (h : (ReadBlob b n).1.length = n) :
    ReadBlob (b.extend size t) n = ((ReadBlob b n).1, (ReadBlob b n).2.extend size t) ∧
    (ReadBlob b n).2.eof = b.eof := by
  have hn : n ≤ b.rest.length := by
    rw [ReadBlob_length] at h; omega
  refine ⟨Prod.ext ?_ ?_, ?_⟩
  · simp only [ReadBlob_fst, Blob.extend, List.take_append_of_le_length hn]
  · simp only [ReadBlob_snd]
    exact advance_extend b size t n hn
  · simp only [ReadBlob_snd, Blob.advance_eof]
    have : ¬ b.rest.length < n := by omega
    simp [this]

/-! ### The palette stage -/

theorem AcquireImageColormap_some (env : Env) (image image1 : Image) (colors : Nat)
    (h : AcquireImageColormap env image colors = some image1) :
    env.AcquireImageColormap colors = true ∧
    image1.columns = image.columns ∧ image1.rows = image.rows ∧ image1.matte = image.matte ∧
    image1.storage_class = ClassType.PseudoClass ∧ image1.colors = colors ∧
    image1.scene = image.scene ∧ image1.pixels = image.pixels := by
  unfold AcquireImageColormap at h
  split_ifs at h with hc
  cases h
  exact ⟨hc, rfl, rfl, rfl, rfl, rfl, rfl, rfl⟩

theorem fillStoredMap_ok (env : Env) (v : ViffInfo) (image1 : Image) (s2 : Reader)
    (a : ViffInfo × Image) (s3 : Reader) (h : fillStoredMap env v image1 s2 = Res.ok a s3) :
    (ReadBlob s2.blob (mapCount v)).1.length = mapCount v ∧
    a.1 = v ∧ a.2.columns = image1.columns ∧ a.2.rows = image1.rows ∧
    a.2.matte = image1.matte ∧ a.2.scene = image1.scene ∧
    s3.blob = (ReadBlob s2.blob (mapCount v)).2 ∧
    s3.log = s2.log ++ [Event.relinquish Buffer.viff_colormap] := by
  unfold fillStoredMap at h
  split_ifs at h with h1
  cases h
  exact ⟨by simpa using h1, rfl, rfl, rfl, rfl, rfl, rfl, rfl⟩

theorem fillStoredMap_frame (env : Env) (v : ViffInfo) (image1 : Image) (s2 : Reader)
    (a : ViffInfo × Image) (s3 : Reader) (h : fillStoredMap env v image1 s2 = Res.ok a s3)
    (size : Nat) (t : List Nat) (log : List Event) :
    fillStoredMap env v image1 ⟨s2.blob.extend size t, log⟩ =
      Res.ok a ⟨s3.blob.extend size t, log ++ [Event.relinquish Buffer.viff_colormap]⟩ ∧
    s3.blob.eof = s2.blob.eof ∧ s3.blob.size = s2.blob.size := by
  have hl := (fillStoredMap_ok env v image1 s2 a s3 h).1
  obtain ⟨e1, e2⟩ := ReadBlob_extend s2.blob size t (mapCount v) hl
  unfold fillStoredMap at h ⊢
  rw [if_neg (by simpa using hl)] at h
  cases h
  simp only [e1, ne_eq, hl, not_true_eq_false, if_false]
  exact ⟨trivial, e2, rfl⟩

theorem allocateStoredMap_frame (env : Env) (v : ViffInfo) (image1 : Image) (s1 : Reader)
    (a : ViffInfo × Image) (s3 : Reader) (h : allocateStoredMap env v image1 s1 = Res.ok a s3)
    (size : Nat) (hsize : s1.blob.size ≤ size) (t : List Nat) (log : List Event) :
    (∃ log1, allocateStoredMap env v image1 ⟨s1.blob.extend size t, log⟩ =
      Res.ok a ⟨s3.blob.extend size t, log1⟩) ∧
    s3.blob.eof = s1.blob.eof ∧ s3.blob.size = s1.blob.size ∧
    a.1 = v ∧ a.2.columns = image1.columns ∧ a.2.rows = image1.rows ∧
    a.2.matte = image1.matte ∧ a.2.scene = image1.scene ∧
    (∀ c q, Event.acquire Buffer.pixels c q ∈ s3.log →
      Event.acquire Buffer.pixels c q ∈ s1.log) := by
  unfold allocateStoredMap at h ⊢
  by_cases h1 : v.map_rows > mapQuantum v
  · rw [if_pos h1] at h; cases h
  rw [if_neg h1] at h ⊢
  by_cases h2 : v.map_rows > GetBlobSize s1.blob
  · rw [if_pos h2] at h; cases h
  rw [if_neg h2] at h
  have h2x : ¬ v.map_rows > GetBlobSize (s1.blob.extend size t) := by
    simp only [GetBlobSize, Blob.extend] at h2 ⊢; omega
  rw [if_neg h2x]
  by_cases h3 : env.AcquireQuantumMemory v.map_columns (mapQuantum v) = false
  · rw [if_pos h3] at h; cases h
  rw [if_neg h3] at h ⊢
  obtain ⟨f1, f2, f3⟩ := fillStoredMap_frame env v image1 _ a s3 h size t
    (log ++ [Event.acquire Buffer.viff_colormap v.map_columns (mapQuantum v)])
  obtain ⟨_, k1, k2, k3, k4, k5, _, k7⟩ := fillStoredMap_ok env v image1 _ a s3 h
  refine ⟨⟨_, f1⟩, f2, f3, k1, k2, k3, k4, k5, ?_⟩
  intro c q hm
  rw [k7] at hm
  simpa using hm

theorem storedColormap_frame (env : Env) (v : ViffInfo) (image : Image) (s : Reader)
    (a : ViffInfo × Image) (s3 : Reader) (h : storedColormap env v image s = Res.ok a s3)
    (size : Nat) (hsize : s.blob.size ≤ size) (t : List Nat) (log : List Event) :
    (∃ log1, storedColormap env v image ⟨s.blob.extend size t, log⟩ =
      Res.ok a ⟨s3.blob.extend size t, log1⟩) ∧
    s3.blob.eof = s.blob.eof ∧ s3.blob.size = s.blob.size ∧
    a.1 = v ∧ a.2.columns = image.columns ∧ a.2.rows = image.rows ∧
    a.2.matte = image.matte ∧ a.2.scene = image.scene ∧
    (∀ c q, Event.acquire Buffer.pixels c q ∈ s3.log →
      Event.acquire Buffer.pixels c q ∈ s.log) := by
  unfold storedColormap at h ⊢
  by_cases h1 : mapCount v > GetBlobSize s.blob
  · rw [if_pos h1] at h; cases h
  rw [if_neg h1] at h
  have h1x : ¬ mapCount v > GetBlobSize (s.blob.extend size t) := by
    simp only [GetBlobSize, Blob.extend] at h1 ⊢; omega
  rw [if_neg h1x]
  cases hc : AcquireImageColormap env image v.map_columns with
  | none => rw [hc] at h; cases h
  | some image1 =>
    rw [hc] at h
    obtain ⟨_, c1, c2, c3, _, _, c4, _⟩ := AcquireImageColormap_some _ _ _ _ hc
    obtain ⟨f1, f2, f3, k1, k2, k3, k4, k5, k6⟩ := allocateStoredMap_frame env v image1 _ a s3 h
      size hsize t (log ++ [Event.acquire Buffer.colormap v.map_columns 1])
    refine ⟨f1, f2, f3, k1, k2.trans c1, k3.trans c2, k4.trans c3, k5.trans c4, ?_⟩
    intro c q hm
    simpa using k6 c q hm

theorem rampColormap_frame (env : Env) (v : ViffInfo) (image : Image) (s : Reader)
    (a : ViffInfo × Image) (s3 : Reader) (h : rampColormap env v image s = Res.ok a s3)
    (size : Nat) (t : List Nat) (log : List Event) :
    (∃ log1, rampColormap env v image ⟨s.blob.extend size t, log⟩ =
      Res.ok a ⟨s3.blob.extend size t, log1⟩) ∧
    s3.blob.eof = s.blob.eof ∧ s3.blob.size = s.blob.size ∧
    a.1 = v ∧ a.2.columns = image.columns ∧ a.2.rows = image.rows ∧
    a.2.matte = image.matte ∧ a.2.scene = image.scene ∧
    (∀ c q, Event.acquire Buffer.pixels c q ∈ s3.log →
      Event.acquire Buffer.pixels c q ∈ s.log) := by
  unfold rampColormap at h ⊢
  cases hc : AcquireImageColormap env image (rampColors v image) with
  | none => rw [hc] at h; cases h
  | some image1 =>
    rw [hc] at h
    obtain ⟨_, c1, c2, c3, _, _, c4, _⟩ := AcquireImageColormap_some _ _ _ _ hc
    cases h
    refine ⟨⟨_, rfl⟩, rfl, rfl, rfl, c1, c2, c3, c4, ?_⟩
    intro c q hm
    simpa using hm

theorem readColormap_frame (env : Env) (v : ViffInfo) (image : Image) (s : Reader)
    (a : ViffInfo × Image) (s3 : Reader) (h : readColormap env v image s = Res.ok a s3)
    (size : Nat) (hsize : s.blob.size ≤ size) (t : List Nat) (log : List Event) :
    (∃ log1, readColormap env v image ⟨s.blob.extend size t, log⟩ =
      Res.ok a ⟨s3.blob.extend size t, log1⟩) ∧
    s3.blob.eof = s.blob.eof ∧ s3.blob.size = s.blob.size ∧
    a.1 = forcedScheme v ∧ a.2.columns = image.columns ∧ a.2.rows = image.rows ∧
    a.2.matte = image.matte ∧ a.2.scene = image.scene ∧
    (∀ c q, Event.acquire Buffer.pixels c q ∈ s3.log →
      Event.acquire Buffer.pixels c q ∈ s.log) := by
  unfold readColormap at h ⊢
  by_cases h1 : (forcedScheme v).map_scheme = VFF_MS_NONE
  · rw [if_pos h1] at h ⊢
    by_cases h2 : (forcedScheme v).number_data_bands < 3
    · rw [if_pos h2] at h ⊢
      exact rampColormap_frame env _ image s a s3 h size t log
    · rw [if_neg h2] at h ⊢
      cases h
      exact ⟨⟨_, rfl⟩, rfl, rfl, rfl, rfl, rfl, rfl, rfl, fun _ _ hm => hm⟩
  · rw [if_neg h1] at h ⊢
    by_cases h2 : (forcedScheme v).map_scheme = VFF_MS_ONEPERBAND ∨
        (forcedScheme v).map_scheme = VFF_MS_SHARED
    · rw [if_pos h2] at h ⊢
      exact storedColormap_frame env _ image s a s3 h size hsize t log
    · rw [if_neg h2] at h
      cases h

/-! ### The pixel stage -/

theorem finishSubImage_frame (image_info : ImageInfo) (image2 : Image) (s4 : Reader)
    (img : Image) (s5 : Reader) (h : finishSubImage image_info image2 s4 = Step.next img s5)
    (size : Nat) (t : List Nat) (log : List Event) :
    finishSubImage image_info image2 ⟨s4.blob.extend size t, log⟩ =
      Step.next img ⟨s5.blob.extend size t, log⟩ ∧
    s5.blob.eof = false ∧ s5.blob = s4.blob ∧ img = image2 := by
  unfold finishSubImage at h ⊢
  by_cases h1 : EOFBlob s4.blob = true
  · rw [if_pos h1] at h; cases h
  rw [if_neg h1] at h
  have h1x : ¬ EOFBlob (s4.blob.extend size t) = true := h1
  rw [if_neg h1x]
  by_cases h2 : sceneLimit image_info image2 = true
  · rw [if_pos h2] at h; cases h
  rw [if_neg h2] at h ⊢
  cases h
  refine ⟨rfl, ?_, rfl, rfl⟩
  simpa [EOFBlob] using h1

theorem convertPixels_frame (env : Env) (image_info : ImageInfo) (v : ViffInfo) (image : Image)
    (max_packets : Nat) (raw : List Nat) (s3 : Reader) (img : Image) (s5 : Reader)
    (h : convertPixels env image_info v image max_packets raw s3 = Step.next img s5)
    (size : Nat) (t : List Nat) (log : List Event) :
    (∃ log1, convertPixels env image_info v image max_packets raw ⟨s3.blob.extend size t, log⟩ =
      Step.next img ⟨s5.blob.extend size t, log1⟩) ∧
    s5.blob.eof = false ∧ s5.blob = s3.blob := by
  unfold convertPixels at h ⊢
  cases hc : toPixelPackets env v image (convertSamples env v
      (orderCorrect env v.machine_dependency (dataSampleType v.data_storage_type)
        (pixelCount v max_packets) raw) max_packets) with
  | none => rw [hc] at h; cases h
  | some image2 =>
    rw [hc] at h
    obtain ⟨f1, f2, f3, _⟩ := finishSubImage_frame image_info image2 _ img s5 h size t
      (log ++ [Event.relinquish Buffer.pixels])
    exact ⟨⟨_, f1⟩, f2, f3⟩

theorem loadPixels_frame (env : Env) (image_info : ImageInfo) (v : ViffInfo) (image : Image)
    (max_packets : Nat) (s2 : Reader) (img : Image) (s5 : Reader)
    (h : loadPixels env image_info v image max_packets s2 = Step.next img s5)
    (size : Nat) (t : List Nat) (log : List Event) :
    (∃ log1, loadPixels env image_info v image max_packets ⟨s2.blob.extend size t, log⟩ =
      Step.next img ⟨s5.blob.extend size t, log1⟩) ∧
    s5.blob.eof = false ∧ s5.blob.size = s2.blob.size := by
  unfold loadPixels at h ⊢
  by_cases h1 : (ReadBlob s2.blob (pixelCount v max_packets)).1.length ≠ pixelCount v max_packets
  · rw [if_pos h1] at h; cases h
  rw [if_neg h1] at h
  have hl : (ReadBlob s2.blob (pixelCount v max_packets)).1.length = pixelCount v max_packets := by
    simpa using h1
  obtain ⟨e1, _⟩ := ReadBlob_extend s2.blob size t (pixelCount v max_packets) hl
  simp only [e1, ne_eq, hl, not_true_eq_false, if_false]
  obtain ⟨f1, f2, f3⟩ := convertPixels_frame env image_info v image max_packets _ _ img s5 h
    size t log
  refine ⟨f1, f2, ?_⟩
  rw [f3]
  rfl

theorem allocatePixels_frame (env : Env) (image_info : ImageInfo) (v : ViffInfo) (image : Image)
    (s1 : Reader) (img : Image) (s5 : Reader)
    (h : allocatePixels env image_info v image s1 = Step.next img s5)
    (size : Nat) (hsize : s1.blob.size ≤ size) (t : List Nat) (log : List Event) :
    (∃ log1, allocatePixels env image_info v image ⟨s1.blob.extend size t, log⟩ =
      Step.next img ⟨s5.blob.extend size t, log1⟩) ∧
    s5.blob.eof = false ∧ s5.blob.size = s1.blob.size := by
  unfold allocatePixels at h ⊢
  cases hm : maxPackets v image with
  | none => rw [hm] at h; cases h
  | some max_packets =>
    rw [hm] at h
    simp only at h ⊢
    by_cases h1 : pixelCount v max_packets > GetBlobSize s1.blob
    · rw [if_pos h1] at h; cases h
    rw [if_neg h1] at h
    have h1x : ¬ pixelCount v max_packets > GetBlobSize (s1.blob.extend size t) := by
      simp only [GetBlobSize, Blob.extend] at h1 ⊢; omega
    rw [if_neg h1x]
    by_cases h2 : env.AcquireQuantumMemory (max ((v.columns * v.rows) % SIZE_MOD) max_packets)
        (dataSampleType v.data_storage_type).bytes = false
    · rw [if_pos h2] at h; cases h
    rw [if_neg h2] at h ⊢
    exact loadPixels_frame env image_info v image max_packets _ img s5 h size t _

theorem readPixels_frame (env : Env) (image_info : ImageInfo) (v : ViffInfo) (image0 : Image)
    (s : Reader) (img : Image) (s5 : Reader)
    (h : readPixels env image_info v image0 s = Step.next img s5)
    (size : Nat) (hsize : s.blob.size ≤ size) (t : List Nat) (log : List Event) :
    (∃ log1, readPixels env image_info v image0 ⟨s.blob.extend size t, log⟩ =
      Step.next img ⟨s5.blob.extend size t, log1⟩) ∧
    s5.blob.eof = false ∧ s5.blob.size = s.blob.size := by
  unfold readPixels at h ⊢
  by_cases h1 : image_info.ping = true ∧ sceneLimit image_info image0 = true
  · rw [if_pos h1] at h; cases h
  rw [if_neg h1] at h ⊢
  unfold bilevelColormap at h ⊢
  by_cases h2 : v.data_storage_type = VFF_TYP_BIT
  · rw [if_pos h2] at h ⊢
    cases hc : AcquireImageColormap env image0 2 with
    | none => rw [hc] at h; cases h
    | some image1 =>
      rw [hc] at h
      exact allocatePixels_frame env image_info v _ _ img s5 h size hsize t _
  · rw [if_neg h2] at h ⊢
    exact allocatePixels_frame env image_info v _ _ img s5 h size hsize t _

theorem sizeChecks_extend (env : Env) (image_info : ImageInfo) (v : ViffInfo) (image : Image)
    (b : Blob) (image1 : Image) (h : sizeChecks env image_info v image b = Sized.ok image1)
    (size : Nat) (hsize : b.size ≤ size) (hfit : 8 * size < SIZE_MOD) (t : List Nat) :
    sizeChecks env image_info v image (b.extend size t) = Sized.ok image1 := by
  unfold sizeChecks at h ⊢
  simp only at h ⊢
  by_cases h1 : (v.columns * v.rows) % SIZE_MOD ≠ (v.columns * v.rows) % SIZE_MOD % SIZE_MOD
  · rw [if_pos h1] at h; cases h
  rw [if_neg h1] at h ⊢
  by_cases h2 : (v.columns * v.rows) % SIZE_MOD > (8 * GetBlobSize b) % SIZE_MOD
  · rw [if_pos h2] at h; cases h
  rw [if_neg h2] at h
  have h2x : ¬ (v.columns * v.rows) % SIZE_MOD > (8 * GetBlobSize (b.extend size t)) % SIZE_MOD := by
    simp only [GetBlobSize, Blob.extend] at h2 ⊢
    rw [Nat.mod_eq_of_lt hfit]
    have : 8 * b.size < SIZE_MOD := by omega
    rw [Nat.mod_eq_of_lt this] at h2
    omega
  rw [if_neg h2x]
  exact h

/-! ### A sub-image inside a longer stream -/

theorem readSubImage_frame (env : Env) (image_info : ImageInfo) (scene : Nat) (b : Blob)
    (log0 : List Event) (img : Image) (s5 : Reader)
    (h : readSubImage env image_info scene ⟨b, log0⟩ = Step.next img s5)
    (heof : b.eof = false) (size : Nat) (hsize : b.size ≤ size) (hfit : 8 * size < SIZE_MOD)
    (t : List Nat) (log : List Event) :
    (∃ log1, readSubImage env image_info scene ⟨b.extend size t, log⟩ =
      Step.next img ⟨s5.blob.extend size t, log1⟩) ∧ s5.blob.eof = false := by
  by_cases hlen : 1023 ≤ b.rest.length
  · have hlenx : 1023 ≤ (b.extend size t).rest.length := by
      simp only [Blob.extend, List.length_append]; omega
    rw [readSubImage_complete env image_info scene ⟨b, log0⟩ heof hlen] at h
    rw [readSubImage_complete env image_info scene ⟨b.extend size t, log⟩ heof hlenx]
    simp only at h ⊢
    rw [parsedHeader_extend b size t hlen, advance_extend b size t 1023 hlen]
    unfold decodeAfterHeader at h ⊢
    simp only at h ⊢
    cases hs : sizeChecks env image_info (parsedHeader b)
        (headerImage env scene (parsedHeader b)) (b.advance 1023) with
    | thrown e => rw [hs] at h; cases h
    | destroyed e => rw [hs] at h; cases h
    | ok image1 =>
      rw [hs] at h
      rw [sizeChecks_extend env image_info _ _ _ image1 hs size (by simpa using hsize) hfit t]
      simp only at h ⊢
      cases hv : validateFields (parsedHeader b) with
      | some e => rw [hv] at h; cases h
      | none =>
        rw [hv] at h
        simp only at h ⊢
        unfold paletteAndPixels at h ⊢
        cases hc : readColormap env (parsedHeader b) image1 ⟨b.advance 1023, log0⟩ with
        | thrown e s2 => rw [hc] at h; cases h
        | ok a s2 =>
          rw [hc] at h
          obtain ⟨⟨log1, f1⟩, f2, f3, _⟩ := readColormap_frame env _ image1 _ a s2 hc size
            (by simpa using hsize) t log
          simp only at f1
          rw [f1]
          simp only at h ⊢
          obtain ⟨g1, g2, _⟩ := readPixels_frame env image_info a.1 a.2 s2 img s5 h size
            (by rw [f3]; simpa using hsize) t log1
          exact ⟨g1, g2⟩
  · obtain ⟨e, s1, hx, _⟩ := readSubImage_short env image_info scene ⟨b, log0⟩ heof
      (by simpa using hlen)
    rw [hx] at h
    cases h

/-! ### The loop over sub-images -/

theorem loop_step (env : Env) (image_info : ImageInfo) (fuel scene : Nat) (done : List Image)
    (s : Reader) :
    ReadVIFFImage.loop env image_info (fuel + 1) 1 0xab scene done s =
      match readSubImage env image_info scene s with
      | Step.thrown e s1 => ThrowReaderException e done s1
      | Step.destroyed e s1 => { images := [], exception := some e, final := s1 }
      | Step.stop image s1 => { images := done ++ [image], exception := none, final := s1 }
      | Step.next image s1 =>
        if (ReadBlob s1.blob 1).1.length = 1 ∧ (ReadBlob s1.blob 1).1.getD 0 0 = 0xab then
          ReadVIFFImage.loop env image_info fuel 1 0xab (scene + 1) (done ++ [image])
            { s1 with blob := (ReadBlob s1.blob 1).2 }
        else { images := done ++ [image], exception := none,
               final := { s1 with blob := (ReadBlob s1.blob 1).2 } } := by
  simp only [ReadVIFFImage.loop, ne_eq, not_true_eq_false, or_self, if_false]
  try rfl

theorem loop_thrown (env : Env) (image_info : ImageInfo) (fuel scene : Nat) (done : List Image)
    (s : Reader) (e : ExceptionInfo) (s1 : Reader)
    (h : readSubImage env image_info scene s = Step.thrown e s1)
    (hsev : e.severity ≠ ExceptionType.ResourceLimitError) :
    (ReadVIFFImage.loop env image_info (fuel + 1) 1 0xab scene done s).images = done ∧
    (ReadVIFFImage.loop env image_info (fuel + 1) 1 0xab scene done s).exception = some e := by
  rw [loop_step, h]
  simp [ThrowReaderException, hsev]

theorem hasMagic_length (data : List Nat) (h : hasMagic data) : 1 ≤ data.length := by
  cases data with
  | nil => simp [hasMagic] at h
  | cons b t => simp

theorem hasMagic_read (b : Blob) (h : hasMagic b.rest) :
    (ReadBlob b 1).1.length = 1 ∧ (ReadBlob b 1).1.getD 0 0 = 0xab := by
  cases b with
  | mk size rest eof =>
    cases rest with
    | nil => simp [hasMagic] at h
    | cons x t =>
      simp only [hasMagic, List.head?_cons, Option.map_some', Option.some.injEq] at h
      simp [ReadBlob, h]

theorem not_hasMagic_read (b : Blob) (h : ¬ hasMagic b.rest) :
    ¬ ((ReadBlob b 1).1.length = 1 ∧ (ReadBlob b 1).1.getD 0 0 = 0xab) := by
  cases b with
  | mk size rest eof =>
    cases rest with
    | nil => simp [ReadBlob]
    | cons x t =>
      simp only [hasMagic, List.head?_cons, Option.map_some', Option.some.injEq] at h
      simp [ReadBlob, h]

/-- C8: when the first sub-image of a stream decodes completely, the byte
after it is the magic byte, and the sub-image that follows is rejected with a
CorruptImageError or a CoderError (a failed validation or a truncated header
or plane), `ReadVIFFImage` raises that error and returns the first image.
`ThrowReaderException` is modelled from the spec. -/
theorem ReadVIFFImage_keeps_earlier (env : Env) (image_info : ImageInfo) (data : List Nat)
    (img1 : Image) (s1 : Reader) (e : ExceptionInfo) (s3 : Reader)
    (hmagic : hasMagic data)
    (hfirst : readSubImage env image_info image_info.scene ⟨afterMagic data, []⟩
      = Step.next img1 s1)
    (hnext : hasMagic s1.blob.rest)
    (hlater : readSubImage env image_info (image_info.scene + 1)
      { s1 with blob := (ReadBlob s1.blob 1).2 } = Step.thrown e s3)
    (hsev : e.severity = ExceptionType.CorruptImageError ∨
      e.severity = ExceptionType.CoderError) :
    (ReadVIFFImage env image_info data).images = [img1] ∧
    (ReadVIFFImage env image_info data).exception = some e := by
  have hne : e.severity ≠ ExceptionType.ResourceLimitError := by
    rcases hsev with h | h <;> rw [h] <;> decide
  obtain ⟨n, hn⟩ : ∃ n, data.length = n + 1 :=
    ⟨data.length - 1, by have := hasMagic_length data hmagic; omega⟩
  rw [ReadVIFFImage_magic env image_info data hmagic, hfirst]
  simp only [hasMagic_read s1.blob hnext, and_self, if_true, hn]
  exact loop_thrown env image_info n _ [img1] _ e s3 hlater hne

set_option maxRecDepth 100000 in
theorem ReadVIFFImage_keeps_earlier_witness :
    (ReadVIFFImage plainEnv plainInfo truncatedPair).images = [decodedRedGreen 0] ∧
    (ReadVIFFImage plainEnv plainInfo truncatedPair).exception
      = some ⟨ExceptionType.CorruptImageError, "ImproperImageHeader"⟩ :=
  ReadVIFFImage_keeps_earlier plainEnv plainInfo truncatedPair (decodedRedGreen 0)
    (readSubImage plainEnv plainInfo 0 ⟨afterMagic truncatedPair, []⟩).reader
    ⟨ExceptionType.CorruptImageError, "ImproperImageHeader"⟩
    (readSubImage plainEnv plainInfo 1
      { (readSubImage plainEnv plainInfo 0 ⟨afterMagic truncatedPair, []⟩).reader with
        blob := (ReadBlob
          (readSubImage plainEnv plainInfo 0 ⟨afterMagic truncatedPair, []⟩).reader.blob 1).2 }).reader
    (by decide) (by decide!) (by decide!) (by decide!) (Or.inl rfl)

/-! ### Chained sub-images -/

theorem Step.next_of_image (step : Step) (img : Image) (rest : List Nat)
    (h1 : step.image? = some img) (h2 : step.rest? = some rest) :
    ∃ s5, step = Step.next img s5 ∧ s5.blob.rest = rest := by
  cases step with
  | thrown e s => cases h1
  | destroyed e s => cases h1
  | stop i s => cases h1
  | next i s =>
    simp only [Step.image?, Option.some.injEq] at h1
    simp only [Step.rest?, Option.some.injEq] at h2
    exact ⟨s, by rw [h1], h2⟩

theorem decodesTo_frame (env : Env) (image_info : ImageInfo) (scene : Nat) (record : List Nat)
    (img : Image) (h : decodesTo env image_info scene record img) (size : Nat)
    (hsize : record.length ≤ size) (hfit : 8 * size < SIZE_MOD) (t : List Nat)
    (log : List Event) :
    ∃ log1, readSubImage env image_info scene
        ⟨{ size := size, rest := record.drop 1 ++ t, eof := false }, log⟩ =
      Step.next img ⟨{ size := size, rest := t, eof := false }, log1⟩ := by
  obtain ⟨hm, hi, hr⟩ := h
  obtain ⟨s5, hs, hrest⟩ := Step.next_of_image _ img [] hi hr
  have hl := hasMagic_length record hm
  have ha : afterMagic record = { size := record.length, rest := record.drop 1, eof := false } := by
    rw [afterMagic_eq]
    have : ¬ record.length < 1 := by omega
    simp [this]
  rw [ha] at hs
  obtain ⟨⟨log1, f1⟩, f2⟩ := readSubImage_frame env image_info scene _ [] img s5 hs rfl size
    hsize hfit t log
  refine ⟨log1, ?_⟩
  have e : s5.blob.extend size t = { size := size, rest := t, eof := false } := by
    simp only [Blob.extend, hrest, f2, List.nil_append]
  rw [← e]
  exact f1

theorem hasMagic_append (r t : List Nat) (h : hasMagic r) : hasMagic (r ++ t) := by
  cases r with
  | nil => simp [hasMagic] at h
  | cons b r => simpa [hasMagic] using h

theorem afterMagic_append (r t : List Nat) (h : hasMagic r) :
    afterMagic (r ++ t) = { size := r.length + t.length, rest := r.drop 1 ++ t, eof := false } := by
  cases r with
  | nil => simp [hasMagic] at h
  | cons b r =>
    simp [afterMagic_eq]
    omega

/-- C9: for a stream made of two valid sub-image records `r1` and `r2` (each,
read on its own with its scene number, decodes completely without reaching a
scene limit), `ReadVIFFImage` returns exactly the two images, in file order,
and raises no error; when instead `r1` is followed by bytes `t` that do not
start with 0xAB (or by nothing), it returns exactly the first image and
raises no error.  The stream is short enough for `8*GetBlobSize` not to wrap. -/
theorem ReadVIFFImage_chain (env : Env) (image_info : ImageInfo) (r1 : List Nat) (img1 : Image)
    (h1 : decodesTo env image_info image_info.scene r1 img1) :
    (∀ (r2 : List Nat) (img2 : Image),
      decodesTo env image_info (image_info.scene + 1) r2 img2 →
      8 * (r1.length + r2.length) < SIZE_MOD →
      (ReadVIFFImage env image_info (r1 ++ r2)).images = [img1, img2] ∧
      (ReadVIFFImage env image_info (r1 ++ r2)).exception = none) ∧
    (∀ t : List Nat, ¬ hasMagic t → 8 * (r1.length + t.length) < SIZE_MOD →
      (ReadVIFFImage env image_info (r1 ++ t)).images = [img1] ∧
      (ReadVIFFImage env image_info (r1 ++ t)).exception = none) := by
  have hm1 := h1.1
  constructor
  · intro r2 img2 h2 hfit
    have hm2 := h2.1
    obtain ⟨log1, f1⟩ := decodesTo_frame env image_info _ r1 img1 h1 (r1.length + r2.length)
      (by omega) hfit r2 []
    obtain ⟨log2, f2⟩ := decodesTo_frame env image_info _ r2 img2 h2 (r1.length + r2.length)
      (by omega) hfit [] log1
    obtain ⟨n, hn⟩ : ∃ n, (r1 ++ r2).length = n + 1 :=
      ⟨(r1 ++ r2).length - 1, by
        have := hasMagic_length r1 hm1
        simp only [List.length_append]; omega⟩
    rw [ReadVIFFImage_magic env image_info _ (hasMagic_append r1 r2 hm1),
      afterMagic_append r1 r2 hm1, f1]
    have hb : hasMagic ({ size := r1.length + r2.length, rest := r2, eof := false } : Blob).rest :=
      hm2
    simp only [hasMagic_read _ hb, and_self, if_true, hn]
    rw [loop_step]
    have hr : (ReadBlob { size := r1.length + r2.length, rest := r2, eof := false } 1).2 =
        { size := r1.length + r2.length, rest := r2.drop 1 ++ [], eof := false } := by
      have := hasMagic_length r2 hm2
      have h0 : ¬ r2.length < 1 := by omega
      simp [ReadBlob, h0]
    rw [hr, f2]
    simp [ReadBlob]
  · intro t ht hfit
    obtain ⟨log1, f1⟩ := decodesTo_frame env image_info _ r1 img1 h1 (r1.length + t.length)
      (by omega) hfit t []
    rw [ReadVIFFImage_magic env image_info _ (hasMagic_append r1 t hm1),
      afterMagic_append r1 t hm1, f1]
    have hb : ¬ hasMagic ({ size := r1.length + t.length, rest := t, eof := false } : Blob).rest :=
      ht
    simp only [not_hasMagic_read _ hb, if_false, and_self]

set_option maxRecDepth 100000 in
theorem ReadVIFFImage_chain_witness :
    decodesTo plainEnv plainInfo 0 redGreenStream (decodedRedGreen 0) ∧
    (ReadVIFFImage plainEnv plainInfo (redGreenStream ++ redGreenStream)).images
      = [decodedRedGreen 0, decodedRedGreen 1] ∧
    (ReadVIFFImage plainEnv plainInfo (redGreenStream ++ [0x00, 0xab])).images
      = [decodedRedGreen 0] :=
  ⟨by decide!,
   ((ReadVIFFImage_chain plainEnv plainInfo redGreenStream (decodedRedGreen 0) (by decide!)).1
      redGreenStream (decodedRedGreen 1) (by decide!) (by decide)).1,
   ((ReadVIFFImage_chain plainEnv plainInfo redGreenStream (decodedRedGreen 0) (by decide!)).2
      [0x00, 0xab] (by decide) (by decide)).1⟩

/-! ### The byte count of the pixel plane -/

theorem readPixels_allocate (env : Env) (image_info : ImageInfo) (v : ViffInfo) (image0 : Image)
    (s : Reader)
    (hping : ¬ (image_info.ping = true ∧ sceneLimit image_info image0 = true))
    (hbit : v.data_storage_type = VFF_TYP_BIT → env.AcquireImageColormap 2 = true) :
    ∃ image sb, readPixels env image_info v image0 s = allocatePixels env image_info v image sb ∧
      sb.blob = s.blob ∧
      (∀ c q, Event.acquire Buffer.pixels c q ∈ sb.log → Event.acquire Buffer.pixels c q ∈ s.log) ∧
      (∀ ev, ev ∈ s.log → ev ∈ sb.log) ∧
      maxPackets v image = maxPackets v image0 := by
  unfold readPixels
  rw [if_neg hping]
  unfold bilevelColormap
  by_cases h2 : v.data_storage_type = VFF_TYP_BIT
  · rw [if_pos h2]
    simp only [AcquireImageColormap, hbit h2, if_true]
    refine ⟨_, _, rfl, rfl, ?_, ?_, rfl⟩
    · intro c q hm
      simpa using hm
    · intro ev hm
      simp [hm]
  · rw [if_neg h2]
    exact ⟨_, _, rfl, rfl, fun _ _ hm => hm, fun _ hm => hm, by rfl⟩

/-- C6 (amended): for a sub-image whose header passed the size checks and
the field validation and whose palette stage succeeded, let `count` be the
byte count the header implies for the pixel plane (bytes per sample times
band count times rows times columns, or `ceil(width/8)*height` for bit
storage).  When `count` is greater than the size of the whole blob
(`GetBlobSize`), `ReadVIFFImage` rejects the sub-image with CorruptImageError
ImproperImageHeader and no pixel buffer has been allocated.  When `count` is
not greater than the blob size but is greater than the number of bytes left
after the header and the palette, the pixel buffer is allocated first (if
memory allows), the read comes up short, the buffer is released and the
sub-image is rejected with the same error. -/
theorem ReadVIFFImage_pixel_count (env : Env) (image_info : ImageInfo) (data : List Nat)
    (image1 : Image) (v1 : ViffInfo) (image2 : Image) (s2 : Reader) (max_packets : Nat)
    (hmagic : hasMagic data) (hlen : 1024 ≤ data.length)
    (hsize : sizeChecks env image_info (parsedHeader (afterMagic data))
      (headerImage env image_info.scene (parsedHeader (afterMagic data)))
      (headerRead data).blob = Sized.ok image1)
    (hvalid : validateFields (parsedHeader (afterMagic data)) = none)
    (hmap : readColormap env (parsedHeader (afterMagic data)) image1 (headerRead data)
      = Res.ok (v1, image2) s2)
    (hping : ¬ (image_info.ping = true ∧ sceneLimit image_info image2 = true))
    (hbit : v1.data_storage_type = VFF_TYP_BIT → env.AcquireImageColormap 2 = true)
    (hpackets : maxPackets v1 image2 = some max_packets) :
    (pixelCount v1 max_packets > data.length →
      (ReadVIFFImage env image_info data).images = [] ∧
      (ReadVIFFImage env image_info data).exception
        = some ⟨ExceptionType.CorruptImageError, "ImproperImageHeader"⟩ ∧
      ∀ c q, Event.acquire Buffer.pixels c q ∉ (ReadVIFFImage env image_info data).final.log) ∧
    (pixelCount v1 max_packets ≤ data.length →
      s2.blob.rest.length < pixelCount v1 max_packets →
      env.AcquireQuantumMemory
        (max (((v1.columns * v1.rows) % SIZE_MOD)) max_packets)
        (dataSampleType v1.data_storage_type).bytes = true →
      (ReadVIFFImage env image_info data).images = [] ∧
      (ReadVIFFImage env image_info data).exception
        = some ⟨ExceptionType.CorruptImageError, "ImproperImageHeader"⟩ ∧
      Event.acquire Buffer.pixels (max (((v1.columns * v1.rows) % SIZE_MOD)) max_packets)
        (dataSampleType v1.data_storage_type).bytes
          ∈ (ReadVIFFImage env image_info data).final.log ∧
      (ReadVIFFImage env image_info data).final.log.getLast?
        = some (Event.relinquish Buffer.pixels)) := by
  obtain ⟨_, _, f3, _, _, _, _, _, f9⟩ := readColormap_frame env _ image1 _ (v1, image2) s2 hmap
    (headerRead data).blob.size (Nat.le_refl _) [] []
  have hsz : s2.blob.size = data.length := by
    rw [f3]; simp [headerRead, afterMagic_eq]
  obtain ⟨image, sb, e1, e2, e3, e4, e5⟩ := readPixels_allocate env image_info v1 image2 s2
    hping hbit
  have hstep : readSubImage env image_info image_info.scene ⟨afterMagic data, []⟩ =
      allocatePixels env image_info v1 image sb := by
    rw [ReadVIFFImage_header env image_info data hlen,
      decodeAfterHeader_valid env image_info _ _ _ image1 hsize hvalid]
    unfold paletteAndPixels
    rw [hmap]
    exact e1
  have hnolog : ∀ c q, Event.acquire Buffer.pixels c q ∉ sb.log := by
    intro c q hm
    have := f9 c q (e3 c q hm)
    simp [headerRead] at this
  constructor
  · intro hbig
    have hthrow : allocatePixels env image_info v1 image sb =
        Step.thrown ⟨ExceptionType.CorruptImageError, "ImproperImageHeader"⟩ sb := by
      unfold allocatePixels
      rw [e5, hpackets]
      simp only
      rw [if_pos (by simp only [GetBlobSize, e2, hsz]; exact hbig)]
    rw [hthrow] at hstep
    rw [ReadVIFFImage_thrown env image_info data hmagic _ _ hstep]
    refine ⟨(ThrowReaderException_nil _ _).1, (ThrowReaderException_nil _ _).2.1, ?_⟩
    rw [(ThrowReaderException_nil _ _).2.2]
    exact hnolog
  · intro hfit hshort hmem
    have hrd : (ReadBlob sb.blob (pixelCount v1 max_packets)).1.length ≠
        pixelCount v1 max_packets := by
      rw [ReadBlob_length, e2]; omega
    have hthrow : allocatePixels env image_info v1 image sb =
        Step.thrown ⟨ExceptionType.CorruptImageError, "ImproperImageHeader"⟩
          { blob := (ReadBlob sb.blob (pixelCount v1 max_packets)).2
            log := (sb.log ++ [Event.acquire Buffer.pixels
              (max (((v1.columns * v1.rows) % SIZE_MOD)) max_packets)
              (dataSampleType v1.data_storage_type).bytes]) ++
              [Event.relinquish Buffer.pixels] } := by
      unfold allocatePixels
      rw [e5, hpackets]
      simp only
      rw [if_neg (by simp only [GetBlobSize, e2, hsz]; omega), if_neg (by simp [hmem])]
      unfold loadPixels
      rw [if_pos hrd]
    rw [hthrow] at hstep
    rw [ReadVIFFImage_thrown env image_info data hmagic _ _ hstep]
    refine ⟨(ThrowReaderException_nil _ _).1, (ThrowReaderException_nil _ _).2.1, ?_, ?_⟩
    · rw [(ThrowReaderException_nil _ _).2.2]
      simp
    · rw [(ThrowReaderException_nil _ _).2.2]
      simp

set_option maxHeartbeats 4000000 in
set_option maxRecDepth 100000 in
theorem ReadVIFFImage_pixel_count_witness :
    (pixelCount (forcedScheme (parsedHeader (afterMagic oversizedStream))) 6000
      > oversizedStream.length) ∧
    (∀ c q, Event.acquire Buffer.pixels c q ∉
      (ReadVIFFImage plainEnv plainInfo oversizedStream).final.log) ∧
    (ReadVIFFImage plainEnv plainInfo shortStream).final.log.getLast?
      = some (Event.relinquish Buffer.pixels) :=
  ⟨by decide!,
   ((ReadVIFFImage_pixel_count plainEnv plainInfo oversizedStream
      (sizedImage plainEnv plainInfo oversizedStream)
      (forcedScheme (parsedHeader (afterMagic oversizedStream)))
      (sizedImage plainEnv plainInfo oversizedStream) (headerRead oversizedStream) 6000
      (by decide!) (by decide!) (by decide!) (by decide!) (by decide!) (by decide!)
      (by decide!) (by decide!)).1 (by decide!)).2.2,
   ((ReadVIFFImage_pixel_count plainEnv plainInfo shortStream
      (sizedImage plainEnv plainInfo shortStream)
      (forcedScheme (parsedHeader (afterMagic shortStream)))
      (sizedImage plainEnv plainInfo shortStream) (headerRead shortStream) 6
      (by decide!) (by decide!) (by decide!) (by decide!) (by decide!) (by decide!)
      (by decide!) (by decide!)).2 (by decide!) (by decide!) (by decide!)).2.2.2⟩

set_option maxRecDepth 100000 in
theorem ReadVIFFImage_pixel_count_counterexample :
    pixelCount (forcedScheme (parsedHeader (afterMagic shortStream))) 6 = 6 ∧
    (headerRead shortStream).blob.rest.length = 5 ∧
    (ReadVIFFImage plainEnv plainInfo shortStream).images = [] ∧
    (ReadVIFFImage plainEnv plainInfo shortStream).exception
      = some ⟨ExceptionType.CorruptImageError, "ImproperImageHeader"⟩ ∧
    (ReadVIFFImage plainEnv plainInfo shortStream).final.log
      = [Event.acquire Buffer.pixels 6 1, Event.relinquish Buffer.pixels] := by
  decide!

/-! ### The header round trip -/

theorem ReadBlob_append (size : Nat) (xs ys : List Nat) (eof : Bool) (n : Nat)
    (h : xs.length = n) :
    ReadBlob { size := size, rest := xs ++ ys, eof := eof } n =
      (xs.map (fun x => x % 256), { size := size, rest := ys, eof := eof }) := by
  subst h
  simp [ReadBlob]

theorem ReadBlobLong_write (size : Nat) (x : Nat) (ys : List Nat) (eof : Bool) :
    ReadBlobLong EndianType.MSBEndian
      { size := size, rest := WriteBlobMSBLong x ++ ys, eof := eof } =
      (x % 2 ^ 32, { size := size, rest := ys, eof := eof }) := by
  unfold ReadBlobLong
  rw [ReadBlob_append size (WriteBlobMSBLong x) ys eof 4 rfl]
  simp only [WriteBlobMSBLong, List.map, List.length_cons, List.length_nil, if_true,
    List.getD_cons_zero, List.getD_cons_succ]
  refine Prod.ext ?_ rfl
  simp only [show EndianType.MSBEndian ≠ EndianType.LSBEndian by decide, if_false]
  omega

theorem ReadBlob_one (size : Nat) (x : Nat) (ys : List Nat) (eof : Bool) :
    ReadBlob { size := size, rest := [x] ++ ys, eof := eof } 1 =
      ([x % 256], { size := size, rest := ys, eof := eof }) :=
  ReadBlob_append size [x] ys eof 1 rfl

theorem ReadBlob_range (size : Nat) (k : Nat) (f : Nat → Nat) (ys : List Nat) (eof : Bool) :
    ReadBlob { size := size, rest := (List.range k).map f ++ ys, eof := eof } k =
      (((List.range k).map f).map (fun x => x % 256), { size := size, rest := ys, eof := eof }) :=
  ReadBlob_append size _ ys eof k (by simp)

theorem writeViffHeader_body (w : ViffInfo) (body : List Nat) :
    (writeViffHeader w).drop 1 ++ body =
      [w.file_type % 256] ++ ([w.release % 256] ++ ([w.version % 256] ++
      ([w.machine_dependency % 256] ++
      ((List.range 3).map (fun i => w.reserve.getD i 0 % 256) ++
      ((List.range 512).map (fun i => w.comment.getD i 0 % 256) ++
      (WriteBlobMSBLong (w.rows % 2 ^ 32) ++ (WriteBlobMSBLong (w.columns % 2 ^ 32) ++
      (WriteBlobMSBLong (w.subrows % 2 ^ 32) ++ (WriteBlobMSBLong (unsignedLong w.x_offset) ++
      (WriteBlobMSBLong (unsignedLong w.y_offset) ++ (WriteBlobMSBLong w.x_bits_per_pixel ++
      (WriteBlobMSBLong w.y_bits_per_pixel ++ (WriteBlobMSBLong w.location_type ++
      (WriteBlobMSBLong w.location_dimension ++ (WriteBlobMSBLong w.number_of_images ++
      (WriteBlobMSBLong w.number_data_bands ++ (WriteBlobMSBLong w.data_storage_type ++
      (WriteBlobMSBLong w.data_encode_scheme ++ (WriteBlobMSBLong w.map_scheme ++
      (WriteBlobMSBLong w.map_storage_type ++ (WriteBlobMSBLong w.map_rows ++
      (WriteBlobMSBLong w.map_columns ++ (WriteBlobMSBLong w.map_subrows ++
      (WriteBlobMSBLong w.map_enable ++ (WriteBlobMSBLong w.maps_per_cycle ++
      (WriteBlobMSBLong w.color_space_model ++
      (List.replicate 420 0 ++ body))))))))))))))))))))))))))) := by
  simp only [writeViffHeader, List.cons_append, List.nil_append, List.drop_succ_cons, List.drop_zero,
    List.append_assoc]

theorem readViffPreamble_write (w : ViffInfo) (size : Nat) (tail : List Nat) (eof : Bool) :
    readViffPreamble 0xab { size := size, eof := eof, rest :=
      [w.file_type % 256] ++ ([w.release % 256] ++ ([w.version % 256] ++
      ([w.machine_dependency % 256] ++
      ((List.range 3).map (fun i => w.reserve.getD i 0 % 256) ++
      ((List.range 512).map (fun i => w.comment.getD i 0 % 256) ++ tail))))) } =
    ({ wireHeader w with
        rows := 0, columns := 0, subrows := 0, x_offset := 0, y_offset := 0
        x_bits_per_pixel := 0, y_bits_per_pixel := 0, location_type := 0
        location_dimension := 0, number_of_images := 0, number_data_bands := 0
        data_storage_type := 0, data_encode_scheme := 0, map_scheme := 0
        map_storage_type := 0, map_rows := 0, map_columns := 0, map_subrows := 0
        map_enable := 0, maps_per_cycle := 0, color_space_model := 0 },
      512, { size := size, rest := tail, eof := eof }) := by
  simp only [readViffPreamble, ReadBlob_one, ReadBlob_range, wireHeader]
  simp

theorem viffEndian_msb (md : Nat) (h : md % 256 ≠ 4 ∧ md % 256 ≠ 8) :
    viffEndian (md % 256) = EndianType.MSBEndian := by
  unfold viffEndian
  rw [if_neg]
  simp only [VFF_DEP_DECORDER, VFF_DEP_NSORDER]
  omega

theorem parsedHeader_write (w : ViffInfo) (size : Nat) (body : List Nat) (eof : Bool)
    (hmd : w.machine_dependency % 256 ≠ 4 ∧ w.machine_dependency % 256 ≠ 8) :
    parsedHeader { size := size, rest := (writeViffHeader w).drop 1 ++ body, eof := eof } =
      wireHeader w := by
  unfold parsedHeader
  rw [writeViffHeader_body, readViffPreamble_write]
  simp only [readViffFields, wireHeader, viffEndian_msb _ hmd, readLongs, ReadBlobLong_write,
    List.getD_cons_zero, List.getD_cons_succ]
  simp only [Nat.mod_mod]

/-! ### The DirectClass round trip -/

theorem writeViffHeader_length (w : ViffInfo) : (writeViffHeader w).length = 1024 := by
  simp only [writeViffHeader, WriteBlobMSBLong, List.length_append, List.length_cons,
    List.length_nil, List.length_map, List.length_range, List.length_replicate]

theorem directPlanes_length (env : Env) (image : Image) :
    (directPlanes env image).length =
      (if image.matte then 4 else 3) * (image.columns * image.rows) := by
  unfold directPlanes
  by_cases h : image.matte = true
  · simp [h]; ring
  · simp [h]; ring

theorem WriteVIFFImage_loop_direct (env : Env) (image_info : ImageInfo) (image : Image)
    (comment0 written : List Nat)
    (hclass : image.storage_class = ClassType.DirectClass)
    (hcs : env.IssRGBCompatibleColorspace image.colorspace = true)
    (hfit : 4 * (image.columns * image.rows) < SIZE_MOD)
    (hvm : env.AcquireVirtualMemory
      ((if image.matte then 4 else 3) * (image.columns * image.rows)) 1 = true) :
    WriteVIFFImage.loop env image_info [image] comment0 written =
      { status := true
        data := written ++ writeViffHeader (writerHeader env image
          (writerComment comment0 image.comment)) ++ directPlanes env image
        exception := none } := by
  have hp : writerPackets env image = (if image.matte then 4 else 3) * (image.columns * image.rows) := by
    unfold writerPackets
    simp only [hclass, if_true]
    rw [Nat.mod_eq_of_lt (by omega : image.columns * image.rows < SIZE_MOD)]
    apply Nat.mod_eq_of_lt
    split_ifs <;> omega
  have hw : writerPixels env image = directPlanes env image := by
    unfold writerPixels
    simp only [hclass, if_true]
  have ht : (directPlanes env image).take
      ((if image.matte then 4 else 3) * (image.columns * image.rows)) = directPlanes env image := by
    rw [← directPlanes_length env image, List.take_length]
  simp only [WriteVIFFImage.loop, hcs, Bool.true_eq_false, if_false, hp, hvm, hclass, ne_eq,
    not_true_eq_false, false_and, hw, List.append_nil, ht, directPlanes_length, Nat.sub_self,
    List.replicate_zero]
  split_ifs <;> rfl

theorem WriteVIFFImage_direct (env : Env) (image_info : ImageInfo) (image : Image)
    (hclass : image.storage_class = ClassType.DirectClass)
    (hcs : env.IssRGBCompatibleColorspace image.colorspace = true)
    (hfit : 4 * (image.columns * image.rows) < SIZE_MOD)
    (hvm : env.AcquireVirtualMemory
      ((if image.matte then 4 else 3) * (image.columns * image.rows)) 1 = true) :
    WriteVIFFImage env image_info [image] =
      { status := true
        data := writeViffHeader (writerHeader env image
          (writerComment (List.replicate 512 0) image.comment)) ++ directPlanes env image
        exception := none } := by
  unfold WriteVIFFImage
  rw [WriteVIFFImage_loop_direct env image_info image _ _ hclass hcs hfit hvm]
  simp only [List.nil_append]

/-! ### Binary64 rounding -/

theorem floorLog2_go_spec (fuel : Nat) : ∀ n : Nat, n ≤ fuel → 1 ≤ n →
    2 ^ floorLog2.go fuel n ≤ n ∧ n < 2 ^ (floorLog2.go fuel n + 1) := by
  induction fuel with
  | zero => intro n h1 h2; omega
  | succ fuel ih =>
    intro n hf hn
    by_cases h : n < 2
    · have hn1 : n = 1 := by omega
      subst hn1
      simp [floorLog2.go]
    · have h3 := ih (n / 2) (by omega) (by omega)
      simp only [floorLog2.go, if_neg h]
      obtain ⟨h4, h5⟩ := h3
      generalize floorLog2.go fuel (n / 2) = k at h4 h5
      rw [pow_succ] at h5
      rw [pow_succ, pow_succ, pow_succ]
      generalize 2 ^ k = a at h4 h5
      omega

theorem floorLog2_spec (n : Nat) (hn : 1 ≤ n) :
    2 ^ floorLog2 n ≤ n ∧ n < 2 ^ (floorLog2 n + 1) :=
  floorLog2_go_spec n n (le_refl n) hn

theorem twoPow_eq (k : Int) : twoPow k = (2 : ℚ) ^ k := by
  unfold twoPow
  split_ifs with h
  · have h1 : k = (k.toNat : Int) := (Int.toNat_of_nonneg h).symm
    conv_rhs => rw [h1]
    rw [zpow_natCast]
    push_cast
    rfl
  · have h2 : 0 ≤ -k := by omega
    have h1 : k = -((-k).toNat : Int) := by rw [Int.toNat_of_nonneg h2]; ring
    conv_rhs => rw [h1]
    rw [zpow_neg, zpow_natCast]
    push_cast
    rw [one_div]

theorem twoPow_pos (k : Int) : 0 < twoPow k := by
  rw [twoPow_eq]
  positivity

theorem binaryExponent_le (x : ℚ) (hx : 0 < x) : twoPow (binaryExponent x) ≤ x := by
  unfold binaryExponent
  simp only []
  split_ifs with h
  · exact h
  · have hnum : 0 < x.num := Rat.num_pos.mpr hx
    have hn1 : 1 ≤ x.num.natAbs := by omega
    have hd1 : 1 ≤ x.den := x.den_pos
    obtain ⟨ha, -⟩ := floorLog2_spec x.num.natAbs hn1
    obtain ⟨-, hb⟩ := floorLog2_spec x.den hd1
    generalize floorLog2 x.num.natAbs = a at ha
    generalize floorLog2 x.den = b at hb
    have hx2 : x = (x.num.natAbs : ℚ) / (x.den : ℚ) := by
      have h1 : ((x.num.natAbs : Nat) : ℚ) = ((x.num : Int) : ℚ) := by
        have : ((x.num.natAbs : Nat) : Int) = x.num := Int.natAbs_of_nonneg hnum.le
        rw [← Int.cast_natCast, this]
      rw [h1]
      exact (Rat.num_div_den x).symm
    have he : ((a : Int) - (b : Int) - 1) = (a : Int) - ((b + 1 : Nat) : Int) := by
      push_cast; ring
    rw [twoPow_eq, he, zpow_sub₀ (by norm_num : (2 : ℚ) ≠ 0), zpow_natCast, zpow_natCast]
    conv_rhs => rw [hx2]
    have ha2 : ((2 : ℚ) ^ a) ≤ (x.num.natAbs : ℚ) := by exact_mod_cast ha
    have hb2 : (x.den : ℚ) ≤ ((2 : ℚ) ^ (b + 1)) := by exact_mod_cast hb.le
    have hd0 : (0 : ℚ) < (x.den : ℚ) := by exact_mod_cast hd1
    exact div_le_div₀ (by positivity) ha2 hd0 hb2

theorem roundHalfEven_err (m : ℚ) : |(roundHalfEven m : ℚ) - m| ≤ 1 / 2 := by
  have h0 : ((⌊m⌋ : Int) : ℚ) ≤ m := Int.floor_le m
  have h1 : m < ((⌊m⌋ : Int) : ℚ) + 1 := Int.lt_floor_add_one m
  unfold roundHalfEven
  rw [abs_le]
  split_ifs with c1 c2 c3 <;> push_cast <;> constructor <;> linarith

theorem roundMagnitude_err (x : ℚ) (hx : 0 < x) (hn : twoPow (-1022) ≤ x) :
    |roundMagnitude x - x| ≤ x / 2 ^ 53 := by
  unfold roundMagnitude
  have hE : twoPow (max (binaryExponent x) (-1022)) ≤ x := by
    rcases max_cases (binaryExponent x) (-1022) with ⟨h, -⟩ | ⟨h, -⟩
    · rw [h]; exact binaryExponent_le x hx
    · rw [h]; exact hn
  generalize max (binaryExponent x) (-1022) = E at hE
  have hu : twoPow (E - 52) = twoPow E / 2 ^ 52 := by
    rw [twoPow_eq, twoPow_eq, zpow_sub₀ (by norm_num : (2 : ℚ) ≠ 0)]
    norm_num
  have hpos : 0 < twoPow (E - 52) := twoPow_pos _
  have hr := roundHalfEven_err (x / twoPow (E - 52))
  generalize roundHalfEven (x / twoPow (E - 52)) = r at hr
  have h1 : (r : ℚ) * twoPow (E - 52) - x = ((r : ℚ) - x / twoPow (E - 52)) * twoPow (E - 52) := by
    field_simp
  rw [h1, abs_mul, abs_of_pos hpos]
  calc |(r : ℚ) - x / twoPow (E - 52)| * twoPow (E - 52)
      ≤ 1 / 2 * twoPow (E - 52) := by
        exact mul_le_mul_of_nonneg_right hr hpos.le
    _ = twoPow E / 2 ^ 53 := by rw [hu]; ring
    _ ≤ x / 2 ^ 53 := by
        exact div_le_div_of_nonneg_right hE (by positivity)

theorem twoPow_1024 : twoPow 1024 = 2 ^ 1024 := by
  rw [twoPow_eq]
  norm_num

theorem twoPow_neg1022 : twoPow (-1022) = 1 / 2 ^ 1022 := by
  rw [twoPow_eq]
  rw [zpow_neg, one_div]
  norm_num

/-- A nonzero number that is a binary64 value lies below `2^1024` in
magnitude. -/
theorem Double_round_finite_lt (c : ℚ) (hc : c ≠ 0) (hrep : Double.round c = Double.finite c) :
    |c| < 2 ^ 1024 := by
  unfold Double.round at hrep
  rw [if_neg hc] at hrep
  by_cases hneg : c < 0
  · rw [if_pos hneg] at hrep
    by_cases ho : twoPow 1024 ≤ roundMagnitude (-c)
    · rw [if_pos ho] at hrep
      exact absurd hrep (by simp)
    · rw [if_neg ho] at hrep
      have h1 : -roundMagnitude (-c) = c := by
        injection hrep
      rw [abs_of_neg hneg, ← twoPow_1024]
      have h2 : roundMagnitude (-c) = -c := by linarith
      rw [h2] at ho
      exact not_le.mp ho
  · rw [if_neg hneg] at hrep
    by_cases ho : twoPow 1024 ≤ roundMagnitude c
    · rw [if_pos ho] at hrep
      exact absurd hrep (by simp)
    · rw [if_neg ho] at hrep
      have h1 : roundMagnitude c = c := by
        injection hrep
      have hpos : 0 < c := lt_of_le_of_ne (not_lt.mp hneg) (Ne.symm hc)
      rw [abs_of_pos hpos, ← twoPow_1024]
      rw [h1] at ho
      exact not_le.mp ho

/-- The product `a * fl(R / a)` in binary64, for a positive `a` below
`2^1024` and `4 ≤ R < 2^52`: the product is infinite, or it is a finite
number above `R - 1`. -/
theorem Double_round_product (R a : ℚ) (hR1 : 4 ≤ R) (hR2 : R < 2 ^ 52) (ha : 0 < a)
    (ha2 : a < 2 ^ 1024) :
    Double.round (a * roundMagnitude (R / a)) = Double.infinite false ∨
    ∃ w, Double.round (a * roundMagnitude (R / a)) = Double.finite w ∧ R - 1 < w := by
  have hqpos : 0 < R / a := div_pos (by linarith) ha
  have hqn : twoPow (-1022) ≤ R / a := by
    rw [twoPow_neg1022, div_le_div_iff₀ (by positivity) ha]
    have : (1 : ℚ) * a ≤ 1 * 2 ^ 1024 := by linarith
    calc (1 : ℚ) * a ≤ 1 * 2 ^ 1024 := this
      _ ≤ R * 2 ^ 1022 := by
          have : (2 : ℚ) ^ 1024 = 4 * 2 ^ 1022 := by norm_num
          rw [this]
          nlinarith [show (0 : ℚ) < 2 ^ 1022 by positivity]
  have he := roundMagnitude_err (R / a) hqpos hqn
  generalize roundMagnitude (R / a) = s at he
  rw [abs_le] at he
  have hmul : a * (R / a) = R := by field_simp
  have hp1 : R - R / 2 ^ 53 ≤ a * s := by
    have h1 : a * (R / a - R / a / 2 ^ 53) ≤ a * s := by
      apply mul_le_mul_of_nonneg_left _ ha.le
      linarith [he.1]
    have h2 : a * (R / a - R / a / 2 ^ 53) = R - R / 2 ^ 53 := by
      field_simp
      ring
    linarith
  have hRu : R / 2 ^ 53 < 1 / 2 := by
    rw [div_lt_div_iff₀ (by positivity) (by norm_num)]
    have : (2 : ℚ) ^ 53 = 2 * 2 ^ 52 := by norm_num
    rw [this]
    linarith
  have hppos : 0 < a * s := by linarith
  have hpn : twoPow (-1022) ≤ a * s := by
    rw [twoPow_neg1022]
    have : (1 : ℚ) / 2 ^ 1022 ≤ 1 / 2 := by
      rw [div_le_div_iff₀ (by positivity) (by norm_num)]
      have : (2 : ℚ) ≤ 2 ^ 1022 := by
        calc (2 : ℚ) = 2 ^ 1 := by norm_num
          _ ≤ 2 ^ 1022 := pow_le_pow_right₀ (by norm_num) (by norm_num)
      linarith
    linarith
  have he2 := roundMagnitude_err (a * s) hppos hpn
  unfold Double.round
  rw [if_neg (ne_of_gt hppos), if_neg (not_lt.mpr hppos.le)]
  by_cases ho : twoPow 1024 ≤ roundMagnitude (a * s)
  · left
    rw [if_pos ho]
  · right
    rw [if_neg ho]
    refine ⟨_, rfl, ?_⟩
    generalize roundMagnitude (a * s) = w at he2
    rw [abs_le] at he2
    have h3 : a * s - a * s / 2 ^ 53 ≤ w := by linarith [he2.1]
    have h4 : (R - R / 2 ^ 53) * (1 - 1 / 2 ^ 53) ≤ a * s - a * s / 2 ^ 53 := by
      have : a * s - a * s / 2 ^ 53 = (a * s) * (1 - 1 / 2 ^ 53) := by ring
      rw [this]
      apply mul_le_mul_of_nonneg_right hp1
      norm_num
    have h5 : R - 1 < (R - R / 2 ^ 53) * (1 - 1 / 2 ^ 53) := by
      have h6 : (R - R / 2 ^ 53) * (1 - 1 / 2 ^ 53) = R - 2 * (R / 2 ^ 53) + R / 2 ^ 53 / 2 ^ 53 := by
        ring
      rw [h6]
      have h7 : 0 ≤ R / 2 ^ 53 / 2 ^ 53 := by positivity
      linarith
    linarith

/-- The rescale of a sample `c` of a constant plane (lines 609-635 with
`min_value = 0` and `scale_factor = QuantumRange/c`): the clamped result is a
finite number above `QuantumRange - 1` and at most `QuantumRange`. -/
theorem rescaleSample_constant (qd : Nat) (c : ℚ) (hq1 : 8 ≤ qd) (hq2 : qd ≤ 52) (hc : c ≠ 0)
    (hrep : Double.round c = Double.finite c) :
    ∃ w, rescaleSample qd c 0
        (Double.div (Double.finite (QuantumRange qd : ℚ)) (Double.finite c)) = Double.finite w ∧
      (QuantumRange qd : ℚ) - 1 < w ∧ w ≤ (QuantumRange qd : ℚ) := by
  have hmag := Double_round_finite_lt c hc hrep
  have hR1 : (4 : ℚ) ≤ (QuantumRange qd : ℚ) := by
    have : 4 ≤ QuantumRange qd := by
      unfold QuantumRange
      have : 2 ^ 8 ≤ 2 ^ qd := Nat.pow_le_pow_right (by norm_num) hq1
      omega
    exact_mod_cast this
  have hR2 : (QuantumRange qd : ℚ) < 2 ^ 52 := by
    have : QuantumRange qd < 2 ^ 52 := by
      unfold QuantumRange
      have : 2 ^ qd ≤ 2 ^ 52 := Nat.pow_le_pow_right (by norm_num) hq2
      have : 0 < 2 ^ qd := by positivity
      omega
    exact_mod_cast this
  -- the clamp of a product that is infinite or above R - 1
  have key : ∀ scaled : Double,
      (scaled = Double.infinite false ∨
        ∃ w, scaled = Double.finite w ∧ (QuantumRange qd : ℚ) - 1 < w) →
      ∃ w, (if Double.gt scaled (QuantumRange qd : ℚ) then Double.finite (QuantumRange qd : ℚ)
          else if Double.lt scaled 0 then Double.finite 0 else scaled) = Double.finite w ∧
        (QuantumRange qd : ℚ) - 1 < w ∧ w ≤ (QuantumRange qd : ℚ) := by
    intro scaled hs
    rcases hs with hs | ⟨w, hs, hw⟩
    · subst hs
      refine ⟨(QuantumRange qd : ℚ), ?_, by linarith, le_refl _⟩
      simp [Double.gt]
    · subst hs
      by_cases hgt : w > (QuantumRange qd : ℚ)
      · refine ⟨(QuantumRange qd : ℚ), ?_, by linarith, le_refl _⟩
        simp [Double.gt, hgt]
      · refine ⟨w, ?_, hw, not_lt.mp hgt⟩
        have hlt : ¬ w < 0 := by linarith
        simp [Double.gt, Double.lt, hgt, hlt]
  unfold rescaleSample
  simp only []
  apply key
  have hsub : Double.sub (Double.finite c) (Double.finite 0) = Double.finite c := by
    simp only [Double.sub, sub_zero]
    exact hrep
  rw [hsub]
  simp only [Double.div, if_neg hc]
  by_cases hneg : c < 0
  · have ha : 0 < -c := by linarith
    have ha2 : -c < 2 ^ 1024 := by rw [abs_of_neg hneg] at hmag; exact hmag
    have hqneg : (QuantumRange qd : ℚ) / c < 0 := div_neg_of_pos_of_neg (by linarith) hneg
    have hqe : -((QuantumRange qd : ℚ) / c) = (QuantumRange qd : ℚ) / -c := by
      rw [div_neg]
    unfold Double.round
    rw [if_neg hqneg.ne, if_pos hqneg, hqe]
    by_cases ho : twoPow 1024 ≤ roundMagnitude ((QuantumRange qd : ℚ) / -c)
    · left
      rw [if_pos ho]
      simp [Double.mul, hc, hneg]
    · rw [if_neg ho]
      have h := Double_round_product (QuantumRange qd : ℚ) (-c) hR1 hR2 ha ha2
      simp only [Double.mul]
      have he : c * -roundMagnitude ((QuantumRange qd : ℚ) / -c) =
          -c * roundMagnitude ((QuantumRange qd : ℚ) / -c) := by ring
      rw [he]
      exact h
  · have ha : 0 < c := lt_of_le_of_ne (not_lt.mp hneg) (Ne.symm hc)
    have ha2 : c < 2 ^ 1024 := by rw [abs_of_pos ha] at hmag; exact hmag
    have hqpos : 0 < (QuantumRange qd : ℚ) / c := div_pos (by linarith) ha
    unfold Double.round
    rw [if_neg (ne_of_gt hqpos), if_neg (not_lt.mpr hqpos.le)]
    by_cases ho : twoPow 1024 ≤ roundMagnitude ((QuantumRange qd : ℚ) / c)
    · left
      rw [if_pos ho]
      simp [Double.mul, hc, hneg]
    · rw [if_neg ho]
      have h := Double_round_product (QuantumRange qd : ℚ) c hR1 hR2 ha ha2
      simp only [Double.mul]
      exact h

/-- The byte stored for a finite value above `QuantumRange - 1` and at most
`QuantumRange`: 255 or 254. -/
theorem castQuantumUChar_top (qd : Nat) (w : ℚ) (hqd : 8 ≤ qd)
    (h1 : (QuantumRange qd : ℚ) - 1 < w) (h2 : w ≤ (QuantumRange qd : ℚ)) :
    castQuantumUChar qd w = 255 ∨ castQuantumUChar qd w = 254 := by
  have hpow : (2 : Nat) ^ qd = 256 * 2 ^ (qd - 8) := by
    rw [show (256 : Nat) = 2 ^ 8 by norm_num, ← pow_add]
    congr 1
    omega
  have hk : 1 ≤ 2 ^ (qd - 8) := Nat.one_le_two_pow
  generalize 2 ^ (qd - 8) = k at hpow hk
  have hQ : QuantumRange qd = 256 * k - 1 := by unfold QuantumRange; rw [hpow]
  have hQc : (QuantumRange qd : ℚ) = ((256 * k - 1 : Int) : ℚ) := by
    rw [hQ]
    have : ((256 * k - 1 : Nat) : Int) = (256 * k - 1 : Int) := by omega
    exact_mod_cast congrArg (fun z : Int => (z : ℚ)) this
  rw [hQc] at h1 h2
  have hf1 : (256 * k - 1 : Int) - 1 ≤ ⌊w⌋ := by
    rw [Int.le_floor]
    push_cast
    push_cast at h1
    linarith
  have hf2 : ⌊w⌋ ≤ (256 * k - 1 : Int) := by
    have : ⌊w⌋ ≤ ⌊((256 * k - 1 : Int) : ℚ)⌋ := Int.floor_mono h2
    rwa [Int.floor_intCast] at this
  unfold castQuantumUChar
  have hp2 : ((2 : Int) ^ qd) = 256 * (k : Int) := by
    have := congrArg (fun n : Nat => (n : Int)) hpow
    push_cast at this
    exact this
  rw [hp2]
  generalize ⌊w⌋ = f at hf1 hf2
  have hmod : f % (256 * (k : Int)) = f := by
    apply Int.emod_eq_of_lt <;> omega
  rw [hmod]
  omega

theorem castQuantumUChar_natCast (qd : Nat) (b : Nat) (hqd : 8 ≤ qd) (hb : b < 256) :
    castQuantumUChar qd (b : ℚ) = b := by
  unfold castQuantumUChar
  rw [Int.floor_natCast]
  have h1 : (256 : Nat) ≤ 2 ^ qd := by
    calc (256 : Nat) = 2 ^ 8 := by norm_num
      _ ≤ 2 ^ qd := Nat.pow_le_pow_right (by norm_num) hqd
  have h2 : ((b : Int) % (2 ^ qd : Int)) = (b : Int) := by
    apply Int.emod_eq_of_lt (by omega)
    have : ((2 ^ qd : Nat) : Int) = (2 ^ qd : Int) := by push_cast; rfl
    rw [← this]
    omega
  rw [h2, Int.toNat_ofNat]
  omega

theorem QuantumRange_ge (qd : Nat) (hqd : 8 ≤ qd) : 255 ≤ QuantumRange qd := by
  unfold QuantumRange
  have h1 : (256 : Nat) ≤ 2 ^ qd := by
    calc (256 : Nat) = 2 ^ 8 := by norm_num
      _ ≤ 2 ^ qd := Nat.pow_le_pow_right (by norm_num) hqd
  omega

theorem Double_round_byte : ∀ b : Fin 256,
    Double.mul (Double.sub (Double.finite ((b : Nat) : ℚ)) (Double.finite 0)) (Double.finite 1) =
      Double.finite ((b : Nat) : ℚ) := by
  decide!

theorem rescaleSample_byte (qd : Nat) (b : Nat) (hqd : 8 ≤ qd) (hb : b < 256) :
    rescaleSample qd (b : ℚ) 0 (Double.finite 1) = Double.finite (b : ℚ) := by
  have hq := QuantumRange_ge qd hqd
  have h1 : ¬ ((b : ℚ) > (QuantumRange qd : ℚ)) := by
    rw [gt_iff_lt, Nat.cast_lt]
    omega
  have h2 : ¬ ((b : ℚ) < 0) := by
    simp
  unfold rescaleSample
  simp only []
  rw [Double_round_byte ⟨b, hb⟩]
  simp [Double.gt, Double.lt, h1]

theorem convertSamples_byte (env : Env) (v : ViffInfo) (pixels : List Nat) (n : Nat)
    (hqd : 8 ≤ env.qd) (ht : v.data_storage_type = VFF_TYP_1_BYTE)
    (hb : ∀ x ∈ pixels, x < 256) :
    convertSamples env v pixels n = (List.range n).map (fun i => pixels.getD i 0) := by
  have hget : ∀ i, pixels.getD i 0 < 256 := by
    intro i
    by_cases hi : i < pixels.length
    · rw [List.getD_eq_getElem _ _ hi]
      exact hb _ (List.getElem_mem hi)
    · rw [List.getD_eq_default _ _ (by omega)]
      norm_num
  have hs : scaleFactor env v pixels n = (0, Double.finite 1) := by
    unfold scaleFactor
    rw [if_neg]
    simp [ht]
  unfold convertSamples
  apply List.map_congr_left
  intro i _
  have ht2 : dataSampleType v.data_storage_type = SampleType.uchar := by
    rw [ht]; decide
  simp only [hs, ht2, typedSample]
  rw [rescaleSample_byte env.qd _ hqd (hget i)]
  simp only [ite_self, castQuantumByte]
  exact castQuantumUChar_natCast env.qd _ hqd (hget i)

theorem ScaleCharToQuantum_eight (b : Nat) : ScaleCharToQuantum 8 b = b := by
  unfold ScaleCharToQuantum
  have h : QuantumRange 8 = 255 := by decide
  rw [h]
  exact roundDiv_mul_self b 255 (by decide)

theorem map_range_getD (l : List Nat) :
    (List.range l.length).map (fun i => l.getD i 0) = l := by
  apply List.ext_getElem
  · simp
  · intro i h1 h2
    simp [List.getElem?_eq_getElem h2]

theorem forcedScheme_none (v : ViffInfo) (h : v.map_scheme = VFF_MS_NONE) :
    forcedScheme v = v := by
  unfold forcedScheme
  split_ifs
  · cases v
    simp only at h
    simp [h]
  · rfl

theorem decodeAfterHeader_direct (env : Env) (image_info : ImageInfo) (scene : Nat)
    (v : ViffInfo) (size : Nat) (plane : List Nat)
    (hqd : 8 ≤ env.qd)
    (hbands : v.number_data_bands = 3 ∨ v.number_data_bands = 4)
    (htype : v.data_storage_type = VFF_TYP_1_BYTE)
    (hraw : v.data_encode_scheme = 0)
    (hscheme : v.map_scheme = VFF_MS_NONE)
    (hmaptype : v.map_storage_type = 0)
    (hmodel : v.color_space_model = 15)
    (hloc : v.location_type = 1)
    (himages : v.number_of_images = 1)
    (hpos : 0 < v.columns * v.rows)
    (hlen : plane.length = v.columns * v.rows * v.number_data_bands)
    (hbytes : ∀ x ∈ plane, x < 256)
    (hsize : size = 1024 + plane.length)
    (hfit : 8 * size < SIZE_MOD)
    (hext : env.SetImageExtent v.rows v.columns = none)
    (hmem : env.AcquireQuantumMemory (v.columns * v.rows * v.number_data_bands) 1 = true)
    (hping : image_info.ping = false) :
    decodeAfterHeader env image_info scene v ⟨{ size := size, rest := plane, eof := false }, []⟩ =
      finishSubImage image_info
        { extentImage env image_info v (headerImage env scene v) with
          pixels := (List.range (v.columns * v.rows)).map
            (directPixel env (extentImage env image_info v (headerImage env scene v)) plane
              (v.rows * v.columns)) }
        ⟨{ size := size, rest := [], eof := false },
          [Event.acquire Buffer.pixels (v.columns * v.rows * v.number_data_bands) 1,
            Event.relinquish Buffer.pixels]⟩ := by
  have hn : v.columns * v.rows < SIZE_MOD := by
    have : 1 ≤ v.number_data_bands := by omega
    have := Nat.le_mul_of_pos_right (v.columns * v.rows) this
    omega
  have hnb : v.columns * v.rows * v.number_data_bands < SIZE_MOD := by omega
  have hs : sizeChecks env image_info v (headerImage env scene v)
      { size := size, rest := plane, eof := false } =
      Sized.ok (extentImage env image_info v (headerImage env scene v)) := by
    unfold sizeChecks
    simp only [Nat.mod_eq_of_lt hn, ne_eq, not_true_eq_false, if_false, GetBlobSize,
      Nat.mod_eq_of_lt hfit, hext]
    rw [if_neg (by
      have : 1 ≤ v.number_data_bands := by omega
      have := Nat.le_mul_of_pos_right (v.columns * v.rows) this
      omega), if_neg (by omega)]
  have hv : validateFields v = none := by
    rw [validateFields_none_iff]
    simp only [VFF_TYP_1_BYTE] at htype
    refine ⟨by omega, by omega, hraw, by omega, by omega, hloc, himages⟩
  have hc : readColormap env v (extentImage env image_info v (headerImage env scene v))
      ⟨{ size := size, rest := plane, eof := false }, []⟩ =
      Res.ok (v, extentImage env image_info v (headerImage env scene v))
        ⟨{ size := size, rest := plane, eof := false }, []⟩ := by
    unfold readColormap
    rw [forcedScheme_none v hscheme, if_pos hscheme, if_neg (by omega)]
  have hnotbit : v.data_storage_type ≠ VFF_TYP_BIT := by
    rw [htype]; decide
  have hst : dataSampleType v.data_storage_type = SampleType.uchar := by
    rw [htype]; decide
  have hmp : maxPackets v (extentImage env image_info v (headerImage env scene v)) =
      some (v.columns * v.rows * v.number_data_bands) := by
    unfold maxPackets
    simp only [hnotbit, if_false, HeapOverflowSanityCheck, Nat.mod_eq_of_lt hn,
      Nat.mod_eq_of_lt hnb]
    rw [if_neg]
    simp only [decide_eq_true_eq]
    omega
  have hpc : pixelCount v (v.columns * v.rows * v.number_data_bands) =
      v.columns * v.rows * v.number_data_bands := by
    unfold pixelCount
    rw [hst]
    simp only [SampleType.bytes, Nat.one_mul, Nat.mod_eq_of_lt hnb]
  have hrd : ReadBlob { size := size, rest := plane, eof := false }
      (v.columns * v.rows * v.number_data_bands) =
      (plane, { size := size, rest := [], eof := false }) := by
    have := ReadBlob_append size plane [] false _ hlen
    rw [List.append_nil] at this
    rw [this]
    refine Prod.ext ?_ rfl
    simp only
    have e : List.map (fun x => x % 256) plane = List.map id plane :=
      List.map_congr_left (fun x hx => Nat.mod_eq_of_lt (hbytes x hx))
    rw [e, List.map_id]
  have hclass : (extentImage env image_info v (headerImage env scene v)).storage_class =
      ClassType.DirectClass := rfl
  rw [decodeAfterHeader_valid env image_info scene v _ _ hs hv]
  unfold paletteAndPixels
  rw [hc]
  simp only
  unfold readPixels
  rw [if_neg (by simp [hping])]
  unfold bilevelColormap
  rw [if_neg hnotbit]
  simp only
  unfold allocatePixels
  rw [hmp]
  simp only [hpc, GetBlobSize, hst, SampleType.bytes, Nat.mod_eq_of_lt hn]
  rw [if_neg (by omega)]
  have hmax : max (v.columns * v.rows) (v.columns * v.rows * v.number_data_bands) =
      v.columns * v.rows * v.number_data_bands := by
    apply Nat.max_eq_right
    have : 1 ≤ v.number_data_bands := by omega
    exact Nat.le_mul_of_pos_right _ this
  rw [hmax, if_neg (by simp [hmem])]
  unfold loadPixels
  simp only [hpc, hrd, hlen, ne_eq, not_true_eq_false, if_false]
  unfold convertPixels
  simp only [hpc, hst, orderCorrect, ite_self]
  rw [convertSamples_byte env v _ _ hqd htype hbytes, ← hlen, map_range_getD]
  unfold toPixelPackets
  rw [if_neg hnotbit, if_neg (by rw [hclass]; decide)]
  simp only [List.nil_append, List.singleton_append]
  rfl

theorem directPlanes_bytes (env : Env) (image : Image) :
    ∀ x ∈ directPlanes env image, x < 256 := by
  intro x hx
  unfold directPlanes at hx
  simp only [List.mem_append, List.mem_map] at hx
  have hlt : ∀ q, ScaleQuantumToChar env.qd q < 256 := by
    intro q
    unfold ScaleQuantumToChar
    exact Nat.mod_lt _ (by norm_num)
  rcases hx with ((⟨i, _, rfl⟩ | ⟨i, _, rfl⟩) | ⟨i, _, rfl⟩) | h
  · exact hlt _
  · exact hlt _
  · exact hlt _
  · split at h
    · simp only [List.mem_map] at h
      obtain ⟨i, _, rfl⟩ := h
      exact hlt _
    · cases h

theorem getD_map_range (f : Nat → Nat) (n i : Nat) (hi : i < n) :
    ((List.range n).map f).getD i 0 = f i := by
  rw [List.getD_eq_getElem _ _ (by simp [hi])]
  simp

theorem planes_getD (a b c d : List Nat) (n i : Nat) (ha : a.length = n) (hb : b.length = n)
    (hc : c.length = n) (hi : i < n) :
    (a ++ b ++ c ++ d).getD i 0 = a.getD i 0 ∧
    (a ++ b ++ c ++ d).getD (i + n) 0 = b.getD i 0 ∧
    (a ++ b ++ c ++ d).getD (i + 2 * n) 0 = c.getD i 0 ∧
    (a ++ b ++ c ++ d).getD (i + n * 3) 0 = d.getD i 0 := by
  rw [List.append_assoc, List.append_assoc]
  refine ⟨?_, ?_, ?_, ?_⟩
  · rw [List.getD_append _ _ _ _ (by omega)]
  · rw [List.getD_append_right _ _ _ _ (by omega), List.getD_append _ _ _ _ (by omega)]
    congr 1
    omega
  · rw [List.getD_append_right _ _ _ _ (by omega), List.getD_append_right _ _ _ _ (by omega),
      List.getD_append _ _ _ _ (by omega)]
    congr 1
    omega
  · rw [List.getD_append_right _ _ _ _ (by omega), List.getD_append_right _ _ _ _ (by omega),
      List.getD_append_right _ _ _ _ (by omega)]
    congr 1
    omega

theorem directPixel_directPlanes (env : Env) (image img : Image) (hqd : env.qd = 8)
    (hm : img.matte = image.matte) (hc : img.colors = 0)
    (hpix : image.pixels.length = image.columns * image.rows)
    (hwf : ∀ p ∈ image.pixels, p.wf 8) (i : Nat) (hi : i < image.columns * image.rows) :
    directPixel env img (directPlanes env image) (image.columns * image.rows) i =
      if image.matte then image.pixelAt i
      else { image.pixelAt i with opacity := OpaqueOpacity } := by
  have hp : (image.pixelAt i).wf 8 := by
    unfold Image.pixelAt
    rw [List.getD_eq_getElem _ _ (by omega)]
    exact hwf _ (List.getElem_mem _)
  have hq : QuantumRange 8 = 255 := by decide
  obtain ⟨w1, w2, w3, w4⟩ := hp
  rw [hq] at w1 w2 w3 w4
  have g := planes_getD
    ((List.range (image.columns * image.rows)).map
      (fun i => ScaleQuantumToChar env.qd (image.pixelAt i).red))
    ((List.range (image.columns * image.rows)).map
      (fun i => ScaleQuantumToChar env.qd (image.pixelAt i).green))
    ((List.range (image.columns * image.rows)).map
      (fun i => ScaleQuantumToChar env.qd (image.pixelAt i).blue))
    (if image.matte then (List.range (image.columns * image.rows)).map
      (fun i => ScaleQuantumToChar env.qd (GetPixelAlpha env.qd (image.pixelAt i))) else [])
    (image.columns * image.rows) i (by simp) (by simp) (by simp) hi
  obtain ⟨g1, g2, g3, g4⟩ := g
  rw [getD_map_range _ _ _ hi] at g1 g2 g3
  simp only [hqd] at g1 g2 g3 g4
  unfold directPixel
  rw [if_neg (by simp [hc])]
  unfold directPlanes
  simp only [g1, g2, g3, g4, hm, hqd, ScaleCharToQuantum_eight]
  rw [ScaleQuantumToChar_eight _ w1, ScaleQuantumToChar_eight _ w2, ScaleQuantumToChar_eight _ w3]
  by_cases hmt : image.matte = true
  · simp only [hmt, if_true]
    rw [getD_map_range _ _ _ hi]
    unfold GetPixelAlpha
    rw [hq, ScaleQuantumToChar_eight _ (by omega)]
    have : 255 - (255 - (image.pixelAt i).opacity) = (image.pixelAt i).opacity := by omega
    rw [this]
  · simp only [hmt]
    rfl

theorem writerHeader_direct (env : Env) (image : Image) (comment : List Nat)
    (hclass : image.storage_class = ClassType.DirectClass) :
    writerHeader env image comment =
      { identifier := 0xab, file_type := 1, release := 1, version := 3
        machine_dependency := VFF_DEP_IEEEORDER, reserve := [0, 0, 0], comment := comment
        rows := image.columns, columns := image.rows, subrows := 0
        x_offset := -1, y_offset := -1
        x_bits_per_pixel := 63 * 2 ^ 24 + 128 * 2 ^ 16
        y_bits_per_pixel := 63 * 2 ^ 24 + 128 * 2 ^ 16
        location_type := VFF_LOC_IMPLICIT, location_dimension := 0, number_of_images := 1
        number_data_bands := if image.matte then 4 else 3
        data_storage_type := VFF_TYP_1_BYTE, data_encode_scheme := VFF_DES_RAW
        map_scheme := VFF_MS_NONE, map_storage_type := VFF_MAPTYP_NONE, map_rows := 0
        map_columns := 0, map_subrows := 0, map_enable := 1, maps_per_cycle := 0
        color_space_model := VFF_CM_genericRGB } := by
  unfold writerHeader
  simp only [hclass, if_true]

theorem finishSubImage_single (env : Env) (image_info : ImageInfo) (data : List Nat)
    (hmagic : hasMagic data) (img : Image) (s : Reader) (heof : s.blob.eof = false)
    (hrest : s.blob.rest = [])
    (h : readSubImage env image_info image_info.scene ⟨afterMagic data, []⟩ =
      finishSubImage image_info img s) :
    (ReadVIFFImage env image_info data).images = [img] ∧
    (ReadVIFFImage env image_info data).exception = none := by
  rw [ReadVIFFImage_magic env image_info data hmagic, h]
  unfold finishSubImage
  rw [if_neg (by simp [EOFBlob, heof])]
  by_cases hl : sceneLimit image_info img = true
  · rw [if_pos hl]
    exact ⟨rfl, rfl⟩
  · rw [if_neg hl]
    simp only
    rw [if_neg (by simp [ReadBlob, hrest])]
    exact ⟨rfl, rfl⟩

theorem hasMagic_writeViffHeader (w : ViffInfo) (h : w.identifier % 256 = 0xab) :
    hasMagic (writeViffHeader w) := by
  unfold hasMagic writeViffHeader
  simp only [List.cons_append, List.append_assoc, List.head?_cons, Option.map_some', h]

theorem readSubImage_written (env : Env) (image_info : ImageInfo) (scene : Nat) (w : ViffInfo)
    (body : List Nat) (hid : w.identifier % 256 = 0xab)
    (hmd : w.machine_dependency % 256 ≠ 4 ∧ w.machine_dependency % 256 ≠ 8) :
    readSubImage env image_info scene ⟨afterMagic (writeViffHeader w ++ body), []⟩ =
      decodeAfterHeader env image_info scene (wireHeader w)
        ⟨{ size := 1024 + body.length, rest := body, eof := false }, []⟩ := by
  have hl : ((writeViffHeader w).drop 1).length = 1023 := by
    rw [List.length_drop, writeViffHeader_length]
  rw [afterMagic_append _ _ (hasMagic_writeViffHeader w hid), writeViffHeader_length,
    readSubImage_complete _ _ _ _ rfl (by
      simp only [List.length_append, hl]
      omega)]
  simp only
  rw [parsedHeader_write w _ _ _ hmd, ← ReadBlob_snd, ReadBlob_append _ _ _ _ _ hl]

/-- C2 (amended): for every DirectClass image of at least one pixel at 8-bit
canonical depth, with or without alpha, in an sRGB-compatible colorspace, whose
pixel cache holds columns x rows samples within the canonical range, whose
width and height fit in 32 bits and whose byte count does not wrap, when the
buffers are granted, the resource policy accepts the size and pixels are
requested (no ping), `WriteVIFFImage` succeeds and `ReadVIFFImage` decodes the
bytes it produced, without error, to exactly one DirectClass image with the
same width, height and matte flag and the same red, green and blue in every
pixel; the opacity of every pixel is the same when the image has alpha and is
reset to opaque when it has none. -/
theorem WriteVIFFImage_ReadVIFFImage_direct (env : Env) (image_info : ImageInfo) (image : Image)
    (hqd : env.qd = 8)
    (hclass : image.storage_class = ClassType.DirectClass)
    (hcs : env.IssRGBCompatibleColorspace image.colorspace = true)
    (hpix : image.pixels.length = image.columns * image.rows)
    (hwf : ∀ p ∈ image.pixels, p.wf 8)
    (hpos : 0 < image.columns * image.rows)
    (hc32 : image.columns < 2 ^ 32) (hr32 : image.rows < 2 ^ 32)
    (hfit : 8 * (1024 + 4 * (image.columns * image.rows)) < SIZE_MOD)
    (hvm : env.AcquireVirtualMemory
      ((if image.matte then 4 else 3) * (image.columns * image.rows)) 1 = true)
    (hext : env.SetImageExtent image.columns image.rows = none)
    (hmem : env.AcquireQuantumMemory
      (image.rows * image.columns * (if image.matte then 4 else 3)) 1 = true)
    (hping : image_info.ping = false) :
    (WriteVIFFImage env image_info [image]).status = true ∧
    (ReadVIFFImage env image_info (WriteVIFFImage env image_info [image]).data).exception
      = none ∧
    ∃ img, (ReadVIFFImage env image_info (WriteVIFFImage env image_info [image]).data).images
        = [img] ∧
      img.columns = image.columns ∧ img.rows = image.rows ∧ img.matte = image.matte ∧
      img.storage_class = ClassType.DirectClass ∧
      img.pixels = image.pixels.map
        (fun p => if image.matte then p else { p with opacity := OpaqueOpacity }) := by
  have hn4 : 4 * (image.columns * image.rows) < SIZE_MOD := by omega
  rw [WriteVIFFImage_direct env image_info image hclass hcs hn4 hvm]
  simp only
  refine ⟨trivial, ?_⟩
  generalize writerComment (List.replicate 512 0) image.comment = comment
  have hw := writerHeader_direct env image comment hclass
  have f_rows : (wireHeader (writerHeader env image comment)).rows = image.columns := by
    simp only [wireHeader, hw]
    exact Nat.mod_eq_of_lt hc32
  have f_cols : (wireHeader (writerHeader env image comment)).columns = image.rows := by
    simp only [wireHeader, hw]
    exact Nat.mod_eq_of_lt hr32
  have f_bands : (wireHeader (writerHeader env image comment)).number_data_bands =
      if image.matte then 4 else 3 := by
    simp only [wireHeader, hw]
    split <;> rfl
  have f_type : (wireHeader (writerHeader env image comment)).data_storage_type =
      VFF_TYP_1_BYTE := by
    simp only [wireHeader, hw]
    rfl
  have f_raw : (wireHeader (writerHeader env image comment)).data_encode_scheme = 0 := by
    simp only [wireHeader, hw]
    rfl
  have f_scheme : (wireHeader (writerHeader env image comment)).map_scheme = VFF_MS_NONE := by
    simp only [wireHeader, hw]
    rfl
  have f_maptype : (wireHeader (writerHeader env image comment)).map_storage_type = 0 := by
    simp only [wireHeader, hw]
    rfl
  have f_model : (wireHeader (writerHeader env image comment)).color_space_model = 15 := by
    simp only [wireHeader, hw]
    rfl
  have f_loc : (wireHeader (writerHeader env image comment)).location_type = 1 := by
    simp only [wireHeader, hw]
    rfl
  have f_images : (wireHeader (writerHeader env image comment)).number_of_images = 1 := by
    simp only [wireHeader, hw]
    rfl
  have hid : (writerHeader env image comment).identifier % 256 = 0xab := by
    rw [hw]
    rfl
  have hmd : (writerHeader env image comment).machine_dependency % 256 ≠ 4 ∧
      (writerHeader env image comment).machine_dependency % 256 ≠ 8 := by
    rw [hw]
    simp only [VFF_DEP_IEEEORDER]
    omega
  have hb34 : (wireHeader (writerHeader env image comment)).number_data_bands = 3 ∨
      (wireHeader (writerHeader env image comment)).number_data_bands = 4 := by
    rw [f_bands]
    split
    · exact Or.inr rfl
    · exact Or.inl rfl
  have hplen := directPlanes_length env image
  have hb4 : (if image.matte then 4 else 3) ≤ 4 := by split <;> omega
  have hle : (directPlanes env image).length ≤ 4 * (image.columns * image.rows) := by
    rw [hplen]
    exact Nat.mul_le_mul_right _ hb4
  have hd := decodeAfterHeader_direct env image_info image_info.scene
    (wireHeader (writerHeader env image comment)) (1024 + (directPlanes env image).length)
    (directPlanes env image) (by omega) hb34 f_type f_raw f_scheme f_maptype f_model f_loc
    f_images (by rw [f_cols, f_rows, Nat.mul_comm]; exact hpos)
    (by rw [f_cols, f_rows, f_bands, hplen]; ring)
    (directPlanes_bytes env image) rfl (by omega) (by rw [f_rows, f_cols]; exact hext)
    (by rw [f_rows, f_cols, f_bands]; exact hmem) hping
  have hr := readSubImage_written env image_info image_info.scene
    (writerHeader env image comment) (directPlanes env image) hid hmd
  rw [hd] at hr
  have hmagic := hasMagic_append _ (directPlanes env image)
    (hasMagic_writeViffHeader (writerHeader env image comment) hid)
  obtain ⟨h1, h2⟩ := finishSubImage_single env image_info _ hmagic _ _ rfl rfl hr
  refine ⟨h2, _, h1, f_rows, f_cols, ?_, rfl, ?_⟩
  · show decide ((wireHeader (writerHeader env image comment)).number_data_bands = 4) =
      image.matte
    rw [f_bands]
    cases image.matte <;> rfl
  · show (List.range _).map _ = _
    rw [f_cols, f_rows, Nat.mul_comm image.rows image.columns]
    apply List.ext_getElem
    · simp [hpix]
    · intro i h1 h2
      have hi : i < image.columns * image.rows := by
        simpa using h1
      rw [List.getElem_map, List.getElem_map, List.getElem_range,
        directPixel_directPlanes env image _ hqd (by
          show decide ((wireHeader (writerHeader env image comment)).number_data_bands = 4) =
            image.matte
          rw [f_bands]
          cases image.matte <;> rfl) rfl hpix hwf i hi]
      unfold Image.pixelAt
      rw [List.getD_eq_getElem _ _ (by omega)]

set_option maxRecDepth 100000 in
set_option maxHeartbeats 4000000 in
theorem WriteVIFFImage_ReadVIFFImage_direct_witness :
    (WriteVIFFImage plainEnv plainInfo [directImage 2 1 true redGreenRow]).status = true ∧
    (ReadVIFFImage plainEnv plainInfo
      (WriteVIFFImage plainEnv plainInfo [directImage 2 1 true redGreenRow]).data).exception
      = none ∧
    ∃ img, (ReadVIFFImage plainEnv plainInfo
        (WriteVIFFImage plainEnv plainInfo [directImage 2 1 true redGreenRow]).data).images
        = [img] ∧
      img.columns = (directImage 2 1 true redGreenRow).columns ∧
      img.rows = (directImage 2 1 true redGreenRow).rows ∧
      img.matte = (directImage 2 1 true redGreenRow).matte ∧
      img.storage_class = ClassType.DirectClass ∧
      img.pixels = (directImage 2 1 true redGreenRow).pixels.map
        (fun p => if (directImage 2 1 true redGreenRow).matte then p
          else { p with opacity := OpaqueOpacity }) :=
  WriteVIFFImage_ReadVIFFImage_direct plainEnv plainInfo (directImage 2 1 true redGreenRow)
    rfl rfl rfl rfl (by decide) (by decide) (by decide) (by decide) (by decide) rfl rfl rfl rfl

set_option maxRecDepth 100000 in
set_option maxHeartbeats 4000000 in
theorem WriteVIFFImage_ReadVIFFImage_direct_counterexample :
    hiddenAlphaImage.storage_class = ClassType.DirectClass ∧
    hiddenAlphaImage.matte = false ∧
    hiddenAlphaImage.columns * hiddenAlphaImage.rows = 1 ∧
    hiddenAlphaImage.pixels = [⟨10, 20, 30, 255⟩] ∧
    (WriteVIFFImage plainEnv plainInfo [hiddenAlphaImage]).status = true ∧
    (ReadVIFFImage plainEnv plainInfo
      (WriteVIFFImage plainEnv plainInfo [hiddenAlphaImage]).data).images.map
        (fun i => i.pixels) = [[⟨10, 20, 30, 0⟩]] := by
  decide!

/-! ### Exceptions of the layout routines -/

@[simp] theorem Export.skipPad_exception (s : Export) : s.skipPad.exception = s.exception := rfl

@[simp] theorem Export.setState_exception (s : Export) (st : QuantumState) :
    (s.setState st).exception = s.exception := rfl

theorem PopCharPixel_exception (pixel : Nat) (s : Export) :
    (PopCharPixel pixel s).exception = s.exception := rfl

theorem PopShortPixel_exception (endian : EndianType) (pixel : Nat) (s : Export) :
    (PopShortPixel endian pixel s).exception = s.exception := by
  unfold PopShortPixel
  split <;> rfl

theorem PopLongPixel_exception (endian : EndianType) (pixel : Nat) (s : Export) :
    (PopLongPixel endian pixel s).exception = s.exception := by
  unfold PopLongPixel
  split <;> rfl

theorem PopQuantumFloatPixel_exception (fc : FloatCodec) (pixel : Nat) (s : Export) :
    (PopQuantumFloatPixel fc pixel s).exception = s.exception := by
  unfold PopQuantumFloatPixel
  simp only
  split <;> exact Export.putAll_exception _ _

theorem PopQuantumDoublePixel_exception (fc : FloatCodec) (pixel : Nat) (s : Export) :
    (PopQuantumDoublePixel fc pixel s).exception = s.exception := by
  unfold PopQuantumDoublePixel
  simp only
  split <;> exact Export.putAll_exception _ _

theorem PopQuantumFloatPixel_real_exception (lc : LumaCodec) (pixel : ℚ) (s : Export) :
    (PopQuantumFloatPixel.real lc pixel s).exception = s.exception := by
  unfold PopQuantumFloatPixel.real
  simp only
  split <;> exact Export.putAll_exception _ _

theorem PopQuantumDoublePixel_real_exception (lc : LumaCodec) (pixel : ℚ) (s : Export) :
    (PopQuantumDoublePixel.real lc pixel s).exception = s.exception := by
  unfold PopQuantumDoublePixel.real
  simp only
  split <;> exact Export.putAll_exception _ _

theorem PopQuantumPixel_loop_exception (pixel : Nat) (fuel i : Nat) (s : Export) :
    (PopQuantumPixel.loop pixel fuel i s).exception = s.exception := by
  induction fuel generalizing i s with
  | zero => rfl
  | succ fuel ih =>
    unfold PopQuantumPixel.loop
    split
    · rfl
    · simp only
      rw [ih]
      split_ifs <;> rfl

theorem PopQuantumPixel_exception (pixel : Nat) (s : Export) :
    (PopQuantumPixel pixel s).exception = s.exception := by
  unfold PopQuantumPixel
  simp only
  rw [PopQuantumPixel_loop_exception]
  split <;> rfl

theorem PopQuantumLongPixel_loop_exception (pixel : Nat) (fuel i : Nat) (s : Export) :
    (PopQuantumLongPixel.loop pixel fuel i s).exception = s.exception := by
  induction fuel generalizing i s with
  | zero => rfl
  | succ fuel ih =>
    unfold PopQuantumLongPixel.loop
    split
    · rfl
    · simp only
      rw [ih]
      split_ifs
      all_goals first
        | rfl
        | simp only [Export.setState_exception, PopLongPixel_exception]

theorem PopQuantumLongPixel_exception (pixel : Nat) (s : Export) :
    (PopQuantumLongPixel pixel s).exception = s.exception := by
  unfold PopQuantumLongPixel
  simp only
  rw [PopQuantumLongPixel_loop_exception]
  split <;> rfl

theorem foldl_exception {α : Type} (l : List α) (f : Export → α → Export) (s : Export)
    (h : ∀ st a, a ∈ l → (f st a).exception = st.exception) :
    (l.foldl f s).exception = s.exception := by
  induction l generalizing s with
  | nil => rfl
  | cons a l ih =>
    rw [List.foldl_cons, ih _ (fun st b hb => h st b (List.mem_cons_of_mem _ hb)),
      h s a (List.mem_cons_self _ _)]

theorem eachPixel_exception (number_pixels : Nat) (stores : Nat → List (Export → Export))
    (s : Export) (h : ∀ x f, f ∈ stores x → ∀ st, (f st).exception = st.exception) :
    (eachPixel number_pixels stores s).exception = s.exception := by
  unfold eachPixel
  apply foldl_exception
  intro st x _
  rw [Export.skipPad_exception]
  exact foldl_exception _ _ _ (fun st1 f hf => h x f hf st1)

theorem forLoop_invariant {σ : Type} (P : σ → Prop) (cond : Int → Bool) (next : Int → Int)
    (body : Int → σ → σ) (h : ∀ x st, P st → P (body x st)) (fuel : Nat) (x : Int) (st : σ)
    (h0 : P st) : P (forLoop cond next body fuel x st).2 := by
  induction fuel generalizing x st with
  | zero => exact h0
  | succ fuel ih =>
    unfold forLoop
    split
    · exact ih _ _ (h x st h0)
    · exact h0

theorem eachPixel_map_exception (number_pixels : Nat) (samples : Nat → List Nat)
    (pop : Nat → Export → Export) (s : Export)
    (h : ∀ v st, (pop v st).exception = st.exception) :
    (eachPixel number_pixels (fun x => (samples x).map pop) s).exception = s.exception := by
  apply eachPixel_exception
  intro x f hf st
  simp only [List.mem_map] at hf
  obtain ⟨v, _, rfl⟩ := hf
  exact h v st

theorem exportScaled_exception (qd : Nat) (fc : FloatCodec) (number_pixels : Nat)
    (samples : Nat → List Nat) (s : Export) :
    (exportScaled qd fc number_pixels samples s).exception = s.exception := by
  have hg := eachPixel_map_exception number_pixels samples
    (fun v st => PopQuantumPixel (ScaleQuantumToAny qd v (GetQuantumRange s.quantum_info.depth)) st)
    s (fun v st => PopQuantumPixel_exception _ _)
  unfold exportScaled
  simp only
  by_cases h8 : s.quantum_info.depth = 8
  · rw [if_pos h8]
    exact eachPixel_map_exception _ _ _ _ (fun v st => PopCharPixel_exception _ _)
  rw [if_neg h8]
  by_cases h16 : s.quantum_info.depth = 16
  · rw [if_pos h16]
    by_cases hf : s.quantum_info.format = QuantumFormatType.FloatingPointQuantumFormat
    · rw [if_pos hf]
      exact eachPixel_map_exception _ _ _ _ (fun v st => PopShortPixel_exception _ _ _)
    · rw [if_neg hf]
      exact eachPixel_map_exception _ _ _ _ (fun v st => PopShortPixel_exception _ _ _)
  rw [if_neg h16]
  by_cases h32 : s.quantum_info.depth = 32
  · rw [if_pos h32]
    by_cases hf : s.quantum_info.format = QuantumFormatType.FloatingPointQuantumFormat
    · rw [if_pos hf]
      exact eachPixel_map_exception _ _ _ _ (fun v st => PopQuantumFloatPixel_exception _ _ _)
    · rw [if_neg hf]
      exact eachPixel_map_exception _ _ _ _ (fun v st => PopLongPixel_exception _ _ _)
  rw [if_neg h32]
  by_cases h64 : s.quantum_info.depth = 64
  · rw [if_pos h64]
    by_cases hf : s.quantum_info.format = QuantumFormatType.FloatingPointQuantumFormat
    · rw [if_pos hf]
      exact eachPixel_map_exception _ _ _ _ (fun v st => PopQuantumDoublePixel_exception _ _ _)
    · rw [if_neg hf]
      exact hg
  rw [if_neg h64]
  exact hg

/-! ### The colorspace guard of the CMYK family -/

theorem ExportBlackQuantum_exception (qd : Nat) (fc : FloatCodec) (image : Image)
    (number_pixels : Nat) (p : List PixelPacket) (indexes : List Nat) (s : Export)
    (h : image.colorspace = ColorspaceType.CMYKColorspace) :
    (ExportBlackQuantum qd fc image number_pixels p indexes s).exception = s.exception := by
  unfold ExportBlackQuantum
  rw [if_neg (by simp [h])]
  exact exportScaled_exception _ _ _ _ _

theorem ExportCMYKQuantum_exception (qd : Nat) (fc : FloatCodec) (image : Image)
    (number_pixels : Nat) (p : List PixelPacket) (indexes : List Nat) (s : Export)
    (h : image.colorspace = ColorspaceType.CMYKColorspace) :
    (ExportCMYKQuantum qd fc image number_pixels p indexes s).exception = s.exception := by
  unfold ExportCMYKQuantum
  rw [if_neg (by simp [h])]
  exact exportScaled_exception _ _ _ _ _

theorem ExportCMYKAQuantum_exception (qd : Nat) (fc : FloatCodec) (image : Image)
    (number_pixels : Nat) (p : List PixelPacket) (indexes : List Nat) (s : Export)
    (h : image.colorspace = ColorspaceType.CMYKColorspace) :
    (ExportCMYKAQuantum qd fc image number_pixels p indexes s).exception = s.exception := by
  unfold ExportCMYKAQuantum
  rw [if_neg (by simp [h])]
  exact exportScaled_exception _ _ _ _ _

theorem ExportCMYKOQuantum_exception (qd : Nat) (fc : FloatCodec) (image : Image)
    (number_pixels : Nat) (p : List PixelPacket) (indexes : List Nat) (s : Export)
    (h : image.colorspace = ColorspaceType.CMYKColorspace) :
    (ExportCMYKOQuantum qd fc image number_pixels p indexes s).exception = s.exception := by
  unfold ExportCMYKOQuantum
  rw [if_neg (by simp [h])]
  exact exportScaled_exception _ _ _ _ _

/-- C15: for every export state (every depth, format, pad and cursor), each of
`ExportBlackQuantum`, `ExportCMYKQuantum`, `ExportCMYKAQuantum` and
`ExportCMYKOQuantum`, called on an image whose colorspace is not CMYK, adds
the ImageError ColorSeparatedImageRequired to the exceptions and returns with
the buffer, the cursor and the quantum state as they were; called on a CMYK
image it leaves the exceptions as they were.  Through `ExportQuantumPixels`
the Black, CMYK, CMYKA and CMYKO layouts therefore end with exactly that one
exception and the destination buffer unchanged when the image is not CMYK,
and with no exception when it is. -/
theorem ExportCMYKQuantum_colorspace_guard (qd : Nat) (fc : FloatCodec) (lc : LumaCodec)
    (r : Routines) (image : Image) :
    (image.colorspace ≠ ColorspaceType.CMYKColorspace →
      (∀ routine ∈ [ExportBlackQuantum qd fc, ExportCMYKQuantum qd fc,
          ExportCMYKAQuantum qd fc, ExportCMYKOQuantum qd fc],
        ∀ number_pixels p indexes s,
          routine image number_pixels p indexes s =
            { s with exception := s.exception ++
              [⟨ExceptionType.ImageError, "ColorSeparatedImageRequired"⟩] }) ∧
      (∀ quantum_type ∈ [QuantumType.BlackQuantum, QuantumType.CMYKQuantum,
          QuantumType.CMYKAQuantum, QuantumType.CMYKOQuantum],
        ∀ nexus image_view quantum_info pixels,
          (ExportQuantumPixels qd fc (codedRoutines qd fc lc r) image nexus image_view
            quantum_info quantum_type pixels).final.pixels = pixels ∧
          (ExportQuantumPixels qd fc (codedRoutines qd fc lc r) image nexus image_view
            quantum_info quantum_type pixels).final.exception =
              [⟨ExceptionType.ImageError, "ColorSeparatedImageRequired"⟩])) ∧
    (image.colorspace = ColorspaceType.CMYKColorspace →
      (∀ routine ∈ [ExportBlackQuantum qd fc, ExportCMYKQuantum qd fc,
          ExportCMYKAQuantum qd fc, ExportCMYKOQuantum qd fc],
        ∀ number_pixels p indexes s,
          (routine image number_pixels p indexes s).exception = s.exception) ∧
      (∀ quantum_type ∈ [QuantumType.BlackQuantum, QuantumType.CMYKQuantum,
          QuantumType.CMYKAQuantum, QuantumType.CMYKOQuantum],
        ∀ nexus image_view quantum_info pixels,
          (ExportQuantumPixels qd fc (codedRoutines qd fc lc r) image nexus image_view
            quantum_info quantum_type pixels).final.exception = [])) := by
  constructor
  · intro h
    have e1 : ∀ number_pixels p indexes s, ExportBlackQuantum qd fc image number_pixels p indexes s
        = { s with exception := s.exception ++
              [⟨ExceptionType.ImageError, "ColorSeparatedImageRequired"⟩] } :=
      fun _ _ _ _ => if_pos h
    have e2 : ∀ number_pixels p indexes s, ExportCMYKQuantum qd fc image number_pixels p indexes s
        = { s with exception := s.exception ++
              [⟨ExceptionType.ImageError, "ColorSeparatedImageRequired"⟩] } :=
      fun _ _ _ _ => if_pos h
    have e3 : ∀ number_pixels p indexes s, ExportCMYKAQuantum qd fc image number_pixels p indexes s
        = { s with exception := s.exception ++
              [⟨ExceptionType.ImageError, "ColorSeparatedImageRequired"⟩] } :=
      fun _ _ _ _ => if_pos h
    have e4 : ∀ number_pixels p indexes s, ExportCMYKOQuantum qd fc image number_pixels p indexes s
        = { s with exception := s.exception ++
              [⟨ExceptionType.ImageError, "ColorSeparatedImageRequired"⟩] } :=
      fun _ _ _ _ => if_pos h
    constructor
    · intro routine hr
      simp only [List.mem_cons, List.mem_singleton, List.not_mem_nil, or_false] at hr
      rcases hr with rfl | rfl | rfl | rfl
      · exact e1
      · exact e2
      · exact e3
      · exact e4
    · intro quantum_type ht nexus image_view quantum_info pixels
      simp only [List.mem_cons, List.mem_singleton, List.not_mem_nil, or_false] at ht
      rcases ht with rfl | rfl | rfl | rfl
      · simp only [ExportQuantumPixels, codedRoutines, e1, List.nil_append, and_self]
      · simp only [ExportQuantumPixels, codedRoutines, e2, List.nil_append, and_self]
      · simp only [ExportQuantumPixels, codedRoutines, e3, List.nil_append, and_self]
      · simp only [ExportQuantumPixels, codedRoutines, e4, List.nil_append, and_self]
  · intro h
    constructor
    · intro routine hr
      simp only [List.mem_cons, List.mem_singleton, List.not_mem_nil, or_false] at hr
      rcases hr with rfl | rfl | rfl | rfl
      · exact fun _ _ _ _ => ExportBlackQuantum_exception _ _ _ _ _ _ _ h
      · exact fun _ _ _ _ => ExportCMYKQuantum_exception _ _ _ _ _ _ _ h
      · exact fun _ _ _ _ => ExportCMYKAQuantum_exception _ _ _ _ _ _ _ h
      · exact fun _ _ _ _ => ExportCMYKOQuantum_exception _ _ _ _ _ _ _ h
    · intro quantum_type ht nexus image_view quantum_info pixels
      simp only [List.mem_cons, List.mem_singleton, List.not_mem_nil, or_false] at ht
      rcases ht with rfl | rfl | rfl | rfl
      · simp only [ExportQuantumPixels, codedRoutines]
        rw [ExportBlackQuantum_exception _ _ _ _ _ _ _ h]
      · simp only [ExportQuantumPixels, codedRoutines]
        rw [ExportCMYKQuantum_exception _ _ _ _ _ _ _ h]
      · simp only [ExportQuantumPixels, codedRoutines]
        rw [ExportCMYKAQuantum_exception _ _ _ _ _ _ _ h]
      · simp only [ExportQuantumPixels, codedRoutines]
        rw [ExportCMYKOQuantum_exception _ _ _ _ _ _ _ h]

set_option maxRecDepth 100000 in
theorem ExportCMYKQuantum_colorspace_guard_witness :
    (ExportQuantumPixels 8 zeroCodec
        (codedRoutines 8 zeroCodec redLuma (idleRoutines (fun _ _ _ => 0)))
        (directImage 2 1 false redGreenRow) (viewOf redGreenRow) none
        (quantumInfo8 QuantumAlphaType.UndefinedQuantumAlpha EndianType.MSBEndian)
        QuantumType.CMYKQuantum (fun _ => 7)).final.exception =
      [⟨ExceptionType.ImageError, "ColorSeparatedImageRequired"⟩] ∧
    (ExportQuantumPixels 8 zeroCodec
        (codedRoutines 8 zeroCodec redLuma (idleRoutines (fun _ _ _ => 0)))
        { directImage 2 1 false redGreenRow with colorspace := ColorspaceType.CMYKColorspace }
        { pixels := redGreenRow, indexes := [9, 9] } none
        (quantumInfo8 QuantumAlphaType.UndefinedQuantumAlpha EndianType.MSBEndian)
        QuantumType.CMYKQuantum (fun _ => 7)).final.exception = [] :=
  ⟨(((ExportCMYKQuantum_colorspace_guard 8 zeroCodec redLuma (idleRoutines (fun _ _ _ => 0))
      (directImage 2 1 false redGreenRow)).1 (by decide)).2 QuantumType.CMYKQuantum
      (by simp) (viewOf redGreenRow) none
      (quantumInfo8 QuantumAlphaType.UndefinedQuantumAlpha EndianType.MSBEndian)
      (fun _ => 7)).2,
   ((ExportCMYKQuantum_colorspace_guard 8 zeroCodec redLuma (idleRoutines (fun _ _ _ => 0))
      { directImage 2 1 false redGreenRow with colorspace := ColorspaceType.CMYKColorspace }).2
      rfl).2 QuantumType.CMYKQuantum (by simp) { pixels := redGreenRow, indexes := [9, 9] } none
      (quantumInfo8 QuantumAlphaType.UndefinedQuantumAlpha EndianType.MSBEndian)
      (fun _ => 7)⟩

/-! ### The storage-class guard of the index layouts -/

theorem eachPixel_exception_single (number_pixels : Nat) (f : Nat → Export → Export)
    (s : Export) (h : ∀ x st, (f x st).exception = st.exception) :
    (eachPixel number_pixels (fun x => [f x]) s).exception = s.exception := by
  apply eachPixel_exception
  intro x g hg st
  simp only [List.mem_singleton] at hg
  subst hg
  exact h x st

theorem eachPixel_exception_pair (number_pixels : Nat) (f g : Nat → Export → Export)
    (s : Export) (hf : ∀ x st, (f x st).exception = st.exception)
    (hg : ∀ x st, (g x st).exception = st.exception) :
    (eachPixel number_pixels (fun x => [f x, g x]) s).exception = s.exception := by
  apply eachPixel_exception
  intro x k hk st
  simp only [List.mem_cons, List.mem_singleton, List.not_mem_nil, or_false] at hk
  rcases hk with rfl | rfl
  · exact hf x st
  · exact hg x st

theorem ExportIndexQuantum_depth1_exception (number_pixels : Nat) (indexes : List Nat)
    (s : Export) :
    (ExportIndexQuantum.depth1 number_pixels indexes s).exception = s.exception := by
  unfold ExportIndexQuantum.depth1
  simp only
  have h := forLoop_invariant (fun (st : List Nat × Export) => st.2.exception = s.exception)
    (fun x => decide (x > 0)) (fun x => x - 8)
    (fun _ (st : List Nat × Export) =>
      (st.1.drop 8, st.2.put (orBits 8 (fun k => indexBit (st.1.getD k 0)) (fun k => 7 - k))))
    (fun _ st hst => hst) number_pixels (toSsize number_pixels - 7) (indexes, s) rfl
  split
  · exact h
  · exact h

theorem ExportIndexQuantum_depth4_exception (number_pixels : Nat) (indexes : List Nat)
    (s : Export) :
    (ExportIndexQuantum.depth4 number_pixels indexes s).exception = s.exception := by
  unfold ExportIndexQuantum.depth4
  simp only
  have h := forLoop_invariant (fun (st : List Nat × Export) => st.2.exception = s.exception)
    (fun x => decide (x < toSsize (sizeSub number_pixels 1))) (fun x => x + 2)
    (fun _ (st : List Nat × Export) =>
      (st.1.drop 2, st.2.put ((indexNibble (st.1.getD 0 0) <<< 4) |||
        (indexNibble (st.1.getD 1 0) <<< 0))))
    (fun _ st hst => hst) number_pixels 0 (indexes, s) rfl
  split
  · exact h
  · exact h

theorem ExportIndexQuantum_exception (fc : FloatCodec) (image : Image) (number_pixels : Nat)
    (p : List PixelPacket) (indexes : List Nat) (s : Export)
    (h : image.storage_class = ClassType.PseudoClass) :
    (ExportIndexQuantum fc image number_pixels p indexes s).exception = s.exception := by
  have hg := eachPixel_exception_single number_pixels
    (fun x st => PopQuantumPixel (indexes.getD x 0) st) s
    (fun x st => PopQuantumPixel_exception _ _)
  unfold ExportIndexQuantum
  simp only
  rw [if_neg (by simp [h])]
  by_cases h1 : s.quantum_info.depth = 1
  · rw [if_pos h1]
    exact ExportIndexQuantum_depth1_exception _ _ _
  rw [if_neg h1]
  by_cases h4 : s.quantum_info.depth = 4
  · rw [if_pos h4]
    exact ExportIndexQuantum_depth4_exception _ _ _
  rw [if_neg h4]
  by_cases h8 : s.quantum_info.depth = 8
  · rw [if_pos h8]
    exact eachPixel_exception_single _ _ _ (fun x st => PopCharPixel_exception _ _)
  rw [if_neg h8]
  by_cases h16 : s.quantum_info.depth = 16
  · rw [if_pos h16]
    by_cases hf : s.quantum_info.format = QuantumFormatType.FloatingPointQuantumFormat
    · rw [if_pos hf]
      exact eachPixel_exception_single _ _ _ (fun x st => PopShortPixel_exception _ _ _)
    · rw [if_neg hf]
      exact eachPixel_exception_single _ _ _ (fun x st => PopShortPixel_exception _ _ _)
  rw [if_neg h16]
  by_cases h32 : s.quantum_info.depth = 32
  · rw [if_pos h32]
    by_cases hf : s.quantum_info.format = QuantumFormatType.FloatingPointQuantumFormat
    · rw [if_pos hf]
      exact eachPixel_exception_single _ _ _ (fun x st => PopQuantumFloatPixel_exception _ _ _)
    · rw [if_neg hf]
      exact eachPixel_exception_single _ _ _ (fun x st => PopLongPixel_exception _ _ _)
  rw [if_neg h32]
  by_cases h64 : s.quantum_info.depth = 64
  · rw [if_pos h64]
    by_cases hf : s.quantum_info.format = QuantumFormatType.FloatingPointQuantumFormat
    · rw [if_pos hf]
      exact eachPixel_exception_single _ _ _ (fun x st => PopQuantumDoublePixel_exception _ _ _)
    · rw [if_neg hf]
      exact hg
  rw [if_neg h64]
  exact hg

theorem ExportIndexAlphaQuantum_depth1_exception (qd : Nat) (number_pixels : Nat)
    (p : List PixelPacket) (indexes : List Nat) (s : Export) :
    (ExportIndexAlphaQuantum.depth1 qd number_pixels p indexes s).exception = s.exception := by
  unfold ExportIndexAlphaQuantum.depth1
  simp only
  have h := forLoop_invariant
    (fun (st : List PixelPacket × List Nat × Export) => st.2.2.exception = s.exception)
    (fun x => decide (x > 0)) (fun x => x - 4)
    (fun _ (st : List PixelPacket × List Nat × Export) =>
      (st.1.drop 4, st.2.1.drop 4,
        st.2.2.put (orBits 8
          (fun k => if k % 2 = 0 then indexBit (st.2.1.getD (k / 2) 0)
            else transparentBit qd (pixelOf st.1 (k / 2)) &&& 1)
          (fun k => 7 - k))))
    (fun _ st hst => hst) number_pixels (toSsize number_pixels - 3) (p, indexes, s) rfl
  split
  · exact h
  · exact h

theorem ExportIndexAlphaQuantum_depth4_exception (qd : Nat) (number_pixels : Nat)
    (p : List PixelPacket) (indexes : List Nat) (s : Export) :
    (ExportIndexAlphaQuantum.depth4 qd number_pixels p indexes s).exception = s.exception := by
  unfold ExportIndexAlphaQuantum.depth4
  exact foldl_exception _ _ _ (fun _ _ _ => rfl)

theorem ExportIndexAlphaQuantum_exception (qd : Nat) (fc : FloatCodec) (image : Image)
    (number_pixels : Nat) (p : List PixelPacket) (indexes : List Nat) (s : Export)
    (h : image.storage_class = ClassType.PseudoClass) :
    (ExportIndexAlphaQuantum qd fc image number_pixels p indexes s).exception
      = s.exception := by
  have hg := eachPixel_exception_pair number_pixels
    (fun x st => PopQuantumPixel (indexes.getD x 0) st)
    (fun x st => PopQuantumPixel (ScaleQuantumToAny qd (GetPixelAlpha qd (pixelOf p x))
      (GetQuantumRange s.quantum_info.depth)) st) s
    (fun x st => PopQuantumPixel_exception _ _) (fun x st => PopQuantumPixel_exception _ _)
  unfold ExportIndexAlphaQuantum
  simp only
  rw [if_neg (by simp [h])]
  by_cases h1 : s.quantum_info.depth = 1
  · rw [if_pos h1]
    exact ExportIndexAlphaQuantum_depth1_exception _ _ _ _ _
  rw [if_neg h1]
  by_cases h4 : s.quantum_info.depth = 4
  · rw [if_pos h4]
    exact ExportIndexAlphaQuantum_depth4_exception _ _ _ _ _
  rw [if_neg h4]
  by_cases h8 : s.quantum_info.depth = 8
  · rw [if_pos h8]
    exact eachPixel_exception_pair _ _ _ _ (fun x st => PopCharPixel_exception _ _)
      (fun x st => PopCharPixel_exception _ _)
  rw [if_neg h8]
  by_cases h16 : s.quantum_info.depth = 16
  · rw [if_pos h16]
    by_cases hf : s.quantum_info.format = QuantumFormatType.FloatingPointQuantumFormat
    · rw [if_pos hf]
      exact eachPixel_exception_pair _ _ _ _ (fun x st => PopShortPixel_exception _ _ _)
        (fun x st => PopShortPixel_exception _ _ _)
    · rw [if_neg hf]
      exact eachPixel_exception_pair _ _ _ _ (fun x st => PopShortPixel_exception _ _ _)
        (fun x st => PopShortPixel_exception _ _ _)
  rw [if_neg h16]
  by_cases h32 : s.quantum_info.depth = 32
  · rw [if_pos h32]
    by_cases hf : s.quantum_info.format = QuantumFormatType.FloatingPointQuantumFormat
    · rw [if_pos hf]
      exact eachPixel_exception_pair _ _ _ _ (fun x st => PopQuantumFloatPixel_exception _ _ _)
        (fun x st => PopQuantumFloatPixel_exception _ _ _)
    · rw [if_neg hf]
      exact eachPixel_exception_pair _ _ _ _ (fun x st => PopLongPixel_exception _ _ _)
        (fun x st => PopLongPixel_exception _ _ _)
  rw [if_neg h32]
  by_cases h64 : s.quantum_info.depth = 64
  · rw [if_pos h64]
    by_cases hf : s.quantum_info.format = QuantumFormatType.FloatingPointQuantumFormat
    · rw [if_pos hf]
      exact eachPixel_exception_pair _ _ _ _ (fun x st => PopQuantumDoublePixel_exception _ _ _)
        (fun x st => PopQuantumDoublePixel_exception _ _ _)
    · rw [if_neg hf]
      exact hg
  rw [if_neg h64]
  exact hg

/-- C14: for every export state (every depth, format, pad and cursor),
`ExportIndexQuantum` and `ExportIndexAlphaQuantum`, called on an image whose
storage class is not PseudoClass, add the ImageError ColormappedImageRequired
to the exceptions and return with the buffer, the cursor and the quantum
state as they were; called on a PseudoClass image they leave the exceptions
as they were.  Through `ExportQuantumPixels` the Index and IndexAlpha layouts
therefore end with exactly that one exception and the destination buffer
unchanged when the image is not palette-backed, and with no exception when it
is. -/
theorem ExportIndexQuantum_storage_class_guard (qd : Nat) (fc : FloatCodec) (lc : LumaCodec)
    (r : Routines) (image : Image) :
    (image.storage_class ≠ ClassType.PseudoClass →
      (∀ routine ∈ [ExportIndexQuantum fc, ExportIndexAlphaQuantum qd fc],
        ∀ number_pixels p indexes s,
          routine image number_pixels p indexes s =
            { s with exception := s.exception ++
              [⟨ExceptionType.ImageError, "ColormappedImageRequired"⟩] }) ∧
      (∀ quantum_type ∈ [QuantumType.IndexQuantum, QuantumType.IndexAlphaQuantum],
        ∀ nexus image_view quantum_info pixels,
          (ExportQuantumPixels qd fc (codedRoutines qd fc lc r) image nexus image_view
            quantum_info quantum_type pixels).final.pixels = pixels ∧
          (ExportQuantumPixels qd fc (codedRoutines qd fc lc r) image nexus image_view
            quantum_info quantum_type pixels).final.exception =
              [⟨ExceptionType.ImageError, "ColormappedImageRequired"⟩])) ∧
    (image.storage_class = ClassType.PseudoClass →
      (∀ routine ∈ [ExportIndexQuantum fc, ExportIndexAlphaQuantum qd fc],
        ∀ number_pixels p indexes s,
          (routine image number_pixels p indexes s).exception = s.exception) ∧
      (∀ quantum_type ∈ [QuantumType.IndexQuantum, QuantumType.IndexAlphaQuantum],
        ∀ nexus image_view quantum_info pixels,
          (ExportQuantumPixels qd fc (codedRoutines qd fc lc r) image nexus image_view
            quantum_info quantum_type pixels).final.exception = [])) := by
  constructor
  · intro h
    have e1 : ∀ number_pixels p indexes s, ExportIndexQuantum fc image number_pixels p indexes s
        = { s with exception := s.exception ++
              [⟨ExceptionType.ImageError, "ColormappedImageRequired"⟩] } :=
      fun _ _ _ _ => if_pos h
    have e2 : ∀ number_pixels p indexes s,
        ExportIndexAlphaQuantum qd fc image number_pixels p indexes s
        = { s with exception := s.exception ++
              [⟨ExceptionType.ImageError, "ColormappedImageRequired"⟩] } :=
      fun _ _ _ _ => if_pos h
    constructor
    · intro routine hr
      simp only [List.mem_cons, List.mem_singleton, List.not_mem_nil, or_false] at hr
      rcases hr with rfl | rfl
      · exact e1
      · exact e2
    · intro quantum_type ht nexus image_view quantum_info pixels
      simp only [List.mem_cons, List.mem_singleton, List.not_mem_nil, or_false] at ht
      rcases ht with rfl | rfl
      · simp only [ExportQuantumPixels, codedRoutines, e1, List.nil_append, and_self]
      · simp only [ExportQuantumPixels, codedRoutines, e2, List.nil_append, and_self]
  · intro h
    constructor
    · intro routine hr
      simp only [List.mem_cons, List.mem_singleton, List.not_mem_nil, or_false] at hr
      rcases hr with rfl | rfl
      · exact fun _ _ _ _ => ExportIndexQuantum_exception _ _ _ _ _ _ h
      · exact fun _ _ _ _ => ExportIndexAlphaQuantum_exception _ _ _ _ _ _ _ h
    · intro quantum_type ht nexus image_view quantum_info pixels
      simp only [List.mem_cons, List.mem_singleton, List.not_mem_nil, or_false] at ht
      rcases ht with rfl | rfl
      · simp only [ExportQuantumPixels, codedRoutines]
        rw [ExportIndexQuantum_exception _ _ _ _ _ _ h]
      · simp only [ExportQuantumPixels, codedRoutines]
        rw [ExportIndexAlphaQuantum_exception _ _ _ _ _ _ _ h]

set_option maxRecDepth 100000 in
theorem ExportIndexQuantum_storage_class_guard_witness :
    (ExportQuantumPixels 8 zeroCodec
        (codedRoutines 8 zeroCodec redLuma (idleRoutines (fun _ _ _ => 0)))
        (directImage 2 1 false redGreenRow) (viewOf redGreenRow) none
        (quantumInfo8 QuantumAlphaType.UndefinedQuantumAlpha EndianType.MSBEndian)
        QuantumType.IndexQuantum (fun _ => 7)).final.exception =
      [⟨ExceptionType.ImageError, "ColormappedImageRequired"⟩] ∧
    (ExportQuantumPixels 8 zeroCodec
        (codedRoutines 8 zeroCodec redLuma (idleRoutines (fun _ _ _ => 0)))
        (paletteImage 2 1 ColorspaceType.sRGBColorspace redGreenRow [0, 1])
        { pixels := redGreenRow, indexes := [0, 1] } none
        (quantumInfo8 QuantumAlphaType.UndefinedQuantumAlpha EndianType.MSBEndian)
        QuantumType.IndexQuantum (fun _ => 7)).final.exception = [] :=
  ⟨(((ExportIndexQuantum_storage_class_guard 8 zeroCodec redLuma (idleRoutines (fun _ _ _ => 0))
      (directImage 2 1 false redGreenRow)).1 (by decide)).2 QuantumType.IndexQuantum
      (by simp) (viewOf redGreenRow) none
      (quantumInfo8 QuantumAlphaType.UndefinedQuantumAlpha EndianType.MSBEndian)
      (fun _ => 7)).2,
   ((ExportIndexQuantum_storage_class_guard 8 zeroCodec redLuma (idleRoutines (fun _ _ _ => 0))
      (paletteImage 2 1 ColorspaceType.sRGBColorspace redGreenRow [0, 1])).2
      rfl).2 QuantumType.IndexQuantum (by simp) { pixels := redGreenRow, indexes := [0, 1] } none
      (quantumInfo8 QuantumAlphaType.UndefinedQuantumAlpha EndianType.MSBEndian)
      (fun _ => 7)⟩

/-! ### The 10-bit long-word mode of the RGB layout -/

theorem ScaleQuantumToAny_le (qd : Nat) (v range : Nat) (h : v ≤ QuantumRange qd) :
    ScaleQuantumToAny qd v range ≤ range := by
  unfold ScaleQuantumToAny roundDiv
  by_cases h0 : QuantumRange qd = 0
  · rw [h0]
    simp
  · have hpos : 0 < 2 * QuantumRange qd := by omega
    rw [Nat.div_le_iff_le_mul_add_pred hpos]
    have : range * v ≤ range * QuantumRange qd := Nat.mul_le_mul_left _ h
    have e : 2 * QuantumRange qd * range = 2 * (range * QuantumRange qd) := by ring
    rw [e]
    omega

theorem word10_value (r g b : Nat) (hr : r ≤ 1023) (hg : g ≤ 1023) (hb : b ≤ 1023) :
    ((r <<< 22) ||| (g <<< 12) ||| (b <<< 2)) % 2 ^ 32 = 2 ^ 22 * r + 2 ^ 12 * g + 4 * b := by
  have e1 : (g <<< 12) ||| (b <<< 2) = 2 ^ 12 * g + 4 * b := by
    rw [Nat.shiftLeft_eq, Nat.shiftLeft_eq, Nat.mul_comm g, Nat.mul_comm b]
    exact (Nat.mul_add_lt_is_or (by norm_num; omega) g).symm
  have e2 : (r <<< 22) ||| ((g <<< 12) ||| (b <<< 2)) = 2 ^ 22 * r + (2 ^ 12 * g + 4 * b) := by
    rw [e1, Nat.shiftLeft_eq, Nat.mul_comm r]
    exact (Nat.mul_add_lt_is_or (by norm_num; omega) r).symm
  rw [Nat.or_assoc, e2]
  norm_num
  omega

theorem ExportRGBQuantum_long10 (qd : Nat) (fc : FloatCodec) (number_pixels : Nat)
    (p : List PixelPacket) (s : Export) (hdepth : s.quantum_info.depth = 10)
    (hpack : s.quantum_info.pack = false) :
    ExportRGBQuantum qd fc number_pixels p s =
      (p.take number_pixels).foldl (fun st px =>
        (PopLongPixel st.quantum_info.endian
          (ExportRGBQuantum.word10 qd (GetQuantumRange 10) px) st).skipPad) s := by
  unfold ExportRGBQuantum
  simp only [hdepth, hpack, if_true]
  rfl

theorem PopLongPixel_putAll (endian : EndianType) (pixel : Nat) (s : Export) :
    PopLongPixel endian pixel s =
      s.putAll (if endian = EndianType.LSBEndian then
        [pixel, pixel / 2 ^ 8, pixel / 2 ^ 16, pixel / 2 ^ 24]
      else [pixel / 2 ^ 24, pixel / 2 ^ 16, pixel / 2 ^ 8, pixel]) := by
  unfold PopLongPixel
  split <;> rfl

theorem forLoop_down {σ : Type} (body : σ → σ) (step : Int) (hstep : 0 < step) (k : Nat) :
    ∀ (fuel : Nat) (x : Int) (st : σ), k ≤ fuel → x ≤ (k : Int) * step →
      ((k : Int) - 1) * step < x →
      forLoop (fun x => decide (x > 0)) (fun x => x - step) (fun _ => body) fuel x st =
        (x - (k : Int) * step, body^[k] st) := by
  induction k with
  | zero =>
    intro fuel x st _ h1 _
    have hx : ¬ x > 0 := by simpa using h1
    cases fuel with
    | zero => simp [forLoop]
    | succ f => simp [forLoop, hx]
  | succ k ih =>
    intro fuel x st hf h1 h2
    have hx : x > 0 := by
      have : (0 : Int) ≤ (k : Int) * step := Int.mul_nonneg (Int.ofNat_nonneg k) (le_of_lt hstep)
      push_cast at h2
      simp only [add_sub_cancel_right] at h2
      omega
    cases fuel with
    | zero => omega
    | succ f =>
      unfold forLoop
      simp only [hx, decide_True, if_true]
      rw [ih f (x - step) (body st) (by omega) (by push_cast at h1; linarith)
        (by push_cast at h2; linarith)]
      refine Prod.ext ?_ ?_
      · simp only
        push_cast
        ring
      · simp only [Function.iterate_succ_apply]

theorem packLoop_iterate {α : Type} (f : List α → Nat) (w : Nat) (k : Nat) (p : List α)
    (s : Export) :
    (fun (st : List α × Export) => (st.1.drop w, st.2.put (f st.1)))^[k] (p, s) =
      (p.drop (w * k), s.putAll ((List.range k).map (fun j => f (p.drop (w * j))))) := by
  induction k generalizing p s with
  | zero => simp [Export.putAll_nil]
  | succ k ih =>
    rw [Function.iterate_succ_apply, ih]
    refine Prod.ext ?_ ?_
    · simp only [List.drop_drop]
      congr 1
      ring
    · simp only [List.range_succ_eq_map, List.map_cons, List.map_map, Export.putAll_cons,
        Nat.mul_zero, List.drop_zero]
      congr 2
      funext j
      simp only [Function.comp_apply, List.drop_drop]
      congr 2
      rw [Nat.succ_eq_add_one]
      ring

/-! ### One packed byte -/

theorem orBits_succ (count : Nat) (bit shift : Nat → Nat) :
    orBits (count + 1) bit shift = (orBits count bit shift ||| (bit count <<< shift count)) % 256 := by
  unfold orBits
  rw [List.range_succ, List.foldl_append]
  rfl

theorem testBit_lt_two (b : Nat) (hb : b < 2) (t : Nat) :
    b.testBit t = (decide (t = 0) && decide (b = 1)) := by
  cases t with
  | zero =>
    interval_cases b <;> simp
  | succ t =>
    have : b < 2 ^ (t + 1) := lt_of_lt_of_le hb (by
      calc 2 = 2 ^ 1 := by norm_num
        _ ≤ 2 ^ (t + 1) := Nat.pow_le_pow_right (by norm_num) (by omega))
    rw [Nat.testBit_lt_two_pow this]
    simp

theorem orBits_testBit (count : Nat) (bit : Nat → Nat) (hbit : ∀ k, bit k < 2)
    (hc : count ≤ 8) (k : Nat) (hk : k < 8) :
    (orBits count bit (fun k => 7 - k)).testBit (7 - k) =
      (decide (k < count) && decide (bit k = 1)) := by
  induction count with
  | zero => simp [orBits]
  | succ c ih =>
    rw [orBits_succ]
    have h256 : (256 : Nat) = 2 ^ 8 := by norm_num
    rw [h256, Nat.testBit_mod_two_pow, Nat.testBit_or, ih (by omega), Nat.testBit_shiftLeft,
      testBit_lt_two _ (hbit c)]
    have h7 : decide (7 - k < 8) = true := by simp; omega
    rw [h7, Bool.true_and]
    by_cases hkc : k < c
    · have h1 : ¬ (7 - k - (7 - c) = 0) := by omega
      simp [hkc, h1, Nat.lt_succ_of_lt hkc]
    · by_cases hkc2 : k = c
      · subst hkc2
        simp
      · have h1 : ¬ (7 - k ≥ 7 - c) := by omega
        have h2 : ¬ (k < c + 1) := by omega
        simp [hkc, h1, h2]

/-! ### Gray export at depth 1 -/

theorem toSsize_small (n : Nat) (h : n < 2 ^ 63) : toSsize n = (n : Int) := by
  unfold toSsize
  have e : n % 2 ^ 64 = n := Nat.mod_eq_of_lt (by omega)
  rw [e, if_pos h]

theorem pixelOf_drop (p : List PixelPacket) (m k : Nat) :
    pixelOf (p.drop m) k = pixelOf p (m + k) := by
  unfold pixelOf
  rw [List.getD_eq_getElem?_getD, List.getD_eq_getElem?_getD, List.getElem?_drop]

theorem ExportGrayQuantum_depth1_bytes (qd : Nat) (lc : LumaCodec) (image : Image)
    (number_pixels : Nat) (p : List PixelPacket) (s : Export) (hn : number_pixels < 2 ^ 63) :
    ExportGrayQuantum.depth1 qd lc image number_pixels p s =
      s.putAll ((List.range (number_pixels / 8)).map (fun j =>
          orBits 8 (fun k => grayBit qd s.quantum_info.min_is_white
            (lc.GetPixelLuma image (pixelOf p (8 * j + k)))) (fun k => 7 - k)) ++
        (if number_pixels % 8 ≠ 0 then
          [orBits (number_pixels % 8) (fun k => grayBit qd s.quantum_info.min_is_white
            (lc.GetPixelLuma image (pixelOf p (8 * (number_pixels / 8) + k)))) (fun k => 7 - k)]
        else [])) := by
  have hloop := forLoop_down
    (fun (st : List PixelPacket × Export) =>
      (st.1.drop 8, st.2.put (orBits 8 (fun k => grayBit qd s.quantum_info.min_is_white
        (lc.GetPixelLuma image (pixelOf st.1 k))) (fun k => 7 - k))))
    8 (by norm_num) (number_pixels / 8) number_pixels (toSsize number_pixels - 7) (p, s)
    (Nat.div_le_self _ _)
    (by rw [toSsize_small _ hn]; omega) (by rw [toSsize_small _ hn]; omega)
  have hiter := packLoop_iterate
    (fun (q : List PixelPacket) => orBits 8 (fun k => grayBit qd s.quantum_info.min_is_white
      (lc.GetPixelLuma image (pixelOf q k))) (fun k => 7 - k)) 8 (number_pixels / 8) p s
  rw [hiter] at hloop
  unfold ExportGrayQuantum.depth1
  simp only
  rw [hloop]
  simp only [pixelOf_drop]
  by_cases h8 : number_pixels % 8 = 0
  · simp only [h8, ne_eq, not_true_eq_false, if_false, List.append_nil]
  · simp only [h8, ne_eq, not_false_eq_true, if_true, Export.putAll_append, Export.putAll_cons,
      Export.putAll_nil]

theorem grayBit_lt (qd : Nat) (min_is_white : Bool) (luma : ℚ) :
    grayBit qd min_is_white luma < 2 := by
  unfold grayBit
  cases min_is_white <;> simp only <;> split <;> simp

theorem packedBytes_length (n : Nat) (f : Nat → Nat) (g : Nat) :
    ((List.range (n / 8)).map f ++ (if n % 8 ≠ 0 then [g] else [])).length = (n + 7) / 8 := by
  by_cases h8 : n % 8 = 0
  · simp only [h8, ne_eq, not_true_eq_false, if_false, List.append_nil, List.length_map,
      List.length_range]
    omega
  · simp only [h8, ne_eq, not_false_eq_true, if_true, List.length_append, List.length_map,
      List.length_range, List.length_singleton]
    omega

theorem packedBytes_getD (n : Nat) (bit : Nat → Nat) (j : Nat) (hj : j < (n + 7) / 8) :
    ((List.range (n / 8)).map (fun j => orBits 8 (fun k => bit (8 * j + k)) (fun k => 7 - k)) ++
      (if n % 8 ≠ 0 then
        [orBits (n % 8) (fun k => bit (8 * (n / 8) + k)) (fun k => 7 - k)] else [])).getD j 0 =
      orBits (min 8 (n - 8 * j)) (fun k => bit (8 * j + k)) (fun k => 7 - k) := by
  by_cases hlt : j < n / 8
  · rw [List.getD_append _ _ _ _ (by simpa using hlt), getD_map_range _ _ _ hlt]
    have : min 8 (n - 8 * j) = 8 := by omega
    rw [this]
  · have hje : j = n / 8 := by omega
    have h8 : n % 8 ≠ 0 := by omega
    rw [List.getD_append_right _ _ _ _ (by simp; omega)]
    simp only [h8, ne_eq, not_false_eq_true, if_true, List.length_map, List.length_range]
    have e0 : j - n / 8 = 0 := by omega
    rw [e0, List.getD_cons_zero]
    have : min 8 (n - 8 * j) = n % 8 := by omega
    rw [this, hje]

/-- C11: for every number of pixels `n` (below 2^63, the range of the signed
loop counter), `ExportGrayQuantum` at depth 1 moves the cursor by exactly
`ceil(n/8)` bytes and writes only those bytes; bit `7 - (i mod 8)` of byte
`floor(i/8)` is the gray bit of pixel `i` (`luma < QuantumRange/2 ? black :
white`, black being 0 and white 1 unless `min_is_white` exchanges them), and
the bits of the last byte below those of the last pixel are zero; no
exception is raised.  This holds for either setting of `min_is_white`. -/
theorem ExportGrayQuantum_depth1 (qd : Nat) (lc : LumaCodec) (image : Image)
    (number_pixels : Nat) (p : List PixelPacket) (s : Export)
    (hdepth : s.quantum_info.depth = 1) (hn : number_pixels < 2 ^ 63) :
    (ExportGrayQuantum qd lc image number_pixels p s).q = s.q + (number_pixels + 7) / 8 ∧
    (∀ i, i < number_pixels →
      ((ExportGrayQuantum qd lc image number_pixels p s).pixels (s.q + i / 8)).testBit
          (7 - i % 8) =
        decide (grayBit qd s.quantum_info.min_is_white
          (lc.GetPixelLuma image (pixelOf p i)) = 1)) ∧
    (∀ i, number_pixels ≤ i → i < 8 * ((number_pixels + 7) / 8) →
      ((ExportGrayQuantum qd lc image number_pixels p s).pixels (s.q + i / 8)).testBit
          (7 - i % 8) = false) ∧
    (∀ a, a < s.q ∨ s.q + (number_pixels + 7) / 8 ≤ a →
      (ExportGrayQuantum qd lc image number_pixels p s).pixels a = s.pixels a) ∧
    (ExportGrayQuantum qd lc image number_pixels p s).exception = s.exception := by
  have hout : ExportGrayQuantum qd lc image number_pixels p s =
      ExportGrayQuantum.depth1 qd lc image number_pixels p s := by
    unfold ExportGrayQuantum
    simp only [hdepth, if_true]
  rw [hout, ExportGrayQuantum_depth1_bytes qd lc image number_pixels p s hn]
  have hlen := packedBytes_length number_pixels
    (fun j => orBits 8 (fun k => grayBit qd s.quantum_info.min_is_white
      (lc.GetPixelLuma image (pixelOf p (8 * j + k)))) (fun k => 7 - k))
    (orBits (number_pixels % 8) (fun k => grayBit qd s.quantum_info.min_is_white
      (lc.GetPixelLuma image (pixelOf p (8 * (number_pixels / 8) + k)))) (fun k => 7 - k))
  have hbit : ∀ i, i < 8 * ((number_pixels + 7) / 8) →
      ((s.putAll ((List.range (number_pixels / 8)).map (fun j =>
          orBits 8 (fun k => grayBit qd s.quantum_info.min_is_white
            (lc.GetPixelLuma image (pixelOf p (8 * j + k)))) (fun k => 7 - k)) ++
        (if number_pixels % 8 ≠ 0 then
          [orBits (number_pixels % 8) (fun k => grayBit qd s.quantum_info.min_is_white
            (lc.GetPixelLuma image (pixelOf p (8 * (number_pixels / 8) + k)))) (fun k => 7 - k)]
        else []))).pixels (s.q + i / 8)).testBit (7 - i % 8) =
      (decide (i < number_pixels) && decide (grayBit qd s.quantum_info.min_is_white
          (lc.GetPixelLuma image (pixelOf p i)) = 1)) := by
    intro i hi
    have hj : i / 8 < (number_pixels + 7) / 8 := by omega
    rw [Export.putAll_pixels_get _ _ _ (by rw [hlen]; exact hj),
      packedBytes_getD number_pixels (fun x => grayBit qd s.quantum_info.min_is_white
        (lc.GetPixelLuma image (pixelOf p x))) (i / 8) hj]
    have h256 : (256 : Nat) = 2 ^ 8 := by norm_num
    rw [h256, Nat.testBit_mod_two_pow,
      orBits_testBit _ _ (fun k => grayBit_lt _ _ _) (by omega) (i % 8) (by omega)]
    have h7 : decide (7 - i % 8 < 8) = true := by simp; omega
    have hi8 : 8 * (i / 8) + i % 8 = i := by omega
    rw [h7, Bool.true_and, hi8]
    congr 1
    by_cases hin : i < number_pixels
    · have : i % 8 < min 8 (number_pixels - 8 * (i / 8)) := by omega
      simp [hin, this]
    · have : ¬ i % 8 < min 8 (number_pixels - 8 * (i / 8)) := by omega
      simp [hin, this]
  refine ⟨?_, ?_, ?_, ?_, ?_⟩
  · rw [Export.putAll_q, hlen]
  · intro i hi
    rw [hbit i (by omega)]
    simp [hi]
  · intro i hi1 hi2
    rw [hbit i hi2]
    have : ¬ i < number_pixels := by omega
    simp [this]
  · intro a ha
    rcases ha with ha | ha
    · exact Export.putAll_pixels_lt _ _ _ ha
    · exact Export.putAll_pixels_ge _ _ _ (by rw [hlen]; exact ha)
  · exact Export.putAll_exception _ _

set_option maxRecDepth 100000 in
theorem ExportGrayQuantum_depth1_witness :
    (ExportGrayQuantum 8 redLuma (directImage 3 1 false [⟨255, 0, 0, 0⟩, ⟨0, 0, 0, 0⟩, ⟨200, 0, 0, 0⟩]) 3
        [⟨255, 0, 0, 0⟩, ⟨0, 0, 0, 0⟩, ⟨200, 0, 0, 0⟩]
        (freshExport { quantumInfo10 EndianType.MSBEndian with depth := 1 })).q = 1 ∧
    (ExportGrayQuantum 8 redLuma (directImage 3 1 false [⟨255, 0, 0, 0⟩, ⟨0, 0, 0, 0⟩, ⟨200, 0, 0, 0⟩]) 3
        [⟨255, 0, 0, 0⟩, ⟨0, 0, 0, 0⟩, ⟨200, 0, 0, 0⟩]
        (freshExport { quantumInfo10 EndianType.MSBEndian with depth := 1 })).pixels 0 = 0xA0 :=
  ⟨(ExportGrayQuantum_depth1 8 redLuma
      (directImage 3 1 false [⟨255, 0, 0, 0⟩, ⟨0, 0, 0, 0⟩, ⟨200, 0, 0, 0⟩]) 3
      [⟨255, 0, 0, 0⟩, ⟨0, 0, 0, 0⟩, ⟨200, 0, 0, 0⟩]
      (freshExport { quantumInfo10 EndianType.MSBEndian with depth := 1 }) rfl (by decide)).1,
   by decide!⟩

/-! ### The affine rescale on a constant plane -/

theorem foldl_fixed {α β : Type} (l : List α) (f : β → α → β) (b : β)
    (h : ∀ a ∈ l, f b a = b) : l.foldl f b = b := by
  induction l with
  | nil => rfl
  | cons a l ih =>
    rw [List.foldl_cons, h a (List.mem_cons_self _ _)]
    exact ih (fun x hx => h x (List.mem_cons_of_mem _ hx))

theorem scaleFactor_constant (env : Env) (v : ViffInfo) (pixels : List Nat) (max_packets : Nat)
    (c : ℚ) (ht : v.data_storage_type ≠ VFF_TYP_1_BYTE) (hm : v.map_scheme = VFF_MS_NONE)
    (hpos : 0 < max_packets)
    (hc : ∀ i, i < max_packets →
      typedSample env (dataSampleType v.data_storage_type) pixels i = c) :
    scaleFactor env v pixels max_packets =
      if c = 0 then (0, Double.finite 0)
      else (0, Double.div (Double.finite (QuantumRange env.qd : ℚ)) (Double.finite c)) := by
  unfold scaleFactor
  rw [if_pos ⟨ht, hm⟩]
  simp only
  rw [hc 0 hpos, foldl_fixed _ _ (c, c) (by
    intro i hi
    rw [List.mem_range] at hi
    simp only [hc i hi, gt_iff_lt, lt_self_iff_false, if_false])]
  simp only [and_self, if_true]
  by_cases h0 : c = 0
  · simp only [h0, if_true]
  · simp only [h0, if_false]

theorem rescaleSample_zero (qd : Nat) :
    rescaleSample qd 0 0 (Double.finite 0) = Double.finite 0 := by
  have h1 : Double.mul (Double.sub (Double.finite 0) (Double.finite 0)) (Double.finite 0) =
      Double.finite 0 := by
    simp [Double.mul, Double.sub, Double.round]
  unfold rescaleSample
  simp only []
  rw [h1]
  simp [Double.gt, Double.lt]

theorem convertSamples_replicate (env : Env) (v : ViffInfo) (pixels : List Nat)
    (max_packets : Nat) (c : ℚ) (s : Double) (b : Nat)
    (hm : v.map_scheme = VFF_MS_NONE)
    (hs : scaleFactor env v pixels max_packets = (0, s))
    (hc : ∀ i, i < max_packets →
      typedSample env (dataSampleType v.data_storage_type) pixels i = c)
    (hb : castQuantumByte env.qd (rescaleSample env.qd c 0 s) = b) :
    convertSamples env v pixels max_packets = List.replicate max_packets b := by
  unfold convertSamples
  simp only
  rw [hs]
  apply List.ext_getElem
  · simp
  · intro i h1 h2
    have hi : i < max_packets := by simpa using h1
    rw [List.getElem_map, List.getElem_range, List.getElem_replicate, hc i hi, if_pos hm]
    exact hb

theorem WriteVIFFImage_loop_cons (env : Env) (image_info : ImageInfo) (image0 : Image)
    (next : List Image) (comment0 written : List Nat) :
    WriteVIFFImage.loop env image_info (image0 :: next) comment0 written =
      if env.AcquireVirtualMemory (writerPackets env (writerImage env image0)) 1 = false then
        { status := false
          data := written ++ writeViffHeader (writerHeader env (writerImage env image0)
            (writerComment comment0 (writerImage env image0).comment))
          exception := some ⟨ExceptionType.ResourceLimitError, "MemoryAllocationFailed"⟩ }
      else if (writerImage env image0).storage_class ≠ ClassType.DirectClass ∧
          env.SetImageGray (writerImage env image0) = false ∧
          env.AcquireQuantumMemory (writerImage env image0).colors 3 = false then
        { status := false
          data := written ++ writeViffHeader (writerHeader env (writerImage env image0)
            (writerComment comment0 (writerImage env image0).comment))
          exception := some ⟨ExceptionType.ResourceLimitError, "MemoryAllocationFailed"⟩ }
      else if image_info.adjoin then
        WriteVIFFImage.loop env image_info next
          (writerComment comment0 (writerImage env image0).comment)
          (written ++ writeViffHeader (writerHeader env (writerImage env image0)
              (writerComment comment0 (writerImage env image0).comment)) ++
            (if (writerImage env image0).storage_class ≠ ClassType.DirectClass ∧
                env.SetImageGray (writerImage env image0) = false then
              colormapPlanes env (writerImage env image0) else []) ++
            (((writerPixels env (writerImage env image0)).take
                (writerPackets env (writerImage env image0))) ++
              List.replicate (writerPackets env (writerImage env image0) -
                ((writerPixels env (writerImage env image0)).take
                  (writerPackets env (writerImage env image0))).length) 0))
      else
        { status := true
          data := written ++ writeViffHeader (writerHeader env (writerImage env image0)
              (writerComment comment0 (writerImage env image0).comment)) ++
            (if (writerImage env image0).storage_class ≠ ClassType.DirectClass ∧
                env.SetImageGray (writerImage env image0) = false then
              colormapPlanes env (writerImage env image0) else []) ++
            (((writerPixels env (writerImage env image0)).take
                (writerPackets env (writerImage env image0))) ++
              List.replicate (writerPackets env (writerImage env image0) -
                ((writerPixels env (writerImage env image0)).take
                  (writerPackets env (writerImage env image0))).length) 0)
          exception := none } := by
  rfl

theorem WriteVIFFImage_loop_prefix (env : Env) (image_info : ImageInfo) (images : List Image) :
    ∀ (comment0 written : List Nat),
      ∃ tail, (WriteVIFFImage.loop env image_info images comment0 written).data =
        written ++ tail := by
  induction images with
  | nil =>
    intro comment0 written
    exact ⟨[], by simp [WriteVIFFImage.loop]⟩
  | cons image0 next ih =>
    intro comment0 written
    rw [WriteVIFFImage_loop_cons]
    generalize (if (writerImage env image0).storage_class ≠ ClassType.DirectClass ∧
                env.SetImageGray (writerImage env image0) = false then
              colormapPlanes env (writerImage env image0) else []) = map
    generalize (((writerPixels env (writerImage env image0)).take
                (writerPackets env (writerImage env image0))) ++
              List.replicate (writerPackets env (writerImage env image0) -
                ((writerPixels env (writerImage env image0)).take
                  (writerPackets env (writerImage env image0))).length) 0) = plane
    generalize writeViffHeader (writerHeader env (writerImage env image0)
            (writerComment comment0 (writerImage env image0).comment)) = header
    by_cases h1 : env.AcquireVirtualMemory (writerPackets env (writerImage env image0)) 1 = false
    · rw [if_pos h1]
      exact ⟨header, rfl⟩
    rw [if_neg h1]
    by_cases h2 : (writerImage env image0).storage_class ≠ ClassType.DirectClass ∧
          env.SetImageGray (writerImage env image0) = false ∧
          env.AcquireQuantumMemory (writerImage env image0).colors 3 = false
    · rw [if_pos h2]
      exact ⟨header, rfl⟩
    rw [if_neg h2]
    by_cases h3 : image_info.adjoin = true
    · rw [if_pos h3]
      obtain ⟨t, ht⟩ := ih (writerComment comment0 (writerImage env image0).comment)
        (written ++ header ++ map ++ plane)
      rw [ht]
      exact ⟨header ++ map ++ plane ++ t, by simp only [List.append_assoc]⟩
    · rw [if_neg h3]
      exact ⟨header ++ map ++ plane, by simp only [List.append_assoc]⟩

theorem WriteVIFFImage_loop_header (env : Env) (image_info : ImageInfo) (image0 : Image)
    (next : List Image) (comment0 written : List Nat) :
    ∃ tail, (WriteVIFFImage.loop env image_info (image0 :: next) comment0 written).data =
      written ++ writeViffHeader (writerHeader env (writerImage env image0)
        (writerComment comment0 (writerImage env image0).comment)) ++ tail := by
  rw [WriteVIFFImage_loop_cons]
  generalize (if (writerImage env image0).storage_class ≠ ClassType.DirectClass ∧
              env.SetImageGray (writerImage env image0) = false then
            colormapPlanes env (writerImage env image0) else []) = map
  generalize (((writerPixels env (writerImage env image0)).take
              (writerPackets env (writerImage env image0))) ++
            List.replicate (writerPackets env (writerImage env image0) -
              ((writerPixels env (writerImage env image0)).take
                (writerPackets env (writerImage env image0))).length) 0) = plane
  generalize writeViffHeader (writerHeader env (writerImage env image0)
          (writerComment comment0 (writerImage env image0).comment)) = header
  by_cases h1 : env.AcquireVirtualMemory (writerPackets env (writerImage env image0)) 1 = false
  · rw [if_pos h1]
    exact ⟨[], by simp only [List.append_nil]⟩
  rw [if_neg h1]
  by_cases h2 : (writerImage env image0).storage_class ≠ ClassType.DirectClass ∧
        env.SetImageGray (writerImage env image0) = false ∧
        env.AcquireQuantumMemory (writerImage env image0).colors 3 = false
  · rw [if_pos h2]
    exact ⟨[], by simp only [List.append_nil]⟩
  rw [if_neg h2]
  by_cases h3 : image_info.adjoin = true
  · rw [if_pos h3]
    obtain ⟨t, ht⟩ := WriteVIFFImage_loop_prefix env image_info next
      (writerComment comment0 (writerImage env image0).comment)
      (written ++ header ++ map ++ plane)
    rw [ht]
    exact ⟨map ++ plane ++ t, by simp only [List.append_assoc]⟩
  · rw [if_neg h3]
    exact ⟨map ++ plane, by simp only [List.append_assoc]⟩

/-- C18 (amended): every frame `WriteVIFFImage` writes starts with the header
`writerHeader` builds for it, and that header declares: for a DirectClass
image 3 bands (4 with alpha), 1-byte storage, generic-RGB and no map; for any
other image one band and no colour model, and then, when `SetImageGray` finds
the image not gray, 1-byte storage with map scheme one-per-band, 3 map rows
of 1-byte entries and one map column per colour, whatever the number of
colours; when it finds the image gray, bit storage without a map for at most
2 colours and 1-byte storage without a map for more than 2. -/
theorem WriteVIFFImage_header_choice (env : Env) :
    (∀ (image_info : ImageInfo) (image0 : Image) (next : List Image)
        (comment0 written : List Nat),
      ∃ tail, (WriteVIFFImage.loop env image_info (image0 :: next) comment0 written).data =
        written ++ writeViffHeader (writerHeader env (writerImage env image0)
          (writerComment comment0 (writerImage env image0).comment)) ++ tail) ∧
    (∀ (image : Image) (comment : List Nat),
      image.storage_class = ClassType.DirectClass →
        (writerHeader env image comment).number_data_bands = (if image.matte then 4 else 3) ∧
        (writerHeader env image comment).data_storage_type = VFF_TYP_1_BYTE ∧
        (writerHeader env image comment).color_space_model = VFF_CM_genericRGB ∧
        (writerHeader env image comment).map_scheme = VFF_MS_NONE ∧
        (writerHeader env image comment).map_storage_type = VFF_MAPTYP_NONE ∧
        (writerHeader env image comment).map_rows = 0) ∧
    (∀ (image : Image) (comment : List Nat),
      image.storage_class ≠ ClassType.DirectClass → env.SetImageGray image = false →
        (writerHeader env image comment).number_data_bands = 1 ∧
        (writerHeader env image comment).data_storage_type = VFF_TYP_1_BYTE ∧
        (writerHeader env image comment).color_space_model = VFF_CM_NONE ∧
        (writerHeader env image comment).map_scheme = VFF_MS_ONEPERBAND ∧
        (writerHeader env image comment).map_storage_type = VFF_MAPTYP_1_BYTE ∧
        (writerHeader env image comment).map_rows = 3 ∧
        (writerHeader env image comment).map_columns = image.colors % 2 ^ 32) ∧
    (∀ (image : Image) (comment : List Nat),
      image.storage_class ≠ ClassType.DirectClass → env.SetImageGray image = true →
        image.colors ≤ 2 →
        (writerHeader env image comment).number_data_bands = 1 ∧
        (writerHeader env image comment).data_storage_type = VFF_TYP_BIT ∧
        (writerHeader env image comment).color_space_model = VFF_CM_NONE ∧
        (writerHeader env image comment).map_scheme = VFF_MS_NONE ∧
        (writerHeader env image comment).map_storage_type = VFF_MAPTYP_NONE ∧
        (writerHeader env image comment).map_rows = 0) ∧
    (∀ (image : Image) (comment : List Nat),
      image.storage_class ≠ ClassType.DirectClass → env.SetImageGray image = true →
        2 < image.colors →
        (writerHeader env image comment).number_data_bands = 1 ∧
        (writerHeader env image comment).data_storage_type = VFF_TYP_1_BYTE ∧
        (writerHeader env image comment).color_space_model = VFF_CM_NONE ∧
        (writerHeader env image comment).map_scheme = VFF_MS_NONE ∧
        (writerHeader env image comment).map_storage_type = VFF_MAPTYP_NONE ∧
        (writerHeader env image comment).map_rows = 0) := by
  refine ⟨fun image_info image0 next comment0 written =>
    WriteVIFFImage_loop_header env image_info image0 next comment0 written, ?_, ?_, ?_, ?_⟩
  · intro image comment h
    rw [writerHeader_direct env image comment h]
    exact ⟨rfl, rfl, rfl, rfl, rfl, rfl⟩
  · intro image comment h hg
    have e : writerHeader env image comment =
        { writerHeader env image comment with
          number_data_bands := 1
          color_space_model := VFF_CM_NONE
          data_storage_type := VFF_TYP_1_BYTE
          map_scheme := VFF_MS_ONEPERBAND
          map_storage_type := VFF_MAPTYP_1_BYTE
          map_rows := 3
          map_columns := image.colors % 2 ^ 32 } := by
      unfold writerHeader
      simp only [h, hg, if_false, if_true]
    rw [e]
    exact ⟨rfl, rfl, rfl, rfl, rfl, rfl, rfl⟩
  · intro image comment h hg hc
    have hg2 : ¬ (true = false) := by decide
    have e : writerHeader env image comment =
        { writerHeader env image comment with
          number_data_bands := 1
          color_space_model := VFF_CM_NONE
          data_storage_type := VFF_TYP_BIT
          map_scheme := VFF_MS_NONE
          map_storage_type := VFF_MAPTYP_NONE
          map_rows := 0 } := by
      unfold writerHeader
      simp [h, hg, hc]
    rw [e]
    exact ⟨rfl, rfl, rfl, rfl, rfl, rfl⟩
  · intro image comment h hg hc
    have hg2 : ¬ (true = false) := by decide
    have hc2 : ¬ image.colors ≤ 2 := by omega
    have e : writerHeader env image comment =
        { writerHeader env image comment with
          number_data_bands := 1
          color_space_model := VFF_CM_NONE
          data_storage_type := VFF_TYP_1_BYTE
          map_scheme := VFF_MS_NONE
          map_storage_type := VFF_MAPTYP_NONE
          map_rows := 0 } := by
      unfold writerHeader
      simp [h, hg, hc2]
    rw [e]
    exact ⟨rfl, rfl, rfl, rfl, rfl, rfl⟩

set_option maxRecDepth 100000 in
theorem WriteVIFFImage_header_choice_witness :
    (writerHeader plainEnv (directImage 2 1 true redGreenRow) []).number_data_bands = 4 ∧
    (writerHeader plainEnv (paletteImage 3 1 ColorspaceType.sRGBColorspace redBlueMap
      [0, 1, 0]) []).map_scheme = VFF_MS_ONEPERBAND ∧
    (writerHeader grayEnv (paletteImage 3 1 ColorspaceType.sRGBColorspace grayMap
      [0, 2, 0]) []).map_scheme = VFF_MS_NONE ∧
    (writerHeader grayEnv (paletteImage 3 1 ColorspaceType.sRGBColorspace
      [⟨0, 0, 0, 0⟩, ⟨255, 255, 255, 0⟩] [0, 1, 0]) []).data_storage_type = VFF_TYP_BIT :=
  ⟨((WriteVIFFImage_header_choice plainEnv).2.1 (directImage 2 1 true redGreenRow) [] rfl).1,
   ((WriteVIFFImage_header_choice plainEnv).2.2.1
      (paletteImage 3 1 ColorspaceType.sRGBColorspace redBlueMap [0, 1, 0]) []
      (by decide) rfl).2.2.2.1,
   ((WriteVIFFImage_header_choice grayEnv).2.2.2.2
      (paletteImage 3 1 ColorspaceType.sRGBColorspace grayMap [0, 2, 0]) []
      (by decide) rfl (by decide)).2.2.2.1,
   ((WriteVIFFImage_header_choice grayEnv).2.2.2.1
      (paletteImage 3 1 ColorspaceType.sRGBColorspace [⟨0, 0, 0, 0⟩, ⟨255, 255, 255, 0⟩]
        [0, 1, 0]) [] (by decide) rfl (by decide)).2.1⟩

set_option maxRecDepth 100000 in
set_option maxHeartbeats 4000000 in
theorem WriteVIFFImage_header_choice_counterexample :
    (paletteImage 2 1 ColorspaceType.sRGBColorspace redBlueMap [0, 1]).storage_class
      = ClassType.PseudoClass ∧
    (paletteImage 2 1 ColorspaceType.sRGBColorspace redBlueMap [0, 1]).colors = 2 ∧
    (parsedHeader (afterMagic (WriteVIFFImage plainEnv plainInfo
      [paletteImage 2 1 ColorspaceType.sRGBColorspace redBlueMap [0, 1]]).data)).data_storage_type
      = VFF_TYP_1_BYTE ∧
    (parsedHeader (afterMagic (WriteVIFFImage plainEnv plainInfo
      [paletteImage 2 1 ColorspaceType.sRGBColorspace redBlueMap [0, 1]]).data)).map_scheme
      = VFF_MS_ONEPERBAND ∧
    (paletteImage 3 1 ColorspaceType.sRGBColorspace grayMap [0, 2, 0]).storage_class
      = ClassType.PseudoClass ∧
    (paletteImage 3 1 ColorspaceType.sRGBColorspace grayMap [0, 2, 0]).colors = 3 ∧
    (parsedHeader (afterMagic (WriteVIFFImage grayEnv plainInfo
      [paletteImage 3 1 ColorspaceType.sRGBColorspace grayMap [0, 2, 0]]).data)).map_scheme
      = VFF_MS_NONE ∧
    (parsedHeader (afterMagic (WriteVIFFImage grayEnv plainInfo
      [paletteImage 3 1 ColorspaceType.sRGBColorspace grayMap [0, 2, 0]]).data)).map_rows
      = 0 := by
  decide!

/-! ### The header round trip -/

theorem writerHeader_fields (env : Env) (image : Image) (comment : List Nat) :
    (writerHeader env image comment).identifier = 0xab ∧
    (writerHeader env image comment).file_type = 1 ∧
    (writerHeader env image comment).release = 1 ∧
    (writerHeader env image comment).version = 3 ∧
    (writerHeader env image comment).machine_dependency = 2 ∧
    (writerHeader env image comment).rows = image.columns ∧
    (writerHeader env image comment).columns = image.rows ∧
    (writerHeader env image comment).subrows = 0 ∧
    (writerHeader env image comment).x_offset = -1 ∧
    (writerHeader env image comment).y_offset = -1 ∧
    (writerHeader env image comment).x_bits_per_pixel = 63 * 2 ^ 24 + 128 * 2 ^ 16 ∧
    (writerHeader env image comment).y_bits_per_pixel = 63 * 2 ^ 24 + 128 * 2 ^ 16 ∧
    (writerHeader env image comment).location_type = 1 ∧
    (writerHeader env image comment).location_dimension = 0 ∧
    (writerHeader env image comment).number_of_images = 1 ∧
    ((writerHeader env image comment).number_data_bands = 1 ∨
      (writerHeader env image comment).number_data_bands = 3 ∨
      (writerHeader env image comment).number_data_bands = 4) ∧
    ((writerHeader env image comment).data_storage_type = 0 ∨
      (writerHeader env image comment).data_storage_type = 1) ∧
    (writerHeader env image comment).data_encode_scheme = 0 ∧
    ((writerHeader env image comment).map_scheme = 0 ∨
      (writerHeader env image comment).map_scheme = 1) ∧
    ((writerHeader env image comment).map_storage_type = 0 ∨
      (writerHeader env image comment).map_storage_type = 1) ∧
    ((writerHeader env image comment).map_rows = 0 ∨
      (writerHeader env image comment).map_rows = 3) ∧
    (writerHeader env image comment).map_columns < 2 ^ 32 ∧
    (writerHeader env image comment).map_subrows = 0 ∧
    (writerHeader env image comment).map_enable = 1 ∧
    (writerHeader env image comment).maps_per_cycle = 0 ∧
    ((writerHeader env image comment).color_space_model = 0 ∨
      (writerHeader env image comment).color_space_model = 15) ∧
    (writerHeader env image comment).reserve = [0, 0, 0] ∧
    (writerHeader env image comment).comment = comment := by
  have hm : image.colors % 2 ^ 32 < 2 ^ 32 := Nat.mod_lt _ (by norm_num)
  unfold writerHeader
  by_cases h1 : image.storage_class = ClassType.DirectClass
  · by_cases h2 : image.matte = true
    · simp [h1, h2, VFF_DEP_IEEEORDER, VFF_LOC_IMPLICIT, VFF_TYP_1_BYTE, VFF_DES_RAW,
        VFF_MS_NONE, VFF_MAPTYP_NONE, VFF_CM_genericRGB]
    · simp [h1, h2, VFF_DEP_IEEEORDER, VFF_LOC_IMPLICIT, VFF_TYP_1_BYTE, VFF_DES_RAW,
        VFF_MS_NONE, VFF_MAPTYP_NONE, VFF_CM_genericRGB]
  · by_cases h2 : env.SetImageGray image = false
    · simp [h1, h2, VFF_DEP_IEEEORDER, VFF_LOC_IMPLICIT, VFF_TYP_1_BYTE, VFF_DES_RAW,
        VFF_MS_ONEPERBAND, VFF_MAPTYP_1_BYTE, VFF_CM_NONE]
      exact hm
    · by_cases h3 : image.colors ≤ 2
      · simp [h1, h2, h3, VFF_DEP_IEEEORDER, VFF_LOC_IMPLICIT, VFF_TYP_BIT, VFF_DES_RAW,
          VFF_MS_NONE, VFF_MAPTYP_NONE, VFF_CM_NONE]
      · simp [h1, h2, h3, VFF_DEP_IEEEORDER, VFF_LOC_IMPLICIT, VFF_TYP_1_BYTE, VFF_DES_RAW,
          VFF_MS_NONE, VFF_MAPTYP_NONE, VFF_CM_NONE]

theorem writerPackets_covers (env : Env) (image : Image)
    (h : 4 * (image.columns * image.rows) < SIZE_MOD) :
    image.columns * image.rows ≤ 8 * writerPackets env image := by
  have hn : (image.columns * image.rows) % SIZE_MOD = image.columns * image.rows :=
    Nat.mod_eq_of_lt (by omega)
  have hbit : image.columns * image.rows ≤ 8 * (((image.columns + 7) / 8) * image.rows) := by
    have h1 : image.columns ≤ 8 * ((image.columns + 7) / 8) := by omega
    calc image.columns * image.rows ≤ (8 * ((image.columns + 7) / 8)) * image.rows :=
          Nat.mul_le_mul_right _ h1
      _ = 8 * (((image.columns + 7) / 8) * image.rows) := by ring
  have hle : ((image.columns + 7) / 8) * image.rows ≤ 4 * (image.columns * image.rows) := by
    have h1 : (image.columns + 7) / 8 ≤ 4 * image.columns := by omega
    calc ((image.columns + 7) / 8) * image.rows ≤ (4 * image.columns) * image.rows :=
          Nat.mul_le_mul_right _ h1
      _ = 4 * (image.columns * image.rows) := by ring
  unfold writerPackets
  simp only [hn]
  split_ifs
  · rw [Nat.mod_eq_of_lt (by omega)]
    omega
  · rw [Nat.mod_eq_of_lt (by omega)]
    omega
  · omega
  · rw [Nat.mod_eq_of_lt (by omega)]
    exact hbit
  · omega

theorem writeViffHeader_layout (w : ViffInfo) :
    (writeViffHeader w).take 5 = [w.identifier % 256, w.file_type % 256, w.release % 256,
      w.version % 256, w.machine_dependency % 256] ∧
    (writeViffHeader w).drop 604 = List.replicate 420 0 := by
  constructor
  · simp only [writeViffHeader, List.cons_append, List.append_assoc, List.take_succ_cons,
      List.take_zero]
  · unfold writeViffHeader
    apply List.drop_left'
    simp only [WriteBlobMSBLong, List.length_append, List.length_cons, List.length_nil,
      List.length_map, List.length_range]

theorem wireHeader_writerHeader (env : Env) (image : Image) (comment : List Nat)
    (hc32 : image.columns < 2 ^ 32) (hr32 : image.rows < 2 ^ 32) :
    (wireHeader (writerHeader env image comment)).rows = image.columns ∧
    (wireHeader (writerHeader env image comment)).columns = image.rows ∧
    (wireHeader (writerHeader env image comment)).rows = (writerHeader env image comment).rows ∧
    (wireHeader (writerHeader env image comment)).columns
      = (writerHeader env image comment).columns ∧
    (wireHeader (writerHeader env image comment)).subrows
      = (writerHeader env image comment).subrows ∧
    (wireHeader (writerHeader env image comment)).x_offset
      = (writerHeader env image comment).x_offset ∧
    (wireHeader (writerHeader env image comment)).y_offset
      = (writerHeader env image comment).y_offset ∧
    (wireHeader (writerHeader env image comment)).x_bits_per_pixel
      = (writerHeader env image comment).x_bits_per_pixel ∧
    (wireHeader (writerHeader env image comment)).y_bits_per_pixel
      = (writerHeader env image comment).y_bits_per_pixel ∧
    (wireHeader (writerHeader env image comment)).location_type
      = (writerHeader env image comment).location_type ∧
    (wireHeader (writerHeader env image comment)).location_dimension
      = (writerHeader env image comment).location_dimension ∧
    (wireHeader (writerHeader env image comment)).number_of_images
      = (writerHeader env image comment).number_of_images ∧
    (wireHeader (writerHeader env image comment)).number_data_bands
      = (writerHeader env image comment).number_data_bands ∧
    (wireHeader (writerHeader env image comment)).data_storage_type
      = (writerHeader env image comment).data_storage_type ∧
    (wireHeader (writerHeader env image comment)).data_encode_scheme
      = (writerHeader env image comment).data_encode_scheme ∧
    (wireHeader (writerHeader env image comment)).map_scheme
      = (writerHeader env image comment).map_scheme ∧
    (wireHeader (writerHeader env image comment)).map_storage_type
      = (writerHeader env image comment).map_storage_type ∧
    (wireHeader (writerHeader env image comment)).map_rows
      = (writerHeader env image comment).map_rows ∧
    (wireHeader (writerHeader env image comment)).map_columns
      = (writerHeader env image comment).map_columns ∧
    (wireHeader (writerHeader env image comment)).map_subrows
      = (writerHeader env image comment).map_subrows ∧
    (wireHeader (writerHeader env image comment)).map_enable
      = (writerHeader env image comment).map_enable ∧
    (wireHeader (writerHeader env image comment)).maps_per_cycle
      = (writerHeader env image comment).maps_per_cycle ∧
    (wireHeader (writerHeader env image comment)).color_space_model
      = (writerHeader env image comment).color_space_model := by
  obtain ⟨f1, f2, f3, f4, f5, f6, f7, f8, f9, f10, f11, f12, f13, f14, f15, f16, f17, f18, f19,
    f20, f21, f22, f23, f24, f25, f26, f27, f28⟩ := writerHeader_fields env image comment
  have hs : signedLong (unsignedLong (-1) % 2 ^ 32) = -1 := by decide
  have b6 : (writerHeader env image comment).rows < 2 ^ 32 := by rw [f6]; exact hc32
  have b7 : (writerHeader env image comment).columns < 2 ^ 32 := by rw [f7]; exact hr32
  have b8 : (writerHeader env image comment).subrows < 2 ^ 32 := by rw [f8]; norm_num
  have b11 : (writerHeader env image comment).x_bits_per_pixel < 2 ^ 32 := by
    rw [f11]; norm_num
  have b12 : (writerHeader env image comment).y_bits_per_pixel < 2 ^ 32 := by
    rw [f12]; norm_num
  have b13 : (writerHeader env image comment).location_type < 2 ^ 32 := by rw [f13]; norm_num
  have b14 : (writerHeader env image comment).location_dimension < 2 ^ 32 := by
    rw [f14]; norm_num
  have b15 : (writerHeader env image comment).number_of_images < 2 ^ 32 := by
    rw [f15]; norm_num
  have b16 : (writerHeader env image comment).number_data_bands < 2 ^ 32 := by
    rcases f16 with h | h | h <;> rw [h] <;> norm_num
  have b17 : (writerHeader env image comment).data_storage_type < 2 ^ 32 := by
    rcases f17 with h | h <;> rw [h] <;> norm_num
  have b18 : (writerHeader env image comment).data_encode_scheme < 2 ^ 32 := by
    rw [f18]; norm_num
  have b19 : (writerHeader env image comment).map_scheme < 2 ^ 32 := by
    rcases f19 with h | h <;> rw [h] <;> norm_num
  have b20 : (writerHeader env image comment).map_storage_type < 2 ^ 32 := by
    rcases f20 with h | h <;> rw [h] <;> norm_num
  have b21 : (writerHeader env image comment).map_rows < 2 ^ 32 := by
    rcases f21 with h | h <;> rw [h] <;> norm_num
  have b23 : (writerHeader env image comment).map_subrows < 2 ^ 32 := by rw [f23]; norm_num
  have b24 : (writerHeader env image comment).map_enable < 2 ^ 32 := by rw [f24]; norm_num
  have b25 : (writerHeader env image comment).maps_per_cycle < 2 ^ 32 := by
    rw [f25]; norm_num
  have b26 : (writerHeader env image comment).color_space_model < 2 ^ 32 := by
    rcases f26 with h | h <;> rw [h] <;> norm_num
  refine ⟨?_, ?_, Nat.mod_eq_of_lt b6, Nat.mod_eq_of_lt b7, Nat.mod_eq_of_lt b8, ?_, ?_,
    Nat.mod_eq_of_lt b11, Nat.mod_eq_of_lt b12, Nat.mod_eq_of_lt b13, Nat.mod_eq_of_lt b14,
    Nat.mod_eq_of_lt b15, Nat.mod_eq_of_lt b16, Nat.mod_eq_of_lt b17, Nat.mod_eq_of_lt b18,
    Nat.mod_eq_of_lt b19, Nat.mod_eq_of_lt b20, Nat.mod_eq_of_lt b21, Nat.mod_eq_of_lt f22,
    Nat.mod_eq_of_lt b23, Nat.mod_eq_of_lt b24, Nat.mod_eq_of_lt b25, Nat.mod_eq_of_lt b26⟩
  · exact (Nat.mod_eq_of_lt b6).trans f6
  · exact (Nat.mod_eq_of_lt b7).trans f7
  · show signedLong (unsignedLong (writerHeader env image comment).x_offset % 2 ^ 32) = _
    rw [f9]
    exact hs
  · show signedLong (unsignedLong (writerHeader env image comment).y_offset % 2 ^ 32) = _
    rw [f10]
    exact hs

theorem validateFields_writerHeader (env : Env) (image : Image) (comment : List Nat) :
    validateFields (wireHeader (writerHeader env image comment)) = none := by
  obtain ⟨f1, f2, f3, f4, f5, f6, f7, f8, f9, f10, f11, f12, f13, f14, f15, f16, f17, f18, f19,
    f20, f21, f22, f23, f24, f25, f26, f27, f28⟩ := writerHeader_fields env image comment
  have e1 : (wireHeader (writerHeader env image comment)).number_data_bands =
      (writerHeader env image comment).number_data_bands % 2 ^ 32 := rfl
  have e2 : (wireHeader (writerHeader env image comment)).data_storage_type =
      (writerHeader env image comment).data_storage_type % 2 ^ 32 := rfl
  have e3 : (wireHeader (writerHeader env image comment)).data_encode_scheme =
      (writerHeader env image comment).data_encode_scheme % 2 ^ 32 := rfl
  have e4 : (wireHeader (writerHeader env image comment)).map_storage_type =
      (writerHeader env image comment).map_storage_type % 2 ^ 32 := rfl
  have e5 : (wireHeader (writerHeader env image comment)).color_space_model =
      (writerHeader env image comment).color_space_model % 2 ^ 32 := rfl
  have e6 : (wireHeader (writerHeader env image comment)).location_type =
      (writerHeader env image comment).location_type % 2 ^ 32 := rfl
  have e7 : (wireHeader (writerHeader env image comment)).number_of_images =
      (writerHeader env image comment).number_of_images % 2 ^ 32 := rfl
  rw [validateFields_none_iff, e1, e2, e3, e4, e5, e6, e7, f13, f15, f18]
  refine ⟨?_, ?_, by norm_num, ?_, ?_, by norm_num, by norm_num⟩
  · rcases f16 with h | h | h <;> rw [h] <;> norm_num
  · rcases f17 with h | h <;> rw [h] <;> norm_num
  · rcases f20 with h | h <;> rw [h] <;> norm_num
  · rcases f26 with h | h <;> rw [h] <;> norm_num

theorem wireHeader_comment (w : ViffInfo) :
    (wireHeader w).comment = (List.range 512).map (fun i => w.comment.getD i 0 % 256) := by
  simp only [wireHeader]

theorem parsed_writerHeader (env : Env) (image : Image) (comment : List Nat)
    (hc32 : image.columns < 2 ^ 32) (hr32 : image.rows < 2 ^ 32) :
    wireHeader (writerHeader env image comment) =
      { writerHeader env image comment with
        comment := (List.range 512).map (fun i => comment.getD i 0 % 256) } := by
  obtain ⟨_, _, g3, g4, g5, g6, g7, g8, g9, g10, g11, g12, g13, g14, g15, g16, g17, g18, g19,
    g20, g21, g22, g23⟩ := wireHeader_writerHeader env image comment hc32 hr32
  obtain ⟨f1, f2, f3, f4, f5, f6, f7, f8, f9, f10, f11, f12, f13, f14, f15, f16, f17, f18, f19,
    f20, f21, f22, f23, f24, f25, f26, f27, f28⟩ := writerHeader_fields env image comment
  have h1 : (wireHeader (writerHeader env image comment)).identifier =
      (writerHeader env image comment).identifier := by rw [f1]; rfl
  have h2 : (wireHeader (writerHeader env image comment)).file_type =
      (writerHeader env image comment).file_type := by
    show (writerHeader env image comment).file_type % 256 = _
    rw [f2]
  have h3 : (wireHeader (writerHeader env image comment)).release =
      (writerHeader env image comment).release := by
    show (writerHeader env image comment).release % 256 = _
    rw [f3]
  have h4 : (wireHeader (writerHeader env image comment)).version =
      (writerHeader env image comment).version := by
    show (writerHeader env image comment).version % 256 = _
    rw [f4]
  have h5 : (wireHeader (writerHeader env image comment)).machine_dependency =
      (writerHeader env image comment).machine_dependency := by
    show (writerHeader env image comment).machine_dependency % 256 = _
    rw [f5]
  have h6 : (wireHeader (writerHeader env image comment)).reserve =
      (writerHeader env image comment).reserve := by
    show (List.range 3).map (fun i => (writerHeader env image comment).reserve.getD i 0 % 256) = _
    rw [f27]
    rfl
  have h7 : (wireHeader (writerHeader env image comment)).comment =
      (List.range 512).map (fun i => comment.getD i 0 % 256) := by
    rw [wireHeader_comment, f28]
  generalize wireHeader (writerHeader env image comment) = a at *
  generalize writerHeader env image comment = b at *
  cases a
  cases b
  simp only [ViffInfo.mk.injEq] at *
  simp only [*, and_self]

/-- C17 (amended): for every frame `WriteVIFFImage` encodes, the bytes of the
frame start with exactly 1024 header bytes, before any colormap or pixel
byte: magic 0xAB, file type 1, release 1, version 3, machine-dependency flag
2, 3 reserved bytes, the 512 comment bytes, 21 four-byte fields most
significant byte first and 420 zero bytes.  When the frame has at least one
pixel, its width and height are below 2^32 and its byte count does not wrap,
`ReadVIFFImage`, reading those bytes followed by a body that holds at least
the frame's pixel buffer, recovers every field of the header the encoder
built (the comment as its 512 bytes) and, the resource policy accepting the
size, accepts the header: the size checks and the field validation pass and
decoding goes on to the palette stage. -/
theorem WriteVIFFImage_header_roundtrip (env : Env) (image_info : ImageInfo) (image0 : Image)
    (next : List Image) (comment0 written : List Nat) (scene : Nat) (body : List Nat)
    (hpos : 0 < (writerImage env image0).columns * (writerImage env image0).rows)
    (hc32 : (writerImage env image0).columns < 2 ^ 32)
    (hr32 : (writerImage env image0).rows < 2 ^ 32)
    (hn4 : 4 * ((writerImage env image0).columns * (writerImage env image0).rows) < SIZE_MOD)
    (hbody : writerPackets env (writerImage env image0) ≤ body.length)
    (hfit : 8 * (1024 + body.length) < SIZE_MOD)
    (hext : env.SetImageExtent (writerImage env image0).columns
      (writerImage env image0).rows = none) :
    (∃ tail, (WriteVIFFImage.loop env image_info (image0 :: next) comment0 written).data =
      written ++ writeViffHeader (writerHeader env (writerImage env image0)
        (writerComment comment0 (writerImage env image0).comment)) ++ tail) ∧
    (writeViffHeader (writerHeader env (writerImage env image0)
      (writerComment comment0 (writerImage env image0).comment))).length = 1024 ∧
    (writeViffHeader (writerHeader env (writerImage env image0)
      (writerComment comment0 (writerImage env image0).comment))).take 5
        = [0xab, 1, 1, 3, 2] ∧
    (writeViffHeader (writerHeader env (writerImage env image0)
      (writerComment comment0 (writerImage env image0).comment))).drop 604
        = List.replicate 420 0 ∧
    parsedHeader (afterMagic (writeViffHeader (writerHeader env (writerImage env image0)
        (writerComment comment0 (writerImage env image0).comment)) ++ body)) =
      { writerHeader env (writerImage env image0)
          (writerComment comment0 (writerImage env image0).comment) with
        comment := (List.range 512).map
          (fun i => (writerComment comment0 (writerImage env image0).comment).getD i 0 % 256) } ∧
    validateFields (parsedHeader (afterMagic (writeViffHeader
      (writerHeader env (writerImage env image0)
        (writerComment comment0 (writerImage env image0).comment)) ++ body))) = none ∧
    readSubImage env image_info scene
        ⟨afterMagic (writeViffHeader (writerHeader env (writerImage env image0)
          (writerComment comment0 (writerImage env image0).comment)) ++ body), []⟩ =
      paletteAndPixels env image_info
        (wireHeader (writerHeader env (writerImage env image0)
          (writerComment comment0 (writerImage env image0).comment)))
        (extentImage env image_info
          (wireHeader (writerHeader env (writerImage env image0)
            (writerComment comment0 (writerImage env image0).comment)))
          (headerImage env scene (wireHeader (writerHeader env (writerImage env image0)
            (writerComment comment0 (writerImage env image0).comment)))))
        ⟨{ size := 1024 + body.length, rest := body, eof := false }, []⟩ := by
  have hloop := WriteVIFFImage_loop_header env image_info image0 next comment0 written
  generalize writerComment comment0 (writerImage env image0).comment = comment at *
  generalize writerImage env image0 = image at *
  obtain ⟨f1, f2, f3, f4, f5, f6, f7, f8, f9, f10, f11, f12, f13, f14, f15, f16, f17, f18, f19,
    f20, f21, f22, f23, f24, f25, f26, f27, f28⟩ := writerHeader_fields env image comment
  have hid : (writerHeader env image comment).identifier % 256 = 0xab := by rw [f1]
  have hmd : (writerHeader env image comment).machine_dependency % 256 ≠ 4 ∧
      (writerHeader env image comment).machine_dependency % 256 ≠ 8 := by
    rw [f5]
    omega
  have hmagic := hasMagic_writeViffHeader (writerHeader env image comment) hid
  have hparsed : parsedHeader (afterMagic (writeViffHeader (writerHeader env image comment)
      ++ body)) = wireHeader (writerHeader env image comment) := by
    rw [afterMagic_append _ _ hmagic, parsedHeader_write _ _ _ _ hmd]
  obtain ⟨w1, w2, _⟩ := wireHeader_writerHeader env image comment hc32 hr32
  have hvalid := validateFields_writerHeader env image comment
  have hcover := writerPackets_covers env image hn4
  have hsize : sizeChecks env image_info (wireHeader (writerHeader env image comment))
      (headerImage env scene (wireHeader (writerHeader env image comment)))
      { size := 1024 + body.length, rest := body, eof := false } =
      Sized.ok (extentImage env image_info (wireHeader (writerHeader env image comment))
        (headerImage env scene (wireHeader (writerHeader env image comment)))) := by
    unfold sizeChecks
    have hn : image.rows * image.columns < SIZE_MOD := by
      rw [Nat.mul_comm]
      omega
    simp only [w1, w2, Nat.mod_eq_of_lt hn, ne_eq, not_true_eq_false, if_false, GetBlobSize,
      Nat.mod_eq_of_lt hfit, hext]
    rw [if_neg (by rw [Nat.mul_comm]; omega), if_neg (by rw [Nat.mul_comm]; omega)]
  have hlay := writeViffHeader_layout (writerHeader env image comment)
  rw [f1, f2, f3, f4, f5] at hlay
  refine ⟨hloop, writeViffHeader_length _, hlay.1, hlay.2, ?_, ?_, ?_⟩
  · rw [hparsed]
    exact parsed_writerHeader env image comment hc32 hr32
  · rw [hparsed]
    exact hvalid
  · rw [readSubImage_written env image_info scene _ body hid hmd]
    exact decodeAfterHeader_valid env image_info scene _ _ _ hsize hvalid

set_option maxRecDepth 100000 in
set_option maxHeartbeats 4000000 in
theorem WriteVIFFImage_header_roundtrip_witness :
    (∃ tail, (WriteVIFFImage.loop plainEnv plainInfo [directImage 2 1 false redGreenRow]
        (List.replicate 512 0) []).data =
      [] ++ writeViffHeader (writerHeader plainEnv
        (writerImage plainEnv (directImage 2 1 false redGreenRow))
        (writerComment (List.replicate 512 0)
          (writerImage plainEnv (directImage 2 1 false redGreenRow)).comment)) ++ tail) ∧
    validateFields (parsedHeader (afterMagic (writeViffHeader
      (writerHeader plainEnv (writerImage plainEnv (directImage 2 1 false redGreenRow))
        (writerComment (List.replicate 512 0)
          (writerImage plainEnv (directImage 2 1 false redGreenRow)).comment)) ++
        [255, 0, 0, 255, 0, 0]))) = none :=
  have h := WriteVIFFImage_header_roundtrip plainEnv plainInfo
    (directImage 2 1 false redGreenRow) [] (List.replicate 512 0) [] 0 [255, 0, 0, 255, 0, 0]
    (by decide) (by decide) (by decide) (by decide) (by decide) (by decide) rfl
  ⟨h.1, h.2.2.2.2.2.1⟩

set_option maxRecDepth 100000 in
set_option maxHeartbeats 4000000 in
theorem WriteVIFFImage_header_roundtrip_counterexample :
    (directImage 0 1 false []).columns * (directImage 0 1 false []).rows = 0 ∧
    (WriteVIFFImage plainEnv plainInfo [directImage 0 1 false []]).status = true ∧
    (WriteVIFFImage plainEnv plainInfo [directImage 0 1 false []]).data.length = 1024 ∧
    (ReadVIFFImage plainEnv plainInfo
      (WriteVIFFImage plainEnv plainInfo [directImage 0 1 false []]).data).images = [] ∧
    (ReadVIFFImage plainEnv plainInfo
      (WriteVIFFImage plainEnv plainInfo [directImage 0 1 false []]).data).exception
      = some ⟨ExceptionType.CoderError, "ImageColumnOrRowSizeIsNotSupported"⟩ := by
  decide!

/-! ### The policy list: rights of several kinds, and a repeated security policy -/

/-- With the head of the list of an undefined domain, the guard of
`SetMagickSecurityPolicy` lets the call through to the loading of the
policy. -/
theorem SetMagickSecurityPolicy_undefined_head (env : PolicyEnv) (fuel : Nat)
    (policy : List Char) (p : PolicyInfo) (rest : List PolicyInfo)
    (exception : List ExceptionInfo) (h : p.domain = env.UndefinedPolicyDomain) :
    SetMagickSecurityPolicy env fuel (some policy) ⟨some (p :: rest), exception⟩ =
      SetMagickSecurityPolicy.load env fuel (some policy) (p :: rest) exception := by
  simp [SetMagickSecurityPolicy, IsPolicyCacheInstantiated, h]

/-- C19 (the code at the failing input): with a `policy.xml` whose one policy
grants the PNG coder the write right only, `IsRightsAuthorized` asked for the
read and the write right of the PNG coder answers MagickTrue, although the
deciding policy, the last one of the list that matches, does not grant the read
right. -/
theorem IsRightsAuthorized_partial_grant :
    IsRightsAuthorized writeOnlyEnv 100 1
        (writeOnlyEnv.ReadPolicyRights ||| writeOnlyEnv.WritePolicyRights) (some "PNG")
        ⟨none, []⟩ =
      some (true, ⟨some [writeOnlyPolicy, builtInPolicy], []⟩) ∧
    IsRightsAuthorized.deciding writeOnlyEnv 1 (some "PNG") [writeOnlyPolicy, builtInPolicy] =
      some writeOnlyPolicy ∧
    writeOnlyPolicy.rights &&& writeOnlyEnv.ReadPolicyRights = 0 := by
  decide!

/-- C20 (the code at the failing input): with no policy file found the list is
acquired with the built-in policy alone; a first `SetMagickSecurityPolicy` with
a policy of one element succeeds and puts the element behind the built-in
policy, and a second call with the same policy succeeds again and adds a third
element to the list. -/
theorem SetMagickSecurityPolicy_repeated :
    SetMagickSecurityPolicy policyEnv 100 (some coderPolicy) ⟨none, []⟩ =
      some (true, ⟨some [builtInPolicy, psPolicy], []⟩) ∧
    SetMagickSecurityPolicy policyEnv 100 (some coderPolicy)
        ⟨some [builtInPolicy, psPolicy], []⟩ =
      some (true, ⟨some [builtInPolicy, psPolicy, psPolicy], []⟩) := by
  decide!

/-! ### The chroma swap passes -/

theorem swapRedGreen_swapRedGreen (row : List PixelPacket) :
    swapRedGreen row.length (swapRedGreen row.length row) = row := by
  have h : (swapRedGreen row.length row).length = row.length := by
    simp [swapRedGreen]
  have e : swapRedGreen row.length row =
      row.map (fun q => { q with red := q.green, green := q.red }) := by
    simp [swapRedGreen]
  rw [e]
  have e2 : ∀ l : List PixelPacket, swapRedGreen row.length l =
      (l.take row.length).map (fun q => { q with red := q.green, green := q.red }) ++
        l.drop row.length := fun l => rfl
  rw [e2]
  have hl : (row.map (fun q : PixelPacket => { q with red := q.green, green := q.red })).length
      = row.length := by simp
  rw [← hl, List.take_length, List.drop_length, List.append_nil, List.map_map]
  conv_rhs => rw [← List.map_id row]
  apply List.map_congr_left
  intro a _
  rfl

/-- C30: for the CbYCr and CbYCrA layouts, with alpha not associated, the
pixel queue `ExportQuantumPixels` leaves behind is the queue it was given:
every pixel has the red and the green it had before the call, whatever the
layout routine wrote, because the swap pass after the layout routine undoes
the swap pass before it. -/
theorem ExportQuantumPixels_chroma_queue (qd : Nat) (fc : FloatCodec) (r : Routines)
    (image : Image) (nexus : CacheView) (image_view : Option CacheView)
    (quantum_info : QuantumInfo) (quantum_type : QuantumType) (pixels : Nat → Nat)
    (hq : quantum_type = QuantumType.CbYCrQuantum ∨ quantum_type = QuantumType.CbYCrAQuantum)
    (ha : quantum_info.alpha_type ≠ QuantumAlphaType.AssociatedQuantumAlpha) :
    (ExportQuantumPixels qd fc r image nexus image_view quantum_info quantum_type
      pixels).queue = (exportQueue nexus image_view).pixels := by
  simp only [ExportQuantumPixels, ha, if_false, hq, decide_True, if_true]
  exact swapRedGreen_swapRedGreen _

theorem ExportQuantumPixels_chroma_queue_witness :
    (ExportQuantumPixels 8 zeroCodec (idleRoutines (fun _ _ _ => 0))
      (directImage 2 1 false redGreenRow) (viewOf redGreenRow) none
      (quantumInfo8 QuantumAlphaType.UndefinedQuantumAlpha EndianType.MSBEndian)
      QuantumType.CbYCrQuantum (fun _ => 0)).queue = redGreenRow :=
  ExportQuantumPixels_chroma_queue 8 zeroCodec (idleRoutines (fun _ _ _ => 0))
    (directImage 2 1 false redGreenRow) (viewOf redGreenRow) none
    (quantumInfo8 QuantumAlphaType.UndefinedQuantumAlpha EndianType.MSBEndian)
    QuantumType.CbYCrQuantum (fun _ => 0) (Or.inl rfl) (by decide)

/-! ### The generic bit packer at a byte boundary -/
theorem PopQuantumPixel_loop_byte (pixel fuel i : Nat) (s : Export)
    (hb : s.quantum_info.state.bits = 8) (hi : 8 ≤ i) :
    PopQuantumPixel.loop pixel (fuel + 1) i s =
      PopQuantumPixel.loop pixel fuel (i - 8)
        ((s.put (pixel / 2 ^ (i - 8))).setState { s.quantum_info.state with bits := 8 }) := by
  have hi0 : i ≠ 0 := by omega
  have hgt : ¬ i > 8 ∨ i > 8 := by omega
  rw [PopQuantumPixel.loop]
  simp only [hi0, if_false, hb]
  have hq : (if i > 8 then 8 else i) = 8 := by split <;> omega
  simp only [hq, if_true, Nat.sub_self, Nat.shiftLeft_zero]
  congr 1
  simp only [Export.put, Export.setState, Function.update_same, Nat.zero_or,
    Function.update_idem]
  congr 2
  have : (pixel >>> (i - 8) &&& (2 ^ 8 - 1)) % 256 = pixel / 2 ^ (i - 8) % 256 := by
    rw [Nat.shiftRight_eq_div_pow]
    have : (2 ^ 8 - 1 : Nat) = 2 ^ 8 - 1 := rfl
    rw [Nat.and_pow_two_sub_one_eq_mod]
    norm_num
  rw [this]

theorem PopQuantumPixel_loop_zero (pixel fuel : Nat) (s : Export) :
    PopQuantumPixel.loop pixel fuel 0 s = s := by
  cases fuel <;> simp [PopQuantumPixel.loop]

theorem PopQuantumPixel_fresh (pixel : Nat) (s : Export) (hb : s.quantum_info.state.bits = 0) :
    PopQuantumPixel pixel s =
      PopQuantumPixel pixel (s.setState { s.quantum_info.state with bits := 8 }) := by
  simp [PopQuantumPixel, hb, Export.setState]

/-- C23 (amended): when the state is at a byte boundary and the depth is 16 or
32, `PopQuantumPixel` stores the low 16 or 32 bits of the value
most-significant byte first, moves the cursor by 2 or 4 bytes and leaves the
state at a byte boundary; the configured endianness plays no part. -/
theorem PopQuantumPixel_aligned (pixel : Nat) (s : Export)
    (hb : s.quantum_info.state.bits = 0 ∨ s.quantum_info.state.bits = 8) :
    (s.quantum_info.depth = 16 →
      PopQuantumPixel pixel s =
        (s.putAll [pixel / 2 ^ 8, pixel]).setState { s.quantum_info.state with bits := 8 }) ∧
    (s.quantum_info.depth = 32 →
      PopQuantumPixel pixel s =
        (s.putAll [pixel / 2 ^ 24, pixel / 2 ^ 16, pixel / 2 ^ 8, pixel]).setState
          { s.quantum_info.state with bits := 8 }) := by
  have key : ∀ t : Export, t.quantum_info.state.bits = 8 →
      (t.quantum_info.depth = 16 →
        PopQuantumPixel pixel t =
          (t.putAll [pixel / 2 ^ 8, pixel]).setState { t.quantum_info.state with bits := 8 }) ∧
      (t.quantum_info.depth = 32 →
        PopQuantumPixel pixel t =
          (t.putAll [pixel / 2 ^ 24, pixel / 2 ^ 16, pixel / 2 ^ 8, pixel]).setState
            { t.quantum_info.state with bits := 8 }) := by
    intro t ht
    have h8 : t.quantum_info.state.bits ≠ 0 := by omega
    constructor
    · intro hd
      simp only [PopQuantumPixel, h8, if_false, hd]
      rw [PopQuantumPixel_loop_byte pixel 15 16 t ht (by norm_num),
        PopQuantumPixel_loop_byte pixel 14 8 _ rfl (by norm_num), PopQuantumPixel_loop_zero]
      simp [Export.putAll, Export.put, Export.setState]
    · intro hd
      simp only [PopQuantumPixel, h8, if_false, hd]
      rw [PopQuantumPixel_loop_byte pixel 31 32 t ht (by norm_num),
        PopQuantumPixel_loop_byte pixel 30 24 _ rfl (by norm_num),
        PopQuantumPixel_loop_byte pixel 29 16 _ rfl (by norm_num),
        PopQuantumPixel_loop_byte pixel 28 8 _ rfl (by norm_num), PopQuantumPixel_loop_zero]
      simp [Export.putAll, Export.put, Export.setState]
  rcases hb with hb | hb
  · rw [PopQuantumPixel_fresh pixel s hb]
    have := key (s.setState { s.quantum_info.state with bits := 8 }) rfl
    constructor
    · intro hd
      rw [this.1 (by simpa [Export.setState] using hd)]
      simp [Export.putAll, Export.put, Export.setState]
    · intro hd
      rw [this.2 (by simpa [Export.setState] using hd)]
      simp [Export.putAll, Export.put, Export.setState]
  · exact key s hb

theorem PopQuantumPixel_aligned_witness :
    bufferPrefix (PopQuantumPixel 0x0102
      (freshExport { quantumInfoOf 16 true with endian := EndianType.LSBEndian })).pixels 2
      = [1, 2] ∧
    bufferPrefix (PopQuantumPixel 0x01020304
      (freshExport { quantumInfoOf 32 true with endian := EndianType.LSBEndian })).pixels 4
      = [1, 2, 3, 4] :=
  ⟨by
    rw [(PopQuantumPixel_aligned 0x0102
      (freshExport { quantumInfoOf 16 true with endian := EndianType.LSBEndian })
      (Or.inl rfl)).1 rfl]
    decide,
   by
    rw [(PopQuantumPixel_aligned 0x01020304
      (freshExport { quantumInfoOf 32 true with endian := EndianType.LSBEndian })
      (Or.inl rfl)).2 rfl]
    decide⟩

theorem PopQuantumPixel_aligned_counterexample :
    (freshExport { quantumInfoOf 16 true with endian := EndianType.LSBEndian }).quantum_info.depth
      = 16 ∧
    (freshExport { quantumInfoOf 16 true with endian := EndianType.LSBEndian }
      ).quantum_info.endian = EndianType.LSBEndian ∧
    bufferPrefix (PopQuantumPixel 0x0102
      (freshExport { quantumInfoOf 16 true with endian := EndianType.LSBEndian })).pixels 2
      = [1, 2] ∧
    bufferPrefix (PopQuantumPixel 0x0102
      (freshExport { quantumInfoOf 16 true with endian := EndianType.LSBEndian })).pixels 2
      ≠ [2, 1] := by
  decide

/-! ### The 32-bit holding register -/
theorem PopQuantumLongPixel_loop_zero (pixel fuel : Nat) (s : Export) :
    PopQuantumLongPixel.loop pixel fuel 0 s = s := by
  cases fuel <;> simp [PopQuantumLongPixel.loop]

theorem or_shift_field (acc v k w : Nat) (hacc : acc < 2 ^ k) :
    acc ||| ((v &&& (2 ^ w - 1)) <<< k) = acc + 2 ^ k * (v % 2 ^ w) := by
  rw [Nat.and_pow_two_sub_one_eq_mod, Nat.shiftLeft_eq, Nat.mul_comm, Nat.or_comm, Nat.add_comm]
  exact (Nat.mul_add_lt_is_or hacc _).symm

/-- One push of `PopQuantumLongPixel` that fits into the register: the low
`depth` bits of the sample go above the `32 - bits` bits already held. -/
theorem PopQuantumLongPixel_fits (pixel : Nat) (s : Export)
    (hd : 0 < s.quantum_info.depth)
    (hb : s.quantum_info.depth < s.quantum_info.state.bits)
    (h32 : s.quantum_info.state.bits ≤ 32)
    (hacc : s.quantum_info.state.pixel < 2 ^ (32 - s.quantum_info.state.bits)) :
    PopQuantumLongPixel pixel s =
      s.setState
        { pixel := s.quantum_info.state.pixel +
            2 ^ (32 - s.quantum_info.state.bits) * (pixel % 2 ^ s.quantum_info.depth),
          bits := s.quantum_info.state.bits - s.quantum_info.depth } := by
  have hb0 : s.quantum_info.state.bits ≠ 0 := by omega
  simp only [PopQuantumLongPixel, hb0, if_false]
  obtain ⟨d, hdd⟩ : ∃ d, s.quantum_info.depth = d + 1 := ⟨s.quantum_info.depth - 1, by omega⟩
  rw [hdd, PopQuantumLongPixel.loop]
  have h1 : ¬ (d + 1 = 0) := by omega
  have h2 : ¬ (d + 1 > s.quantum_info.state.bits) := by omega
  have h3 : ¬ (s.quantum_info.state.bits - (d + 1) = 0) := by omega
  simp only [h1, h2, h3, if_false, hdd, Nat.sub_self, Nat.shiftRight_zero,
    PopQuantumLongPixel_loop_zero]
  rw [or_shift_field _ _ _ _ hacc]
  congr 2
  apply Nat.mod_eq_of_lt
  have hm : pixel % 2 ^ (d + 1) < 2 ^ (d + 1) := Nat.mod_lt _ (by positivity)
  have hp : 2 ^ (32 - s.quantum_info.state.bits) * 2 ^ (d + 1) ≤ 2 ^ 32 := by
    rw [← pow_add]
    exact Nat.pow_le_pow_right (by norm_num) (by omega)
  have : 2 ^ (32 - s.quantum_info.state.bits) * (pixel % 2 ^ (d + 1) + 1) ≤ 2 ^ 32 :=
    le_trans (Nat.mul_le_mul_left _ hm) hp
  nlinarith

theorem PopQuantumLongPixel_fresh (pixel : Nat) (s : Export)
    (hb : s.quantum_info.state.bits = 0) :
    PopQuantumLongPixel pixel s =
      PopQuantumLongPixel pixel (s.setState { s.quantum_info.state with bits := 32 }) := by
  simp [PopQuantumLongPixel, hb, Export.setState]

theorem PopLongPixel_setState (endian : EndianType) (pixel : Nat) (s : Export)
    (st : QuantumState) :
    PopLongPixel endian pixel (s.setState st) = (PopLongPixel endian pixel s).setState st := by
  unfold PopLongPixel
  split <;> rfl

theorem Export.setState_setState (s : Export) (a b : QuantumState) :
    (s.setState a).setState b = s.setState b := rfl

/-- The push of `PopQuantumLongPixel` at depth 10 that finds two free bits in
the register: the low two bits of the sample complete the word, which is
emitted, and the other eight bits start the next word. -/
theorem PopQuantumLongPixel_spill10 (pixel : Nat) (s : Export)
    (hd : s.quantum_info.depth = 10) (hb : s.quantum_info.state.bits = 2)
    (hacc : s.quantum_info.state.pixel < 2 ^ 30) :
    PopQuantumLongPixel pixel s =
      (PopLongPixel s.quantum_info.endian
        (s.quantum_info.state.pixel + 2 ^ 30 * (pixel % 2 ^ 2)) s).setState
        { pixel := pixel / 2 ^ 2 % 2 ^ 8, bits := 24 } := by
  have hb0 : s.quantum_info.state.bits ≠ 0 := by omega
  simp only [PopQuantumLongPixel, hb0, if_false, hd]
  show PopQuantumLongPixel.loop pixel (9 + 1) 10 s = _
  rw [PopQuantumLongPixel.loop]
  simp only [hb, hd, show ¬ (10 = 0) by decide, show (10 > 2) by decide, if_true, if_false,
    Nat.sub_self, Nat.shiftRight_zero]
  show PopQuantumLongPixel.loop pixel (8 + 1) 8 _ = _
  rw [PopQuantumLongPixel.loop]
  have e1 : (s.quantum_info.state.pixel ||| (pixel &&& (2 ^ 2 - 1)) <<< (32 - 2)) % 2 ^ 32 =
      s.quantum_info.state.pixel + 2 ^ 30 * (pixel % 2 ^ 2) := by
    rw [or_shift_field _ _ 30 2 hacc]
    apply Nat.mod_eq_of_lt
    have : pixel % 2 ^ 2 < 4 := Nat.mod_lt _ (by norm_num)
    omega
  simp only [e1, show ¬ (8 = 0) by decide, if_false, Export.setState, PopLongPixel_setState, hd]
  simp only [show ¬ (8 > 32) by decide, if_false, show ¬ (32 - 8 = 0) by decide,
    PopQuantumLongPixel_loop_zero, Nat.sub_self]
  have e2 : (pixel >>> (s.quantum_info.depth - 8) &&& 255) % 4294967296 = pixel / 4 % 256 := by
    rw [hd, show (255 : Nat) = 2 ^ 8 - 1 by norm_num, Nat.and_pow_two_sub_one_eq_mod,
      Nat.shiftRight_eq_div_pow]
    apply Nat.mod_eq_of_lt
    have : pixel / 2 ^ (10 - 8) % 2 ^ 8 < 2 ^ 8 := Nat.mod_lt _ (by norm_num)
    omega
  unfold PopLongPixel
  split <;> simp [Export.put, e2]

/-- C24 (amended): `PopQuantumLongPixel` fills its 32-bit holding register from
the least significant free position: with depth 10 and a freshly reset state,
three pushes write nothing and leave the first sample in bits 9..0 of the
register, the second in bits 19..10 and the third in bits 29..20, with two
bits free; the fourth push puts its low two bits into bits 31..30, emits that
word through `PopLongPixel` and keeps its other eight bits for the next
word. -/
theorem PopQuantumLongPixel_depth10 (v1 v2 v3 v4 : Nat) (s : Export)
    (hd : s.quantum_info.depth = 10)
    (hs : s.quantum_info.state = { pixel := 0, bits := 0 }) :
    PopQuantumLongPixel v3 (PopQuantumLongPixel v2 (PopQuantumLongPixel v1 s)) =
      s.setState { pixel := longWord10 v1 v2 v3 0, bits := 2 } ∧
    PopQuantumLongPixel v4
        (PopQuantumLongPixel v3 (PopQuantumLongPixel v2 (PopQuantumLongPixel v1 s))) =
      (PopLongPixel s.quantum_info.endian (longWord10 v1 v2 v3 v4) s).setState
        { pixel := v4 / 2 ^ 2 % 2 ^ 8, bits := 24 } ∧
    longWord10 v1 v2 v3 v4 % 2 ^ 10 = v1 % 2 ^ 10 ∧
    longWord10 v1 v2 v3 v4 / 2 ^ 10 % 2 ^ 10 = v2 % 2 ^ 10 ∧
    longWord10 v1 v2 v3 v4 / 2 ^ 20 % 2 ^ 10 = v3 % 2 ^ 10 ∧
    longWord10 v1 v2 v3 v4 / 2 ^ 30 = v4 % 2 ^ 2 := by
  have m1 : v1 % 2 ^ 10 < 2 ^ 10 := Nat.mod_lt _ (by norm_num)
  have m2 : v2 % 2 ^ 10 < 2 ^ 10 := Nat.mod_lt _ (by norm_num)
  have m3 : v3 % 2 ^ 10 < 2 ^ 10 := Nat.mod_lt _ (by norm_num)
  have m4 : v4 % 2 ^ 2 < 2 ^ 2 := Nat.mod_lt _ (by norm_num)
  have p1 : PopQuantumLongPixel v1 s = s.setState { pixel := v1 % 2 ^ 10, bits := 22 } := by
    rw [PopQuantumLongPixel_fresh v1 s (by rw [hs])]
    rw [PopQuantumLongPixel_fits v1 _ (by simp [Export.setState, hd])
      (by simp [Export.setState, hd]) (by simp [Export.setState])
      (by simp [Export.setState, hs])]
    simp [Export.setState, hd, hs]
  have p2 : PopQuantumLongPixel v2 (s.setState { pixel := v1 % 2 ^ 10, bits := 22 }) =
      s.setState { pixel := v1 % 2 ^ 10 + 2 ^ 10 * (v2 % 2 ^ 10), bits := 12 } := by
    rw [PopQuantumLongPixel_fits v2 _ (by simp [Export.setState, hd])
      (by simp [Export.setState, hd]) (by simp [Export.setState])
      (by simpa [Export.setState] using m1)]
    simp [Export.setState, hd]
  have p3 : PopQuantumLongPixel v3
      (s.setState { pixel := v1 % 2 ^ 10 + 2 ^ 10 * (v2 % 2 ^ 10), bits := 12 }) =
      s.setState { pixel := longWord10 v1 v2 v3 0, bits := 2 } := by
    rw [PopQuantumLongPixel_fits v3 _ (by simp [Export.setState, hd])
      (by simp [Export.setState, hd]) (by simp [Export.setState])
      (by simp only [Export.setState]; norm_num; omega)]
    simp [Export.setState, hd, longWord10]
  have p4 : PopQuantumLongPixel v4 (s.setState { pixel := longWord10 v1 v2 v3 0, bits := 2 }) =
      (PopLongPixel s.quantum_info.endian (longWord10 v1 v2 v3 v4) s).setState
        { pixel := v4 / 2 ^ 2 % 2 ^ 8, bits := 24 } := by
    rw [PopQuantumLongPixel_spill10 v4 _ (by simp [Export.setState, hd])
      (by simp [Export.setState])
      (by simp only [Export.setState, longWord10]; norm_num; omega)]
    rw [PopLongPixel_setState]
    simp [Export.setState, longWord10]
  refine ⟨by rw [p1, p2, p3], by rw [p1, p2, p3, p4], ?_, ?_, ?_, ?_⟩ <;>
    (unfold longWord10; norm_num; omega)

theorem PopQuantumLongPixel_depth10_witness :
    PopQuantumLongPixel 0 (PopQuantumLongPixel 0 (PopQuantumLongPixel 1023
      (freshExport (quantumInfoOf 10 true)))) =
      (freshExport (quantumInfoOf 10 true)).setState { pixel := 1023, bits := 2 } ∧
    longWord10 1023 0 0 0 = 0x3FF :=
  ⟨(PopQuantumLongPixel_depth10 1023 0 0 0 (freshExport (quantumInfoOf 10 true)) rfl rfl).1,
    by decide⟩

theorem PopQuantumLongPixel_depth10_counterexample :
    (PopQuantumLongPixel 0 (PopQuantumLongPixel 0 (PopQuantumLongPixel 1023
      (freshExport (quantumInfoOf 10 true))))).quantum_info.state = { pixel := 0x3FF, bits := 2 } ∧
    bufferPrefix (PopQuantumLongPixel 0 (PopQuantumLongPixel 0 (PopQuantumLongPixel 0
      (PopQuantumLongPixel 1023 (freshExport (quantumInfoOf 10 true)))))).pixels 4
      = [0x00, 0x00, 0x03, 0xFF] ∧
    bufferPrefix (PopQuantumLongPixel 0 (PopQuantumLongPixel 0 (PopQuantumLongPixel 0
      (PopQuantumLongPixel 1023 (freshExport (quantumInfoOf 10 true)))))).pixels 4
      ≠ [0xFF, 0xC0, 0x00, 0x00] := by
  decide

/-! ### The last pixels of a row in the packed layouts -/

/-- C25 (the code at the failing input): RGB export of one white pixel at
depth 10 with the pack flag on and a 32-bit quantum writes nothing: the
cursor stays at 0, the buffer is as it was, and the 30 bits of the three
samples stay in the holding register with two bits free.  At depth 12 the
first 32 of the 36 bits are written as one word and the last four stay in the
register. -/
theorem ExportRGBQuantum_packed_tail :
    (ExportQuantumPixels 8 zeroCodec plainRoutines (directImage 1 1 false whitePixel)
      (viewOf whitePixel) none (quantumInfoOf 10 true) QuantumType.RGBQuantum
      (fun _ => 0xEE)).final.q = 0 ∧
    bufferPrefix (ExportQuantumPixels 8 zeroCodec plainRoutines (directImage 1 1 false whitePixel)
      (viewOf whitePixel) none (quantumInfoOf 10 true) QuantumType.RGBQuantum
      (fun _ => 0xEE)).final.pixels 4 = [0xEE, 0xEE, 0xEE, 0xEE] ∧
    (ExportQuantumPixels 8 zeroCodec plainRoutines (directImage 1 1 false whitePixel)
      (viewOf whitePixel) none (quantumInfoOf 10 true) QuantumType.RGBQuantum
      (fun _ => 0xEE)).final.quantum_info.state = { pixel := 0x3FFFFFFF, bits := 2 } ∧
    (ExportQuantumPixels 8 zeroCodec plainRoutines (directImage 1 1 false whitePixel)
      (viewOf whitePixel) none (quantumInfoOf 12 true) QuantumType.RGBQuantum
      (fun _ => 0xEE)).final.q = 4 ∧
    (ExportQuantumPixels 8 zeroCodec plainRoutines (directImage 1 1 false whitePixel)
      (viewOf whitePixel) none (quantumInfoOf 12 true) QuantumType.RGBQuantum
      (fun _ => 0xEE)).final.quantum_info.state = { pixel := 0xF, bits := 28 } := by
  decide!

/-- C26 (the code at the failing input): GrayAlpha export of three opaque
white pixels at depth 1 writes the one byte 0x50: the bits of the first two
pixels are at bits 7..4, and bits 3 and 2, where the third pixel belongs, are
0 although the alpha bit of an opaque pixel is 1. -/
theorem ExportGrayAlphaQuantum_depth1_tail :
    (ExportQuantumPixels 8 zeroCodec plainRoutines (directImage 3 1 true whiteRow)
      (viewOf whiteRow) none (quantumInfoOf 1 true) QuantumType.GrayAlphaQuantum
      (fun _ => 0xEE)).final.q = 1 ∧
    (ExportQuantumPixels 8 zeroCodec plainRoutines (directImage 3 1 true whiteRow)
      (viewOf whiteRow) none (quantumInfoOf 1 true) QuantumType.GrayAlphaQuantum
      (fun _ => 0xEE)).final.pixels 0 = 0x50 ∧
    opaqueBit (pixelOf whiteRow 0) = 1 ∧
    opaqueBit (pixelOf whiteRow 1) = 1 ∧
    opaqueBit (pixelOf whiteRow 2) = 1 ∧
    ((ExportQuantumPixels 8 zeroCodec plainRoutines (directImage 3 1 true whiteRow)
      (viewOf whiteRow) none (quantumInfoOf 1 true) QuantumType.GrayAlphaQuantum
      (fun _ => 0xEE)).final.pixels 0).testBit 6 = true ∧
    ((ExportQuantumPixels 8 zeroCodec plainRoutines (directImage 3 1 true whiteRow)
      (viewOf whiteRow) none (quantumInfoOf 1 true) QuantumType.GrayAlphaQuantum
      (fun _ => 0xEE)).final.pixels 0).testBit 4 = true ∧
    ((ExportQuantumPixels 8 zeroCodec plainRoutines (directImage 3 1 true whiteRow)
      (viewOf whiteRow) none (quantumInfoOf 1 true) QuantumType.GrayAlphaQuantum
      (fun _ => 0xEE)).final.pixels 0).testBit 2 = false := by
  decide!

/-- C27 (the code at the failing input): IndexAlpha export at depth 1 of two
opaque pixels of index 1 writes the one byte 0x80: the index bit of the first
pixel is at bit 7, and bit 5, where the index bit of the second pixel
belongs, is 0. -/
theorem ExportIndexAlphaQuantum_depth1_tail :
    (ExportQuantumPixels 8 zeroCodec plainRoutines
      (paletteImage 2 1 ColorspaceType.sRGBColorspace blackWhiteMap [1, 1])
      ⟨[⟨255, 255, 255, 0⟩, ⟨255, 255, 255, 0⟩], [1, 1]⟩ none (quantumInfoOf 1 true)
      QuantumType.IndexAlphaQuantum (fun _ => 0xEE)).final.q = 1 ∧
    (ExportQuantumPixels 8 zeroCodec plainRoutines
      (paletteImage 2 1 ColorspaceType.sRGBColorspace blackWhiteMap [1, 1])
      ⟨[⟨255, 255, 255, 0⟩, ⟨255, 255, 255, 0⟩], [1, 1]⟩ none (quantumInfoOf 1 true)
      QuantumType.IndexAlphaQuantum (fun _ => 0xEE)).final.pixels 0 = 0x80 ∧
    (ExportQuantumPixels 8 zeroCodec plainRoutines
      (paletteImage 2 1 ColorspaceType.sRGBColorspace blackWhiteMap [1, 1])
      ⟨[⟨255, 255, 255, 0⟩, ⟨255, 255, 255, 0⟩], [1, 1]⟩ none (quantumInfoOf 1 true)
      QuantumType.IndexAlphaQuantum (fun _ => 0xEE)).final.exception = [] ∧
    indexBit 1 = 1 ∧
    ((ExportQuantumPixels 8 zeroCodec plainRoutines
      (paletteImage 2 1 ColorspaceType.sRGBColorspace blackWhiteMap [1, 1])
      ⟨[⟨255, 255, 255, 0⟩, ⟨255, 255, 255, 0⟩], [1, 1]⟩ none (quantumInfoOf 1 true)
      QuantumType.IndexAlphaQuantum (fun _ => 0xEE)).final.pixels 0).testBit 7 = true ∧
    ((ExportQuantumPixels 8 zeroCodec plainRoutines
      (paletteImage 2 1 ColorspaceType.sRGBColorspace blackWhiteMap [1, 1])
      ⟨[⟨255, 255, 255, 0⟩, ⟨255, 255, 255, 0⟩], [1, 1]⟩ none (quantumInfoOf 1 true)
      QuantumType.IndexAlphaQuantum (fun _ => 0xEE)).final.pixels 0).testBit 5 = false := by
  decide!

/-- C28 (the code at the failing input): Gray export of one white pixel at
depth 10 with the pack flag off writes one 32-bit word, and the word is 0:
the 10-bit luma of the pixel, 1023, is not in it. -/
theorem ExportGrayQuantum_word10_tail :
    (ExportQuantumPixels 8 zeroCodec plainRoutines (directImage 1 1 false whitePixel)
      (viewOf whitePixel) none (quantumInfoOf 10 false) QuantumType.GrayQuantum
      (fun _ => 0xEE)).final.q = 4 ∧
    bufferPrefix (ExportQuantumPixels 8 zeroCodec plainRoutines (directImage 1 1 false whitePixel)
      (viewOf whitePixel) none (quantumInfoOf 10 false) QuantumType.GrayQuantum
      (fun _ => 0xEE)).final.pixels 4 = [0, 0, 0, 0] ∧
    ScaleQuantumToAny 8 (ClampToQuantum 8 (redLuma.GetPixelLuma (directImage 1 1 false whitePixel)
      (pixelOf whitePixel 0))) (GetQuantumRange 10) = 1023 := by
  decide!

/-- C29 (the code at the failing input): at depth 1 with `min_is_white` off,
Gray export writes the bit 1 for a white pixel and 0 for a black one, and
GrayAlpha export writes the gray bit 0 for the white pixel and 1 for the
black one. -/
theorem ExportGrayAlphaQuantum_gray_bit :
    (ExportQuantumPixels 8 zeroCodec plainRoutines (directImage 1 1 true whitePixel)
      (viewOf whitePixel) none (quantumInfoOf 1 true) QuantumType.GrayQuantum
      (fun _ => 0xEE)).final.pixels 0 = 0x80 ∧
    (ExportQuantumPixels 8 zeroCodec plainRoutines (directImage 1 1 true whitePixel)
      (viewOf whitePixel) none (quantumInfoOf 1 true) QuantumType.GrayAlphaQuantum
      (fun _ => 0xEE)).final.pixels 0 = 0x40 ∧
    (ExportQuantumPixels 8 zeroCodec plainRoutines (directImage 1 1 true [⟨0, 0, 0, 0⟩])
      (viewOf [⟨0, 0, 0, 0⟩]) none (quantumInfoOf 1 true) QuantumType.GrayQuantum
      (fun _ => 0xEE)).final.pixels 0 = 0x00 ∧
    (ExportQuantumPixels 8 zeroCodec plainRoutines (directImage 1 1 true [⟨0, 0, 0, 0⟩])
      (viewOf [⟨0, 0, 0, 0⟩]) none (quantumInfoOf 1 true) QuantumType.GrayAlphaQuantum
      (fun _ => 0xEE)).final.pixels 0 = 0xC0 ∧
    grayBit 8 false 255 = 1 ∧ grayAlphaBit 8 false 255 = 0 ∧
    grayBit 8 false 0 = 0 ∧ grayAlphaBit 8 false 0 = 1 := by
  decide!

/-! ### The bit stream of the generic bit packer -/

theorem PopQuantumPixel_loop_succ (pixel fuel i : Nat) (s : Export) (hi : i ≠ 0) :
    PopQuantumPixel.loop pixel (fuel + 1) i s =
      PopQuantumPixel.loop pixel fuel
        (i - (if i > s.quantum_info.state.bits then s.quantum_info.state.bits else i))
        (PopQuantumPixel.pass pixel i s) := by
  rw [PopQuantumPixel.loop]
  simp only [hi, if_false]
  rfl

theorem packByte_testBit (old pixel i1 qb bits1 t : Nat) :
    ((old ||| (((pixel >>> i1) &&& (2 ^ qb - 1)) <<< bits1)) % 256).testBit t =
      (decide (t < 8) && (old.testBit t ||
        (decide (bits1 ≤ t) && (decide (t - bits1 < qb) && pixel.testBit (i1 + (t - bits1)))))) := by
  rw [show (256 : Nat) = 2 ^ 8 by norm_num, Nat.testBit_mod_two_pow, Nat.testBit_or,
    Nat.testBit_shiftLeft, Nat.testBit_and, Nat.testBit_shiftRight, Nat.testBit_two_pow_sub_one]
  by_cases h1 : bits1 ≤ t <;> by_cases h2 : t - bits1 < qb <;> simp [h1, h2]

theorem PopQuantumPixel_pass_pixels (pixel i : Nat) (s : Export) (a : Nat) :
    (PopQuantumPixel.pass pixel i s).pixels a =
      if a = s.q then
        ((if s.quantum_info.state.bits = 8 then 0 else s.pixels s.q) |||
          (((pixel >>> (i - (if i > s.quantum_info.state.bits then s.quantum_info.state.bits
              else i))) &&&
            (2 ^ (if i > s.quantum_info.state.bits then s.quantum_info.state.bits else i) - 1)) <<<
            (s.quantum_info.state.bits -
              (if i > s.quantum_info.state.bits then s.quantum_info.state.bits else i)))) % 256
      else s.pixels a := by
  unfold PopQuantumPixel.pass
  dsimp only
  generalize (if i > s.quantum_info.state.bits then s.quantum_info.state.bits else i) = qb
  have e : ∀ (c : Prop) [Decidable c] (x y : Export), (if c then x else y).pixels =
      if c then x.pixels else y.pixels := by
    intro c _ x y; split <;> rfl
  rw [e]
  simp only [Export.setState, ite_self]
  by_cases ha : a = s.q
  · subst ha
    rw [if_pos rfl, Function.update_same]
    by_cases h8 : s.quantum_info.state.bits = 8
    · simp [h8]
    · simp [h8]
  · rw [if_neg ha, Function.update_noteq ha]
    by_cases h8 : s.quantum_info.state.bits = 8
    · rw [if_pos h8, Function.update_noteq ha]
    · rw [if_neg h8]

theorem PopQuantumPixel_pass_q (pixel i : Nat) (s : Export) :
    (PopQuantumPixel.pass pixel i s).q =
      if s.quantum_info.state.bits -
          (if i > s.quantum_info.state.bits then s.quantum_info.state.bits else i) = 0
      then s.q + 1 else s.q := by
  unfold PopQuantumPixel.pass
  dsimp only
  generalize (if i > s.quantum_info.state.bits then s.quantum_info.state.bits else i) = qb
  split <;> rfl

theorem PopQuantumPixel_pass_bits (pixel i : Nat) (s : Export) :
    (PopQuantumPixel.pass pixel i s).quantum_info.state.bits =
      if s.quantum_info.state.bits -
          (if i > s.quantum_info.state.bits then s.quantum_info.state.bits else i) = 0
      then 8
      else s.quantum_info.state.bits -
          (if i > s.quantum_info.state.bits then s.quantum_info.state.bits else i) := by
  unfold PopQuantumPixel.pass
  dsimp only
  generalize (if i > s.quantum_info.state.bits then s.quantum_info.state.bits else i) = qb
  split <;> rfl

theorem PopQuantumPixel_pass_depth (pixel i : Nat) (s : Export) :
    (PopQuantumPixel.pass pixel i s).quantum_info.depth = s.quantum_info.depth := by
  unfold PopQuantumPixel.pass
  dsimp only
  generalize (if i > s.quantum_info.state.bits then s.quantum_info.state.bits else i) = qb
  split <;> rfl
theorem PopQuantumPixel_pass_spec (pixel i q0 L : Nat) (s : Export) (hi : 0 < i)
    (hinv : packedTo q0 L s) :
    packedTo q0 (L + (if i > s.quantum_info.state.bits then s.quantum_info.state.bits else i))
      (PopQuantumPixel.pass pixel i s) ∧
    (∀ j, j < L → streamBit (PopQuantumPixel.pass pixel i s).pixels q0 j =
      streamBit s.pixels q0 j) ∧
    (∀ j, L ≤ j →
      j < L + (if i > s.quantum_info.state.bits then s.quantum_info.state.bits else i) →
      streamBit (PopQuantumPixel.pass pixel i s).pixels q0 j = pixel.testBit (L + i - 1 - j)) ∧
    (∀ a, a ≠ q0 + L / 8 → (PopQuantumPixel.pass pixel i s).pixels a = s.pixels a) ∧
    (PopQuantumPixel.pass pixel i s).quantum_info.depth = s.quantum_info.depth ∧
    0 < (if i > s.quantum_info.state.bits then s.quantum_info.state.bits else i) ∧
    (if i > s.quantum_info.state.bits then s.quantum_info.state.bits else i) ≤ i := by
  obtain ⟨hq, hb, hz⟩ := hinv
  set bits := s.quantum_info.state.bits with hbits
  set qb := (if i > bits then bits else i) with hqb
  have hbpos : 0 < bits := by omega
  have hb8 : bits ≤ 8 := by omega
  have hqb1 : 0 < qb := by rw [hqb]; split <;> omega
  have hqb2 : qb ≤ bits := by rw [hqb]; split <;> omega
  have hqb3 : qb ≤ i := by rw [hqb]; split <;> omega
  have hpix : ∀ a, (PopQuantumPixel.pass pixel i s).pixels a =
      if a = s.q then
        ((if bits = 8 then 0 else s.pixels s.q) |||
          (((pixel >>> (i - qb)) &&& (2 ^ qb - 1)) <<< (bits - qb))) % 256
      else s.pixels a := fun a => PopQuantumPixel_pass_pixels pixel i s a
  have hqout : (PopQuantumPixel.pass pixel i s).q = if bits - qb = 0 then s.q + 1 else s.q :=
    PopQuantumPixel_pass_q pixel i s
  have hbout : (PopQuantumPixel.pass pixel i s).quantum_info.state.bits =
      if bits - qb = 0 then 8 else bits - qb := PopQuantumPixel_pass_bits pixel i s
  have hdout : (PopQuantumPixel.pass pixel i s).quantum_info.depth = s.quantum_info.depth :=
    PopQuantumPixel_pass_depth pixel i s
  -- a bit of the stream in the byte of the cursor
  have hbit : ∀ j, j / 8 = L / 8 →
      streamBit (PopQuantumPixel.pass pixel i s).pixels q0 j =
        (((if bits = 8 then 0 else s.pixels s.q).testBit (7 - j % 8)) ||
          (decide (bits - qb ≤ 7 - j % 8) && (decide (7 - j % 8 - (bits - qb) < qb) &&
            pixel.testBit (i - qb + (7 - j % 8 - (bits - qb)))))) := by
    intro j hj
    unfold streamBit
    rw [hpix, hj, ← hq, if_pos rfl, packByte_testBit]
    have : decide (7 - j % 8 < 8) = true := by simp; omega
    rw [this, Bool.true_and]
  have hother : ∀ j, j / 8 ≠ L / 8 →
      streamBit (PopQuantumPixel.pass pixel i s).pixels q0 j = streamBit s.pixels q0 j := by
    intro j hj
    unfold streamBit
    rw [hpix, if_neg (by omega)]
  refine ⟨⟨?_, ?_, ?_⟩, ?_, ?_, ?_, hdout, hqb1, hqb3⟩
  · rw [hqout]; split <;> omega
  · rw [hbout]; split <;> omega
  · intro j h1 h2
    have hj : j / 8 = L / 8 := by omega
    rw [hbit j hj]
    have hold : (if bits = 8 then 0 else s.pixels s.q).testBit (7 - j % 8) = false := by
      by_cases h8 : bits = 8
      · simp [h8]
      · rw [if_neg h8]
        have := hz j (by omega) (by omega)
        unfold streamBit at this
        rw [hj, ← hq] at this
        exact this
    have h3 : ¬ (bits - qb ≤ 7 - j % 8) := by omega
    simp [hold, h3]
  · intro j hj
    by_cases hje : j / 8 = L / 8
    · rw [hbit j hje]
      have h8 : ¬ bits = 8 := by omega
      have h3 : ¬ (7 - j % 8 - (bits - qb) < qb) := by omega
      rw [if_neg h8]
      unfold streamBit
      rw [hje, ← hq]
      simp [h3]
    · exact hother j hje
  · intro j h1 h2
    have hj : j / 8 = L / 8 := by omega
    rw [hbit j hj]
    have hold : (if bits = 8 then 0 else s.pixels s.q).testBit (7 - j % 8) = false := by
      by_cases h8 : bits = 8
      · simp [h8]
      · rw [if_neg h8]
        have := hz j h1 (by omega)
        unfold streamBit at this
        rw [hj, ← hq] at this
        exact this
    have h3 : bits - qb ≤ 7 - j % 8 := by omega
    have h4 : 7 - j % 8 - (bits - qb) < qb := by omega
    have h5 : i - qb + (7 - j % 8 - (bits - qb)) = L + i - 1 - j := by omega
    simp [hold, h3, h4, h5]
  · intro a ha
    rw [hpix, if_neg (by omega)]

theorem packedTo_zero_add (q0 L : Nat) (s : Export) (h : packedTo q0 L s) :
    packedTo q0 (L + 0) s := h

theorem PopQuantumPixel_loop_spec (pixel q0 : Nat) :
    ∀ (fuel i L : Nat) (s : Export), i ≤ fuel → packedTo q0 L s →
      packedTo q0 (L + i) (PopQuantumPixel.loop pixel fuel i s) ∧
      (∀ j, j < L → streamBit (PopQuantumPixel.loop pixel fuel i s).pixels q0 j =
        streamBit s.pixels q0 j) ∧
      (∀ j, L ≤ j → j < L + i →
        streamBit (PopQuantumPixel.loop pixel fuel i s).pixels q0 j =
          pixel.testBit (L + i - 1 - j)) ∧
      (∀ a, a < q0 + L / 8 ∨ q0 + (L + i + 7) / 8 ≤ a →
        (PopQuantumPixel.loop pixel fuel i s).pixels a = s.pixels a) ∧
      (PopQuantumPixel.loop pixel fuel i s).quantum_info.depth = s.quantum_info.depth := by
  intro fuel
  induction fuel with
  | zero =>
    intro i L s hi hinv
    have hi0 : i = 0 := by omega
    subst hi0
    rw [PopQuantumPixel_loop_zero]
    exact ⟨hinv, fun _ _ => rfl, fun j h1 h2 => by omega, fun _ _ => rfl, rfl⟩
  | succ fuel ih =>
    intro i L s hi hinv
    by_cases hi0 : i = 0
    · subst hi0
      rw [PopQuantumPixel_loop_zero]
      exact ⟨hinv, fun _ _ => rfl, fun j h1 h2 => by omega, fun _ _ => rfl, rfl⟩
    · rw [PopQuantumPixel_loop_succ pixel fuel i s hi0]
      obtain ⟨p1, p2, p3, p4, p5, p6, p7⟩ :=
        PopQuantumPixel_pass_spec pixel i q0 L s (by omega) hinv
      generalize (if i > s.quantum_info.state.bits then s.quantum_info.state.bits else i) = qb
        at p1 p2 p3 p4 p5 p6 p7 ⊢
      obtain ⟨r1, r2, r3, r4, r5⟩ := ih (i - qb) (L + qb) (PopQuantumPixel.pass pixel i s)
        (by omega) p1
      have e : L + qb + (i - qb) = L + i := by omega
      rw [e] at r1 r3 r4
      refine ⟨r1, ?_, ?_, ?_, r5.trans p5⟩
      · intro j hj
        rw [r2 j (by omega), p2 j hj]
      · intro j h1 h2
        by_cases hj : j < L + qb
        · rw [r2 j hj, p3 j h1 hj]
        · rw [r3 j (by omega) h2]
      · intro a ha
        rw [r4 a (by omega), p4 a (by omega)]

theorem PopQuantumPixel_spec (pixel q0 L : Nat) (s : Export)
    (h : packedTo q0 L s ∨ (L = 0 ∧ s.q = q0 ∧ s.quantum_info.state.bits = 0)) :
    packedTo q0 (L + s.quantum_info.depth) (PopQuantumPixel pixel s) ∧
    (∀ j, j < L → streamBit (PopQuantumPixel pixel s).pixels q0 j = streamBit s.pixels q0 j) ∧
    (∀ j, L ≤ j → j < L + s.quantum_info.depth →
      streamBit (PopQuantumPixel pixel s).pixels q0 j =
        pixel.testBit (L + s.quantum_info.depth - 1 - j)) ∧
    (∀ a, a < q0 + L / 8 ∨ q0 + (L + s.quantum_info.depth + 7) / 8 ≤ a →
      (PopQuantumPixel pixel s).pixels a = s.pixels a) ∧
    (PopQuantumPixel pixel s).quantum_info.depth = s.quantum_info.depth := by
  rcases h with h | ⟨hL, hq, hb⟩
  · have hb : s.quantum_info.state.bits ≠ 0 := by
      have := h.2.1
      omega
    have e : PopQuantumPixel pixel s =
        PopQuantumPixel.loop pixel s.quantum_info.depth s.quantum_info.depth s := by
      simp [PopQuantumPixel, hb]
    rw [e]
    exact PopQuantumPixel_loop_spec pixel q0 _ _ L s (le_refl _) h
  · subst hL
    have hinv : packedTo q0 0 (s.setState { s.quantum_info.state with bits := 8 }) :=
      ⟨by simpa [Export.setState] using hq, by simp [Export.setState],
        fun j h1 h2 => by omega⟩
    rw [PopQuantumPixel_fresh pixel s hb]
    have e : PopQuantumPixel pixel (s.setState { s.quantum_info.state with bits := 8 }) =
        PopQuantumPixel.loop pixel s.quantum_info.depth s.quantum_info.depth
          (s.setState { s.quantum_info.state with bits := 8 }) := by
      simp [PopQuantumPixel, Export.setState]
    rw [e]
    exact PopQuantumPixel_loop_spec pixel q0 _ _ 0 _ (le_refl _) hinv

theorem PopQuantumPixel_fold_spec (q0 d : Nat) (hd : 0 < d) :
    ∀ (values : List Nat) (L : Nat) (s : Export), s.quantum_info.depth = d →
      (packedTo q0 L s ∨ (L = 0 ∧ s.q = q0 ∧ s.quantum_info.state.bits = 0)) →
      (values.foldl (fun st v => PopQuantumPixel v st) s).q =
        q0 + (L + values.length * d) / 8 ∧
      (∀ j, j < L → streamBit (values.foldl (fun st v => PopQuantumPixel v st) s).pixels q0 j =
        streamBit s.pixels q0 j) ∧
      (∀ j, L ≤ j → j < L + values.length * d →
        streamBit (values.foldl (fun st v => PopQuantumPixel v st) s).pixels q0 j =
          (values.getD ((j - L) / d) 0).testBit (d - 1 - (j - L) % d)) ∧
      (values ≠ [] →
        packedTo q0 (L + values.length * d) (values.foldl (fun st v => PopQuantumPixel v st) s)) ∧
      (∀ a, a < q0 + L / 8 ∨ q0 + (L + values.length * d + 7) / 8 ≤ a →
        (values.foldl (fun st v => PopQuantumPixel v st) s).pixels a = s.pixels a) := by
  intro values
  induction values with
  | nil =>
    intro L s _ h
    refine ⟨?_, fun _ _ => rfl, fun j h1 h2 => by simp at h2; omega, fun h => absurd rfl h,
      fun _ _ => rfl⟩
    rcases h with h | ⟨hL, hq, _⟩
    · simpa using h.1
    · simp [hL, hq]
  | cons v vs ih =>
    intro L s hdepth h
    obtain ⟨p1, p2, p3, p4, p5⟩ := PopQuantumPixel_spec v q0 L s h
    rw [hdepth] at p1 p3 p4
    obtain ⟨r1, r2, r3, r4, r5⟩ := ih (L + d) (PopQuantumPixel v s) (p5.trans hdepth) (Or.inl p1)
    have e : L + d + vs.length * d = L + (v :: vs).length * d := by
      simp [List.length_cons, Nat.add_mul]; omega
    rw [e] at r1 r3 r4 r5
    rw [List.foldl_cons]
    have hle : L + d ≤ L + (v :: vs).length * d := by rw [← e]; omega
    refine ⟨r1, ?_, ?_, ?_, ?_⟩
    · intro j hj
      rw [r2 j (by omega), p2 j hj]
    · intro j h1 h2
      by_cases hj : j < L + d
      · rw [r2 j hj, p3 j h1 hj]
        have e1 : (j - L) / d = 0 := Nat.div_eq_of_lt (by omega)
        have e2 : (j - L) % d = j - L := Nat.mod_eq_of_lt (by omega)
        rw [e1, e2, List.getD_cons_zero]
        congr 1
        omega
      · rw [r3 j (by omega) h2]
        have e0 : j - L = (j - (L + d)) + d := by omega
        have e1 : (j - L) / d = (j - (L + d)) / d + 1 := by
          rw [e0, Nat.add_div_right _ hd]
        have e2 : (j - L) % d = (j - (L + d)) % d := by
          rw [e0, Nat.add_mod_right]
        rw [e1, e2, List.getD_cons_succ]
    · intro _
      by_cases hvs : vs = []
      · subst hvs
        simpa using p1
      · exact r4 hvs
    · intro a ha
      rw [r5 a (by omega), p4 a (by omega)]

/-- C22: for every depth `d` in 1..32 and every sequence of values pushed with
`PopQuantumPixel` from a freshly reset state, the write cursor has advanced by
`floor(k*d/8)` bytes, the bits stored from the start address on are the
concatenation, in push order, of the low `d` bits of each value, most
significant bit first (bit `j` of the stream is bit `d-1-(j mod d)` of value
`floor(j/d)`, the bits of each byte counted from its most significant one),
the bits of the last byte after the last stored one are zero, and no other
byte of the buffer is written. -/
theorem PopQuantumPixel_stream (d : Nat) (values : List Nat) (s : Export) (hd1 : 1 ≤ d)
    (_hd32 : d ≤ 32) (hdepth : s.quantum_info.depth = d)
    (hfresh : s.quantum_info.state.bits = 0) :
    (values.foldl (fun st v => PopQuantumPixel v st) s).q = s.q + values.length * d / 8 ∧
    (∀ j, j < values.length * d →
      streamBit (values.foldl (fun st v => PopQuantumPixel v st) s).pixels s.q j =
        (values.getD (j / d) 0).testBit (d - 1 - j % d)) ∧
    (∀ j, values.length * d ≤ j → j < 8 * ((values.length * d + 7) / 8) →
      streamBit (values.foldl (fun st v => PopQuantumPixel v st) s).pixels s.q j = false) ∧
    (∀ a, a < s.q ∨ s.q + (values.length * d + 7) / 8 ≤ a →
      (values.foldl (fun st v => PopQuantumPixel v st) s).pixels a = s.pixels a) := by
  obtain ⟨r1, _, r3, r4, r5⟩ := PopQuantumPixel_fold_spec s.q d (by omega) values 0 s hdepth
    (Or.inr ⟨rfl, rfl, hfresh⟩)
  simp only [Nat.zero_add, Nat.sub_zero, Nat.zero_div, Nat.add_zero] at r1 r3 r4 r5
  refine ⟨r1, fun j hj => r3 j (Nat.zero_le _) hj, ?_, r5⟩
  intro j h1 h2
  by_cases hv : values = []
  · subst hv
    simp at h2
  · exact (r4 hv).2.2 j h1 h2

theorem PopQuantumPixel_stream_witness :
    ([5, 2, 7].foldl (fun st v => PopQuantumPixel v st) (freshExport (quantumInfoOf 3 true))).q
      = 1 ∧
    bufferPrefix ([5, 2, 7].foldl (fun st v => PopQuantumPixel v st)
      (freshExport (quantumInfoOf 3 true))).pixels 2 = [0xAB, 0x80] :=
  ⟨(PopQuantumPixel_stream 3 [5, 2, 7] (freshExport (quantumInfoOf 3 true)) (by decide)
      (by decide) rfl rfl).1,
    by decide⟩

/-! ### Export and import of the RGBA layout at depth 8 -/

theorem ScaleCharToQuantum_le (qd e : Nat) (he : e ≤ 255) :
    ScaleCharToQuantum qd e ≤ QuantumRange qd := by
  unfold ScaleCharToQuantum roundDiv
  rw [Nat.div_le_iff_le_mul_add_pred (by norm_num)]
  have : QuantumRange qd * e ≤ QuantumRange qd * 255 := Nat.mul_le_mul_left _ he
  omega

theorem ScaleQuantumToChar_le (qd v : Nat) (hv : v ≤ QuantumRange qd) :
    ScaleQuantumToAny qd v 255 ≤ 255 := ScaleQuantumToAny_le qd v 255 hv

theorem sampleNear_scale (qd v : Nat) (hqd : 8 ≤ qd) (hv : v ≤ QuantumRange qd) :
    sampleNear qd (ScaleCharToQuantum qd (ScaleQuantumToChar qd v)) v := by
  have hR : 255 ≤ QuantumRange qd := by
    unfold QuantumRange
    have : 2 ^ 8 ≤ 2 ^ qd := Nat.pow_le_pow_right (by norm_num) hqd
    omega
  have he := ScaleQuantumToChar_le qd v hv
  have e1 : ScaleQuantumToChar qd v = ScaleQuantumToAny qd v 255 := by
    unfold ScaleQuantumToChar
    exact Nat.mod_eq_of_lt (by omega)
  rw [e1]
  unfold sampleNear ScaleCharToQuantum ScaleQuantumToAny roundDiv
  generalize QuantumRange qd = R at hR hv he ⊢
  have d1 := Nat.div_add_mod (2 * (255 * v) + R) (2 * R)
  have m1 := Nat.mod_lt (2 * (255 * v) + R) (show 0 < 2 * R by omega)
  generalize (2 * (255 * v) + R) / (2 * R) = e at d1 m1 ⊢
  have d2 := Nat.div_add_mod (2 * (R * e) + 255) (2 * 255)
  have m2 := Nat.mod_lt (2 * (R * e) + 255) (show 0 < 2 * 255 by norm_num)
  generalize (2 * (R * e) + 255) / (2 * 255) = w at d2 m2 ⊢
  have e2 : 2 * R * e = 2 * (R * e) := by ring
  rw [e2] at d1
  generalize R * e = t at d1 d2 m2
  constructor <;> omega

theorem rgba8_getD (qd : Nat) (row : List PixelPacket) (x c : Nat) (hx : x < row.length)
    (hc : c < 4) :
    (rgba8 qd row).getD (4 * x + c) 0 =
      ((rgbaSamples qd (pixelOf row x)).map (ScaleQuantumToChar qd)).getD c 0 := by
  induction row generalizing x with
  | nil => simp at hx
  | cons px row ih =>
    have hlen : ((rgbaSamples qd px).map (ScaleQuantumToChar qd)).length = 4 := by
      simp [rgbaSamples]
    simp only [rgba8, List.flatMap_cons]
    cases x with
    | zero =>
      rw [Nat.mul_zero, Nat.zero_add, List.getD_append _ _ _ _ (by rw [hlen]; exact hc)]
      rfl
    | succ y =>
      rw [List.getD_append_right _ _ _ _ (by rw [hlen]; omega), hlen]
      have e : 4 * (y + 1) + c - 4 = 4 * y + c := by omega
      rw [e]
      have := ih y (by simpa using hx)
      simp only [rgba8] at this
      rw [this]
      rfl

theorem ExportQuantumPixels_rgba8_final (qd : Nat) (fc : FloatCodec) (r : Routines)
    (image : Image) (nexus : CacheView) (image_view : Option CacheView)
    (quantum_info : QuantumInfo) (pixels : Nat → Nat)
    (hdepth : quantum_info.depth = 8) (hpad : quantum_info.pad = 0)
    (halpha : quantum_info.alpha_type ≠ QuantumAlphaType.AssociatedQuantumAlpha) :
    (ExportQuantumPixels qd fc r image nexus image_view quantum_info
        QuantumType.RGBAQuantum pixels).final =
      ({ quantum_info := ResetQuantumState quantum_info, pixels := pixels, q := 0,
         exception := [] } : Export).putAll (rgba8 qd (exportQueue nexus image_view).pixels) := by
  simp only [ExportQuantumPixels, halpha, if_false]
  rw [ExportRGBAQuantum_depth8 _ _ _ _ _ (by simpa [ResetQuantumState] using hdepth)
    (by simpa [ResetQuantumState] using hpad)]
  simp [List.take_length]

theorem ExportQuantumPixels_rgba8_byte (qd : Nat) (fc : FloatCodec) (r : Routines)
    (image : Image) (nexus : CacheView) (image_view : Option CacheView)
    (quantum_info : QuantumInfo) (pixels : Nat → Nat)
    (hdepth : quantum_info.depth = 8) (hpad : quantum_info.pad = 0)
    (halpha : quantum_info.alpha_type ≠ QuantumAlphaType.AssociatedQuantumAlpha)
    (x c : Nat) (hx : x < (exportQueue nexus image_view).pixels.length) (hc : c < 4) :
    (ExportQuantumPixels qd fc r image nexus image_view quantum_info
        QuantumType.RGBAQuantum pixels).final.pixels (4 * x + c) =
      ScaleQuantumToChar qd
        ((rgbaSamples qd (pixelOf (exportQueue nexus image_view).pixels x)).getD c 0) := by
  rw [ExportQuantumPixels_rgba8_final qd fc r image nexus image_view quantum_info pixels hdepth
    hpad halpha]
  have h := Export.putAll_pixels_get (rgba8 qd (exportQueue nexus image_view).pixels)
    ({ quantum_info := ResetQuantumState quantum_info, pixels := pixels, q := 0,
       exception := [] } : Export) (4 * x + c) (by rw [rgba8_length]; omega)
  simp only [Nat.zero_add] at h
  rw [h, rgba8_getD qd _ x c hx hc]
  have hs : (rgbaSamples qd (pixelOf (exportQueue nexus image_view).pixels x)).length = 4 := rfl
  rw [List.getD_eq_getElem?_getD, List.getElem?_map, List.getD_eq_getElem?_getD,
    List.getElem?_eq_getElem (by rw [hs]; exact hc)]
  simp only [Option.map_some', Option.getD_some]
  unfold ScaleQuantumToChar
  exact Nat.mod_mod _ _

theorem StringLocateSubstring_compare_iff (toupper : Char → Char) (haystack needle : List Char)
    (i count j : Nat) :
    StringLocateSubstring.compare toupper haystack needle i count j = true ↔
      ∀ k, j ≤ k → k < j + count →
        toupper (cChar haystack (i + k)) = toupper (cChar needle k) := by
  induction count generalizing j with
  | zero =>
    simp only [StringLocateSubstring.compare, true_iff]
    intro k h1 h2
    omega
  | succ n ih =>
    unfold StringLocateSubstring.compare
    by_cases h : toupper (cChar haystack (i + j)) = toupper (cChar needle j)
    · rw [if_neg (by simpa using h), ih]
      constructor
      · intro hk k h1 h2
        by_cases e : k = j
        · rw [e]; exact h
        · exact hk k (by omega) (by omega)
      · intro hk k h1 h2
        exact hk k (by omega) (by omega)
    · rw [if_pos (by simpa using h)]
      constructor
      · intro hf
        cases hf
      · intro hk
        exact absurd (hk j (Nat.le_refl _) (by omega)) h

theorem occursAt_iff (toupper : Char → Char) (haystack needle : List Char) (i : Nat)
    (hi : i + needle.length ≤ haystack.length) :
    occursAt toupper haystack needle i ↔
      ∀ k, k < needle.length →
        toupper (cChar haystack (i + k)) = toupper (cChar needle k) := by
  unfold occursAt cChar
  constructor
  · rintro ⟨_, h⟩ k hk
    have h1 := congrArg (fun l => l[k]?) h
    simp only [List.getElem?_map, List.getElem?_take, hk, if_true, List.getElem?_drop] at h1
    rw [List.getElem?_eq_getElem (by omega), List.getElem?_eq_getElem hk] at h1
    simp only [Option.map_some', Option.some.injEq] at h1
    rw [List.getD_eq_getElem _ _ (by omega), List.getD_eq_getElem _ _ hk]
    exact h1
  · intro h
    refine ⟨hi, ?_⟩
    apply List.ext_getElem
    · simp only [List.length_map, List.length_take, List.length_drop]
      omega
    · intro k h1 h2
      simp only [List.length_map] at h2
      have := h k h2
      rw [List.getD_eq_getElem _ _ (by omega), List.getD_eq_getElem _ _ h2] at this
      simp only [List.getElem_map, List.getElem_take, List.getElem_drop]
      exact this

theorem StringLocateSubstring_search_some (toupper : Char → Char) (haystack needle : List Char)
    (n count i r : Nat) :
    StringLocateSubstring.search toupper haystack needle n count i = some r ↔
      (i ≤ r ∧ r < i + count ∧
        StringLocateSubstring.compare toupper haystack needle r n 0 = true ∧
        ∀ k, i ≤ k → k < r →
          StringLocateSubstring.compare toupper haystack needle k n 0 = false) := by
  induction count generalizing i with
  | zero =>
    simp only [StringLocateSubstring.search]
    constructor
    · intro h; cases h
    · rintro ⟨h1, h2, _⟩; omega
  | succ c ih =>
    unfold StringLocateSubstring.search
    by_cases h : StringLocateSubstring.compare toupper haystack needle i n 0 = true
    · rw [if_pos h]
      constructor
      · intro e
        have e1 : i = r := by simpa using e
        subst e1
        exact ⟨Nat.le_refl _, by omega, h, fun k h1 h2 => by omega⟩
      · rintro ⟨h1, h2, h3, h4⟩
        by_cases e : i = r
        · rw [e]
        · have := h4 i (Nat.le_refl _) (by omega)
          rw [h] at this
          cases this
    · rw [if_neg h, ih]
      have hf : StringLocateSubstring.compare toupper haystack needle i n 0 = false := by
        simpa using h
      constructor
      · rintro ⟨h1, h2, h3, h4⟩
        refine ⟨by omega, by omega, h3, ?_⟩
        intro k hk1 hk2
        by_cases e : k = i
        · rw [e]; exact hf
        · exact h4 k (by omega) hk2
      · rintro ⟨h1, h2, h3, h4⟩
        have hne : i ≠ r := by
          intro e
          rw [e] at hf
          rw [hf] at h3
          cases h3
        exact ⟨by omega, by omega, h3, fun k hk1 hk2 => h4 k (by omega) hk2⟩

theorem StringLocateSubstring_search_none (toupper : Char → Char) (haystack needle : List Char)
    (n count i : Nat) :
    StringLocateSubstring.search toupper haystack needle n count i = none ↔
      ∀ k, i ≤ k → k < i + count →
        StringLocateSubstring.compare toupper haystack needle k n 0 = false := by
  induction count generalizing i with
  | zero =>
    simp only [StringLocateSubstring.search, true_iff]
    intro k h1 h2
    omega
  | succ c ih =>
    unfold StringLocateSubstring.search
    by_cases h : StringLocateSubstring.compare toupper haystack needle i n 0 = true
    · rw [if_pos h]
      constructor
      · intro e; cases e
      · intro hk
        have := hk i (Nat.le_refl _) (by omega)
        rw [h] at this
        cases this
    · rw [if_neg h, ih]
      have hf : StringLocateSubstring.compare toupper haystack needle i n 0 = false := by
        simpa using h
      constructor
      · intro hk k h1 h2
        by_cases e : k = i
        · rw [e]; exact hf
        · exact hk k (by omega) (by omega)
      · intro hk k h1 h2
        exact hk k (by omega) (by omega)

theorem StringLocateSubstring_unfold (toupper : Char → Char) (haystack needle : List Char)
    (hle : needle.length ≤ haystack.length) (hfit : haystack.length + 1 < SIZE_MOD) :
    StringLocateSubstring toupper (some haystack) (some needle) =
      StringLocateSubstring.search toupper haystack needle needle.length
        (haystack.length - needle.length + 1) 0 := by
  unfold StringLocateSubstring
  simp only
  have h1 : needle.length % SIZE_MOD = needle.length := Nat.mod_eq_of_lt (by omega)
  have h2 : haystack.length % SIZE_MOD = haystack.length := Nat.mod_eq_of_lt (by omega)
  rw [h1, h2]
  congr 1
  have e : haystack.length + SIZE_MOD - needle.length + 1 =
      (haystack.length - needle.length + 1) + SIZE_MOD := by omega
  rw [e, Nat.add_mod_right, Nat.mod_eq_of_lt (by omega)]

theorem StringLocateSubstring_compare_occurs (toupper : Char → Char)
    (haystack needle : List Char) (i : Nat) (hi : i + needle.length ≤ haystack.length) :
    StringLocateSubstring.compare toupper haystack needle i needle.length 0 = true ↔
      occursAt toupper haystack needle i := by
  rw [StringLocateSubstring_compare_iff, occursAt_iff toupper haystack needle i hi]
  constructor
  · intro h k hk
    exact h k (Nat.zero_le _) (by omega)
  · intro h k _ hk
    exact h k (by omega)

/-- C40: for every haystack and needle with the needle no longer than the
haystack (the haystack with its terminating NUL fitting the address space),
the fallback `StringLocateSubstring` returns offset `i` exactly when the
needle occurs at `i` with letter case disregarded and at no smaller offset, and
returns NULL exactly when it occurs nowhere; an empty needle is found at
offset 0. -/
theorem StringLocateSubstring_first (toupper : Char → Char) (haystack needle : List Char)
    (hle : needle.length ≤ haystack.length) (hfit : haystack.length + 1 < SIZE_MOD) :
    (∀ i, StringLocateSubstring toupper (some haystack) (some needle) = some i ↔
      (occursAt toupper haystack needle i ∧
        ∀ k, k < i → ¬ occursAt toupper haystack needle k)) ∧
    (StringLocateSubstring toupper (some haystack) (some needle) = none ↔
      ∀ i, ¬ occursAt toupper haystack needle i) ∧
    (needle = [] → StringLocateSubstring toupper (some haystack) (some needle) = some 0) := by
  rw [StringLocateSubstring_unfold toupper haystack needle hle hfit]
  have key : ∀ i, i + needle.length ≤ haystack.length →
      (StringLocateSubstring.compare toupper haystack needle i needle.length 0 = true ↔
        occursAt toupper haystack needle i) :=
    fun i hi => StringLocateSubstring_compare_occurs toupper haystack needle i hi
  have keyf : ∀ i, i + needle.length ≤ haystack.length →
      (StringLocateSubstring.compare toupper haystack needle i needle.length 0 = false ↔
        ¬ occursAt toupper haystack needle i) := by
    intro i hi
    rw [← key i hi]
    simp
  refine ⟨?_, ?_, ?_⟩
  · intro i
    rw [StringLocateSubstring_search_some]
    constructor
    · rintro ⟨_, h2, h3, h4⟩
      refine ⟨(key i (by omega)).1 h3, ?_⟩
      intro k hk
      exact (keyf k (by omega)).1 (h4 k (Nat.zero_le _) hk)
    · rintro ⟨h1, h2⟩
      have hb := h1.1
      refine ⟨Nat.zero_le _, by omega, (key i hb).2 h1, ?_⟩
      intro k _ hk
      exact (keyf k (by omega)).2 (h2 k hk)
  · rw [StringLocateSubstring_search_none]
    constructor
    · intro h i ho
      have hb := ho.1
      have := h i (Nat.zero_le _) (by omega)
      exact (keyf i hb).1 this ho
    · intro h k _ hk
      exact (keyf k (by omega)).2 (h k)
  · intro hn
    subst hn
    rw [StringLocateSubstring_search_some]
    refine ⟨Nat.le_refl _, by omega, rfl, ?_⟩
    intro k _ hk
    omega

theorem StringLocateSubstring_first_witness :
    "WORLD".data.length ≤ "Hello World".data.length ∧
    StringLocateSubstring Char.toUpper (some "Hello World".data) (some "WORLD".data) = some 6 ∧
    occursAt Char.toUpper "Hello World".data "WORLD".data 6 :=
  ⟨by decide,
   by decide,
   (((StringLocateSubstring_first Char.toUpper "Hello World".data "WORLD".data
      (by decide) (by decide)).1 6).1 (by decide)).1⟩

/-! ### The deciding policy of `IsRightsAuthorized` -/

theorem IsRightsAuthorized_grant_grant (env : PolicyEnv) (rights g1 g2 : Nat) (a : Bool) :
    IsRightsAuthorized.grant env rights g2 (IsRightsAuthorized.grant env rights g1 a) =
      IsRightsAuthorized.grant env rights g2 a := by
  simp only [IsRightsAuthorized.grant]
  split_ifs <;> rfl

theorem IsRightsAuthorized_step_eq (env : PolicyEnv) (domain rights : Nat)
    (pattern : Option String) (a : Bool) (p : PolicyInfo) :
    IsRightsAuthorized.step env domain rights pattern a p =
      if p.domain = domain ∧ env.GlobExpression pattern p.pattern false ≠ false then
        IsRightsAuthorized.grant env rights p.rights a
      else a := rfl

theorem IsRightsAuthorized_foldl (env : PolicyEnv) (domain rights : Nat)
    (pattern : Option String) (cache : List PolicyInfo) (a : Bool) :
    cache.foldl (IsRightsAuthorized.step env domain rights pattern) a =
      ((IsRightsAuthorized.deciding env domain pattern cache).map
        (fun p => IsRightsAuthorized.grant env rights p.rights a)).getD a := by
  induction cache generalizing a with
  | nil => rfl
  | cons p rest ih =>
    rw [List.foldl_cons, ih, IsRightsAuthorized_step_eq]
    unfold IsRightsAuthorized.deciding at *
    by_cases hm : p.domain = domain ∧ env.GlobExpression pattern p.pattern false ≠ false
    · rw [if_pos hm, List.filter_cons_of_pos (by simpa using hm)]
      cases hr : List.filter (fun p => decide (p.domain = domain ∧
          env.GlobExpression pattern p.pattern false ≠ false)) rest with
      | nil => simp
      | cons q qs =>
        rw [List.getLast?_cons_cons]
        cases hl : (q :: qs).getLast? with
        | none => simp at hl
        | some l =>
          simp only [Option.map_some', Option.getD_some]
          exact IsRightsAuthorized_grant_grant env rights p.rights l.rights a
    · rw [if_neg hm, List.filter_cons_of_neg (by simpa using hm)]

theorem IsRightsAuthorized_instantiated (env : PolicyEnv) (fuel : Nat) (domain rights : Nat)
    (pattern : Option String) (cache : List PolicyInfo) (exception : List ExceptionInfo)
    (hstar : env.LocaleCompare (some "*") (some "*") = 0) :
    IsRightsAuthorized env fuel domain rights pattern ⟨some cache, exception⟩ =
      some (cache.foldl (IsRightsAuthorized.step env domain rights pattern) true,
        ⟨some cache, exception⟩) := by
  unfold IsRightsAuthorized GetPolicyInfo IsPolicyCacheInstantiated
  simp only [hstar, or_true, if_true]
  cases cache with
  | nil => rfl
  | cons p rest => rfl

/-- C35: on an instantiated policy list (with `LocaleCompare` finding `*`
equal to itself), `IsRightsAuthorized` returns MagickTrue whenever no policy
of the list matches both the requested domain and the pattern; otherwise its
answer is `IsRightsAuthorized.grant` applied to the requested mask and the
rights of the last matching policy in list order, so that it depends on
nothing else of the list; the list is left as it was. -/
theorem IsRightsAuthorized_last_match (env : PolicyEnv) (fuel : Nat) (domain rights : Nat)
    (pattern : Option String) (cache : List PolicyInfo) (exception : List ExceptionInfo)
    (hstar : env.LocaleCompare (some "*") (some "*") = 0) :
    (IsRightsAuthorized.deciding env domain pattern cache = none →
      IsRightsAuthorized env fuel domain rights pattern ⟨some cache, exception⟩ =
        some (true, ⟨some cache, exception⟩)) ∧
    (∀ p, IsRightsAuthorized.deciding env domain pattern cache = some p →
      IsRightsAuthorized env fuel domain rights pattern ⟨some cache, exception⟩ =
        some (IsRightsAuthorized.grant env rights p.rights true, ⟨some cache, exception⟩)) ∧
    (∀ (cache2 : List PolicyInfo) (exception2 : List ExceptionInfo) (p p2 : PolicyInfo),
      IsRightsAuthorized.deciding env domain pattern cache = some p →
      IsRightsAuthorized.deciding env domain pattern cache2 = some p2 →
      p.rights = p2.rights →
      (IsRightsAuthorized env fuel domain rights pattern ⟨some cache, exception⟩).map Prod.fst =
        (IsRightsAuthorized env fuel domain rights pattern ⟨some cache2, exception2⟩).map
          Prod.fst) := by
  refine ⟨?_, ?_, ?_⟩
  · intro h
    rw [IsRightsAuthorized_instantiated env fuel domain rights pattern cache exception hstar,
      IsRightsAuthorized_foldl, h]
    rfl
  · intro p h
    rw [IsRightsAuthorized_instantiated env fuel domain rights pattern cache exception hstar,
      IsRightsAuthorized_foldl, h]
    rfl
  · intro cache2 exception2 p p2 h h2 hr
    rw [IsRightsAuthorized_instantiated env fuel domain rights pattern cache exception hstar,
      IsRightsAuthorized_instantiated env fuel domain rights pattern cache2 exception2 hstar,
      IsRightsAuthorized_foldl, IsRightsAuthorized_foldl, h, h2]
    simp only [Option.map_some', Option.getD_some, hr]

set_option maxRecDepth 100000 in
theorem IsRightsAuthorized_last_match_witness :
    policyEnv.LocaleCompare (some "*") (some "*") = 0 ∧
    IsRightsAuthorized.deciding policyEnv 1 (some "PNG") [allowPngPolicy, lockdownPolicy] =
      some lockdownPolicy ∧
    IsRightsAuthorized policyEnv 0 1 1 (some "PNG") ⟨some [allowPngPolicy, lockdownPolicy], []⟩ =
      some (IsRightsAuthorized.grant policyEnv 1 lockdownPolicy.rights true,
        ⟨some [allowPngPolicy, lockdownPolicy], []⟩) :=
  ⟨by decide!, by decide!,
   (IsRightsAuthorized_last_match policyEnv 0 1 1 (some "PNG") [allowPngPolicy, lockdownPolicy] []
      (by decide!)).2.1 lockdownPolicy (by decide!)⟩

/-! ### A lookup by name and the answers that follow it -/

/-- C36 (the code at the failing input): on the list of a policy that grants
the PNG coder the read and the write right, followed by a policy named
`lockdown` that grants no right to any coder, `IsRightsAuthorized` refuses the
read right for PNG; `GetPolicyValue` asked for `lockdown` moves that policy to
the front of the list; after it `IsRightsAuthorized`, asked the same question,
grants the right. -/
theorem GetPolicyValue_changes_answer :
    IsRightsAuthorized policyEnv 0 1 policyEnv.ReadPolicyRights (some "PNG")
        ⟨some [allowPngPolicy, lockdownPolicy], []⟩ =
      some (false, ⟨some [allowPngPolicy, lockdownPolicy], []⟩) ∧
    GetPolicyValue policyEnv 0 "lockdown" ⟨some [allowPngPolicy, lockdownPolicy], []⟩ =
      some (none, ⟨some [lockdownPolicy, allowPngPolicy], []⟩) ∧
    GetPolicyInfo policyEnv 0 (some "lockdown") ⟨some [allowPngPolicy, lockdownPolicy], []⟩ =
      some (some lockdownPolicy, ⟨some [lockdownPolicy, allowPngPolicy], []⟩) ∧
    IsRightsAuthorized policyEnv 0 1 policyEnv.ReadPolicyRights (some "PNG")
        ⟨some [lockdownPolicy, allowPngPolicy], []⟩ =
      some (true, ⟨some [lockdownPolicy, allowPngPolicy], []⟩) := by
  decide!

/-! ### The sample order of the BGR layout -/

/-- C37 (the code at the failing input): for a row of one opaque red pixel,
at depth 8 BGR export writes 00 00 FF, the bytes RGB export writes for the
row with red and blue exchanged; at depth 10 with the pack flag off BGR
export writes FF C0 00 00, red first, which are the bytes RGB export writes
for the row itself, while RGB export of the exchanged row writes 00 00 0F FC;
and at depth 2, in the default branch, BGR export writes the byte 0xC0 as RGB
export of the row itself does, RGB export of the exchanged row writing
0x0C. -/
theorem ExportBGRQuantum_sample_order :
    redPixel.map exchangeRedBlue = [⟨0, 0, 255, 0⟩] ∧
    bufferPrefix (ExportBGRQuantum 8 zeroCodec 1 redPixel
      (freshExport (quantumInfoOf 8 false))).pixels 3 = [0x00, 0x00, 0xFF] ∧
    bufferPrefix (ExportRGBQuantum 8 zeroCodec 1 (redPixel.map exchangeRedBlue)
      (freshExport (quantumInfoOf 8 false))).pixels 3 = [0x00, 0x00, 0xFF] ∧
    bufferPrefix (ExportBGRQuantum 8 zeroCodec 1 redPixel
      (freshExport (quantumInfoOf 10 false))).pixels 4 = [0xFF, 0xC0, 0x00, 0x00] ∧
    bufferPrefix (ExportRGBQuantum 8 zeroCodec 1 redPixel
      (freshExport (quantumInfoOf 10 false))).pixels 4 = [0xFF, 0xC0, 0x00, 0x00] ∧
    bufferPrefix (ExportRGBQuantum 8 zeroCodec 1 (redPixel.map exchangeRedBlue)
      (freshExport (quantumInfoOf 10 false))).pixels 4 = [0x00, 0x00, 0x0F, 0xFC] ∧
    bufferPrefix (ExportBGRQuantum 8 zeroCodec 1 redPixel
      (freshExport (quantumInfoOf 2 true))).pixels 1 = [0xC0] ∧
    bufferPrefix (ExportRGBQuantum 8 zeroCodec 1 redPixel
      (freshExport (quantumInfoOf 2 true))).pixels 1 = [0xC0] ∧
    bufferPrefix (ExportRGBQuantum 8 zeroCodec 1 (redPixel.map exchangeRedBlue)
      (freshExport (quantumInfoOf 2 true))).pixels 1 = [0x0C] := by
  decide!

/-! ### The alpha nibble of the depth-4 layouts -/

/-- C38 (the code at the failing input): at depth 4, GrayAlpha export of an
opaque white pixel writes the byte 0xF0 and IndexAlpha export of an opaque
pixel of index 1 writes 0x10: the low nibble, where alpha belongs, is 0, as
it is for a fully transparent pixel, while a pixel of opacity 8 out of 255
gets the nibble 15. -/
theorem ExportGrayAlphaQuantum_depth4_opaque :
    bufferPrefix (ExportQuantumPixels 8 zeroCodec plainRoutines (directImage 1 1 true whitePixel)
      (viewOf whitePixel) none (quantumInfoOf 4 true) QuantumType.GrayAlphaQuantum
      (fun _ => 0xEE)).final.pixels 1 = [0xF0] ∧
    bufferPrefix (ExportQuantumPixels 8 zeroCodec plainRoutines
      (paletteImage 1 1 ColorspaceType.sRGBColorspace blackWhiteMap [1])
      ⟨whitePixel, [1]⟩ none (quantumInfoOf 4 true) QuantumType.IndexAlphaQuantum
      (fun _ => 0xEE)).final.pixels 1 = [0x10] ∧
    GetPixelAlpha 8 (pixelOf whitePixel 0) = QuantumRange 8 ∧
    alphaNibble 8 ⟨255, 255, 255, 0⟩ = 0 ∧
    alphaNibble 8 ⟨255, 255, 255, 8⟩ = 15 ∧
    alphaNibble 8 ⟨255, 255, 255, 255⟩ = 0 ∧
    bufferPrefix (ExportQuantumPixels 8 zeroCodec plainRoutines
      (directImage 1 1 true [⟨255, 255, 255, 8⟩])
      (viewOf [⟨255, 255, 255, 8⟩]) none (quantumInfoOf 4 true) QuantumType.GrayAlphaQuantum
      (fun _ => 0xEE)).final.pixels 1 = [0xFF] ∧
    bufferPrefix (ExportQuantumPixels 8 zeroCodec plainRoutines
      (paletteImage 1 1 ColorspaceType.sRGBColorspace blackWhiteMap [1])
      ⟨[⟨255, 255, 255, 8⟩], [1]⟩ none (quantumInfoOf 4 true) QuantumType.IndexAlphaQuantum
      (fun _ => 0xEE)).final.pixels 1 = [0x1F] ∧
    bufferPrefix (ExportQuantumPixels 8 zeroCodec plainRoutines
      (paletteImage 1 1 ColorspaceType.sRGBColorspace blackWhiteMap [1])
      ⟨[⟨255, 255, 255, 255⟩], [1]⟩ none (quantumInfoOf 4 true) QuantumType.IndexAlphaQuantum
      (fun _ => 0xEE)).final.pixels 1 = [0x10] := by
  decide!

/-! ### The bit counter of the generic bit packer -/

theorem packedTo_counter (q0 L : Nat) (s : Export) (h : packedTo q0 L s) :
    1 ≤ s.quantum_info.state.bits ∧ s.quantum_info.state.bits ≤ 8 ∧
    (s.quantum_info.state.bits < 8 → s.pixels s.q % 2 ^ s.quantum_info.state.bits = 0) := by
  obtain ⟨hq, hb, hz⟩ := h
  have hr : L % 8 < 8 := Nat.mod_lt _ (by norm_num)
  refine ⟨by omega, by omega, ?_⟩
  intro hlt
  apply Nat.eq_of_testBit_eq
  intro k
  rw [Nat.testBit_mod_two_pow, Nat.zero_testBit]
  by_cases hk : k < s.quantum_info.state.bits
  · have hj := hz (L + (s.quantum_info.state.bits - 1 - k)) (by omega) (by omega)
    unfold streamBit at hj
    have e1 : (L + (s.quantum_info.state.bits - 1 - k)) / 8 = L / 8 := by omega
    have e2 : 7 - (L + (s.quantum_info.state.bits - 1 - k)) % 8 = k := by omega
    rw [e1, e2, ← hq] at hj
    simp [hj]
  · simp [hk]

/-- C39 (amended): after one or more `PopQuantumPixel` pushes of depth 1..32
that start from a freshly reset state (bit counter 0), the bit counter of the
state is between 1 and 8, and whenever it is below 8 the low (counter) bits
of the byte at the write cursor are zero. -/
theorem PopQuantumPixel_counter (d : Nat) (values : List Nat) (s : Export) (hd1 : 1 ≤ d)
    (_hd32 : d ≤ 32) (hdepth : s.quantum_info.depth = d)
    (hfresh : s.quantum_info.state.bits = 0) (hpush : values ≠ []) :
    1 ≤ (values.foldl (fun st v => PopQuantumPixel v st) s).quantum_info.state.bits ∧
    (values.foldl (fun st v => PopQuantumPixel v st) s).quantum_info.state.bits ≤ 8 ∧
    ((values.foldl (fun st v => PopQuantumPixel v st) s).quantum_info.state.bits < 8 →
      (values.foldl (fun st v => PopQuantumPixel v st) s).pixels
          (values.foldl (fun st v => PopQuantumPixel v st) s).q %
        2 ^ (values.foldl (fun st v => PopQuantumPixel v st) s).quantum_info.state.bits = 0) := by
  obtain ⟨_, _, _, r4, _⟩ := PopQuantumPixel_fold_spec s.q d (by omega) values 0 s hdepth
    (Or.inr ⟨rfl, rfl, hfresh⟩)
  exact packedTo_counter s.q _ _ (r4 hpush)

theorem PopQuantumPixel_counter_witness :
    ([5, 2, 7].foldl (fun st v => PopQuantumPixel v st)
      (freshExport (quantumInfoOf 3 true))).quantum_info.state.bits = 7 ∧
    (([5, 2, 7].foldl (fun st v => PopQuantumPixel v st)
      (freshExport (quantumInfoOf 3 true))).quantum_info.state.bits < 8 →
      ([5, 2, 7].foldl (fun st v => PopQuantumPixel v st)
        (freshExport (quantumInfoOf 3 true))).pixels
          ([5, 2, 7].foldl (fun st v => PopQuantumPixel v st)
            (freshExport (quantumInfoOf 3 true))).q %
        2 ^ ([5, 2, 7].foldl (fun st v => PopQuantumPixel v st)
          (freshExport (quantumInfoOf 3 true))).quantum_info.state.bits = 0) :=
  ⟨by decide,
   (PopQuantumPixel_counter 3 [5, 2, 7] (freshExport (quantumInfoOf 3 true)) (by decide)
      (by decide) rfl rfl (by decide)).2.2⟩

/-- C39 (counterexample): with no push yet, the freshly reset state has the
bit counter 0, which is not between 1 and 8; the first push of a 3-bit value
takes it to 5. -/
theorem PopQuantumPixel_counter_counterexample :
    (freshExport (quantumInfoOf 3 true)).quantum_info.state.bits = 0 ∧
    (([] : List Nat).foldl (fun st v => PopQuantumPixel v st)
      (freshExport (quantumInfoOf 3 true))).quantum_info.state.bits = 0 ∧
    ¬ (1 ≤ (([] : List Nat).foldl (fun st v => PopQuantumPixel v st)
      (freshExport (quantumInfoOf 3 true))).quantum_info.state.bits) ∧
    ([5].foldl (fun st v => PopQuantumPixel v st)
      (freshExport (quantumInfoOf 3 true))).quantum_info.state.bits = 5 := by
  decide

/-! ### The stored byte of a rescaled sample -/

/-- C33 (the code at the failing input): for the plane of the four 2-byte
samples 0, 1, 2 and 257 with no map (minimum 0, maximum 257), at 16-bit
canonical depth the scale factor is 255 and the decoder stores the bytes 0,
255, 254 and 255, the low bytes of 0, 255, 510 and 65535: the raw sample 2 is
stored below the raw sample 1.  At 8-bit canonical depth it stores 0, 0, 1
and 255. -/
theorem convertSamples_low_byte :
    (List.range 4).map (typedSample deepEnv SampleType.short shortPlane) = [0, 1, 2, 257] ∧
    (sampleHeader 4 1 1 VFF_TYP_2_BYTE 0).map_scheme = VFF_MS_NONE ∧
    scaleFactor deepEnv (sampleHeader 4 1 1 VFF_TYP_2_BYTE 0) shortPlane 4 = (0, 255) ∧
    convertSamples deepEnv (sampleHeader 4 1 1 VFF_TYP_2_BYTE 0) shortPlane 4
      = [0, 255, 254, 255] ∧
    convertSamples plainEnv (sampleHeader 4 1 1 VFF_TYP_2_BYTE 0) shortPlane 4
      = [0, 0, 1, 255] := by
  decide!

/-! ### The bitmap path of the decoder -/

theorem mask_ne_zero_iff (b k : Nat) : b &&& (1 <<< k) ≠ 0 ↔ b.testBit k = true := by
  rw [Nat.one_shiftLeft]
  constructor
  · intro h
    by_contra hb
    apply h
    apply Nat.eq_of_testBit_eq
    intro i
    rw [Nat.testBit_and, Nat.testBit_two_pow, Nat.zero_testBit]
    by_cases e : k = i
    · subst e
      simp [hb]
    · simp [e]
  · intro hb h
    have := congrArg (fun n => n.testBit k) h
    simp only [Nat.testBit_and, Nat.testBit_two_pow, hb, Nat.zero_testBit, decide_True,
      Bool.and_self] at this
    cases this

theorem bitmapIndex_testBit (p : List Nat) (columns y x : Nat) :
    bitmapIndex p columns y x =
      if (p.getD (y * ((columns + 7) / 8) + x / 8) 0).testBit (x % 8) then 0 else 1 := by
  unfold bitmapIndex
  by_cases h : (p.getD (y * ((columns + 7) / 8) + x / 8) 0).testBit (x % 8) = true
  · rw [if_pos ((mask_ne_zero_iff _ _).2 h), if_pos h]
  · rw [if_neg (fun hm => h ((mask_ne_zero_iff _ _).1 hm)), if_neg h]

theorem flatMap_range_length (f : Nat → Nat → Nat) (r c : Nat) :
    ((List.range r).flatMap (fun y => (List.range c).map (f y))).length = r * c := by
  induction r with
  | zero => simp
  | succ n ih =>
    rw [List.range_succ, List.flatMap_append, List.length_append, ih]
    simp [Nat.succ_mul]

theorem flatMap_range_getD (f : Nat → Nat → Nat) (r c y x : Nat) (hy : y < r) (hx : x < c) :
    ((List.range r).flatMap (fun y => (List.range c).map (f y))).getD (y * c + x) 0 = f y x := by
  induction r with
  | zero => omega
  | succ n ih =>
    rw [List.range_succ, List.flatMap_append]
    by_cases hn : y < n
    · have hlt : y * c + x < n * c := by
        have : (y + 1) * c ≤ n * c := Nat.mul_le_mul_right c (by omega)
        rw [Nat.succ_mul] at this
        omega
      rw [List.getD_append _ _ _ _ (by rw [flatMap_range_length]; exact hlt)]
      exact ih hn
    · have e : y = n := by omega
      subst e
      rw [List.getD_append_right _ _ _ _ (by rw [flatMap_range_length]; omega),
        flatMap_range_length]
      simp only [List.flatMap_cons, List.flatMap_nil, List.append_nil]
      have e2 : y * c + x - y * c = x := by omega
      rw [e2, List.getD_eq_getElem _ _ (by simpa using hx)]
      simp

theorem convertSamples_stored (env : Env) (v : ViffInfo) (raw : List Nat) (n i : Nat)
    (hbit : v.data_storage_type = VFF_TYP_BIT) (hmap : v.map_scheme ≠ VFF_MS_NONE)
    (hqd : 8 ≤ env.qd) (hi : i < n) (hb : raw.getD i 0 < 256) :
    (convertSamples env v raw n).getD i 0 = raw.getD i 0 := by
  unfold convertSamples
  rw [List.getD_eq_getElem _ _ (by simpa using hi)]
  simp only [List.getElem_map, List.getElem_range, if_neg hmap]
  have ht : dataSampleType v.data_storage_type = SampleType.uchar := by
    rw [hbit]; decide
  rw [ht]
  simp only [typedSample, castQuantumByte]
  exact castQuantumUChar_natCast env.qd _ hqd hb

/-- C31 (amended): in the decoder's 1-bit path, pixel x of row y of a
W-pixel-wide palette-backed image takes the index 0 when bit `x mod 8`,
least significant first, of byte `y*ceil(W/8) + floor(x/8)` of the converted
pixel plane is set, and the index 1 when it is clear; the converted plane is
what the sample conversion of lines 567-640 makes of the bytes read, and with
a stored map in the header (and a canonical depth of at least 8 bits) it
holds every byte as it was read. -/
theorem convertPixels_bitmap (env : Env) (image_info : ImageInfo) (v : ViffInfo) (image : Image)
    (max_packets : Nat) (raw : List Nat) (s3 : Reader)
    (hbit : v.data_storage_type = VFF_TYP_BIT)
    (hclass : image.storage_class = ClassType.PseudoClass) :
    ∃ image2, convertPixels env image_info v image max_packets raw s3 =
        finishSubImage image_info image2
          { s3 with log := s3.log ++ [Event.relinquish Buffer.pixels] } ∧
      image2.columns = image.columns ∧ image2.rows = image.rows ∧
      (∀ y x, y < image.rows → x < image.columns →
        image2.indexes.getD (y * image.columns + x) 0 =
          if ((convertSamples env v raw max_packets).getD
              (y * ((image.columns + 7) / 8) + x / 8) 0).testBit (x % 8) then 0
          else 1) ∧
      (v.map_scheme ≠ VFF_MS_NONE → 8 ≤ env.qd →
        ∀ i, i < max_packets → raw.getD i 0 < 256 →
          (convertSamples env v raw max_packets).getD i 0 = raw.getD i 0) := by
  have ht : dataSampleType v.data_storage_type = SampleType.uchar := by
    rw [hbit]; decide
  have ho : orderCorrect env v.machine_dependency (dataSampleType v.data_storage_type)
      (pixelCount v max_packets) raw = raw := by
    rw [ht]
    unfold orderCorrect
    split <;> rfl
  unfold convertPixels
  rw [ho]
  unfold toPixelPackets
  rw [if_pos hbit, if_neg (by rw [hclass]; simp)]
  refine ⟨_, rfl, rfl, rfl, ?_, ?_⟩
  · intro y x hy hx
    show ((List.range image.rows).flatMap (fun y => (List.range image.columns).map
      (fun x => bitmapIndex (convertSamples env v raw max_packets) image.columns y x))).getD
        (y * image.columns + x) 0 = _
    rw [flatMap_range_getD (fun y x => bitmapIndex (convertSamples env v raw max_packets)
      image.columns y x) _ _ y x hy hx]
    exact bitmapIndex_testBit _ _ _ _
  · intro hmap hqd i hi hb
    exact convertSamples_stored env v raw max_packets i hbit hmap hqd hi hb

set_option maxRecDepth 100000 in
set_option maxHeartbeats 4000000 in
theorem convertPixels_bitmap_witness :
    (sampleHeader 8 3 1 VFF_TYP_BIT 0).data_storage_type = VFF_TYP_BIT ∧
    (paletteImage 8 3 ColorspaceType.GRAYColorspace blackWhiteMap
      (List.replicate 24 0)).storage_class = ClassType.PseudoClass ∧
    ∃ image2, convertPixels plainEnv plainInfo (sampleHeader 8 3 1 VFF_TYP_BIT 0)
        (paletteImage 8 3 ColorspaceType.GRAYColorspace blackWhiteMap (List.replicate 24 0))
        3 [0x01, 0x00, 0xFF] ⟨OpenBlob [], []⟩ =
        finishSubImage plainInfo image2
          { (⟨OpenBlob [], []⟩ : Reader) with
            log := (⟨OpenBlob [], []⟩ : Reader).log ++ [Event.relinquish Buffer.pixels] } ∧
      image2.columns = (paletteImage 8 3 ColorspaceType.GRAYColorspace blackWhiteMap
        (List.replicate 24 0)).columns ∧
      image2.rows = (paletteImage 8 3 ColorspaceType.GRAYColorspace blackWhiteMap
        (List.replicate 24 0)).rows ∧
      (∀ y x, y < (paletteImage 8 3 ColorspaceType.GRAYColorspace blackWhiteMap
          (List.replicate 24 0)).rows →
        x < (paletteImage 8 3 ColorspaceType.GRAYColorspace blackWhiteMap
          (List.replicate 24 0)).columns →
        image2.indexes.getD (y * (paletteImage 8 3 ColorspaceType.GRAYColorspace blackWhiteMap
          (List.replicate 24 0)).columns + x) 0 =
          if ((convertSamples plainEnv (sampleHeader 8 3 1 VFF_TYP_BIT 0) [0x01, 0x00, 0xFF]
              3).getD
              (y * (((paletteImage 8 3 ColorspaceType.GRAYColorspace blackWhiteMap
                (List.replicate 24 0)).columns + 7) / 8) + x / 8) 0).testBit (x % 8) then 0
          else 1) ∧
      ((sampleHeader 8 3 1 VFF_TYP_BIT 0).map_scheme ≠ VFF_MS_NONE → 8 ≤ plainEnv.qd →
        ∀ i, i < 3 → [0x01, 0x00, 0xFF].getD i 0 < 256 →
          (convertSamples plainEnv (sampleHeader 8 3 1 VFF_TYP_BIT 0) [0x01, 0x00, 0xFF]
            3).getD i 0 = [0x01, 0x00, 0xFF].getD i 0) :=
  ⟨rfl, rfl,
   convertPixels_bitmap plainEnv plainInfo (sampleHeader 8 3 1 VFF_TYP_BIT 0)
     (paletteImage 8 3 ColorspaceType.GRAYColorspace blackWhiteMap (List.replicate 24 0))
     3 [0x01, 0x00, 0xFF] ⟨OpenBlob [], []⟩ rfl rfl⟩

/-- C31 (counterexample): the 8x3 bitmap with the plane 01 00 FF decodes to
the indexes 0 1 1 1 1 1 1 1 in its first row: the set bit 0 of the first byte
gives pixel 0, not pixel 7, the index 0.  The 8x1 bitmap with the plane 01
decodes to the index 0 in all eight pixels, since the sample conversion turns
the one byte 01 into FF before the bits are taken. -/
theorem convertPixels_bitmap_counterexample :
    (ReadVIFFImage plainEnv plainInfo (bitmapStream 8 3 [0x01, 0x00, 0xFF])).exception = none ∧
    (ReadVIFFImage plainEnv plainInfo (bitmapStream 8 3 [0x01, 0x00, 0xFF])).images.map
        (fun i => (i.columns, i.rows, i.indexes)) =
      [(8, 3, [0, 1, 1, 1, 1, 1, 1, 1, 1, 1, 1, 1, 1, 1, 1, 1, 0, 0, 0, 0, 0, 0, 0, 0])] ∧
    Nat.testBit 0x01 (7 - 0 % 8) = false ∧ Nat.testBit 0x01 (7 - 7 % 8) = true ∧
    Nat.testBit 0x00 (7 - 0 % 8) = false ∧
    (ReadVIFFImage plainEnv plainInfo (bitmapStream 8 1 [0x01])).exception = none ∧
    (ReadVIFFImage plainEnv plainInfo (bitmapStream 8 1 [0x01])).images.map
        (fun i => (i.columns, i.rows, i.indexes)) =
      [(8, 1, [0, 0, 0, 0, 0, 0, 0, 0])] ∧
    convertSamples plainEnv (sampleHeader 8 1 1 VFF_TYP_BIT 0) [0x01] 1 = [0xFF] := by
  decide!

/-! ### The monochrome round trip -/

/-- C32 (the code at the failing input): for the 2x1 black-and-white palette
image whose first pixel is white and whose second is black, `WriteVIFFImage`
writes the one plane byte 00, both bits taken from the first pixel of the
row, and `ReadVIFFImage` decodes two pixels of index 1, both white.  For the
9x1 image of black pixels it writes the plane FF 01, and `ReadVIFFImage`,
which rescales the plane to FF 00 before it takes the bits, decodes the ninth
pixel with index 1, white, and the first eight with index 0, black. -/
theorem WriteVIFFImage_ReadVIFFImage_mono :
    whiteBlackImage.storage_class = ClassType.PseudoClass ∧ whiteBlackImage.colors = 2 ∧
    grayEnv.SetImageGray whiteBlackImage = true ∧ grayEnv.qd = 8 ∧
    whiteBlackImage.pixels.map (fun p => decide (grayEnv.GetPixelLuma whiteBlackImage p <
      (QuantumRange grayEnv.qd : ℚ) / 2)) = [false, true] ∧
    (WriteVIFFImage grayEnv plainInfo [whiteBlackImage]).status = true ∧
    (WriteVIFFImage grayEnv plainInfo [whiteBlackImage]).data.drop 1024 = [0x00] ∧
    (ReadVIFFImage grayEnv plainInfo
      (WriteVIFFImage grayEnv plainInfo [whiteBlackImage]).data).exception = none ∧
    (ReadVIFFImage grayEnv plainInfo
      (WriteVIFFImage grayEnv plainInfo [whiteBlackImage]).data).images.map
        (fun i => (i.columns, i.rows, i.indexes, i.pixels)) =
      [(2, 1, [1, 1], [⟨255, 255, 255, 0⟩, ⟨255, 255, 255, 0⟩])] ∧
    blackRowImage.storage_class = ClassType.PseudoClass ∧ blackRowImage.colors = 2 ∧
    blackRowImage.pixels = List.replicate 9 ⟨0, 0, 0, 0⟩ ∧
    (WriteVIFFImage grayEnv plainInfo [blackRowImage]).data.drop 1024 = [0xFF, 0x01] ∧
    convertSamples grayEnv (parsedHeader (afterMagic
      (WriteVIFFImage grayEnv plainInfo [blackRowImage]).data)) [0xFF, 0x01] 2 = [0xFF, 0x00] ∧
    (ReadVIFFImage grayEnv plainInfo
      (WriteVIFFImage grayEnv plainInfo [blackRowImage]).data).exception = none ∧
    (ReadVIFFImage grayEnv plainInfo
      (WriteVIFFImage grayEnv plainInfo [blackRowImage]).data).images.map
        (fun i => (i.columns, i.rows, i.indexes, i.pixels.map (fun p => p.red))) =
      [(9, 1, [0, 0, 0, 0, 0, 0, 0, 0, 1], [0, 0, 0, 0, 0, 0, 0, 0, 255])] := by
  decide!

/-! ### The planes of the DirectColor path -/

theorem sizeChecks_ok (env : Env) (image_info : ImageInfo) (v : ViffInfo) (image : Image)
    (b : Blob) (image1 : Image) (h : sizeChecks env image_info v image b = Sized.ok image1) :
    image1 = extentImage env image_info v image := by
  unfold sizeChecks at h
  simp only at h
  by_cases h1 : (v.columns * v.rows) % SIZE_MOD ≠ (v.columns * v.rows) % SIZE_MOD % SIZE_MOD
  · rw [if_pos h1] at h; cases h
  rw [if_neg h1] at h
  by_cases h2 : (v.columns * v.rows) % SIZE_MOD > (8 * GetBlobSize b) % SIZE_MOD
  · rw [if_pos h2] at h; cases h
  rw [if_neg h2] at h
  by_cases h3 : (v.columns * v.rows) % SIZE_MOD = 0
  · rw [if_pos h3] at h; cases h
  rw [if_neg h3] at h
  cases he : env.SetImageExtent v.rows v.columns with
  | some e => rw [he] at h; cases h
  | none =>
    rw [he] at h
    cases h
    rfl

theorem fillStoredMap_class (env : Env) (v : ViffInfo) (image1 : Image) (s2 : Reader)
    (a : ViffInfo × Image) (s3 : Reader) (h : fillStoredMap env v image1 s2 = Res.ok a s3) :
    a.2.storage_class = image1.storage_class := by
  unfold fillStoredMap at h
  split_ifs at h with h1
  cases h
  rfl

theorem allocateStoredMap_class (env : Env) (v : ViffInfo) (image1 : Image) (s1 : Reader)
    (a : ViffInfo × Image) (s3 : Reader) (h : allocateStoredMap env v image1 s1 = Res.ok a s3) :
    a.2.storage_class = image1.storage_class := by
  unfold allocateStoredMap at h
  by_cases h1 : v.map_rows > mapQuantum v
  · rw [if_pos h1] at h; cases h
  rw [if_neg h1] at h
  by_cases h2 : v.map_rows > GetBlobSize s1.blob
  · rw [if_pos h2] at h; cases h
  rw [if_neg h2] at h
  by_cases h3 : env.AcquireQuantumMemory v.map_columns (mapQuantum v) = false
  · rw [if_pos h3] at h; cases h
  rw [if_neg h3] at h
  exact fillStoredMap_class env v image1 _ a s3 h

theorem storedColormap_class (env : Env) (v : ViffInfo) (image : Image) (s : Reader)
    (a : ViffInfo × Image) (s3 : Reader) (h : storedColormap env v image s = Res.ok a s3) :
    a.2.storage_class = ClassType.PseudoClass := by
  unfold storedColormap at h
  by_cases h1 : mapCount v > GetBlobSize s.blob
  · rw [if_pos h1] at h; cases h
  rw [if_neg h1] at h
  cases hc : AcquireImageColormap env image v.map_columns with
  | none => rw [hc] at h; cases h
  | some image1 =>
    rw [hc] at h
    obtain ⟨_, _, _, _, c5, _, _, _⟩ := AcquireImageColormap_some _ _ _ _ hc
    exact (allocateStoredMap_class env v image1 _ a s3 h).trans c5

theorem rampColormap_class (env : Env) (v : ViffInfo) (image : Image) (s : Reader)
    (a : ViffInfo × Image) (s3 : Reader) (h : rampColormap env v image s = Res.ok a s3) :
    a.2.storage_class = ClassType.PseudoClass := by
  unfold rampColormap at h
  cases hc : AcquireImageColormap env image (rampColors v image) with
  | none => rw [hc] at h; cases h
  | some image1 =>
    rw [hc] at h
    obtain ⟨_, _, _, _, c5, _, _, _⟩ := AcquireImageColormap_some _ _ _ _ hc
    cases h
    exact c5

theorem readColormap_direct (env : Env) (v : ViffInfo) (image : Image) (s : Reader)
    (a : ViffInfo × Image) (s3 : Reader) (h : readColormap env v image s = Res.ok a s3)
    (hclass : a.2.storage_class ≠ ClassType.PseudoClass) :
    (forcedScheme v).map_scheme = VFF_MS_NONE ∧ 3 ≤ (forcedScheme v).number_data_bands ∧
    a = (forcedScheme v, image) ∧ s3 = s := by
  unfold readColormap at h
  by_cases h1 : (forcedScheme v).map_scheme = VFF_MS_NONE
  · rw [if_pos h1] at h
    by_cases h2 : (forcedScheme v).number_data_bands < 3
    · rw [if_pos h2] at h
      exact absurd (rampColormap_class env _ image s a s3 h) hclass
    · rw [if_neg h2] at h
      cases h
      exact ⟨h1, by omega, rfl, rfl⟩
  · rw [if_neg h1] at h
    by_cases h2 : (forcedScheme v).map_scheme = VFF_MS_ONEPERBAND ∨
        (forcedScheme v).map_scheme = VFF_MS_SHARED
    · rw [if_pos h2] at h
      exact absurd (storedColormap_class env _ image s a s3 h) hclass
    · rw [if_neg h2] at h
      cases h

theorem forcedScheme_fields (v : ViffInfo) :
    (forcedScheme v).rows = v.rows ∧ (forcedScheme v).columns = v.columns ∧
    (forcedScheme v).number_data_bands = v.number_data_bands ∧
    (forcedScheme v).data_storage_type = v.data_storage_type ∧
    (forcedScheme v).machine_dependency = v.machine_dependency := by
  unfold forcedScheme
  split <;> exact ⟨rfl, rfl, rfl, rfl, rfl⟩

theorem convertSamples_length (env : Env) (v : ViffInfo) (pixels : List Nat) (n : Nat) :
    (convertSamples env v pixels n).length = n := by
  simp [convertSamples]

/-- C34: for a header with 32-bit size fields that passed the size checks and
the field validation, whose palette stage succeeded and left the image not
palette-backed, with a storage type other than bit (the DirectColor path), when
the overflow check lets the sample count `max_packets` through and the plane
is read completely into a granted buffer, the decoder goes on to the end of
the sub-image with an image W = `rows` field wide and H = `columns` field high
in which, with N = W*H and `plane` the converted samples, the band count is 3
or 4, `plane` holds `max_packets` = bands*N samples, and pixel (x,y) has red,
green and blue scaled from the samples at offsets y*W+x, N+y*W+x and 2N+y*W+x
and, with 4 bands, alpha from offset 3N+y*W+x (opaque with 3 bands), every one
of these offsets being below bands*N. -/
theorem decodeAfterHeader_planes (env : Env) (image_info : ImageInfo) (scene : Nat)
    (v : ViffInfo) (s1 : Reader) (image1 : Image) (v1 : ViffInfo) (image2 : Image)
    (s2 : Reader) (max_packets : Nat)
    (hr32 : v.rows < 2 ^ 32) (hc32 : v.columns < 2 ^ 32)
    (hsize : sizeChecks env image_info v (headerImage env scene v) s1.blob = Sized.ok image1)
    (hvalid : validateFields v = none)
    (hmap : readColormap env v image1 s1 = Res.ok (v1, image2) s2)
    (hnotbit : v1.data_storage_type ≠ VFF_TYP_BIT)
    (hdirect : image2.storage_class ≠ ClassType.PseudoClass)
    (hping : image_info.ping = false)
    (hpackets : maxPackets v1 image2 = some max_packets)
    (hfit : pixelCount v1 max_packets ≤ GetBlobSize s2.blob)
    (hmem : env.AcquireQuantumMemory (max ((v1.columns * v1.rows) % SIZE_MOD) max_packets)
      (dataSampleType v1.data_storage_type).bytes = true)
    (hread : pixelCount v1 max_packets ≤ s2.blob.rest.length) :
    ∃ image3 s4 plane,
      decodeAfterHeader env image_info scene v s1 = finishSubImage image_info image3 s4 ∧
      plane = convertSamples env v1
        (orderCorrect env v1.machine_dependency (dataSampleType v1.data_storage_type)
          (pixelCount v1 max_packets) (ReadBlob s2.blob (pixelCount v1 max_packets)).1)
        max_packets ∧
      (v.number_data_bands = 3 ∨ v.number_data_bands = 4) ∧
      max_packets = v.number_data_bands * (v.rows * v.columns) ∧
      plane.length = v.number_data_bands * (v.rows * v.columns) ∧
      image3.columns = v.rows ∧ image3.rows = v.columns ∧
      ∀ y x, y < v.columns → x < v.rows →
        image3.pixels.getD (y * v.rows + x) ⟨0, 0, 0, 0⟩ =
          { red := ScaleCharToQuantum env.qd (plane.getD (y * v.rows + x) 0)
            green := ScaleCharToQuantum env.qd
              (plane.getD (v.rows * v.columns + (y * v.rows + x)) 0)
            blue := ScaleCharToQuantum env.qd
              (plane.getD (2 * (v.rows * v.columns) + (y * v.rows + x)) 0)
            opacity :=
              if v.number_data_bands = 4 then
                QuantumRange env.qd - ScaleCharToQuantum env.qd
                  (plane.getD (3 * (v.rows * v.columns) + (y * v.rows + x)) 0)
              else OpaqueOpacity } ∧
        2 * (v.rows * v.columns) + (y * v.rows + x) < v.number_data_bands * (v.rows * v.columns) ∧
        (v.number_data_bands = 4 →
          3 * (v.rows * v.columns) + (y * v.rows + x) <
            v.number_data_bands * (v.rows * v.columns)) := by
  obtain ⟨_, hb3, ha, hs⟩ := readColormap_direct env v image1 s1 (v1, image2) s2 hmap hdirect
  have hv1 : v1 = forcedScheme v := congrArg Prod.fst ha
  have hi2 : image2 = image1 := congrArg Prod.snd ha
  subst hs
  subst hi2
  obtain ⟨f1, f2, f3, f4, f5⟩ := forcedScheme_fields v
  rw [← hv1] at f1 f2 f3 f4 f5 hb3
  have hext := sizeChecks_ok env image_info v _ _ image2 hsize
  have hcols : image2.columns = v.rows := by rw [hext]; rfl
  have hrows : image2.rows = v.columns := by rw [hext]; rfl
  have hmatte : image2.matte = decide (v.number_data_bands = 4) := by rw [hext]; rfl
  have hcolors : image2.colors = 0 := by rw [hext]; rfl
  have hb4 : v.number_data_bands ≤ 4 := by
    have := (validateFields_none_iff v).1 hvalid
    omega
  have hN : v.columns * v.rows < SIZE_MOD := by
    have : v.columns * v.rows < 2 ^ 32 * 2 ^ 32 :=
      Nat.mul_lt_mul'' hc32 hr32
    simp only [SIZE_MOD]
    omega
  have hmp : max_packets = v.number_data_bands * (v.rows * v.columns) ∧
      v.columns * v.rows * v.number_data_bands < SIZE_MOD := by
    simp only [maxPackets, if_neg hnotbit, f1, f2, f3, Nat.mod_eq_of_lt hN] at hpackets
    by_cases ho : HeapOverflowSanityCheck (v.columns * v.rows) v.number_data_bands = true
    · rw [if_pos ho] at hpackets
      cases hpackets
    · rw [if_neg ho] at hpackets
      simp only [HeapOverflowSanityCheck, decide_eq_true_eq, not_or, not_le] at ho
      rw [Nat.mod_eq_of_lt ho.2] at hpackets
      have e : v.columns * v.rows * v.number_data_bands = max_packets := by
        simpa using hpackets
      rw [← e]
      exact ⟨by ring, ho.2⟩
  obtain ⟨hmp1, _⟩ := hmp
  have hrd : (ReadBlob s2.blob (pixelCount v1 max_packets)).1.length =
      pixelCount v1 max_packets := by
    rw [ReadBlob_length]
    exact Nat.min_eq_left hread
  have hstep : decodeAfterHeader env image_info scene v s2 =
      finishSubImage image_info
        { image2 with
          pixels := (List.range (image2.rows * image2.columns)).map
            (directPixel env image2
              (convertSamples env v1
                (orderCorrect env v1.machine_dependency (dataSampleType v1.data_storage_type)
                  (pixelCount v1 max_packets) (ReadBlob s2.blob (pixelCount v1 max_packets)).1)
                max_packets)
              (image2.columns * image2.rows)) }
        { blob := (ReadBlob s2.blob (pixelCount v1 max_packets)).2
          log := (s2.log ++ [Event.acquire Buffer.pixels
            (max ((v1.columns * v1.rows) % SIZE_MOD) max_packets)
            (dataSampleType v1.data_storage_type).bytes]) ++
            [Event.relinquish Buffer.pixels] } := by
    rw [decodeAfterHeader_valid env image_info scene v s2 image2 hsize hvalid]
    unfold paletteAndPixels
    rw [hmap]
    simp only
    unfold readPixels
    rw [if_neg (by simp [hping])]
    unfold bilevelColormap
    rw [if_neg hnotbit]
    simp only
    unfold allocatePixels
    rw [hpackets]
    simp only
    rw [if_neg (by omega), if_neg (by simp [hmem])]
    unfold loadPixels
    simp only
    rw [if_neg (by simp [hrd])]
    unfold convertPixels
    unfold toPixelPackets
    rw [if_neg hnotbit, if_neg hdirect]
  refine ⟨_, _, _, hstep, rfl, by omega, hmp1, ?_, hcols, hrows, ?_⟩
  · rw [convertSamples_length, hmp1]
  · intro y x hy hx
    have hidx : y * v.rows + x < v.columns * v.rows := by
      have : (y + 1) * v.rows ≤ v.columns * v.rows := Nat.mul_le_mul_right _ (by omega)
      rw [Nat.succ_mul] at this
      omega
    have hcomm : v.rows * v.columns = v.columns * v.rows := Nat.mul_comm _ _
    refine ⟨?_, ?_, ?_⟩
    · show ((List.range (image2.rows * image2.columns)).map _).getD _ _ = _
      rw [hrows, hcols, List.getD_eq_getElem _ _ (by simpa using hidx)]
      simp only [List.getElem_map, List.getElem_range]
      unfold directPixel
      rw [if_neg (by simp [hcolors]), hmatte]
      have e1 : y * v.rows + x + v.rows * v.columns = v.rows * v.columns + (y * v.rows + x) :=
        Nat.add_comm _ _
      have e2 : y * v.rows + x + 2 * (v.rows * v.columns) =
          2 * (v.rows * v.columns) + (y * v.rows + x) := Nat.add_comm _ _
      have e3 : y * v.rows + x + v.rows * v.columns * 3 =
          3 * (v.rows * v.columns) + (y * v.rows + x) := by ring
      simp only [e1, e2, e3, decide_eq_true_eq]
    · rcases (show v.number_data_bands = 3 ∨ v.number_data_bands = 4 by omega) with h | h
      · rw [h, hcomm]; omega
      · rw [h, hcomm]; omega
    · intro h
      rw [h, hcomm]; omega

set_option maxRecDepth 100000 in
set_option maxHeartbeats 4000000 in
theorem decodeAfterHeader_planes_witness :
    validateFields (sampleHeader 2 1 3 1 0) = none ∧
    ∃ image3 s4 plane,
      decodeAfterHeader plainEnv plainInfo 0 (sampleHeader 2 1 3 1 0) redGreenReader =
        finishSubImage plainInfo image3 s4 ∧
      plane = convertSamples plainEnv (sampleHeader 2 1 3 1 0)
        (orderCorrect plainEnv (sampleHeader 2 1 3 1 0).machine_dependency
          (dataSampleType (sampleHeader 2 1 3 1 0).data_storage_type)
          (pixelCount (sampleHeader 2 1 3 1 0) 6)
          (ReadBlob redGreenReader.blob (pixelCount (sampleHeader 2 1 3 1 0) 6)).1) 6 ∧
      ((sampleHeader 2 1 3 1 0).number_data_bands = 3 ∨
        (sampleHeader 2 1 3 1 0).number_data_bands = 4) ∧
      6 = (sampleHeader 2 1 3 1 0).number_data_bands *
        ((sampleHeader 2 1 3 1 0).rows * (sampleHeader 2 1 3 1 0).columns) ∧
      plane.length = (sampleHeader 2 1 3 1 0).number_data_bands *
        ((sampleHeader 2 1 3 1 0).rows * (sampleHeader 2 1 3 1 0).columns) ∧
      image3.columns = (sampleHeader 2 1 3 1 0).rows ∧
      image3.rows = (sampleHeader 2 1 3 1 0).columns ∧
      ∀ y x, y < (sampleHeader 2 1 3 1 0).columns → x < (sampleHeader 2 1 3 1 0).rows →
        image3.pixels.getD (y * (sampleHeader 2 1 3 1 0).rows + x) ⟨0, 0, 0, 0⟩ =
          { red := ScaleCharToQuantum plainEnv.qd
              (plane.getD (y * (sampleHeader 2 1 3 1 0).rows + x) 0)
            green := ScaleCharToQuantum plainEnv.qd
              (plane.getD ((sampleHeader 2 1 3 1 0).rows * (sampleHeader 2 1 3 1 0).columns +
                (y * (sampleHeader 2 1 3 1 0).rows + x)) 0)
            blue := ScaleCharToQuantum plainEnv.qd
              (plane.getD (2 * ((sampleHeader 2 1 3 1 0).rows *
                (sampleHeader 2 1 3 1 0).columns) +
                (y * (sampleHeader 2 1 3 1 0).rows + x)) 0)
            opacity :=
              if (sampleHeader 2 1 3 1 0).number_data_bands = 4 then
                QuantumRange plainEnv.qd - ScaleCharToQuantum plainEnv.qd
                  (plane.getD (3 * ((sampleHeader 2 1 3 1 0).rows *
                    (sampleHeader 2 1 3 1 0).columns) +
                    (y * (sampleHeader 2 1 3 1 0).rows + x)) 0)
              else OpaqueOpacity } ∧
        2 * ((sampleHeader 2 1 3 1 0).rows * (sampleHeader 2 1 3 1 0).columns) +
            (y * (sampleHeader 2 1 3 1 0).rows + x) <
          (sampleHeader 2 1 3 1 0).number_data_bands *
            ((sampleHeader 2 1 3 1 0).rows * (sampleHeader 2 1 3 1 0).columns) ∧
        ((sampleHeader 2 1 3 1 0).number_data_bands = 4 →
          3 * ((sampleHeader 2 1 3 1 0).rows * (sampleHeader 2 1 3 1 0).columns) +
              (y * (sampleHeader 2 1 3 1 0).rows + x) <
            (sampleHeader 2 1 3 1 0).number_data_bands *
              ((sampleHeader 2 1 3 1 0).rows * (sampleHeader 2 1 3 1 0).columns)) :=
  ⟨by decide!,
   decodeAfterHeader_planes plainEnv plainInfo 0 (sampleHeader 2 1 3 1 0) redGreenReader
     (extentImage plainEnv plainInfo (sampleHeader 2 1 3 1 0)
       (headerImage plainEnv 0 (sampleHeader 2 1 3 1 0)))
     (sampleHeader 2 1 3 1 0)
     (extentImage plainEnv plainInfo (sampleHeader 2 1 3 1 0)
       (headerImage plainEnv 0 (sampleHeader 2 1 3 1 0)))
     redGreenReader 6
     (by decide!) (by decide!) (by decide!) (by decide!) (by decide!) (by decide!) (by decide!)
     (by decide!) (by decide!) (by decide!) (by decide!) (by decide!)⟩

end Magick
